import Mathlib

/-! # BerkeleyDb.Wrapper: transaction scope, retry loops, record operations and cursor

A shallow embedding of `DatabaseImpl.h`, `DatabaseImpl.cpp`, `CursorImpl.cpp`, `DbtHolder.h`,
`BdbExceptionFactory.cpp` and the callback `usercopy` of `EnvironmentImpl.cpp`.

* Native and managed exceptions are values of `Exn`; a function that can throw returns an
  `Except Exn _`.
* Every call into the storage engine (transaction begin / commit / abort, the record call behind
  the `BdbCall` function pointer, the environment's error log) appends an `Event` to a trace, in
  the order the calls happen, and so does every change of the `begun` flag of a transaction
  scope.  What the engine answers is given by oracles: the fields `txn_begin`, `txn_commit`,
  `txn_abort` of `DatabaseImpl` and the `BdbCall` argument.
* The engine calls of the read-modify-write `Put` are events named after the call and the flag
  the source passes; what the engine answers to them is the oracle `RmwEngine`.
* Managed arrays and strings are given by their `Length`, with `none` for `nullptr`.
* A member access through a managed handle that is `nullptr`, and `&array[0]` on a managed
  array that is `nullptr` or empty, throw the managed exception the runtime raises. A call
  through a native pointer that is `NULL` has no defined behaviour: the embedding records the
  call in the trace and ends with `Exn.undefinedBehaviour`.
* `int` values are `Int`; the sizes read with `get_size()` are the `int` the wrapper reads.
* The teardown of the cursor is a change of the fields of `CursorImpl`; the native `close` is an
  event of the trace.
* The callback `usercopy` works on the fields of the C struct `DBT` and a table of `GCHandle`s
  whose targets are byte arrays, given as lists of bytes.
-/

namespace BerkeleyDbWrapper

/-! ## Constants declared outside these sources -/

/-- The enumerators of `DbRetVal`, `CursorPosition` and `Lengths` and the `DB_DBT_*` flag bits of
the engine header. They are declared outside these sources, so the embedding takes them as a
parameter. The result codes are pairwise distinct (they are enumerators for distinct engine
codes, used as `case` labels), and the flags are disjoint bits of the flag word. -/
structure Constants where
  SUCCESS : Int
  NOTFOUND : Int
  KEYEMPTY : Int
  KEYEXIST : Int
  BUFFER_SMALL : Int
  LOCK_DEADLOCK : Int
  /-- Source: `DbRetVal::KEYNULL`, the code of the error for a null key -/
  KEYNULL : Int
  /-- Source: `DbRetVal::KEYZEROLENGTH`, the code of the error for a key of length 0 -/
  KEYZEROLENGTH : Int
  DB_DBT_MALLOC : Nat
  DB_DBT_PARTIAL : Nat
  DB_DBT_USERMEM : Nat
  DB_DBT_USERCOPY : Nat
  /-- Source: `DB_USERCOPY_SETDATA`, the flag with which the engine hands bytes to `usercopy` -/
  DB_USERCOPY_SETDATA : Nat
  /-- Source: `CursorPosition::Set` -/
  Set : Nat
  /-- Source: `CursorPosition::SetRange` -/
  SetRange : Nat
  /-- Source: `Lengths::NotFound` -/
  NotFound : Int
  /-- Source: `Lengths::Deleted` -/
  Deleted : Int
  /-- Source: `Lengths::KeyExists` -/
  KeyExists : Int
  Set_ne_SetRange : Set ≠ SetRange
  /-- the partial-transfer flag is a bit of its own in the flag word -/
  PARTIAL_ne_zero : DB_DBT_PARTIAL ≠ 0
  MALLOC_and_PARTIAL : DB_DBT_MALLOC &&& DB_DBT_PARTIAL = 0
  USERMEM_and_PARTIAL : DB_DBT_USERMEM &&& DB_DBT_PARTIAL = 0
  USERCOPY_and_PARTIAL : DB_DBT_USERCOPY &&& DB_DBT_PARTIAL = 0
  distinct : [SUCCESS, NOTFOUND, KEYEMPTY, KEYEXIST, BUFFER_SMALL, LOCK_DEADLOCK].Nodup

/-- The enum `DatabaseTransactionMode` as `BeginTrans` switches on it: `None`, `PerCall`, and any
value the switch does not recognise. -/
inductive DatabaseTransactionMode
  | None
  | PerCall
  | unrecognized
deriving DecidableEq, Repr

/-- The `methodName` argument of the retry loop. -/
inductive MethodName
  | Get
  | GetBuffer
  | GetLength
  | Put
  | Delete
  | Exists
deriving DecidableEq, Repr

/-! ## Exceptions -/

/-- Native C++ exceptions, all derived from `std::exception`. -/
inductive NativeExn
  /-- Source: `DbDeadlockException` -/
  | DbDeadlockException (errno : Int)
  /-- Source: `DbMemoryException`; `size` is `get_dbt()->get_size()` -/
  | DbMemoryException (errno : Int) (size : Int)
  /-- Any other `DbException`. -/
  | DbException (errno : Int)
  /-- a `std::exception` that is not a `DbException` -/
  | exception
deriving DecidableEq, Repr

/-- The `dynamic_cast<const DbException *>` of `SetCode` followed by `get_errno()`. -/
def NativeExn.get_errno : NativeExn → Option Int
  | .DbDeadlockException e => some e
  | .DbMemoryException e _ => some e
  | .DbException e => some e
  | .exception => none

/-- Everything that can be thrown. -/
inductive Exn
  /-- a native exception passing through uncaught -/
  | native (e : NativeExn)
  /-- the managed `BdbException` built by `BdbExceptionFactory`, with its code -/
  | BdbException (code : Int)
  /-- Source: `ApplicationException` of `DbtHolder` -/
  | ApplicationException
  /-- Source: `NotSupportedException` -/
  | NotSupportedException
  /-- a member access through a managed handle or array that is `nullptr` -/
  | NullReferenceException
  /-- Source: `&array[0]` on a managed array of length 0 -/
  | IndexOutOfRangeException
  /-- Model only: a call was made through a native pointer that is `NULL`. The language leaves
  what such a call does undefined, so nothing is known of what follows it. -/
  | undefinedBehaviour
  /-- Source: `throw new exception(...)`: a pointer is thrown, which no
  `catch (const exception &)` clause matches -/
  | exceptionPtr
  /-- the teardown of the transaction scope threw `second` while `first` was passing through -/
  | duringUnwind (first second : Exn)
  /-- the managed `BufferSmallException(ulen, size, ...)` of `Get(Dbt*, Dbt*)` -/
  | BufferSmallException (ulen size : Int)
  /-- Model only: the loop ran out of fuel. `DeadlockLoop_terminates`,
  `cursor_DeadlockLoop_terminates` and `retryLoop_terminates` show it never happens in the
  loops that count every pass; the loop of the read-modify-write `Put` takes its fuel as an
  argument. -/
  | outOfFuel
deriving DecidableEq, Repr

/-- Source: `BdbExceptionFactory::SetCode`. `dbex` is the errno of the `DbException` argument,
when not `NULL`. -/
def BdbExceptionFactory.SetCode (returnCode : Int) (cex : Option NativeExn)
    (dbex : Option Int) : Int :=
  if returnCode ≠ 0 then returnCode
  else match dbex with
    | some errno => errno
    | none =>
      match cex with
      | some ex =>
        match ex.get_errno with
        | some errno => errno
        | none => 0
      | none => 0

/-- Source: `BdbExceptionFactory::Create(int returnCode, String ^message)`. -/
def BdbExceptionFactory.Create (returnCode : Int) : Exn :=
  .BdbException (SetCode returnCode none none)

/-- Source: `BdbExceptionFactory::Create(const exception *cex, String ^message)`. -/
def BdbExceptionFactory.CreateEx (cex : NativeExn) : Exn :=
  .BdbException (SetCode 0 (some cex) none)

deriving instance DecidableEq for Except

/-! ## Transfer slots -/

/-- The native transfer record `Dbt`: size, user buffer length, partial window and flags.
`Dbt()` zeroes all of them. -/
structure Dbt where
  size : Int := 0
  ulen : Int := 0
  doff : Int := 0
  dlen : Int := 0
  flags : Nat := 0
deriving DecidableEq, Repr

/-- Source: `INT32_MAX` of `DbtHolder.h`: `~(1 << 31)` on a 32-bit `int`. -/
def INT32_MAX : Int := 2147483647

/-- Source: `struct DbtExtended : Dbt` adds methods only. -/
abbrev DbtExtended := Dbt

/-- Source: `Dbt::set_flags`. -/
def Dbt.set_flags (d : Dbt) (flags : Nat) : Dbt := { d with flags := flags }

/-- Source: `Dbt::set_size`. -/
def Dbt.set_size (d : Dbt) (size : Int) : Dbt := { d with size := size }

/-- Source: `DbtExtended::set_for_partial`. -/
def DbtExtended.set_for_partial (K : Constants) (d : DbtExtended) (offset length : Int) :
    DbtExtended :=
  { d with
    doff := if offset < 0 then 0 else offset
    dlen := if length < 0 then INT32_MAX else length
    flags := d.flags ||| K.DB_DBT_PARTIAL }

/-- Is the partial-transfer flag `DB_DBT_PARTIAL` set on the slot? -/
def Dbt.isPartial (K : Constants) (d : Dbt) : Bool := d.flags &&& K.DB_DBT_PARTIAL != 0

/-- The partial window `(doff, dlen)` the slot declares to the engine; `none` when the
partial-transfer flag is not set, where the engine transfers the whole value. -/
def Dbt.window (K : Constants) (d : Dbt) : Option (Int × Int) :=
  if d.isPartial K then some (d.doff, d.dlen) else none

/-- The kind of a `DataBuffer`. -/
inductive DataBufferType
  | Empty
  | Int32
  | Int64
  | Object
  /-- a kind `initialize_for_read` has no case for -/
  | unhandled
deriving DecidableEq, Repr

/-- Modelled from the spec: the managed `DataBuffer` struct (the spec's Buffer Descriptor) is
declared outside these sources. Kind (empty / fixed 32-bit / fixed 64-bit / object region), the
byte length of an object region, and the writability flag. -/
structure DataBuffer where
  type : DataBufferType
  length : Int := 0
  IsWritable : Bool := false
deriving DecidableEq, Repr

/-- Modelled from the spec: `DataBuffer::IsObject`, the descriptor is an object region. -/
def DataBuffer.IsObject (bf : DataBuffer) : Bool := bf.type == .Object

/-- Modelled from the spec: `DataBuffer::IsEmpty`, the descriptor is the empty marker. -/
def DataBuffer.IsEmpty (bf : DataBuffer) : Bool := bf.type == .Empty

/-- Modelled from the spec: `DataBuffer::ByteLength`, the number of bytes the descriptor stands
for. -/
def DataBuffer.ByteLength (bf : DataBuffer) : Int :=
  match bf.type with
  | .Empty => 0
  | .Int32 => 4
  | .Int64 => 8
  | .Object => bf.length
  | .unhandled => 0

/-- Source: `struct DbtHolder : DbtExtended`, with its single-use guard. -/
structure DbtHolder where
  dbt : Dbt := {}
  _initialized : Bool := false
deriving DecidableEq, Repr

/-- Source: `DbtHolder::initialize_for_read`. -/
def DbtHolder.initialize_for_read (h : DbtHolder) (bf : DataBuffer) : Except Exn DbtHolder :=
  if h._initialized then .error .ApplicationException
  else if bf.IsObject then
    .ok { dbt := h.dbt.set_size bf.length, _initialized := true }
  else match bf.type with
    | .Empty => .ok { dbt := h.dbt.set_size 0, _initialized := true }
    | .Int32 => .ok { dbt := h.dbt.set_size 4, _initialized := true }
    | .Int64 => .ok { dbt := h.dbt.set_size 8, _initialized := true }
    | _ => .error .ApplicationException

/-- Source: `DbtHolder::initialize_for_read_write`. -/
def DbtHolder.initialize_for_read_write (K : Constants) (h : DbtHolder) (bf : DataBuffer) :
    Except Exn DbtHolder :=
  match h.initialize_for_read bf with
  | .error e => .error e
  | .ok h1 =>
    .ok { h1 with dbt := { h1.dbt with ulen := h1.dbt.size,
                                       flags := h1.dbt.flags ||| K.DB_DBT_USERMEM } }

/-- Source: `DbtHolder::initialize_for_write`. -/
def DbtHolder.initialize_for_write (K : Constants) (h : DbtHolder) (bf : DataBuffer) :
    Except Exn DbtHolder :=
  if !(bf.IsWritable || bf.IsEmpty) then .error .ApplicationException
  else h.initialize_for_read_write K bf

/-! ## Engine calls and their trace -/

/-- A message written to the environment's error log. -/
inductive Msg
  | Deadlock
  | GivingUp (methodName : MethodName)
  /-- the text "Retrying" -/
  | Retrying
  /-- the text "Error getting data" -/
  | ErrorGettingData
  /-- the text "txn abort failed in `methodName`." -/
  | TxnAbortFailed (methodName : MethodName)
  /-- the text `what()` of the native exception that was caught -/
  | what
deriving DecidableEq, Repr

/-- The engine calls that are not made through a `BdbCall`: `m_pDb->get_type`, and the calls of
the read-modify-write `Put`, each with the flag the source passes. -/
inductive EngineOp
  /-- Source: `m_pDb->get_type(&dbType)` -/
  | get_type
  /-- Source: `m_pDb->cursor(txn, &cur, m_isCDB ? DB_WRITECURSOR : 0)` -/
  | cursor (txn : Option Nat) (DB_WRITECURSOR : Bool)
  /-- Source: `cur->get(&dbtKey, &dbtGetValue, DB_SET | DB_RMW)` -/
  | cursor_get_SET_RMW (dbtKey dbtGetValue : Dbt)
  /-- Source: `cur->put(NULL, &dbtSetValue, DB_CURRENT)` -/
  | cursor_put_CURRENT
  /-- Source: `cur->put(&dbtKey, &dbtSetValue, DB_KEYFIRST)` -/
  | cursor_put_KEYFIRST (dbtKey : Dbt)
  /-- Source: `m_pDb->put(txn, &dbtKey, &dbtSetValue, DB_NOOVERWRITE)` -/
  | put_NOOVERWRITE (txn : Option Nat) (dbtKey : Dbt)
  /-- Source: `cur->del(0)` -/
  | cursor_del
  /-- Source: `cur->close()` -/
  | cursor_close
deriving DecidableEq, Repr

/-- One call into the engine. -/
inductive Event
  /-- Source: `m_pEnv->txn_begin`, which hands out handle `h` when it succeeds -/
  | txn_begin (h : Nat)
  /-- Source: `txn->commit(0)` on handle `h` -/
  | commit (h : Nat)
  /-- Source: `txn->abort()` on handle `h` -/
  | abort (h : Nat)
  /-- the record call behind `BdbCall` with its transaction, slots and options -/
  | call (txn : Option Nat) (key data : Option Dbt) (options : Int)
  /-- Source: `m_pEnv->err(errNumber, message)` -/
  | err (errNumber : Int) (msg : Msg)
  /-- Source: `m_pEnv->errx(message)` -/
  | errx (msg : Msg)
  /-- the transaction scope goes from not begun to begun (`TransactionContext::begin`) -/
  | scope_begin
  /-- the transaction scope goes from begun to not begun in `TransactionContext::commit` -/
  | scope_commit
  /-- the transaction scope goes from begun to not begun in `TransactionContext::rollback` -/
  | scope_rollback
  /-- an engine call that is not made through a `BdbCall` -/
  | op (o : EngineOp)
deriving DecidableEq, Repr

/-- The calls made so far, oldest first. -/
abbrev Trace := List Event

/-- Is the event a record call? -/
def Event.isCall : Event → Bool
  | .call _ _ _ _ => true
  | _ => false

/-- Is the event a transaction begin? -/
def Event.isBegin : Event → Bool
  | .txn_begin _ => true
  | _ => false

/-- Is the event a native commit? -/
def Event.isCommit : Event → Bool
  | .commit _ => true
  | _ => false

/-- Is the event a native abort? -/
def Event.isAbort : Event → Bool
  | .abort _ => true
  | _ => false

/-- Is the event a log entry? -/
def Event.isLog : Event → Bool
  | .err _ _ => true
  | .errx _ => true
  | _ => false

/-- What a trace shows of the transaction scope and the record calls. -/
inductive Step
  | begin
  | call
  | rollback
  | commit
deriving DecidableEq, Repr

/-- The step an event stands for, if any. -/
def Event.step : Event → Option Step
  | .scope_begin => some .begin
  | .call _ _ _ _ => some .call
  | .scope_rollback => some .rollback
  | .scope_commit => some .commit
  | _ => none

/-- The scope changes and record calls of a trace, in order. -/
def steps (t : Trace) : List Step := t.filterMap Event.step

/-- The `begun` flag after a sequence of steps that starts with the flag at `b`, or `none` when
the sequence is not one a scope can make: `begin` needs the scope not begun, `commit`, `rollback`
and a record call need it begun. -/
def scopeRun : Bool → List Step → Option Bool
  | b, [] => some b
  | false, .begin :: s => scopeRun true s
  | true, .call :: s => scopeRun true s
  | true, .commit :: s => scopeRun false s
  | true, .rollback :: s => scopeRun false s
  | _, _ :: _ => none

/-- Number of log entries in a trace. -/
def logs (t : Trace) : Nat := t.countP Event.isLog

/-- Number of record calls in a trace. -/
def calls (t : Trace) : Nat := t.countP Event.isCall

/-- Number of `txn_begin` calls in a trace. -/
def begins (t : Trace) : Nat := t.countP Event.isBegin

/-- Number of native commits in a trace. -/
def commits (t : Trace) : Nat := t.countP Event.isCommit

/-- Number of native aborts in a trace. -/
def aborts (t : Trace) : Nat := t.countP Event.isAbort

/-- What one record call does. -/
inductive NativeResult
  /-- it returns `ret`, leaving `size` in the data slot and `keySize` in the key slot -/
  | returns (ret : Int) (size : Int) (keySize : Int)
  /-- it throws -/
  | throws (e : NativeExn)
deriving DecidableEq, Repr

/-- The access methods of the engine header, as the `switch (dbType)` of the `Put` overloads
tells them apart. -/
inductive DBTYPE
  | DB_BTREE
  | DB_HASH
  | DB_QUEUE
  | DB_RECNO
  | DB_UNKNOWN
  /-- a value the `switch` has no label for -/
  | other
deriving DecidableEq, Repr

/-- The native store handle `Db`, as oracles: the answer of `get` / `put` / `del` / `exists` to
the `n`-th record call (counting from 0) made with this transaction, these slots and options,
and the return code and access method `get_type` answers with. -/
structure Db where
  get : Nat → Option Nat → Option Dbt → Option Dbt → Int → NativeResult
  put : Nat → Option Nat → Option Dbt → Option Dbt → Int → NativeResult
  del : Nat → Option Nat → Option Dbt → Int → NativeResult
  «exists» : Nat → Option Nat → Option Dbt → Int → NativeResult
  get_type : Int × DBTYPE := (0, .DB_BTREE)

/-- The function pointer type `BdbCall` of `DatabaseImpl`; the `Nat` is the number of record
calls made before this one. -/
abbrev BdbCall := Db → Nat → Option Nat → Option Dbt → Option Dbt → Int → NativeResult

/-- Source: `get_core` of `DatabaseImpl.cpp`. -/
def get_core : BdbCall := fun db n txn key data options => db.get n txn key data options

/-- Source: `put_core` of `DatabaseImpl.cpp`. -/
def put_core : BdbCall := fun db n txn key data options => db.put n txn key data options

/-- Source: `del_core` of `DatabaseImpl.cpp`. -/
def del_core : BdbCall := fun db n txn key _ options => db.del n txn key options

/-- Source: `exists_core` of `DatabaseImpl.cpp`. -/
def exists_core : BdbCall := fun db n txn key _ options => db.exists n txn key options

/-- The result code a record call returns, if it returns. -/
def NativeResult.ret? : NativeResult → Option Int
  | .returns ret _ _ => some ret
  | .throws _ => none

/-- Does a record call report deadlock, by return code or by exception? -/
def NativeResult.reportsDeadlock (K : Constants) : NativeResult → Bool
  | .returns ret _ _ => ret == K.LOCK_DEADLOCK
  | .throws (.DbDeadlockException _) => true
  | .throws _ => false

/-! ## The record store and its transaction scope -/

/-- The fields of `DatabaseImpl` the record operations read, and the answers of the engine's
transaction calls: `txn_begin n` is what the `n`-th `txn_begin` throws (`none`: it succeeds and
hands out handle `n`), `txn_commit h` / `txn_abort h` what commit / abort of handle `h` throws.
The store is one opened in an environment (`m_pEnv` is not `NULL`). -/
structure DatabaseImpl where
  m_pDb : Db
  m_pTrMode : DatabaseTransactionMode
  m_isTxn : Bool
  m_maxDeadlockRetries : Int
  m_isCDB : Bool := false
  disposed : Bool := false
  txn_begin : Nat → Option NativeExn := fun _ => none
  txn_commit : Nat → Option NativeExn := fun _ => none
  txn_abort : Nat → Option NativeExn := fun _ => none

/-- The transaction calls a scope makes while the loop retries succeed: the mode is one that
`BeginTrans` recognises, and neither `txn_begin` nor `abort` throws. -/
def DatabaseImpl.TxnCallsSucceed (db : DatabaseImpl) : Prop :=
  db.m_pTrMode ≠ .unrecognized ∧ (∀ n, db.txn_begin n = none) ∧ (∀ h, db.txn_abort h = none)

/-- All transaction calls succeed, `commit` included. -/
def DatabaseImpl.TxnOk (db : DatabaseImpl) : Prop :=
  db.TxnCallsSucceed ∧ ∀ h, db.txn_commit h = none

/-- Source: `DatabaseImpl::BeginTrans`. -/
def DatabaseImpl.BeginTrans (db : DatabaseImpl) (t : Trace) : Except Exn (Option Nat) × Trace :=
  match db.m_pTrMode with
  | .None => (.ok none, t)
  | .PerCall =>
    if db.m_isTxn then
      let h := begins t
      match db.txn_begin h with
      | none => (.ok (some h), t ++ [.txn_begin h])
      | some e => (.error (.native e), t ++ [.txn_begin h])
    else (.ok none, t)
  | .unrecognized => (.error .exceptionPtr, t)

/-- Source: `DatabaseImpl::CommitTrans`. -/
def DatabaseImpl.CommitTrans (db : DatabaseImpl) (txn : Option Nat) (t : Trace) :
    Except Exn Unit × Trace :=
  match txn with
  | none => (.ok (), t)
  | some h =>
    match db.m_pTrMode with
    | .None => (.ok (), t)
    | .PerCall =>
      match db.txn_commit h with
      | none => (.ok (), t ++ [.commit h])
      | some e => (.error (.native e), t ++ [.commit h])
    | .unrecognized => (.error .exceptionPtr, t)

/-- Source: `DatabaseImpl::RollbackTrans`. -/
def DatabaseImpl.RollbackTrans (db : DatabaseImpl) (txn : Option Nat) (t : Trace) :
    Except Exn Unit × Trace :=
  match txn with
  | none => (.ok (), t)
  | some h =>
    match db.m_pTrMode with
    | .None => (.ok (), t)
    | .PerCall =>
      match db.txn_abort h with
      | none => (.ok (), t ++ [.abort h])
      | some e => (.error (.native e), t ++ [.abort h])
    | .unrecognized => (.error .exceptionPtr, t)

/-- Source: `DatabaseImpl::Log(int errNumber, const char *errMessage)`, on a store with an
environment (`m_pEnv != NULL`): one entry in the environment's error log. -/
def DatabaseImpl.Log (errNumber : Int) (msg : Msg) (t : Trace) : Trace :=
  t ++ [.err errNumber msg]

/-- The state of `class TransactionContext`: `begun` and the handle `txn` (`none` is `NULL`). -/
structure TransactionContext where
  begun : Bool := false
  txn : Option Nat := none
deriving DecidableEq, Repr

/-- Source: `TransactionContext::begin`. -/
def TransactionContext.begin (db : DatabaseImpl) (c : TransactionContext) (t : Trace) :
    Except Exn (Option Nat) × TransactionContext × Trace :=
  if !c.begun then
    match db.BeginTrans t with
    | (.ok txn, t1) => (.ok txn, { begun := true, txn := txn }, t1 ++ [.scope_begin])
    | (.error e, t1) => (.error e, c, t1)
  else (.ok c.txn, c, t)

/-- Source: `TransactionContext::commit`. -/
def TransactionContext.commit (db : DatabaseImpl) (c : TransactionContext) (t : Trace) :
    Except Exn Unit × TransactionContext × Trace :=
  if c.begun then
    match db.CommitTrans c.txn t with
    | (.ok _, t1) => (.ok (), { begun := false, txn := none }, t1 ++ [.scope_commit])
    | (.error e, t1) => (.error e, c, t1)
  else (.ok (), c, t)

/-- Source: `TransactionContext::rollback`. -/
def TransactionContext.rollback (db : DatabaseImpl) (c : TransactionContext) (t : Trace) :
    Except Exn Unit × TransactionContext × Trace :=
  if c.begun then
    -- `begun = false` comes first, then the native abort
    match db.RollbackTrans c.txn (t ++ [.scope_rollback]) with
    | (.ok _, t1) => (.ok (), { begun := false, txn := none }, t1)
    | (.error e, t1) => (.error e, { c with begun := false }, t1)
  else (.ok (), c, t)

/-- Source: `TransactionContext::~TransactionContext`, run when the operation's block is left with the
result `r`: the destructor calls `rollback()`; what it throws leaves the operation in place of a
normal result, or on top of the exception already passing through. -/
def TransactionContext.destroy {α : Type} (db : DatabaseImpl) (r : Except Exn α)
    (c : TransactionContext) (t : Trace) : Except Exn α × TransactionContext × Trace :=
  match c.rollback db t with
  | (.ok _, c1, t1) => (r, c1, t1)
  | (.error e2, c1, t1) =>
    match r with
    | .ok _ => (.error e2, c1, t1)
    | .error e1 => (.error (.duringUnwind e1 e2), c1, t1)

/-! ## The retry loop of `DatabaseImpl` -/

/-- The data slot after a record call that returned: the engine has left `size` in it. -/
def afterCall (data : Option Dbt) (size : Int) : Option Dbt :=
  data.map fun d => d.set_size size

/-- The `try { ret = bdbCall(m_pDb, context.begin(), key, data, options); ... }
catch (DbDeadlockException) { ... }` block of `DatabaseImpl::DeadlockLoop`: the pair
`(ret, deadlock_occurred)` it leaves, or the exception that passes through it. -/
def DatabaseImpl.DeadlockLoop.attempt (K : Constants) (db : DatabaseImpl)
    (context : TransactionContext) (key data : Option Dbt) (options : Int) (bdbCall : BdbCall)
    (t : Trace) : Except Exn (Int × Bool) × TransactionContext × Option Dbt × Trace :=
  match context.begin db t with
  | (.error (.native (.DbDeadlockException _)), c1, t1) => (.ok (0, true), c1, data, t1)
  | (.error e, c1, t1) => (.error e, c1, data, t1)
  | (.ok txn, c1, t1) =>
    match bdbCall db.m_pDb (calls t1) txn key data options with
    | .returns ret size _ =>
      (.ok (ret, ret == K.LOCK_DEADLOCK), c1, afterCall data size,
        t1 ++ [.call txn key data options])
    | .throws (.DbDeadlockException _) =>
      (.ok (0, true), c1, data, t1 ++ [.call txn key data options])
    | .throws e => (.error (.native e), c1, data, t1 ++ [.call txn key data options])

/-- The `do ... while (deadlock_occurred)` loop of `DatabaseImpl::DeadlockLoop` together with the
code after the loop; `fuel` bounds the number of iterations. The result is the value returned or
the exception thrown, the scope, the data slot and the trace. -/
def DatabaseImpl.DeadlockLoop.loop (K : Constants) (db : DatabaseImpl) (methodName : MethodName)
    (key : Option Dbt) (options : Int) (bdbCall : BdbCall) :
    Nat → Int → TransactionContext → Option Dbt → Trace →
      Except Exn Int × TransactionContext × Option Dbt × Trace
  | 0, _, context, data, t => (.error .outOfFuel, context, data, t)
  | fuel + 1, retry_count, context, data, t =>
    match DatabaseImpl.DeadlockLoop.attempt K db context key data options bdbCall t with
    | (.error e, c1, d1, t1) => (.error e, c1, d1, t1)
    | (.ok (ret, deadlock_occurred), c1, d1, t1) =>
      if deadlock_occurred then
        match c1.rollback db (DatabaseImpl.Log K.LOCK_DEADLOCK .Deadlock t1) with
        | (.error e, c2, t2) => (.error e, c2, d1, t2)
        | (.ok _, c2, t2) =>
          if retry_count + 1 ≥ db.m_maxDeadlockRetries then
            -- `break`, then `if (deadlock_occurred) { errx; throw }` after the loop
            (.error (BdbExceptionFactory.Create K.LOCK_DEADLOCK), c2, d1,
              t2 ++ [.errx (.GivingUp methodName)])
          else loop K db methodName key options bdbCall fuel (retry_count + 1) c2 d1 t2
      else (.ok ret, c1, d1, t1)

/-- Source: `DatabaseImpl::DeadlockLoop`. The loop runs with `retry_count = 0`; it makes at most
`max 1 m_maxDeadlockRetries` iterations, which is the fuel. -/
def DatabaseImpl.DeadlockLoop (K : Constants) (db : DatabaseImpl) (methodName : MethodName)
    (context : TransactionContext) (key data : Option Dbt) (options : Int) (bdbCall : BdbCall)
    (t : Trace) : Except Exn Int × TransactionContext × Option Dbt × Trace :=
  DatabaseImpl.DeadlockLoop.loop K db methodName key options bdbCall
    (max 1 db.m_maxDeadlockRetries).toNat 0 context data t

/-- Source: `DatabaseImpl::TryStd`. -/
def DatabaseImpl.TryStd (K : Constants) (db : DatabaseImpl) (methodName : MethodName)
    (context : TransactionContext) (key data : Option Dbt) (options : Int) (bdbCall : BdbCall)
    (t : Trace) : Except Exn Int × TransactionContext × Trace :=
  match db.DeadlockLoop K methodName context key data options bdbCall t with
  | (.ok ret, c1, _, t1) => (.ok ret, c1, t1)
  | (.error (.native ex), c1, _, t1) => (.error (BdbExceptionFactory.CreateEx ex), c1, t1)
  | (.error e, c1, _, t1) => (.error e, c1, t1)

/-- Source: `DatabaseImpl::TryMemStd`. The result is the pair `(ret, *sizePtr)`. -/
def DatabaseImpl.TryMemStd (K : Constants) (db : DatabaseImpl) (methodName : MethodName)
    (context : TransactionContext) (key : Option Dbt) (data : Dbt) (options : Int)
    (bdbCall : BdbCall) (t : Trace) :
    Except Exn (Int × Int) × TransactionContext × Dbt × Trace :=
  match db.DeadlockLoop K methodName context key (some data) options bdbCall t with
  | (.ok ret, c1, d1, t1) => (.ok (ret, (d1.getD data).size), c1, d1.getD data, t1)
  | (.error (.native (.DbMemoryException _ mexSize)), c1, d1, t1) =>
    (.ok (K.BUFFER_SMALL, mexSize), c1, d1.getD data, t1)
  | (.error (.native ex), c1, d1, t1) =>
    (.error (BdbExceptionFactory.CreateEx ex), c1, d1.getD data, t1)
  | (.error e, c1, d1, t1) => (.error e, c1, d1.getD data, t1)

/-- Source: `DatabaseImpl::SwitchStd`. -/
def DatabaseImpl.SwitchStd (K : Constants) (db : DatabaseImpl) (context : TransactionContext)
    (ret : Int) (t : Trace) : Except Exn Unit × TransactionContext × Trace :=
  if ret = K.SUCCESS then context.commit db t
  else (.error (BdbExceptionFactory.Create ret), context, t)

/-- Source: `DatabaseImpl::SwitchMemStd`. -/
def DatabaseImpl.SwitchMemStd (K : Constants) (db : DatabaseImpl) (context : TransactionContext)
    (ret : Int) (size : Int) (t : Trace) : Except Exn Int × TransactionContext × Trace :=
  let switch : Except Exn Int :=
    if ret = K.SUCCESS ∨ ret = K.BUFFER_SMALL then .ok size
    else if ret = K.NOTFOUND ∨ ret = K.KEYEMPTY then .ok (-1)
    else .error (BdbExceptionFactory.Create ret)
  match switch with
  | .error e => (.error e, context, t)
  | .ok size1 =>
    match context.commit db t with
    | (.ok _, c1, t1) => (.ok size1, c1, t1)
    | (.error e, c1, t1) => (.error e, c1, t1)

/-! ## The record facade -/

/-- The value slot `DatabaseImpl::Get(DataBuffer, int, DataBuffer, GetOpFlags)` builds from an
initialized holder: `if (offset >= 0) dbtBuffer.set_for_partial(offset, dbtBuffer.get_size())`. -/
def DatabaseImpl.Get.dbtBuffer (K : Constants) (holder : DbtHolder) (offset : Int) : Dbt :=
  if offset ≥ 0 then DbtExtended.set_for_partial K holder.dbt offset holder.dbt.size
  else holder.dbt

/-- The body of `DatabaseImpl::Get(DataBuffer key, int offset, DataBuffer buffer, GetOpFlags)`,
up to the point where its transaction scope is destroyed. -/
def DatabaseImpl.Get.body (K : Constants) (db : DatabaseImpl) (key : DataBuffer) (offset : Int)
    (buffer : DataBuffer) (flags : Int) (context : TransactionContext) (t : Trace) :
    Except Exn Int × TransactionContext × Trace :=
  match DbtHolder.initialize_for_read {} key with
  | .error e => (.error e, context, t)
  | .ok dbtKey =>
    match DbtHolder.initialize_for_write K {} buffer with
    | .error e => (.error e, context, t)
    | .ok holder =>
      match db.TryMemStd K .Get context (some dbtKey.dbt)
          (DatabaseImpl.Get.dbtBuffer K holder offset) flags get_core t with
      | (.error e, c1, _, t1) => (.error e, c1, t1)
      | (.ok (ret, size), c1, _, t1) => db.SwitchMemStd K c1 ret size t1

/-- Source: `DatabaseImpl::Get(DataBuffer key, int offset, DataBuffer buffer, GetOpFlags flags)`:
the size returned or the exception thrown, the scope after its destructor, and the trace. -/
def DatabaseImpl.Get (K : Constants) (db : DatabaseImpl) (key : DataBuffer) (offset : Int)
    (buffer : DataBuffer) (flags : Int) (t : Trace) :
    Except Exn Int × TransactionContext × Trace :=
  match DatabaseImpl.Get.body K db key offset buffer flags {} t with
  | (r, c, t1) => TransactionContext.destroy db r c t1

/-- The value slot of `DatabaseImpl::Get(DataBuffer key, int offset, int length, GetOpFlags)`
(the stream variant): `set_flags(DB_DBT_MALLOC)`, then
`if (offset > 0 || length > 0) dbtBuffer.set_for_partial(offset, length)`. -/
def DatabaseImpl.GetStream.dbtBuffer (K : Constants) (offset length : Int) : DbtExtended :=
  let dbtBuffer : DbtExtended := Dbt.set_flags {} K.DB_DBT_MALLOC
  if offset > 0 ∨ length > 0 then DbtExtended.set_for_partial K dbtBuffer offset length
  else dbtBuffer

/-- The body of the stream variant of `DatabaseImpl::Get`; the stream is given by its length,
`none` is `nullptr`. -/
def DatabaseImpl.GetStream.body (K : Constants) (db : DatabaseImpl) (key : DataBuffer)
    (offset length : Int) (flags : Int) (context : TransactionContext) (t : Trace) :
    Except Exn (Option Int) × TransactionContext × Trace :=
  match DbtHolder.initialize_for_read {} key with
  | .error e => (.error e, context, t)
  | .ok dbtKey =>
    match db.TryMemStd K .Get context (some dbtKey.dbt)
        (DatabaseImpl.GetStream.dbtBuffer K offset length) flags get_core t with
    | (.error e, c1, _, t1) => (.error e, c1, t1)
    | (.ok (ret, size), c1, d1, t1) =>
      match db.SwitchMemStd K c1 ret size t1 with
      | (.error e, c2, t2) => (.error e, c2, t2)
      | (.ok size1, c2, t2) => (.ok (if size1 < 0 then none else some d1.size), c2, t2)

/-- Source: `DatabaseImpl::Get(DataBuffer key, int offset, int length, GetOpFlags flags)`. -/
def DatabaseImpl.GetStream (K : Constants) (db : DatabaseImpl) (key : DataBuffer)
    (offset length : Int) (flags : Int) (t : Trace) :
    Except Exn (Option Int) × TransactionContext × Trace :=
  match DatabaseImpl.GetStream.body K db key offset length flags {} t with
  | (r, c, t1) => TransactionContext.destroy db r c t1

/-- The value slot of `DatabaseImpl::GetBuffer`: `set_flags(DB_DBT_USERCOPY)`, then
`if (offset > 0 || length > 0) dbtBuffer.set_for_partial(offset, length)`. -/
def DatabaseImpl.GetBuffer.dbtBuffer (K : Constants) (offset length : Int) : DbtExtended :=
  let dbtBuffer : DbtExtended := Dbt.set_flags {} K.DB_DBT_USERCOPY
  if offset > 0 ∨ length > 0 then DbtExtended.set_for_partial K dbtBuffer offset length
  else dbtBuffer

/-- The body of `DatabaseImpl::GetBuffer`; the array is given by its length, `none` is
`nullptr`. -/
def DatabaseImpl.GetBuffer.body (K : Constants) (db : DatabaseImpl) (key : DataBuffer)
    (offset length : Int) (flags : Int) (context : TransactionContext) (t : Trace) :
    Except Exn (Option Int) × TransactionContext × Trace :=
  match DbtHolder.initialize_for_read {} key with
  | .error e => (.error e, context, t)
  | .ok dbtKey =>
    match db.TryMemStd K .GetBuffer context (some dbtKey.dbt)
        (DatabaseImpl.GetBuffer.dbtBuffer K offset length) flags get_core t with
    | (.error e, c1, _, t1) => (.error e, c1, t1)
    | (.ok (ret, size), c1, d1, t1) =>
      match db.SwitchMemStd K c1 ret size t1 with
      | (.error e, c2, t2) => (.error e, c2, t2)
      | (.ok size1, c2, t2) => (.ok (if size1 < 0 then none else some d1.size), c2, t2)

/-- Source: `DatabaseImpl::GetBuffer(DataBuffer key, int offset, int length, GetOpFlags flags)`. -/
def DatabaseImpl.GetBuffer (K : Constants) (db : DatabaseImpl) (key : DataBuffer)
    (offset length : Int) (flags : Int) (t : Trace) :
    Except Exn (Option Int) × TransactionContext × Trace :=
  match DatabaseImpl.GetBuffer.body K db key offset length flags {} t with
  | (r, c, t1) => TransactionContext.destroy db r c t1

/-- The value slot `DatabaseImpl::Put(DataBuffer, int, int, DataBuffer, PutOpFlags)` builds from
an initialized holder: `if (offset >= 0) { if (count < 0) count = buffer.ByteLength;
dbtBuffer.set_for_partial(offset, count); }`. -/
def DatabaseImpl.Put.dbtBuffer (K : Constants) (holder : DbtHolder) (offset count : Int)
    (buffer : DataBuffer) : Dbt :=
  if offset ≥ 0 then
    DbtExtended.set_for_partial K holder.dbt offset (if count < 0 then buffer.ByteLength else count)
  else holder.dbt

/-- The body of `DatabaseImpl::Put(DataBuffer key, int offset, int count, DataBuffer buffer,
PutOpFlags flags)`. -/
def DatabaseImpl.Put.body (K : Constants) (db : DatabaseImpl) (key : DataBuffer)
    (offset count : Int) (buffer : DataBuffer) (flags : Int) (context : TransactionContext)
    (t : Trace) : Except Exn Int × TransactionContext × Trace :=
  match DbtHolder.initialize_for_read {} key with
  | .error e => (.error e, context, t)
  | .ok dbtKey =>
    match DbtHolder.initialize_for_read {} buffer with
    | .error e => (.error e, context, t)
    | .ok holder =>
      match db.TryMemStd K .Put context (some dbtKey.dbt)
          (DatabaseImpl.Put.dbtBuffer K holder offset count buffer) flags put_core t with
      | (.error e, c1, _, t1) => (.error e, c1, t1)
      | (.ok (ret, size), c1, _, t1) =>
        match db.SwitchStd K c1 ret t1 with
        | (.error e, c2, t2) => (.error e, c2, t2)
        | (.ok _, c2, t2) => (.ok size, c2, t2)

/-- Source: `DatabaseImpl::Put(DataBuffer key, int offset, int count, DataBuffer buffer,
PutOpFlags flags)`. -/
def DatabaseImpl.Put (K : Constants) (db : DatabaseImpl) (key : DataBuffer)
    (offset count : Int) (buffer : DataBuffer) (flags : Int) (t : Trace) :
    Except Exn Int × TransactionContext × Trace :=
  match DatabaseImpl.Put.body K db key offset count buffer flags {} t with
  | (r, c, t1) => TransactionContext.destroy db r c t1

/-- The body of `DatabaseImpl::Delete(DataBuffer key, DeleteOpFlags flags)`. -/
def DatabaseImpl.Delete.body (K : Constants) (db : DatabaseImpl) (key : DataBuffer)
    (flags : Int) (context : TransactionContext) (t : Trace) :
    Except Exn Bool × TransactionContext × Trace :=
  match DbtHolder.initialize_for_read {} key with
  | .error e => (.error e, context, t)
  | .ok dbtKey =>
    match db.TryStd K .Delete context (some dbtKey.dbt) none flags del_core t with
    | (.error e, c1, t1) => (.error e, c1, t1)
    | (.ok ret, c1, t1) =>
      let switch : Except Exn Bool :=
        if ret = K.SUCCESS then .ok true
        else if ret = K.NOTFOUND ∨ ret = K.KEYEMPTY then .ok false
        else .error (BdbExceptionFactory.Create ret)
      match switch with
      | .error e => (.error e, c1, t1)
      | .ok found =>
        match c1.commit db t1 with
        | (.error e, c2, t2) => (.error e, c2, t2)
        | (.ok _, c2, t2) => (.ok found, c2, t2)

/-- Source: `DatabaseImpl::Delete(DataBuffer key, DeleteOpFlags flags)`. -/
def DatabaseImpl.Delete (K : Constants) (db : DatabaseImpl) (key : DataBuffer) (flags : Int)
    (t : Trace) : Except Exn Bool × TransactionContext × Trace :=
  match DatabaseImpl.Delete.body K db key flags {} t with
  | (r, c, t1) => TransactionContext.destroy db r c t1

/-- The body of `DatabaseImpl::Exists(DataBuffer key, ExistsOpFlags flags)`. -/
def DatabaseImpl.Exists.body (K : Constants) (db : DatabaseImpl) (key : DataBuffer)
    (flags : Int) (context : TransactionContext) (t : Trace) :
    Except Exn Int × TransactionContext × Trace :=
  match DbtHolder.initialize_for_read {} key with
  | .error e => (.error e, context, t)
  | .ok dbtKey =>
    match db.TryStd K .Exists context (some dbtKey.dbt) none flags exists_core t with
    | (.error e, c1, t1) => (.error e, c1, t1)
    | (.ok ret, c1, t1) =>
      if ret = K.SUCCESS ∨ ret = K.NOTFOUND ∨ ret = K.KEYEMPTY then
        match c1.commit db t1 with
        | (.error e, c2, t2) => (.error e, c2, t2)
        | (.ok _, c2, t2) => (.ok ret, c2, t2)
      else (.error (BdbExceptionFactory.Create ret), c1, t1)

/-- Source: `DatabaseImpl::Exists(DataBuffer key, ExistsOpFlags flags)`. -/
def DatabaseImpl.Exists (K : Constants) (db : DatabaseImpl) (key : DataBuffer) (flags : Int)
    (t : Trace) : Except Exn Int × TransactionContext × Trace :=
  match DatabaseImpl.Exists.body K db key flags {} t with
  | (r, c, t1) => TransactionContext.destroy db r c t1

/-- The value slot of `DatabaseImpl::GetLength`: `set_size(-1)`, `set_flags(DB_DBT_USERMEM)`. -/
def DatabaseImpl.GetLength.dbtBuffer (K : Constants) : Dbt :=
  Dbt.set_flags (Dbt.set_size {} (-1)) K.DB_DBT_USERMEM

/-- The body of `DatabaseImpl::GetLength(DataBuffer key, GetOpFlags flags)`. -/
def DatabaseImpl.GetLength.body (K : Constants) (db : DatabaseImpl) (key : DataBuffer)
    (flags : Int) (context : TransactionContext) (t : Trace) :
    Except Exn Int × TransactionContext × Trace :=
  match DbtHolder.initialize_for_read {} key with
  | .error e => (.error e, context, t)
  | .ok dbtKey =>
    match db.TryMemStd K .GetLength context (some dbtKey.dbt)
        (DatabaseImpl.GetLength.dbtBuffer K) flags get_core t with
    | (.error e, c1, _, t1) => (.error e, c1, t1)
    | (.ok (ret, size), c1, _, t1) => db.SwitchMemStd K c1 ret size t1

/-- Source: `DatabaseImpl::GetLength(DataBuffer key, GetOpFlags flags)`. -/
def DatabaseImpl.GetLength (K : Constants) (db : DatabaseImpl) (key : DataBuffer) (flags : Int)
    (t : Trace) : Except Exn Int × TransactionContext × Trace :=
  match DatabaseImpl.GetLength.body K db key flags {} t with
  | (r, c, t1) => TransactionContext.destroy db r c t1

/-! ## The cursor -/

/-- The native cursor handle `Dbc`, as oracles: the answer of `get` / `put` / `del` to the
`n`-th record call, and what `close` throws (`none`: nothing). -/
structure Dbc where
  get : Nat → Option Dbt → Option Dbt → Int → NativeResult
  put : Nat → Option Dbt → Option Dbt → Int → NativeResult
  del : Nat → Int → NativeResult
  close : Option NativeExn := none

/-- The fields of `CursorImpl`: the owning store and the native cursor, `none` for `nullptr`. -/
structure CursorImpl where
  _db : Option DatabaseImpl
  _cursorp : Option Dbc

/-- The function pointer type `BdbCall` of `CursorImpl`. -/
abbrev CursorImpl.BdbCall := Dbc → Nat → Option Dbt → Option Dbt → Int → NativeResult

/-- Source: `get_core` of `CursorImpl.cpp`. -/
def CursorImpl.get_core : CursorImpl.BdbCall :=
  fun dbc n key data options => dbc.get n key data options

/-- Source: `put_core` of `CursorImpl.cpp`. -/
def CursorImpl.put_core : CursorImpl.BdbCall :=
  fun dbc n key data options => dbc.put n key data options

/-- Source: `del_core` of `CursorImpl.cpp`. -/
def CursorImpl.del_core : CursorImpl.BdbCall :=
  fun dbc n _ _ options => dbc.del n options

/-- The `do ... while (deadlock_occurred)` loop of `CursorImpl::DeadlockLoop` with the
`if (deadlock_occurred)` block that follows it, inside the outer `try`. A record call on a
cursor carries no transaction of its own. -/
def CursorImpl.DeadlockLoop.loop (K : Constants) (cur : CursorImpl) (options : Int)
    (bdbCall : CursorImpl.BdbCall) :
    Nat → Int → Int → Option Dbt → Option Dbt → Trace →
      Except Exn Int × Option Dbt × Option Dbt × Trace
  | 0, _, _, key, data, t => (.error .outOfFuel, key, data, t)
  | fuel + 1, ret, retry_count, key, data, t =>
    let t1 := t ++ [.call none key data options]
    match cur._cursorp with
    | none =>
      -- `bdbCall(_cursorp, key, data, options)` is called with `_cursorp == nullptr`
      (.error .undefinedBehaviour, key, data, t1)
    | some cursorp =>
      -- the inner `try` / `catch (DbDeadlockException)`
      let attempt : Except Exn (Int × Bool) × Option Dbt × Option Dbt :=
        match bdbCall cursorp (calls t) key data options with
        | .returns ret1 size keySize =>
          (.ok (ret1, ret1 == K.LOCK_DEADLOCK), afterCall key keySize, afterCall data size)
        | .throws (.DbDeadlockException _) => (.ok (ret, true), key, data)
        | .throws e => (.error (.native e), key, data)
      match attempt with
      | (.error e, k1, d1) => (.error e, k1, d1, t1)
      | (.ok (ret1, deadlock_occurred), k1, d1) =>
        if deadlock_occurred then
          match cur._db with
          | none => (.error .NullReferenceException, k1, d1, t1)
          | some db =>
            let t2 := DatabaseImpl.Log K.LOCK_DEADLOCK .Deadlock t1
            if retry_count + 1 ≥ db.m_maxDeadlockRetries then
              (.error (BdbExceptionFactory.Create K.LOCK_DEADLOCK), k1, d1,
                t2 ++ [.errx (.GivingUp .Get)])
            else loop K cur options bdbCall fuel ret1 (retry_count + 1) k1 d1 t2
        else (.ok ret1, k1, d1, t1)

/-- Source: `CursorImpl::DeadlockLoop`: the loop, then the outer
`catch (DbMemoryException)` and `catch (const exception &ex)`. The result is the value returned
or the exception thrown, the key slot, the data slot and the trace. -/
def CursorImpl.DeadlockLoop (K : Constants) (cur : CursorImpl) (key data : Option Dbt)
    (options : Int) (bdbCall : CursorImpl.BdbCall) (t : Trace) :
    Except Exn Int × Option Dbt × Option Dbt × Trace :=
  let fuel : Nat :=
    match cur._db with
    | some db => (max 1 db.m_maxDeadlockRetries).toNat
    | none => 1
  match CursorImpl.DeadlockLoop.loop K cur options bdbCall fuel 0 0 key data t with
  | (.error (.native (.DbMemoryException _ _)), k1, d1, t1) => (.ok K.BUFFER_SMALL, k1, d1, t1)
  | (.error (.native ex), k1, d1, t1) => (.error (BdbExceptionFactory.CreateEx ex), k1, d1, t1)
  | r => r

/-- Modelled from the spec: the managed `Lengths` struct, declared outside these sources: key
length and value length. -/
structure Lengths where
  KeyLength : Int
  ValueLength : Int
deriving DecidableEq, Repr

/-- Modelled from the spec: the managed `Streams` and `Buffers` structs, declared outside these
sources: the key and value stream (or array), each given by its length with `none` for
`nullptr`, and the return code. -/
structure Streams where
  KeyStream : Option Int
  ValueStream : Option Int
  ReturnCode : Int
deriving DecidableEq, Repr

/-- The value slot of `CursorImpl::Get(DataBuffer key, int offset, int length, CursorPosition,
GetOpFlags)` (the stream variant): `set_flags(DB_DBT_MALLOC)`, then
`if (offset > 0 || length >= 0) dbtBuffer.set_for_partial(offset, length)`. -/
def CursorImpl.GetStreams.dbtBuffer (K : Constants) (offset length : Int) : DbtExtended :=
  let dbtBuffer : DbtExtended := Dbt.set_flags {} K.DB_DBT_MALLOC
  if offset > 0 ∨ length ≥ 0 then DbtExtended.set_for_partial K dbtBuffer offset length
  else dbtBuffer

/-- The key slot of the stream variant of `CursorImpl::Get`, by position. -/
def CursorImpl.GetStreams.dbtKey (K : Constants) (key : DataBuffer) (position : Nat) :
    Except Exn DbtHolder :=
  if position = K.Set then DbtHolder.initialize_for_read {} key
  else if position = K.SetRange then
    match DbtHolder.initialize_for_read {} key with
    | .error e => .error e
    | .ok h => .ok { h with dbt := h.dbt.set_flags K.DB_DBT_MALLOC }
  else .ok { dbt := Dbt.set_flags {} K.DB_DBT_MALLOC }

/-- Source: `CursorImpl::Get(DataBuffer key, int offset, int length, CursorPosition position,
GetOpFlags flags)`, the stream variant. -/
def CursorImpl.GetStreams (K : Constants) (cur : CursorImpl) (key : DataBuffer)
    (offset length : Int) (position flags : Nat) (t : Trace) : Except Exn Streams × Trace :=
  match CursorImpl.GetStreams.dbtKey K key position with
  | .error e => (.error e, t)
  | .ok dbtKey =>
    match cur.DeadlockLoop K (some dbtKey.dbt)
        (some (CursorImpl.GetStreams.dbtBuffer K offset length)) (position ||| flags : Nat)
        CursorImpl.get_core t with
    | (.error e, _, _, t1) => (.error e, t1)
    | (.ok ret, k1, d1, t1) =>
      if ret = K.NOTFOUND then (.ok ⟨none, none, K.NotFound⟩, t1)
      else if ret = K.KEYEMPTY then (.ok ⟨none, none, K.Deleted⟩, t1)
      else if ret = K.SUCCESS then
        (.ok ⟨if position = K.Set then none else k1.map Dbt.size, d1.map Dbt.size, 0⟩, t1)
      else (.error (BdbExceptionFactory.Create ret), t1)

/-- The value slot of `CursorImpl::GetBuffers`: `set_flags(DB_DBT_USERCOPY)`, then
`if (offset > 0 || length >= 0) dbtBuffer.set_for_partial(offset, length)`. -/
def CursorImpl.GetBuffers.dbtBuffer (K : Constants) (offset length : Int) : DbtExtended :=
  let dbtBuffer : DbtExtended := Dbt.set_flags {} K.DB_DBT_USERCOPY
  if offset > 0 ∨ length ≥ 0 then DbtExtended.set_for_partial K dbtBuffer offset length
  else dbtBuffer

/-- The key slot of `CursorImpl::GetBuffers`, by position. -/
def CursorImpl.GetBuffers.dbtKey (K : Constants) (key : DataBuffer) (position : Nat) :
    Except Exn DbtHolder :=
  if position = K.Set then DbtHolder.initialize_for_read {} key
  else if position = K.SetRange then .error .NotSupportedException
  else .ok { dbt := Dbt.set_flags {} K.DB_DBT_USERCOPY }

/-- Source: `CursorImpl::GetBuffers(DataBuffer key, int offset, int length,
CursorPosition position, GetOpFlags flags)`. -/
def CursorImpl.GetBuffers (K : Constants) (cur : CursorImpl) (key : DataBuffer)
    (offset length : Int) (position flags : Nat) (t : Trace) : Except Exn Streams × Trace :=
  match CursorImpl.GetBuffers.dbtKey K key position with
  | .error e => (.error e, t)
  | .ok dbtKey =>
    match cur.DeadlockLoop K (some dbtKey.dbt)
        (some (CursorImpl.GetBuffers.dbtBuffer K offset length)) (position ||| flags : Nat)
        CursorImpl.get_core t with
    | (.error e, _, _, t1) => (.error e, t1)
    | (.ok ret, k1, d1, t1) =>
      if ret = K.NOTFOUND then (.ok ⟨none, none, K.NotFound⟩, t1)
      else if ret = K.KEYEMPTY then (.ok ⟨none, none, K.Deleted⟩, t1)
      else if ret = K.SUCCESS then
        (.ok ⟨if position = K.Set then none else k1.map Dbt.size, d1.map Dbt.size, 0⟩, t1)
      else (.error (BdbExceptionFactory.Create ret), t1)

/-- The value slot `CursorImpl::Put` builds from an initialized holder:
`if (offset > 0 || length >= 0) dbtBuffer.set_for_partial(offset, length)`. -/
def CursorImpl.Put.dbtBuffer (K : Constants) (holder : DbtHolder) (offset length : Int) : Dbt :=
  if offset > 0 ∨ length ≥ 0 then DbtExtended.set_for_partial K holder.dbt offset length
  else holder.dbt

/-- Source: `CursorImpl::Put(DataBuffer key, DataBuffer value, int offset, int length,
CursorPosition position, PutOpFlags flags)`. -/
def CursorImpl.Put (K : Constants) (cur : CursorImpl) (key value : DataBuffer)
    (offset length : Int) (position flags : Nat) (t : Trace) : Except Exn Lengths × Trace :=
  match DbtHolder.initialize_for_read {} key with
  | .error e => (.error e, t)
  | .ok dbtKey =>
    match DbtHolder.initialize_for_read {} value with
    | .error e => (.error e, t)
    | .ok holder =>
      match cur.DeadlockLoop K (some dbtKey.dbt)
          (some (CursorImpl.Put.dbtBuffer K holder offset length)) (position ||| flags : Nat)
          CursorImpl.put_core t with
      | (.error e, _, _, t1) => (.error e, t1)
      | (.ok ret, k1, d1, t1) =>
        if ret = K.NOTFOUND then (.ok ⟨K.NotFound, K.NotFound⟩, t1)
        else if ret = K.KEYEXIST then (.ok ⟨K.KeyExists, K.KeyExists⟩, t1)
        else if ret = K.SUCCESS then
          (.ok ⟨(k1.getD dbtKey.dbt).size, (d1.getD holder.dbt).size⟩, t1)
        else (.error (BdbExceptionFactory.Create ret), t1)

/-- What an attempt whose record call does not report deadlock leaves: the value returned or the
exception thrown, and the data slot. -/
def NativeResult.outcome (data : Option Dbt) : NativeResult → Except Exn Int × Option Dbt
  | .returns ret size _ => (.ok ret, afterCall data size)
  | .throws e => (.error (.native e), data)

/-- The part `u` of a trace holds `nCalls` record calls, `nLogs` log entries and the steps `s`. -/
def Adds (u : Trace) (nCalls nLogs : Nat) (s : List Step) : Prop :=
  calls u = nCalls ∧ logs u = nLogs ∧ steps u = s

/-- The part `u` of a trace takes the `begun` flag of a scope from `b` to `b'` by steps a scope can
make. -/
def Moves (b : Bool) (u : Trace) (b' : Bool) : Prop := scopeRun b (steps u) = some b'

/-- A step of an operation that starts with scope `c` and trace `t` and ends with scope `c1` and
trace `t1` has only added to the trace, and has moved the scope by steps a scope can make. -/
def ScopeSound (c : TransactionContext) (t : Trace) (c1 : TransactionContext) (t1 : Trace) :
    Prop :=
  ∃ u, t1 = t ++ u ∧ Moves c.begun u c1.begun

/-- An operation that ended with scope `c` and trace `t` has ended every scope it began: the
scope is not begun, the steps of the trace are steps a scope can make from not begun to not
begun, and there are as many commits and rollbacks together as there are begins. -/
def EndsEveryScope (c : TransactionContext) (t : Trace) : Prop :=
  c.begun = false ∧ scopeRun false (steps t) = some false ∧
    (steps t).count .begin = (steps t).count .commit + (steps t).count .rollback

/-- What `TryMemStd` makes of the record call that ends the loop: the pair `(ret, size)`,
`(BUFFER_SMALL, size)` for a `DbMemoryException`, a `BdbException` for another native
exception. -/
def NativeResult.tryMemStd (K : Constants) : NativeResult → Except Exn (Int × Int)
  | .returns ret size _ => .ok (ret, size)
  | .throws (.DbMemoryException _ size) => .ok (K.BUFFER_SMALL, size)
  | .throws e => .error (BdbExceptionFactory.CreateEx e)

/-- What `TryStd` makes of the record call that ends the loop. -/
def NativeResult.tryStd : NativeResult → Except Exn Int
  | .returns ret _ _ => .ok ret
  | .throws e => .error (BdbExceptionFactory.CreateEx e)

/-- The steps of an operation on a fresh scope that ends with the step `last` after `k`
deadlocked attempts and one more record call. -/
def retrySteps (k : Nat) (last : Step) : List Step :=
  [.begin] ++ (List.replicate k [Step.call, .rollback, .begin]).flatten ++ [.call, last]

/-! ## The cursor's `Get` into caller buffers -/

/-- The key slot of `CursorImpl::Get(DataBuffer key, DataBuffer value, int offset,
CursorPosition position, GetOpFlags flags)`, by position: `initialize_for_read` for `Set`,
`initialize_for_write` for every other position. -/
def CursorImpl.Get.dbtKey (K : Constants) (key : DataBuffer) (position : Nat) :
    Except Exn DbtHolder :=
  if position = K.Set then DbtHolder.initialize_for_read {} key
  else DbtHolder.initialize_for_write K {} key

/-- The value slot the two `CursorImpl::Get` into caller buffers build from an initialized
holder: `if (offset >= 0) dbtBuffer.set_for_partial(offset, dbtBuffer.get_size())`. -/
def CursorImpl.Get.dbtBuffer (K : Constants) (holder : DbtHolder) (offset : Int) : Dbt :=
  if offset ≥ 0 then DbtExtended.set_for_partial K holder.dbt offset holder.dbt.size
  else holder.dbt

/-- The `switch (ret)` and the `return` that end the two `CursorImpl::Get` into caller buffers:
`dbtKey` and `dbtBuffer` are the slots as the engine left them. -/
def CursorImpl.Get.lengths (K : Constants) (position : Nat) (ret : Int) (dbtKey dbtBuffer : Dbt) :
    Except Exn Lengths :=
  if ret = K.NOTFOUND then .ok ⟨K.NotFound, K.NotFound⟩
  else if ret = K.KEYEMPTY then .ok ⟨K.Deleted, K.Deleted⟩
  else if ret = K.SUCCESS ∨ ret = K.BUFFER_SMALL then
    .ok ⟨if position = K.Set then 0 else dbtKey.size, dbtBuffer.size⟩
  else .error (BdbExceptionFactory.Create ret)

/-- Source: `CursorImpl::Get(DataBuffer key, DataBuffer value, int offset,
CursorPosition position, GetOpFlags flags)`. -/
def CursorImpl.Get (K : Constants) (cur : CursorImpl) (key value : DataBuffer) (offset : Int)
    (position flags : Nat) (t : Trace) : Except Exn Lengths × Trace :=
  match CursorImpl.Get.dbtKey K key position with
  | .error e => (.error e, t)
  | .ok dbtKey =>
    match DbtHolder.initialize_for_write K {} value with
    | .error e => (.error e, t)
    | .ok holder =>
      match cur.DeadlockLoop K (some dbtKey.dbt)
          (some (CursorImpl.Get.dbtBuffer K holder offset)) (position ||| flags : Nat)
          CursorImpl.get_core t with
      | (.error e, _, _, t1) => (.error e, t1)
      | (.ok ret, k1, d1, t1) =>
        (CursorImpl.Get.lengths K position ret (k1.getD dbtKey.dbt) (d1.getD holder.dbt), t1)

/-- The key slot of `CursorImpl::Get(DataBuffer key, int keyOffset, DataBuffer value,
int valueOffset, CursorPosition position, GetOpFlags flags)`, by position: as in the other
overload, and for a position other than `Set`
`if (keyOffset >= 0) dbtKey.set_for_partial(keyOffset, dbtKey.get_size())`. -/
def CursorImpl.GetOffsets.dbtKey (K : Constants) (key : DataBuffer) (keyOffset : Int)
    (position : Nat) : Except Exn DbtHolder :=
  if position = K.Set then DbtHolder.initialize_for_read {} key
  else
    match DbtHolder.initialize_for_write K {} key with
    | .error e => .error e
    | .ok h =>
      .ok (if keyOffset ≥ 0 then
          { h with dbt := DbtExtended.set_for_partial K h.dbt keyOffset h.dbt.size }
        else h)

/-- Source: `CursorImpl::Get(DataBuffer key, int keyOffset, DataBuffer value, int valueOffset,
CursorPosition position, GetOpFlags flags)`. -/
def CursorImpl.GetOffsets (K : Constants) (cur : CursorImpl) (key : DataBuffer) (keyOffset : Int)
    (value : DataBuffer) (valueOffset : Int) (position flags : Nat) (t : Trace) :
    Except Exn Lengths × Trace :=
  match CursorImpl.GetOffsets.dbtKey K key keyOffset position with
  | .error e => (.error e, t)
  | .ok dbtKey =>
    match DbtHolder.initialize_for_write K {} value with
    | .error e => (.error e, t)
    | .ok holder =>
      match cur.DeadlockLoop K (some dbtKey.dbt)
          (some (CursorImpl.Get.dbtBuffer K holder valueOffset)) (position ||| flags : Nat)
          CursorImpl.get_core t with
      | (.error e, _, _, t1) => (.error e, t1)
      | (.ok ret, k1, d1, t1) =>
        (CursorImpl.Get.lengths K position ret (k1.getD dbtKey.dbt) (d1.getD holder.dbt), t1)

/-- Source: `CursorImpl::Delete(DeleteOpFlags flags)`. -/
def CursorImpl.Delete (K : Constants) (cur : CursorImpl) (flags : Nat) (t : Trace) :
    Except Exn Bool × Trace :=
  match cur.DeadlockLoop K none none (flags : Nat) CursorImpl.del_core t with
  | (.error e, _, _, t1) => (.error e, t1)
  | (.ok ret, _, _, t1) =>
    if ret = K.KEYEMPTY then (.ok false, t1)
    else if ret = K.SUCCESS then (.ok true, t1)
    else (.error (BdbExceptionFactory.Create ret), t1)

/-! ## The code and the message of a `BdbException` -/

/-- The managed `BdbException` as its constructor builds it: the code and the message, `none`
for a `nullptr` message. -/
structure BdbException where
  Code : Int
  Message : Option String
deriving DecidableEq, Repr

/-- A native exception as the factory reads it: which exception it is, and the text of
`what()`. -/
structure NativeError where
  ex : NativeExn
  what : String
deriving DecidableEq, Repr

/-- Source: `BdbExceptionFactory::CombineMessages`. `cex` is the text `cex->what()`, `none` for
`NULL`; `message` is `none` for `nullptr`. -/
def BdbExceptionFactory.CombineMessages (cex : Option String) (message : Option String) :
    Option String :=
  match cex with
  | none => message
  | some libraryMessage =>
    match message with
    | none => some libraryMessage
    | some m => if m = "" then some libraryMessage else some (m ++ ": " ++ libraryMessage)

/-- Source: `BdbExceptionFactory::Create(int returnCode, const exception *cex,
String ^message)`. -/
def BdbExceptionFactory.Create.int_exception (returnCode : Int) (cex : Option NativeError)
    (message : Option String) : BdbException :=
  ⟨SetCode returnCode (cex.map NativeError.ex) none,
    CombineMessages (cex.map NativeError.what) message⟩

/-- Source: `BdbExceptionFactory::Create(int returnCode, const DbException *dbex,
String ^message)`. The argument is a `DbException`, so it has an errno. -/
def BdbExceptionFactory.Create.int_DbException (returnCode : Int) (dbex : Option (Int × String))
    (message : Option String) : BdbException :=
  ⟨SetCode returnCode none (dbex.map Prod.fst), CombineMessages (dbex.map Prod.snd) message⟩

/-- Source: `BdbExceptionFactory::Create(int returnCode, String ^message)`, with the message. -/
def BdbExceptionFactory.Create.int (returnCode : Int) (message : Option String) : BdbException :=
  ⟨SetCode returnCode none none, message⟩

/-- Source: `BdbExceptionFactory::Create(const exception *cex, String ^message)`, with the
message. -/
def BdbExceptionFactory.Create.exception (cex : Option NativeError) (message : Option String) :
    BdbException :=
  ⟨SetCode 0 (cex.map NativeError.ex) none, CombineMessages (cex.map NativeError.what) message⟩

/-- Source: `BdbExceptionFactory::Create(const DbException *dbex, String ^message)`. -/
def BdbExceptionFactory.Create.DbException (dbex : Option (Int × String))
    (message : Option String) : BdbException :=
  ⟨SetCode 0 none (dbex.map Prod.fst), CombineMessages (dbex.map Prod.snd) message⟩

/-! ## The record operations on native transfer records

`Put(Dbt*, Dbt*)`, `Get(Dbt*, Dbt*)`, `Get(String^)` and `Delete(Dbt*)` each spell out the same
retry loop, with its three `catch` clauses; the read-modify-write `Put` has the same three
clauses. The clauses are given once, with the places where the copies differ as arguments. -/

/-- Source: `BdbExceptionFactory::Create(int returnCode, const DbException *dbex,
String ^message)`, the exception with its code; `errno` is `dbex->get_errno()`. -/
def BdbExceptionFactory.CreateDb (returnCode errno : Int) : Exn :=
  .BdbException (SetCode returnCode none (some errno))

/-- Source: `BdbExceptionFactory::Create(int returnCode, const exception *cex,
String ^message)`, the exception with its code. -/
def BdbExceptionFactory.CreateRet (returnCode : Int) (cex : NativeExn) : Exn :=
  .BdbException (SetCode returnCode (some cex) none)

/-- The `catch (DbException &ae)` clause around a `RollbackTrans(txn)` that threw `e`:
`Log(key, ae.get_errno(), "txn abort failed in ...")` and
`throw BdbExceptionFactory::Create(ret, &ae, ...)`. An exception that is not a `DbException`
passes the clause. -/
def DatabaseImpl.abortFailed (methodName : MethodName) (ret : Int) (e : Exn) (t : Trace) :
    Exn × Trace :=
  match e with
  | .native ae =>
    match ae.get_errno with
    | some errno =>
      (BdbExceptionFactory.CreateDb ret errno,
        DatabaseImpl.Log errno (.TxnAbortFailed methodName) t)
    | none => (.native ae, t)
  | e => (e, t)

/-- The `catch (DbDeadlockException &de)` clause of the retry loops: `RollbackTrans(txn)`,
`retry_count++`, at the limit `errx("... exceeded retry limit. Giving up.")` and the
`BdbException`; below the limit `Log(key, de.get_errno(), "Retrying")` where the copy has that
line, and the loop goes on with the new `retry_count`, the `.ok` result. -/
def DatabaseImpl.catchDeadlock (db : DatabaseImpl) (methodName : MethodName)
    (logsRetrying : Bool) (ret errno : Int) (txn : Option Nat) (retry_count : Int) (t : Trace) :
    Except Exn Int × Trace :=
  match db.RollbackTrans txn t with
  | (.error e, t1) =>
    (.error (DatabaseImpl.abortFailed methodName ret e t1).1,
      (DatabaseImpl.abortFailed methodName ret e t1).2)
  | (.ok _, t1) =>
    if retry_count + 1 ≥ db.m_maxDeadlockRetries then
      (.error (BdbExceptionFactory.CreateDb ret errno), t1 ++ [.errx (.GivingUp methodName)])
    else
      (.ok (retry_count + 1), if logsRetrying then DatabaseImpl.Log errno .Retrying t1 else t1)

/-- The `catch (const DbException &ex)` clause of the retry loops:
`Log(key, ex.get_errno(), "Error getting data")`, `RollbackTrans(txn)`, then the throw: in
`Get(Dbt*, Dbt*)` a `BufferSmallException` when the errno is `BUFFER_SMALL`, else the
`BdbException`. -/
def DatabaseImpl.catchDbException (K : Constants) (db : DatabaseImpl) (methodName : MethodName)
    (bufferSmall : Bool) (ret errno : Int) (txn : Option Nat) (data : Option Dbt) (t : Trace) :
    Exn × Trace :=
  match db.RollbackTrans txn (DatabaseImpl.Log errno .ErrorGettingData t) with
  | (.error e, t1) => DatabaseImpl.abortFailed methodName ret e t1
  | (.ok _, t1) =>
    if bufferSmall = true ∧ errno = K.BUFFER_SMALL then
      (.BufferSmallException (data.getD {}).ulen (data.getD {}).size, t1)
    else (BdbExceptionFactory.CreateDb ret errno, t1)

/-- The `catch (const exception &ex)` clause of the retry loops, reached by a native exception
that is not a `DbException`: `if (txn != NULL) RollbackTrans(txn)`, then the `BdbException`. -/
def DatabaseImpl.catchException (db : DatabaseImpl) (methodName : MethodName) (ret : Int)
    (ex : NativeExn) (txn : Option Nat) (t : Trace) : Exn × Trace :=
  match txn with
  | none => (BdbExceptionFactory.CreateRet ret ex, t)
  | some _ =>
    match db.RollbackTrans txn t with
    | (.error e, t1) => DatabaseImpl.abortFailed methodName ret e t1
    | (.ok _, t1) => (BdbExceptionFactory.CreateRet ret ex, t1)

/-- Where the copies of the retry loop differ. -/
structure RetryShape where
  /-- the method named in "... exceeded retry limit. Giving up." and "txn abort failed in ..." -/
  methodName : MethodName
  /-- does the deadlock clause end with `Log(key, de.get_errno(), "Retrying")`? -/
  logsRetrying : Bool
  /-- is `BUFFER_SMALL` thrown as a `BufferSmallException`? -/
  bufferSmall : Bool
  /-- the return codes for which the `switch (ret)` returns -/
  returns : Constants → Int → Bool
  /-- is the `switch (ret)` inside the `try` block, as in `Put(Dbt*, Dbt*)`? Where it is not,
  it stands after the `catch` clauses and is also reached from a deadlock clause that did not
  throw. -/
  switchInTry : Bool

/-- The `try` block of the retry loops: `txn = BeginTrans(); ret = m_pDb->...(txn, ...);
CommitTrans(txn);`. The result is whether it completed or what it threw, then `ret`, `txn`, the
data slot and the trace as they are at that point. -/
def DatabaseImpl.retryLoop.attempt (db : DatabaseImpl) (bdbCall : BdbCall) (key : Option Dbt)
    (ret : Int) (txn : Option Nat) (data : Option Dbt) (t : Trace) :
    Except Exn Unit × Int × Option Nat × Option Dbt × Trace :=
  match db.BeginTrans t with
  | (.error e, t1) => (.error e, ret, txn, data, t1)
  | (.ok txn1, t1) =>
    match bdbCall db.m_pDb (calls t1) txn1 key data 0 with
    | .throws e => (.error (.native e), ret, txn1, data, t1 ++ [.call txn1 key data 0])
    | .returns ret1 size _ =>
      match db.CommitTrans txn1 (t1 ++ [.call txn1 key data 0]) with
      | (.error e, t2) => (.error e, ret1, txn1, afterCall data size, t2)
      | (.ok _, t2) => (.ok (), ret1, txn1, afterCall data size, t2)

/-- The `switch (ret)` of the retry loops: it returns `ret`, given as `some ret`, or throws. -/
def DatabaseImpl.retryLoop.switch (K : Constants) (shape : RetryShape) (ret : Int)
    (data : Option Dbt) (t : Trace) : Except Exn (Option Int) × Option Dbt × Trace :=
  if shape.returns K ret = true then (.ok (some ret), data, t)
  else if shape.bufferSmall = true ∧ ret = K.BUFFER_SMALL then
    (.error (.BufferSmallException (data.getD {}).ulen (data.getD {}).size), data, t)
  else (.error (BdbExceptionFactory.Create ret), data, t)

/-- The `while (retry_count < m_maxDeadlockRetries)` loop of `Put(Dbt*, Dbt*)`,
`Get(Dbt*, Dbt*)`, `Get(String^)` and `Delete(Dbt*)`: the `try` block, the three `catch`
clauses and the `switch (ret)`. The result is `some ret` when the `switch` returns, `none` when
the `while` condition fails. In `Put(Dbt*, Dbt*)` the `switch` is the end of the `try` block, so
a deadlock clause that does not throw leads to the next pass. In the three others the `switch`
follows the `catch` clauses, so a deadlock clause that does not throw leads into the `switch`
with `ret` as it was before the record call threw, and the `switch` returns or throws: no pass
is followed by another. -/
def DatabaseImpl.retryLoop (K : Constants) (db : DatabaseImpl) (shape : RetryShape)
    (bdbCall : BdbCall) (key : Option Dbt) :
    Nat → Int → Option Nat → Int → Option Dbt → Trace →
      Except Exn (Option Int) × Option Dbt × Trace
  | 0, _, _, _, data, t => (.error .outOfFuel, data, t)
  | fuel + 1, ret, txn, retry_count, data, t =>
    if retry_count < db.m_maxDeadlockRetries then
      match DatabaseImpl.retryLoop.attempt db bdbCall key ret txn data t with
      | (.ok _, ret1, _, d1, t1) => DatabaseImpl.retryLoop.switch K shape ret1 d1 t1
      | (.error (.native (.DbDeadlockException errno)), ret1, txn1, d1, t1) =>
        match db.catchDeadlock shape.methodName shape.logsRetrying ret1 errno txn1 retry_count
            t1 with
        | (.ok retry_count1, t2) =>
          if shape.switchInTry = true then
            retryLoop K db shape bdbCall key fuel ret1 txn1 retry_count1 d1 t2
          else DatabaseImpl.retryLoop.switch K shape ret1 d1 t2
        | (.error e, t2) => (.error e, d1, t2)
      | (.error (.native ex), ret1, txn1, d1, t1) =>
        match ex.get_errno with
        | some errno =>
          (.error (db.catchDbException K shape.methodName shape.bufferSmall ret1 errno txn1 d1
              t1).1, d1,
            (db.catchDbException K shape.methodName shape.bufferSmall ret1 errno txn1 d1 t1).2)
        | none =>
          (.error (db.catchException shape.methodName ret1 ex txn1 t1).1, d1,
            (db.catchException shape.methodName ret1 ex txn1 t1).2)
      | (.error e, _, _, d1, t1) => (.error e, d1, t1)
    else (.ok none, data, t)

/-- The loop of `Put(Dbt*, Dbt*)`: it logs "Retrying", and its `switch`, which is the end of
the `try` block, returns for `SUCCESS` only. -/
def DatabaseImpl.PutDbt.shape : RetryShape :=
  { methodName := .Put, logsRetrying := true, bufferSmall := false,
    returns := fun K ret => ret == K.SUCCESS, switchInTry := true }

/-- Source: `DatabaseImpl::Put(Dbt *dbtKey, Dbt *dbtValue)`. -/
def DatabaseImpl.PutDbt (K : Constants) (db : DatabaseImpl) (dbtKey dbtValue : Dbt)
    (t : Trace) : Except Exn Unit × Trace :=
  match db.retryLoop K DatabaseImpl.PutDbt.shape put_core (some dbtKey)
      (max 1 db.m_maxDeadlockRetries).toNat 0 none 0 (some dbtValue) t with
  | (.ok _, _, t1) => (.ok (), t1)
  | (.error e, _, t1) => (.error e, t1)

/-- The loop of `Get(Dbt*, Dbt*)`: it logs "Retrying", throws `BufferSmallException` for
`BUFFER_SMALL`, and its `switch`, which follows the `catch` clauses, returns for `SUCCESS`,
`NOTFOUND` and `KEYEMPTY`. -/
def DatabaseImpl.GetDbt.shape : RetryShape :=
  { methodName := .Get, logsRetrying := true, bufferSmall := true,
    returns := fun K ret => ret == K.SUCCESS || ret == K.NOTFOUND || ret == K.KEYEMPTY,
    switchInTry := false }

/-- Source: `DatabaseImpl::Get(Dbt *dbtKey, Dbt *dbtValue)`: the code returned, 0 when the loop
is not entered, and the value slot. -/
def DatabaseImpl.GetDbt (K : Constants) (db : DatabaseImpl) (dbtKey dbtValue : Dbt)
    (t : Trace) : Except Exn Int × Dbt × Trace :=
  match db.retryLoop K DatabaseImpl.GetDbt.shape get_core (some dbtKey)
      (max 1 db.m_maxDeadlockRetries).toNat 0 none 0 (some dbtValue) t with
  | (.ok r, d1, t1) => (.ok (r.getD 0), d1.getD dbtValue, t1)
  | (.error e, d1, t1) => (.error e, d1.getD dbtValue, t1)

/-- The loop of `Delete(Dbt*)`: no "Retrying" line, the messages name `Get`, and its `switch`,
which follows the `catch` clauses, returns for `SUCCESS`, `NOTFOUND` and `KEYEMPTY`. -/
def DatabaseImpl.DeleteDbt.shape : RetryShape :=
  { methodName := .Get, logsRetrying := false, bufferSmall := false,
    returns := fun K ret => ret == K.SUCCESS || ret == K.NOTFOUND || ret == K.KEYEMPTY,
    switchInTry := false }

/-- Source: `DatabaseImpl::Delete(Dbt *dbtKey)`. -/
def DatabaseImpl.DeleteDbt (K : Constants) (db : DatabaseImpl) (dbtKey : Dbt) (t : Trace) :
    Except Exn Int × Trace :=
  match db.retryLoop K DatabaseImpl.DeleteDbt.shape del_core (some dbtKey)
      (max 1 db.m_maxDeadlockRetries).toNat 0 none 0 none t with
  | (.ok r, _, t1) => (.ok (r.getD 0), t1)
  | (.error e, _, t1) => (.error e, t1)

/-! ## The record operations with managed keys -/

/-- Modelled from the spec: the managed `DatabaseEntry` class is declared outside these sources.
`Buffer` is given by its length, `none` for `nullptr`; `StartPosition` and `Length` delimit the
entry inside the buffer. -/
structure DatabaseEntry where
  Buffer : Option Int
  StartPosition : Int := 0
  Length : Int
deriving DecidableEq, Repr

/-- Source: `dbEntry->Length = n`. -/
def DatabaseEntry.setLength (e : DatabaseEntry) (n : Int) : DatabaseEntry :=
  ⟨e.Buffer, e.StartPosition, n⟩

/-- Source: the macro `CheckForEmptyKey(key, methodName)`; `keyLength` is `(key)->Length`. -/
def CheckForEmptyKey (K : Constants) (keyLength : Int) : Except Exn Unit :=
  if keyLength = 0 then .error (BdbExceptionFactory.Create K.KEYZEROLENGTH) else .ok ()

/-- Source: the macro `CheckForNullKey(key, methodName)`; `isNull` is `(key) == nullptr`. -/
def CheckForNullKey (K : Constants) (isNull : Bool) : Except Exn Unit :=
  if isNull then .error (BdbExceptionFactory.Create K.KEYNULL) else .ok ()

/-- Source: the macro `CheckForNullOrEmptyKey(key, methodName)`, that is
`CheckForNullKey(key, methodName); else CheckForEmptyKey(key, methodName)`. A managed array or
string is given by its `Length`, `none` for `nullptr`. -/
def CheckForNullOrEmptyKey (K : Constants) (key : Option Int) : Except Exn Unit :=
  match CheckForNullKey K key.isNone with
  | .error e => .error e
  | .ok _ => CheckForEmptyKey K (key.getD 0)

/-- The `try` block and the `catch (const exception &ex)` clause the `Put` overloads with a
managed key share, after the key checks: `get_type`, the `switch (dbType)` that sets the key
size (`keyLength` for a hash or B-tree store, `sizeof(db_recno_t)` for a queue or record-number
store), then `Put(&dbtKey, &dbtValue)`. -/
def DatabaseImpl.Put.byType (K : Constants) (db : DatabaseImpl) (keyLength : Int)
    (dbtValue : Dbt) (t : Trace) : Except Exn Unit × Trace :=
  let ret := db.m_pDb.get_type.1
  let t1 := t ++ [.op .get_type]
  let put := fun (size : Int) =>
    match db.PutDbt K { size := size } dbtValue t1 with
    | (.error (.native ex), t2) => (.error (BdbExceptionFactory.CreateRet ret ex), t2)
    | r => r
  if ret ≠ 0 then (.error (BdbExceptionFactory.Create ret), t1)
  else
    match db.m_pDb.get_type.2 with
    | .DB_HASH => put keyLength
    | .DB_BTREE => put keyLength
    | .DB_QUEUE => put 4
    | .DB_RECNO => put 4
    | .DB_UNKNOWN => (.error (BdbExceptionFactory.Create ret), t1)
    | .other => (.error (BdbExceptionFactory.Create ret), t1)

/-- Source: `DatabaseImpl::Put(String ^key, String ^value)`; a string is given by its `Length`
in characters of two bytes. -/
def DatabaseImpl.PutString (K : Constants) (db : DatabaseImpl) (key : Option Int) (value : Int)
    (t : Trace) : Except Exn Unit × Trace :=
  match CheckForNullOrEmptyKey K key with
  | .error e => (.error e, t)
  | .ok _ => DatabaseImpl.Put.byType K db (key.getD 0 * 2) { size := value * 2 } t

/-- Source: `DatabaseImpl::Put(array<Byte> ^key, array<Byte> ^value)`. -/
def DatabaseImpl.PutBytes (K : Constants) (db : DatabaseImpl) (key value : Option Int)
    (t : Trace) : Except Exn Unit × Trace :=
  match CheckForNullOrEmptyKey K key with
  | .error e => (.error e, t)
  | .ok _ => DatabaseImpl.Put.byType K db (key.getD 0) { size := value.getD 0 } t

/-- The value slot of the `Put` overloads with a `DatabaseEntry` value:
`if (value != nullptr && valueBuffer != nullptr) size = value->Length`. -/
def DatabaseImpl.Put.entryValue (value : DatabaseEntry) : Dbt :=
  { size := if value.Buffer.isSome then value.Length else 0 }

/-- Source: `DatabaseImpl::Put(array<Byte> ^key, DatabaseEntry ^value)`. -/
def DatabaseImpl.PutBytesEntry (K : Constants) (db : DatabaseImpl) (key : Option Int)
    (value : DatabaseEntry) (t : Trace) : Except Exn Unit × Trace :=
  match CheckForNullOrEmptyKey K key with
  | .error e => (.error e, t)
  | .ok _ => DatabaseImpl.Put.byType K db (key.getD 0) (DatabaseImpl.Put.entryValue value) t

/-- Source: `DatabaseImpl::Put(DatabaseEntry ^key, DatabaseEntry ^value)`. -/
def DatabaseImpl.PutEntry (K : Constants) (db : DatabaseImpl) (key : Option DatabaseEntry)
    (value : DatabaseEntry) (t : Trace) : Except Exn Unit × Trace :=
  match CheckForNullKey K key.isNone with
  | .error e => (.error e, t)
  | .ok _ =>
    match CheckForNullOrEmptyKey K (key.bind DatabaseEntry.Buffer) with
    | .error e => (.error e, t)
    | .ok _ =>
      DatabaseImpl.Put.byType K db ((key.bind DatabaseEntry.Buffer).getD 0)
        (DatabaseImpl.Put.entryValue value) t

/-- The value slot of the `Get` overloads with a `DatabaseEntry` value: the whole buffer, as
user memory. -/
def DatabaseImpl.Get.entryValue (K : Constants) (value : DatabaseEntry) : Dbt :=
  { size := value.Buffer.getD 0, ulen := value.Buffer.getD 0, flags := K.DB_DBT_USERMEM }

/-- The end of the `Get` overloads with a `DatabaseEntry` value:
`if (Get(&dbtKey, &dbtValue) == DbRetVal::SUCCESS) value->Length = dbtValue.get_size();
return value;`. -/
def DatabaseImpl.Get.intoEntry (K : Constants) (db : DatabaseImpl) (dbtKey : Dbt)
    (value : DatabaseEntry) (t : Trace) : Except Exn DatabaseEntry × Trace :=
  match db.GetDbt K dbtKey (DatabaseImpl.Get.entryValue K value) t with
  | (.error e, _, t1) => (.error e, t1)
  | (.ok ret, d1, t1) =>
    (.ok (if ret = K.SUCCESS then value.setLength d1.size else value), t1)

/-- Source: `DatabaseImpl::Get(DatabaseEntry ^key, DatabaseEntry ^value)`. -/
def DatabaseImpl.GetEntry (K : Constants) (db : DatabaseImpl) (key : Option DatabaseEntry)
    (value : DatabaseEntry) (t : Trace) : Except Exn DatabaseEntry × Trace :=
  match CheckForNullKey K key.isNone with
  | .error e => (.error e, t)
  | .ok _ =>
    match CheckForNullOrEmptyKey K (key.bind DatabaseEntry.Buffer) with
    | .error e => (.error e, t)
    | .ok _ =>
      DatabaseImpl.Get.intoEntry K db { size := (key.bind DatabaseEntry.Buffer).getD 0 } value t

/-- Source: `DatabaseImpl::Get(array<Byte> ^key, DatabaseEntry ^value)`. -/
def DatabaseImpl.GetBytesEntry (K : Constants) (db : DatabaseImpl) (key : Option Int)
    (value : DatabaseEntry) (t : Trace) : Except Exn DatabaseEntry × Trace :=
  match CheckForNullOrEmptyKey K key with
  | .error e => (.error e, t)
  | .ok _ => DatabaseImpl.Get.intoEntry K db { size := key.getD 0 } value t

/-- The loop of `Get(String^)`: no "Retrying" line, and its `switch`, which follows the `catch`
clauses, returns for `SUCCESS`, `NOTFOUND` and `KEYEMPTY`. -/
def DatabaseImpl.GetString.shape : RetryShape :=
  { methodName := .Get, logsRetrying := false, bufferSmall := false,
    returns := fun K ret => ret == K.SUCCESS || ret == K.NOTFOUND || ret == K.KEYEMPTY,
    switchInTry := false }

/-- Source: `DatabaseImpl::Get(String ^key)`: the length in characters of the string returned,
`none` for `nullptr`. -/
def DatabaseImpl.GetString (K : Constants) (db : DatabaseImpl) (key : Option Int) (t : Trace) :
    Except Exn (Option Int) × Trace :=
  match CheckForNullOrEmptyKey K key with
  | .error e => (.error e, t)
  | .ok _ =>
    match db.retryLoop K DatabaseImpl.GetString.shape get_core (some { size := key.getD 0 * 2 })
        (max 1 db.m_maxDeadlockRetries).toNat 0 none 0
        (some (Dbt.set_flags {} K.DB_DBT_MALLOC)) t with
    | (.error e, _, t1) => (.error e, t1)
    | (.ok none, _, t1) => (.ok none, t1)
    | (.ok (some ret), d1, t1) =>
      if ret = K.SUCCESS then (.ok (some ((d1.getD {}).size / 2)), t1) else (.ok none, t1)

/-- Source: `DatabaseImpl::Delete(array<Byte> ^key)`. -/
def DatabaseImpl.DeleteBytes (K : Constants) (db : DatabaseImpl) (key : Option Int)
    (t : Trace) : Except Exn Int × Trace :=
  match CheckForNullOrEmptyKey K key with
  | .error e => (.error e, t)
  | .ok _ => db.DeleteDbt K { size := key.getD 0 } t

/-- Source: `DatabaseImpl::Delete(String ^key)`. -/
def DatabaseImpl.DeleteString (K : Constants) (db : DatabaseImpl) (key : Option Int)
    (t : Trace) : Except Exn Unit × Trace :=
  match CheckForNullOrEmptyKey K key with
  | .error e => (.error e, t)
  | .ok _ =>
    match db.DeleteDbt K { size := key.getD 0 * 2 } t with
    | (.error e, t1) => (.error e, t1)
    | (.ok _, t1) => (.ok (), t1)

/-- Source: `DatabaseImpl::Delete(DatabaseEntry ^key)`. -/
def DatabaseImpl.DeleteEntry (K : Constants) (db : DatabaseImpl) (key : Option DatabaseEntry)
    (t : Trace) : Except Exn Unit × Trace :=
  match CheckForNullKey K key.isNone with
  | .error e => (.error e, t)
  | .ok _ =>
    match CheckForNullOrEmptyKey K (key.bind DatabaseEntry.Buffer) with
    | .error e => (.error e, t)
    | .ok _ =>
      match db.DeleteDbt K { size := (key.bind DatabaseEntry.Buffer).getD 0 } t with
      | (.error e, t1) => (.error e, t1)
      | (.ok _, t1) => (.ok (), t1)

/-! ## The read-modify-write `Put` -/

/-- What the engine answers to a call of the read-modify-write `Put`. -/
inductive Answer
  | returns (ret : Int)
  | throws (e : NativeExn)
deriving DecidableEq, Repr

/-- The engine as the read-modify-write `Put` sees it: what it answers, in the `n`-th pass of
the loop (counting from 0), to the cursor open, the cursor read, each of the writes, and the
cursor close. -/
structure RmwEngine where
  cursor : Nat → Answer
  get : Nat → Answer
  put_CURRENT : Nat → Answer
  put_KEYFIRST : Nat → Answer
  put_NOOVERWRITE : Nat → Answer
  del : Nat → Answer
  close : Nat → Answer

/-- The local variables of the read-modify-write `Put` that its loop changes, with the entry
`dbEntry` points to and the trace. `cur` is `cur != NULL`. -/
structure RmwState where
  ret : Int := 0
  txn : Option Nat := none
  retry_count : Int := 0
  cur : Bool := false
  dbEntry : DatabaseEntry
  t : Trace
deriving DecidableEq, Repr

/-- Source: `&buffer[0]` on a managed array, given by its length with `none` for `nullptr`:
the address of the first element. It throws `NullReferenceException` for `nullptr` and
`IndexOutOfRangeException` for an array of length 0. -/
def addressOfFirst (buffer : Option Int) : Except Exn Unit :=
  match buffer with
  | none => .error .NullReferenceException
  | some length => if 0 < length then .ok () else .error .IndexOutOfRangeException

/-- The key slot of the read-modify-write `Put`: the key array when there is one, else the four
bytes of `objectId`. -/
def DatabaseImpl.PutRMW.dbtKey (key : Option Int) : Dbt :=
  match key with
  | some length => { size := length }
  | none => { size := 4 }

/-- The read slot `dbtGetValue` of the read-modify-write `Put`. -/
def DatabaseImpl.PutRMW.dbtGetValue (K : Constants) (dbEntry : DatabaseEntry) : Dbt :=
  { size := dbEntry.Length, ulen := dbEntry.Buffer.getD 0, doff := dbEntry.StartPosition,
    dlen := dbEntry.Length, flags := K.DB_DBT_USERMEM ||| K.DB_DBT_PARTIAL }

/-- The write of the read-modify-write `Put`, after `rmwDelegate(dbEntry)`: the
`if (dbEntry->Length > 0) ... else if (dbEntry->Length == 0) ...` block. `s.ret` is the code of
the cursor read, `s.dbEntry` the entry the delegate left. For a length `> 0` the write slot is
built first, with `pin_ptr<Byte> pValue(&value[0])` on the entry's buffer, which throws a
managed exception when the buffer is `nullptr` or empty. -/
def DatabaseImpl.PutRMW.write (K : Constants) (db : DatabaseImpl) (eng : RmwEngine)
    (dbtKey : Dbt) (n : Nat) (s : RmwState) : Except Exn Unit × RmwState :=
  if s.dbEntry.Length > 0 then
    match addressOfFirst s.dbEntry.Buffer with
    | .error e => (.error e, s)
    | .ok _ =>
      if s.ret = K.SUCCESS then
        -- modify existing record
        match eng.put_CURRENT n with
        | .throws e => (.error (.native e), { s with t := s.t ++ [.op .cursor_put_CURRENT] })
        | .returns ret => (.ok (), { s with ret := ret, t := s.t ++ [.op .cursor_put_CURRENT] })
      else if s.ret = K.NOTFOUND ∨ s.ret = K.KEYEMPTY then
        -- add new record
        if db.m_isCDB then
          match eng.put_KEYFIRST n with
          | .throws e =>
            (.error (.native e), { s with t := s.t ++ [.op (.cursor_put_KEYFIRST dbtKey)] })
          | .returns ret =>
            (.ok (), { s with ret := ret, t := s.t ++ [.op (.cursor_put_KEYFIRST dbtKey)] })
        else
          match eng.put_NOOVERWRITE n with
          | .throws e =>
            (.error (.native e), { s with t := s.t ++ [.op (.put_NOOVERWRITE s.txn dbtKey)] })
          | .returns ret =>
            if ret = K.KEYEXIST then
              -- `ret = LOCK_DEADLOCK; --retry_count; throw DbDeadlockException(...)`
              (.error (.native (.DbDeadlockException K.LOCK_DEADLOCK)),
                { s with ret := K.LOCK_DEADLOCK, retry_count := s.retry_count - 1,
                         t := s.t ++ [.op (.put_NOOVERWRITE s.txn dbtKey)] })
            else
              (.ok (), { s with ret := ret, t := s.t ++ [.op (.put_NOOVERWRITE s.txn dbtKey)] })
      else (.ok (), s)
  else if s.dbEntry.Length = 0 then
    if s.ret = K.SUCCESS then
      -- delete stored record
      match eng.del n with
      | .throws e => (.error (.native e), { s with t := s.t ++ [.op .cursor_del] })
      | .returns ret => (.ok (), { s with ret := ret, t := s.t ++ [.op .cursor_del] })
    else if s.ret = K.NOTFOUND ∨ s.ret = K.KEYEMPTY then
      -- no initial record so no action
      (.ok (), { s with ret := K.SUCCESS })
    else (.ok (), s)
  else (.ok (), s)

/-- The end of the `try` block of the read-modify-write `Put`: the cursor close in its own
`try` / `catch (exception &cle)` / `finally { cur = NULL; }`, then `CommitTrans(txn)`. -/
def DatabaseImpl.PutRMW.closeAndCommit (K : Constants) (db : DatabaseImpl) (eng : RmwEngine)
    (n : Nat) (s : RmwState) : Except Exn Unit × RmwState :=
  let s1 : RmwState := { s with cur := false, t := s.t ++ [.op .cursor_close] }
  match eng.close n with
  | .throws cle => (.error (BdbExceptionFactory.CreateEx cle), s1)
  | .returns ret =>
    if ret ≠ K.SUCCESS then (.error (BdbExceptionFactory.Create ret), { s1 with ret := ret })
    else
      match db.CommitTrans s1.txn s1.t with
      | (.error e, t2) => (.error e, { s1 with ret := ret, t := t2 })
      | (.ok _, t2) => (.ok (), { s1 with ret := ret, t := t2 })

/-- The `try` block of the read-modify-write `Put`. `rmwDelegate` is the caller's transform of
the entry, taken to return. -/
def DatabaseImpl.PutRMW.attempt (K : Constants) (db : DatabaseImpl) (eng : RmwEngine)
    (rmwDelegate : DatabaseEntry → DatabaseEntry) (dbtKey dbtGetValue : Dbt) (n : Nat)
    (s : RmwState) : Except Exn Unit × RmwState :=
  match db.BeginTrans s.t with
  | (.error e, t1) => (.error e, { s with t := t1 })
  | (.ok txn, t1) =>
    -- create the cursor
    let s1 : RmwState := { s with txn := txn, t := t1 ++ [.op (.cursor txn db.m_isCDB)] }
    match eng.cursor n with
    | .throws e => (.error (.native e), s1)
    | .returns ret0 =>
      if ret0 ≠ K.SUCCESS then (.error (BdbExceptionFactory.Create ret0), { s1 with ret := ret0 })
      else
        -- get record with cursor retained read lock
        let s2 : RmwState :=
          { s1 with ret := ret0, cur := true,
                    t := s1.t ++ [.op (.cursor_get_SET_RMW dbtKey dbtGetValue)] }
        match eng.get n with
        | .throws e => (.error (.native e), s2)
        | .returns ret =>
          if ret = K.NOTFOUND ∨ ret = K.KEYEMPTY ∨ ret = K.SUCCESS then
            let entry := rmwDelegate
              (if ret = K.SUCCESS then s2.dbEntry else s2.dbEntry.setLength 0)
            match DatabaseImpl.PutRMW.write K db eng dbtKey n
                { s2 with ret := ret, dbEntry := entry } with
            | (.error e, s3) => (.error e, s3)
            | (.ok _, s3) =>
              if s3.ret ≠ K.SUCCESS then (.error (BdbExceptionFactory.Create s3.ret), s3)
              else DatabaseImpl.PutRMW.closeAndCommit K db eng n s3
          else (.error (BdbExceptionFactory.Create ret), { s2 with ret := ret })

/-- The three `catch` clauses of the read-modify-write `Put`, applied to what the `try` block
left: `.ok true` when the block returned, `.ok false` when the loop goes on. -/
def DatabaseImpl.PutRMW.catchClauses (K : Constants) (db : DatabaseImpl)
    (r : Except Exn Unit) (s : RmwState) : Except Exn Bool × RmwState :=
  match r with
  | .ok _ => (.ok true, s)
  | .error (.native (.DbDeadlockException errno)) =>
    match db.catchDeadlock .Put true s.ret errno s.txn s.retry_count s.t with
    | (.ok retry_count, t1) => (.ok false, { s with retry_count := retry_count, t := t1 })
    | (.error e, t1) => (.error e, { s with t := t1 })
  | .error (.native ex) =>
    match ex.get_errno with
    | some errno =>
      (.error (db.catchDbException K .Put false s.ret errno s.txn none s.t).1,
        { s with t := (db.catchDbException K .Put false s.ret errno s.txn none s.t).2 })
    | none =>
      (.error (db.catchException .Put s.ret ex s.txn s.t).1,
        { s with t := (db.catchException .Put s.ret ex s.txn s.t).2 })
  | .error e => (.error e, s)

/-- The outer `finally` block of the read-modify-write `Put`: a cursor that is still open is
closed; a close that fails throws in place of what was on its way. -/
def DatabaseImpl.PutRMW.finallyClose (K : Constants) (eng : RmwEngine) (n : Nat)
    (r : Except Exn Bool) (s : RmwState) : Except Exn Bool × RmwState :=
  if s.cur then
    let s1 : RmwState := { s with cur := false, t := s.t ++ [.op .cursor_close] }
    match eng.close n with
    | .throws cle => (.error (BdbExceptionFactory.CreateEx cle), s1)
    | .returns ret =>
      if ret ≠ K.SUCCESS then (.error (BdbExceptionFactory.Create ret), { s1 with ret := ret })
      else (r, { s1 with ret := ret })
  else (r, s)

/-- The `while (retry_count < m_maxDeadlockRetries)` loop of the read-modify-write `Put`; `n`
counts its passes. The loop need not end: a pass that loses the insert race does not count
against the limit, so the fuel is an argument. -/
def DatabaseImpl.PutRMW.loop (K : Constants) (db : DatabaseImpl) (eng : RmwEngine)
    (rmwDelegate : DatabaseEntry → DatabaseEntry) (dbtKey dbtGetValue : Dbt) :
    Nat → Nat → RmwState → Except Exn Unit × RmwState
  | 0, _, s => (.error .outOfFuel, s)
  | fuel + 1, n, s =>
    if s.retry_count < db.m_maxDeadlockRetries then
      match DatabaseImpl.PutRMW.attempt K db eng rmwDelegate dbtKey dbtGetValue n s with
      | (r, s1) =>
        match DatabaseImpl.PutRMW.catchClauses K db r s1 with
        | (r2, s2) =>
          match DatabaseImpl.PutRMW.finallyClose K eng n r2 s2 with
          | (.ok true, s3) => (.ok (), s3)
          | (.ok false, s3) => loop K db eng rmwDelegate dbtKey dbtGetValue fuel (n + 1) s3
          | (.error e, s3) => (.error e, s3)
    else (.ok (), s)

/-- Source: `DatabaseImpl::Put(int objectId, array<Byte> ^key, DatabaseEntry ^dbEntry,
RMWDelegate ^rmwDelegate)`, with `fuel` passes of its loop: the result, the entry as the
delegate left it, and the trace. Before the loop the read slot is built, with
`pin_ptr<Byte> pValueData(&valueBuffer[0])` on the entry's buffer, which throws a managed
exception when the buffer is `nullptr` or empty. -/
def DatabaseImpl.PutRMW (K : Constants) (db : DatabaseImpl) (eng : RmwEngine) (key : Option Int)
    (dbEntry : DatabaseEntry) (rmwDelegate : DatabaseEntry → DatabaseEntry) (fuel : Nat)
    (t : Trace) : Except Exn Unit × DatabaseEntry × Trace :=
  let check : Except Exn Unit :=
    match key with
    | some length => CheckForEmptyKey K length
    | none => .ok ()
  match check with
  | .error e => (.error e, dbEntry, t)
  | .ok _ =>
    match addressOfFirst dbEntry.Buffer with
    | .error e => (.error e, dbEntry, t)
    | .ok _ =>
      match DatabaseImpl.PutRMW.loop K db eng rmwDelegate (DatabaseImpl.PutRMW.dbtKey key)
          (DatabaseImpl.PutRMW.dbtGetValue K dbEntry) fuel 0 { dbEntry := dbEntry, t := t } with
      | (r, s) => (r, s.dbEntry, s.t)

/-! ## What a trace shows apart from the native transaction calls -/

/-- Is the event a native transaction call (`txn_begin`, `commit`, `abort`)? -/
def Event.isTxnCall (e : Event) : Bool := e.isBegin || e.isCommit || e.isAbort

/-- The trace without the native transaction calls: the record calls, the other engine calls,
the log entries and the scope changes, in order. -/
def visible (t : Trace) : Trace := t.filter fun e => !e.isTxnCall

/-- The log entries of a trace, in order. -/
def logEntries (t : Trace) : Trace := t.filter Event.isLog

/-- Number of commits of a transaction scope in a trace. -/
def scopeCommits (t : Trace) : Nat := (steps t).count .commit

/-- An operation that started with the trace `t` and left `p` has not committed its scope if it
ends in an exception, and has left its scope not begun if it returns. -/
def NoCommitOnError {α : Type} (t : Trace) (p : Except Exn α × TransactionContext × Trace) :
    Prop :=
  (∀ e, p.1 = .error e → scopeCommits p.2.2 = scopeCommits t) ∧
    (∀ v, p.1 = .ok v → p.2.1.begun = false)

/-! ## The transfer slot with its data pointer and the text of its errors -/

/-- Where the data pointer of a `DbtHolder` points: `NULL`, the holder's own `_data._valueInt32`
or `_data._valueInt64`, or into the pinned object of a region. -/
inductive DataPtr
  | NULL
  | _valueInt32
  | _valueInt64
  | pinned
deriving DecidableEq, Repr

/-- What `DbtHolder` throws, by its text. The first three are `ApplicationException`s. -/
inductive HolderError
  /-- Source: `throw gcnew ApplicationException("Buffer already initialized")` -/
  | BufferAlreadyInitialized
  /-- Source: `throw gcnew ApplicationException(L"Unhandled buffer type " + bf.Type.ToString())` -/
  | UnhandledBufferType
  /-- Source: `throw gcnew ApplicationException("Buffer isn't writable")` -/
  | BufferIsntWritable
  /-- Source: `throw new exception("Attempt to set object on DbtHolder with object already
  set")` -/
  | ObjectAlreadySet
deriving DecidableEq, Repr

/-- The exception of the record operations that a `HolderError` is. -/
def HolderError.toExn : HolderError → Exn
  | .ObjectAlreadySet => .exceptionPtr
  | _ => .ApplicationException

/-- The whole state of a `DbtHolder`: the transfer record with the guard `_initialized`, the
data pointer, and whether `_handle` is allocated. The constructor `DbtHolder()` gives the
state with every field at its default. -/
structure HolderState where
  holder : DbtHolder := {}
  data : DataPtr := .NULL
  _handle_IsAllocated : Bool := false
deriving DecidableEq, Repr

/-- Source: `DbtHolder::initialize_for_read`, as a change of the holder's state: what is
thrown (`none`: nothing) and the state the call leaves, also when it throws. `_initialized` is
set before the kind of the descriptor is looked at. -/
def HolderState.initialize_for_read (s : HolderState) (bf : DataBuffer) :
    Option HolderError × HolderState :=
  if s.holder._initialized then (some .BufferAlreadyInitialized, s)
  else
    let s1 : HolderState :=
      ⟨⟨s.holder.dbt, true⟩, s.data, s._handle_IsAllocated⟩
    if bf.IsObject then
      if s1._handle_IsAllocated then (some .ObjectAlreadySet, s1)
      else (none, ⟨⟨s1.holder.dbt.set_size bf.length, true⟩, .pinned, true⟩)
    else match bf.type with
      | .Empty => (none, ⟨⟨s1.holder.dbt.set_size 0, true⟩, .NULL, s1._handle_IsAllocated⟩)
      | .Int32 =>
        (none, ⟨⟨s1.holder.dbt.set_size 4, true⟩, ._valueInt32, s1._handle_IsAllocated⟩)
      | .Int64 =>
        (none, ⟨⟨s1.holder.dbt.set_size 8, true⟩, ._valueInt64, s1._handle_IsAllocated⟩)
      | _ => (some .UnhandledBufferType, s1)

/-- Source: `DbtHolder::initialize_for_read_write`, as a change of the holder's state. -/
def HolderState.initialize_for_read_write (K : Constants) (s : HolderState) (bf : DataBuffer) :
    Option HolderError × HolderState :=
  match s.initialize_for_read bf with
  | (some e, s1) => (some e, s1)
  | (none, s1) =>
    (none, ⟨⟨⟨s1.holder.dbt.size, s1.holder.dbt.size, s1.holder.dbt.doff, s1.holder.dbt.dlen,
      s1.holder.dbt.flags ||| K.DB_DBT_USERMEM⟩, s1.holder._initialized⟩, s1.data,
      s1._handle_IsAllocated⟩)

/-- Source: `DbtHolder::initialize_for_write`, as a change of the holder's state. -/
def HolderState.initialize_for_write (K : Constants) (s : HolderState) (bf : DataBuffer) :
    Option HolderError × HolderState :=
  if !(bf.IsWritable || bf.IsEmpty) then (some .BufferIsntWritable, s)
  else s.initialize_for_read_write K bf

/-- Is the event the exclusive insert `m_pDb->put(txn, &dbtKey, &dbtSetValue, DB_NOOVERWRITE)` of
the read-modify-write `Put`? -/
def Event.isInsert : Event → Bool
  | .op (.put_NOOVERWRITE _ _) => true
  | _ => false

/-- The number of exclusive inserts in a trace. -/
def inserts (t : Trace) : Nat := t.countP Event.isInsert

/-! ## The teardown of the cursor -/

/-- The store as `_db->Disposed` finds it at a later time: `disposed` is the only field that
changed. -/
def DatabaseImpl.setDisposed (db : DatabaseImpl) (d : Bool) : DatabaseImpl :=
  { db with disposed := d }

/-- Source: `CursorImpl::!CursorImpl()`. The `try` block calls `_cursorp->close()` when the
store is there and not disposed (the code `close` returns is not looked at); the two `catch`
clauses log what `close` threw, `catch (const DbException &dex)` with `dex.get_errno()` and
`catch (const exception &ex)` with `err`, which is still 0; `finally` sets `_cursorp` to
`nullptr`. -/
def CursorImpl.finalizer (cur : CursorImpl) (t : Trace) : Except Exn Unit × CursorImpl × Trace :=
  match cur._cursorp with
  | none => (.ok (), cur, t)
  | some cursorp =>
    -- the `try` block
    let tried : Except Exn Unit × Trace :=
      match cur._db with
      | some db =>
        if !db.disposed then
          match cursorp.close with
          | none => (.ok (), t ++ [.op .cursor_close])
          | some e => (.error (.native e), t ++ [.op .cursor_close])
        else (.ok (), t)
      | none => (.ok (), t)
    -- the `catch` clauses
    let caught : Except Exn Unit × Trace :=
      match tried with
      | (.error (.native e), t1) =>
        match e.get_errno with
        | some errno =>
          (.ok (), if cur._db.isSome then DatabaseImpl.Log errno .what t1 else t1)
        | none => (.ok (), if cur._db.isSome then DatabaseImpl.Log 0 .what t1 else t1)
      | r => r
    -- `finally`
    (caught.1, ⟨cur._db, none⟩, caught.2)

/-- Source: `CursorImpl::~CursorImpl()`: `this->!CursorImpl(); _db = nullptr;`. -/
def CursorImpl.destructor (cur : CursorImpl) (t : Trace) :
    Except Exn Unit × CursorImpl × Trace :=
  match cur.finalizer t with
  | (.ok _, c1, t1) => (.ok (), ⟨none, c1._cursorp⟩, t1)
  | (.error e, c1, t1) => (.error e, c1, t1)

/-- The two ways a cursor is torn down: `Dispose` (the destructor `~CursorImpl`) and
finalization (`!CursorImpl`). -/
inductive Teardown
  | destructor
  | finalizer
deriving DecidableEq, Repr

/-- One teardown of the cursor, at a time when the store's `Disposed` is `disposed`. -/
def CursorImpl.teardown (cur : CursorImpl) (how : Teardown) (disposed : Bool) (t : Trace) :
    Except Exn Unit × CursorImpl × Trace :=
  let cur1 : CursorImpl := ⟨cur._db.map fun db => db.setDisposed disposed, cur._cursorp⟩
  match how with
  | .destructor => cur1.destructor t
  | .finalizer => cur1.finalizer t

/-- A sequence of teardowns of one cursor, each with the store's `Disposed` at that time; it
stops at the first one that throws. -/
def CursorImpl.teardowns (cur : CursorImpl) :
    List (Teardown × Bool) → Trace → Except Exn Unit × CursorImpl × Trace
  | [], t => (.ok (), cur, t)
  | (how, disposed) :: rest, t =>
    match cur.teardown how disposed t with
    | (.ok _, cur1, t1) => CursorImpl.teardowns cur1 rest t1
    | (.error e, cur1, t1) => (.error e, cur1, t1)

/-- The number of native cursor closes in a trace. -/
def closes (t : Trace) : Nat := t.count (.op .cursor_close)

/-! ## The copy-on-demand callback -/

/-- The fields of the C struct `DBT` that `usercopy` and `CreateBuffer` touch: the data pointer
(`none` is `NULL`), the size, and `app_data`, which holds the `GCHandle` of the backing array
as an opaque pointer (`none` is `nullptr`). -/
structure DBT where
  data : Option Nat := none
  size : Nat := 0
  app_data : Option Nat := none
deriving DecidableEq, Repr

/-- The table of `GCHandle`s: the handle `i` is the `i`-th one allocated, and its target is the
managed byte array listed at `i`. `GCHandle::Alloc` adds an entry at the end. -/
abbrev Handles := List (List Nat)

/-- How `usercopy` can fail. -/
inductive UserCopyFault
  /-- Source: `throw new exception(s.Str())` for a flag that is not `DB_USERCOPY_SETDATA`:
  a pointer is thrown -/
  | exceptionPtr
  /-- Source: `&allocData[offset]` with `offset` not an index of the array -/
  | IndexOutOfRangeException
  /-- Source: `memcpy(pData, buffer, size)` running past the end of the array, which nothing
  checks -/
  | overrun
  /-- Source: `GCHandle::FromIntPtr` of an `app_data` that is no handle of the table -/
  | invalidHandle
deriving DecidableEq, Repr

/-- Source: `memcpy(pData, buffer, size)` with `pData = &allocData[offset]`, inside the array:
the bytes of `buffer` replace those of `allocData` from `offset` on. -/
def memcpy (allocData : List Nat) (offset : Nat) (buffer : List Nat) : List Nat :=
  allocData.take offset ++ buffer ++ allocData.drop (offset + buffer.length)

/-- Source: `usercopy` of `EnvironmentImpl.cpp`. `buffer` holds the `size` bytes the engine
hands over. The result is the code returned or the fault, the record, and the handle table. -/
def usercopy (K : Constants) (data : DBT) (offset : Nat) (buffer : List Nat) (flags : Nat)
    (handles : Handles) : Except UserCopyFault Int × DBT × Handles :=
  if flags = K.DB_USERCOPY_SETDATA then
    if data.size > 0 then
      match data.app_data with
      | none =>
        -- first call on this DBT
        let allocData : List Nat := List.replicate data.size 0
        let data1 : DBT := ⟨none, data.size, some handles.length⟩
        let handles1 : Handles := handles ++ [allocData]
        if offset < allocData.length then
          if offset + buffer.length ≤ allocData.length then
            (.ok 0, data1, handles1.set handles.length (memcpy allocData offset buffer))
          else (.error .overrun, data1, handles1)
        else (.error .IndexOutOfRangeException, data1, handles1)
      | some appData =>
        -- subsequent call on this DBT
        match handles[appData]? with
        | none => (.error .invalidHandle, data, handles)
        | some allocData =>
          if offset < allocData.length then
            if offset + buffer.length ≤ allocData.length then
              (.ok 0, data, handles.set appData (memcpy allocData offset buffer))
            else (.error .overrun, data, handles)
          else (.error .IndexOutOfRangeException, data, handles)
    else
      -- no need to allocate buffer for 0 size
      (.ok 0, ⟨data.data, data.size, none⟩, handles)
  else (.error .exceptionPtr, data, handles)

/-- The `__int32` that `get_size()` converts to: the unsigned 32-bit size read as signed. -/
def toInt32 (n : Nat) : Int :=
  if n % 2 ^ 32 < 2 ^ 31 then (n % 2 ^ 32 : Nat) else (n % 2 ^ 32 : Nat) - 2 ^ 32

/-- Source: `DbtExtended::CreateBuffer`: the array returned, `none` for `nullptr`. The handle
is freed afterwards, which the table does not record. -/
def DBT.CreateBuffer (d : DBT) (handles : Handles) : Option (List Nat) :=
  if toInt32 d.size < 0 then none
  else if toInt32 d.size = 0 then some []
  else
    match d.app_data with
    | none => none
    | some ptr => handles[ptr]?

/-- The engine hands the value `v` to `usercopy` piece by piece: for each `(offset, size)` of
`pieces`, in order, the `size` bytes of `v` from `offset` on. It stops at the first fault. -/
def deliver (K : Constants) (v : List Nat) :
    List (Nat × Nat) → DBT → Handles → Except UserCopyFault Unit × DBT × Handles
  | [], data, handles => (.ok (), data, handles)
  | (offset, size) :: rest, data, handles =>
    match usercopy K data offset ((v.drop offset).take size) K.DB_USERCOPY_SETDATA handles with
    | (.ok _, data1, handles1) => deliver K v rest data1 handles1
    | (.error e, data1, handles1) => (.error e, data1, handles1)

/-! ## The message of the error raised when the rollback fails too -/

/-- The exception, with its message, that the `catch (DbException &ae)` clause inside
`catch (const DbException &ex)` throws:
`Create(ret, &ae, gcnew String(ex.what()) + "\n" + gcnew String(ae.what()))`. `exWhat` is the
text of the exception of the record call, `ae` the errno and the text of the exception of the
abort. -/
def DatabaseImpl.catchDbException.abortFailed (ret : Int) (exWhat : String)
    (ae : Int × String) : BdbException :=
  BdbExceptionFactory.Create.int_DbException ret (some ae) (some (exWhat ++ "\n" ++ ae.2))

/-- The exception, with its message, that the `catch (DbException &ae)` clause inside
`catch (const exception &ex)` throws:
`Create(ret, &ae, gcnew String(ae.what()) + "\n" + gcnew String(ex.what()))`. -/
def DatabaseImpl.catchException.abortFailed (ret : Int) (exWhat : String)
    (ae : Int × String) : BdbException :=
  BdbExceptionFactory.Create.int_DbException ret (some ae) (some (ae.2 ++ "\n" ++ exWhat))

/-- The `BdbException`, with its code and message, that the `catch (const DbException &ex)`
clause of the retry loops throws; `none` when what the clause throws is not one it builds with
the factory (the `BufferSmallException`, or an exception of the abort that is not a
`DbException` and passes the clause). `what` gives the text `what()` of a native exception,
`ex` is the exception caught and `errno` its errno. -/
def DatabaseImpl.catchDbException.thrown (what : NativeExn → String) (K : Constants)
    (db : DatabaseImpl) (bufferSmall : Bool) (ret : Int) (ex : NativeExn) (errno : Int)
    (txn : Option Nat) (t : Trace) : Option BdbException :=
  match db.RollbackTrans txn (DatabaseImpl.Log errno .ErrorGettingData t) with
  | (.error (.native ae), _) =>
    match ae.get_errno with
    | some aeErrno =>
      some (DatabaseImpl.catchDbException.abortFailed ret (what ex) (aeErrno, what ae))
    | none => none
  | (.error _, _) => none
  | (.ok _, _) =>
    if bufferSmall = true ∧ errno = K.BUFFER_SMALL then none
    else
      -- `throw BdbExceptionFactory::Create(ret, &ex, gcnew String(ex.what()))`
      some (BdbExceptionFactory.Create.int_DbException ret (some (errno, what ex))
        (some (what ex)))

/-- The `BdbException`, with its code and message, that the `catch (const exception &ex)`
clause of the retry loops throws; `none` when an exception of the abort that is not a
`DbException` passes the clause. `what` gives the text `what()` of a native exception, `ex` is
the exception caught. -/
def DatabaseImpl.catchException.thrown (what : NativeExn → String) (db : DatabaseImpl)
    (ret : Int) (ex : NativeExn) (txn : Option Nat) (t : Trace) : Option BdbException :=
  match txn with
  | none =>
    some (BdbExceptionFactory.Create.int_exception ret (some ⟨ex, what ex⟩) (some (what ex)))
  | some _ =>
    match db.RollbackTrans txn t with
    | (.error (.native ae), _) =>
      match ae.get_errno with
      | some aeErrno =>
        some (DatabaseImpl.catchException.abortFailed ret (what ex) (aeErrno, what ae))
      | none => none
    | (.error _, _) => none
    | (.ok _, _) =>
      -- `throw BdbExceptionFactory::Create(ret, &ex, gcnew String(ex.what()))`
      some (BdbExceptionFactory.Create.int_exception ret (some ⟨ex, what ex⟩) (some (what ex)))

/-! ## The calls a transaction scope makes, in order -/

/-- Where a transaction scope stands between two events of a trace. -/
inductive ScopeState
  /-- the scope is not begun -/
  | idle
  /-- the engine's `txn_begin` has returned the handle `h`; the scope is not yet marked begun -/
  | pending (h : Nat)
  /-- the scope is begun with the transaction `txn` (`none`: without a native transaction) -/
  | begun (txn : Option Nat)
  /-- the engine's commit of `h` has returned; the scope is not yet marked as ended -/
  | committed (h : Nat)
  /-- the engine's commit of `h` has thrown; the scope is still begun -/
  | commitThrew (h : Nat)
  /-- the scope is marked as ended by `rollback()`; the engine's abort of `h` is still to come -/
  | rollingBack (h : Nat)
deriving DecidableEq, Repr

/-- The state after one event, or `none` when the event cannot come in this state. Log entries
and engine calls that are no record calls leave the state as it is. A `txn_begin` that throws
leaves the scope not begun. A record call is made in the transaction of the scope. A begun scope
is ended in one of three ways: the engine's commit returns and the scope is marked ended; the
scope is marked ended by `rollback()` and the engine's abort of its transaction is called; or
the engine's commit throws, and then the scope is marked ended by `rollback()` and the engine's
abort of the same transaction is called. A scope without a native transaction is ended by the
mark alone. -/
def ScopeState.step (db : DatabaseImpl) : ScopeState → Event → Option ScopeState
  | s, .err _ _ => some s
  | s, .errx _ => some s
  | s, .op _ => some s
  | .idle, .txn_begin h => if (db.txn_begin h).isNone then some (.pending h) else some .idle
  | .idle, .scope_begin => some (.begun none)
  | .pending h, .scope_begin => some (.begun (some h))
  | .begun x, .call txn _ _ _ => if txn = x then some (.begun x) else none
  | .begun (some h), .commit h1 =>
    if h1 = h then
      if (db.txn_commit h).isNone then some (.committed h) else some (.commitThrew h)
    else none
  | .begun none, .scope_commit => some .idle
  | .committed _, .scope_commit => some .idle
  | .begun none, .scope_rollback => some .idle
  | .begun (some h), .scope_rollback => some (.rollingBack h)
  | .commitThrew h, .scope_rollback => some (.rollingBack h)
  | .rollingBack h, .abort h1 => if h1 = h then some .idle else none
  | _, _ => none

/-- The state after the events of a trace, from the state `s`; `none` when an event comes in a
state in which it cannot. -/
def scopeCalls (db : DatabaseImpl) : ScopeState → Trace → Option ScopeState
  | s, [] => some s
  | s, e :: t =>
    match s.step db e with
    | some s1 => scopeCalls db s1 t
    | none => none

/-- The state a scope is in between two calls of its member functions. -/
def TransactionContext.state (c : TransactionContext) : ScopeState :=
  if c.begun then .begun c.txn else .idle

/-- The trace of an operation on the store `db` ends every scope it begins, once: from a scope
that is not begun the events lead back to a scope that is not begun, each event coming in a
state in which it can. So each begun scope has its record calls made in its transaction, and is
then ended by a commit that returns, by a rollback with the abort of its transaction, or by a
commit that throws followed by the rollback with the abort of the same transaction. -/
def EndsEachScopeOnce (db : DatabaseImpl) (t : Trace) : Prop :=
  scopeCalls db .idle t = some .idle

/-- A scope that holds a native transaction belongs to a store in per-call mode. -/
def TransactionContext.Consistent (db : DatabaseImpl) (c : TransactionContext) : Prop :=
  ∀ h, c.begun = true → c.txn = some h → db.m_pTrMode = .PerCall

/-- The part `u` of a trace takes a scope from the state `s` to the state `s1`. -/
def Runs (db : DatabaseImpl) (s : ScopeState) (u : Trace) (s1 : ScopeState) : Prop :=
  scopeCalls db s u = some s1

/-- A part of an operation without a commit, which starts with scope `c` and trace `t` and ends
with scope `c1` and trace `t1`, has only added to the trace, and the events added take the scope
from the state of `c` to the state of `c1`. -/
def ScopeTracked (db : DatabaseImpl) (c : TransactionContext) (t : Trace)
    (c1 : TransactionContext) (t1 : Trace) : Prop :=
  ∃ u, t1 = t ++ u ∧ Runs db c.state u c1.state ∧ c1.Consistent db

/-- The state `s` is the one the scope `c` is in after the body of an operation: the state of
`c`, or, when the engine's commit has thrown, the state after that commit, with the scope still
begun. -/
def AfterBody (c : TransactionContext) (s : ScopeState) : Prop :=
  s = c.state ∨ ∃ h, c = ⟨true, some h⟩ ∧ s = .commitThrew h

/-- The body of an operation, from scope `c` and trace `t` to scope `c1` and trace `t1`, has only
added to the trace, and the events added take the scope from the state of `c` to a state it can
be in after the body. -/
def BodyTracked (db : DatabaseImpl) (c : TransactionContext) (t : Trace)
    (c1 : TransactionContext) (t1 : Trace) : Prop :=
  ∃ u s, t1 = t ++ u ∧ Runs db c.state u s ∧ AfterBody c1 s ∧ c1.Consistent db

/-! ## Concrete stores, to instantiate the theorems -/

/-- Constants with the values of a Berkeley DB 4.x header. -/
def K0 : Constants :=
  { SUCCESS := 0, NOTFOUND := -30988, KEYEMPTY := -30995, KEYEXIST := -30994,
    BUFFER_SMALL := -30999, LOCK_DEADLOCK := -30993, KEYNULL := -40001, KEYZEROLENGTH := -40002,
    DB_DBT_MALLOC := 16, DB_DBT_PARTIAL := 64, DB_DBT_USERMEM := 256, DB_DBT_USERCOPY := 128,
    DB_USERCOPY_SETDATA := 2,
    Set := 26, SetRange := 27, NotFound := -1, Deleted := -2, KeyExists := -3,
    Set_ne_SetRange := by decide, PARTIAL_ne_zero := by decide,
    MALLOC_and_PARTIAL := by decide, USERMEM_and_PARTIAL := by decide,
    USERCOPY_and_PARTIAL := by decide, distinct := by decide }

/-- A native store whose record calls all answer `r n` to the `n`-th call. -/
def scriptedDb (r : Nat → NativeResult) : Db :=
  { get := fun n _ _ _ _ => r n, put := fun n _ _ _ _ => r n, del := fun n _ _ _ => r n,
    «exists» := fun n _ _ _ => r n }

/-- A transactional store with retry limit `N` whose record calls follow the script `r` and
whose transaction calls succeed. -/
def scriptedStore (N : Int) (r : Nat → NativeResult) : DatabaseImpl :=
  { m_pDb := scriptedDb r, m_pTrMode := .PerCall, m_isTxn := true, m_maxDeadlockRetries := N }

/-- A native cursor whose record calls follow the script `r`. -/
def scriptedDbc (r : Nat → NativeResult) : Dbc :=
  { get := fun n _ _ _ => r n, put := fun n _ _ _ => r n, del := fun n _ => r n }

/-- A 4-byte integer key. -/
def keyInt32 : DataBuffer := { type := .Int32 }

/-- A writable object buffer of `n` bytes. -/
def writableBuffer (n : Int) : DataBuffer := { type := .Object, length := n, IsWritable := true }

/-- An engine for the read-modify-write `Put` whose cursor read follows the script `get`, whose
insert of a new record follows the script `putNew`, and whose other calls return 0. -/
def scriptedRmw (get putNew : Nat → Answer) : RmwEngine :=
  { cursor := fun _ => .returns 0, get := get, put_CURRENT := fun _ => .returns 0,
    put_KEYFIRST := putNew, put_NOOVERWRITE := putNew, del := fun _ => .returns 0,
    close := fun _ => .returns 0 }

/-- A transactional store like `scriptedStore` whose native abort always throws `e`. -/
def abortFailingStore (N : Int) (r : Nat → NativeResult) (e : NativeExn) : DatabaseImpl :=
  { m_pDb := scriptedDb r, m_pTrMode := .PerCall, m_isTxn := true, m_maxDeadlockRetries := N,
    txn_abort := fun _ => some e }

/-- A native cursor whose record calls return 0 and whose `close` throws `e`. -/
def failingCloseDbc (e : NativeExn) : Dbc :=
  { get := fun _ _ _ _ => .returns 0 0 0, put := fun _ _ _ _ => .returns 0 0 0,
    del := fun _ _ => .returns 0 0 0, close := some e }

/-- Texts of native exceptions for the concrete runs: "disk full" for a `DbException` with
errno 5, "abort failed" for every other exception. -/
def exceptionText : NativeExn → String
  | .DbException 5 => "disk full"
  | _ => "abort failed"

/-- A transactional store like `scriptedStore` whose native commit always throws `e`. -/
def commitFailingStore (N : Int) (r : Nat → NativeResult) (e : NativeExn) : DatabaseImpl :=
  { m_pDb := scriptedDb r, m_pTrMode := .PerCall, m_isTxn := true, m_maxDeadlockRetries := N,
    txn_commit := fun _ => some e }

/-! # Theorems -/

/-! ## Counting in traces -/

@[simp] theorem calls_nil : calls [] = 0 := rfl

@[simp] theorem calls_append (t u : Trace) : calls (t ++ u) = calls t + calls u := by
  simp [calls]

@[simp] theorem calls_cons (e : Event) (t : Trace) :
    calls (e :: t) = (if e.isCall then 1 else 0) + calls t := by
  simp [calls, List.countP_cons, Nat.add_comm]

@[simp] theorem logs_nil : logs [] = 0 := rfl

@[simp] theorem logs_append (t u : Trace) : logs (t ++ u) = logs t + logs u := by
  simp [logs]

@[simp] theorem logs_cons (e : Event) (t : Trace) :
    logs (e :: t) = (if e.isLog then 1 else 0) + logs t := by
  simp [logs, List.countP_cons, Nat.add_comm]

@[simp] theorem steps_nil : steps [] = [] := rfl

@[simp] theorem steps_append (t u : Trace) : steps (t ++ u) = steps t ++ steps u := by
  simp [steps]

@[simp] theorem steps_cons (e : Event) (t : Trace) :
    steps (e :: t) = (match e.step with | some s => [s] | none => []) ++ steps t := by
  cases h : e.step <;> simp [steps, List.filterMap_cons, h]

theorem Adds_nil : Adds [] 0 0 [] := ⟨rfl, rfl, rfl⟩

theorem Adds_append {u v : Trace} {a b a' b' : Nat} {s s' : List Step} (hu : Adds u a b s)
    (hv : Adds v a' b' s') : Adds (u ++ v) (a + a') (b + b') (s ++ s') := by
  obtain ⟨h1, h2, h3⟩ := hu
  obtain ⟨h4, h5, h6⟩ := hv
  exact ⟨by simp [h1, h4], by simp [h2, h5], by simp [h3, h6]⟩

theorem Adds_call (txn : Option Nat) (key data : Option Dbt) (options : Int) :
    Adds [.call txn key data options] 1 0 [.call] :=
  ⟨by simp [Event.isCall], by simp [Event.isLog], by simp [Event.step]⟩

theorem Adds_err (n : Int) (m : Msg) : Adds [.err n m] 0 1 [] :=
  ⟨by simp [Event.isCall], by simp [Event.isLog], by simp [Event.step]⟩

theorem Adds_errx (m : Msg) : Adds [.errx m] 0 1 [] :=
  ⟨by simp [Event.isCall], by simp [Event.isLog], by simp [Event.step]⟩

theorem Create_eq (r : Int) : BdbExceptionFactory.Create r = .BdbException r := by
  unfold BdbExceptionFactory.Create BdbExceptionFactory.SetCode
  by_cases h : r = 0 <;> simp [h]

/-! ## The transaction scope when the transaction calls succeed -/

theorem begin_spec (db : DatabaseImpl) (hdb : db.TxnCallsSucceed)
    (c : TransactionContext) (t : Trace) :
    ∃ txn u, c.begin db t = (.ok txn, ⟨true, txn⟩, t ++ u) ∧
      Adds u 0 0 (if c.begun then [] else [.begin]) := by
  obtain ⟨hm, hb, -⟩ := hdb
  rcases c with ⟨begun, txn⟩
  cases begun
  · cases hmode : db.m_pTrMode
    · exact ⟨none, [.scope_begin],
        by simp [TransactionContext.begin, DatabaseImpl.BeginTrans, hmode],
        by simp [Event.isCall], by simp [Event.isLog], by simp [Event.step]⟩
    · cases htx : db.m_isTxn
      · exact ⟨none, [.scope_begin],
          by simp [TransactionContext.begin, DatabaseImpl.BeginTrans, hmode, htx],
          by simp [Event.isCall], by simp [Event.isLog], by simp [Event.step]⟩
      · exact ⟨some (begins t), [.txn_begin (begins t), .scope_begin],
          by simp [TransactionContext.begin, DatabaseImpl.BeginTrans, hmode, htx, hb],
          by simp [Event.isCall], by simp [Event.isLog], by simp [Event.step]⟩
    · exact absurd hmode hm
  · exact ⟨txn, [], by simp [TransactionContext.begin], Adds_nil⟩

theorem rollback_spec (db : DatabaseImpl) (hdb : db.TxnCallsSucceed)
    (c : TransactionContext) (hc : c.begun = true) (t : Trace) :
    ∃ u, c.rollback db t = (.ok (), ⟨false, none⟩, t ++ u) ∧ Adds u 0 0 [.rollback] := by
  obtain ⟨hm, -, ha⟩ := hdb
  rcases c with ⟨begun, txn⟩
  simp only at hc
  subst hc
  cases txn with
  | none =>
    exact ⟨[.scope_rollback], by simp [TransactionContext.rollback, DatabaseImpl.RollbackTrans],
      by simp [Event.isCall], by simp [Event.isLog], by simp [Event.step]⟩
  | some h =>
    cases hmode : db.m_pTrMode
    · exact ⟨[.scope_rollback],
        by simp [TransactionContext.rollback, DatabaseImpl.RollbackTrans, hmode],
        by simp [Event.isCall], by simp [Event.isLog], by simp [Event.step]⟩
    · exact ⟨[.scope_rollback, .abort h],
        by simp [TransactionContext.rollback, DatabaseImpl.RollbackTrans, hmode, ha],
        by simp [Event.isCall], by simp [Event.isLog], by simp [Event.step]⟩
    · exact absurd hmode hm

theorem commit_spec (db : DatabaseImpl) (hdb : db.TxnOk)
    (c : TransactionContext) (hc : c.begun = true) (t : Trace) :
    ∃ u, c.commit db t = (.ok (), ⟨false, none⟩, t ++ u) ∧ Adds u 0 0 [.commit] := by
  obtain ⟨⟨hm, -, -⟩, hcm⟩ := hdb
  rcases c with ⟨begun, txn⟩
  simp only at hc
  subst hc
  cases txn with
  | none =>
    exact ⟨[.scope_commit], by simp [TransactionContext.commit, DatabaseImpl.CommitTrans],
      by simp [Event.isCall], by simp [Event.isLog], by simp [Event.step]⟩
  | some h =>
    cases hmode : db.m_pTrMode
    · exact ⟨[.scope_commit],
        by simp [TransactionContext.commit, DatabaseImpl.CommitTrans, hmode],
        by simp [Event.isCall], by simp [Event.isLog], by simp [Event.step]⟩
    · exact ⟨[.commit h, .scope_commit],
        by simp [TransactionContext.commit, DatabaseImpl.CommitTrans, hmode, hcm],
        by simp [Event.isCall], by simp [Event.isLog], by simp [Event.step]⟩
    · exact absurd hmode hm

/-! ## One iteration of the retry loop of `DatabaseImpl` -/

theorem attempt_deadlock (K : Constants) (db : DatabaseImpl)
    (hdb : db.TxnCallsSucceed) (c : TransactionContext) (key data : Option Dbt) (options : Int)
    (bdbCall : BdbCall) (t : Trace)
    (hdead : ∀ txn, (bdbCall db.m_pDb (calls t) txn key data options).reportsDeadlock K = true) :
    ∃ ret c1 d1 u, DatabaseImpl.DeadlockLoop.attempt K db c key data options bdbCall t
        = (.ok (ret, true), c1, d1, t ++ u) ∧ c1.begun = true ∧ (data.isSome → d1.isSome) ∧
      Adds u 1 0 ((if c.begun then [] else [.begin]) ++ [.call]) := by
  obtain ⟨txn, u, hbeg, hu⟩ := begin_spec db hdb c t
  have hd := hdead txn
  have hadds := Adds_append hu (Adds_call txn key data options)
  unfold DatabaseImpl.DeadlockLoop.attempt
  rw [hbeg]
  simp only [calls_append, hu.1, Nat.add_zero]
  cases hres : bdbCall db.m_pDb (calls t) txn key data options with
  | returns ret size keySize =>
    rw [hres] at hd
    simp only [NativeResult.reportsDeadlock] at hd
    exact ⟨ret, ⟨true, txn⟩, afterCall data size, u ++ [.call txn key data options],
      by simp [hd], rfl, by cases data <;> simp [afterCall], hadds⟩
  | throws e =>
    rw [hres] at hd
    cases e <;> simp [NativeResult.reportsDeadlock] at hd
    exact ⟨0, ⟨true, txn⟩, data, u ++ [.call txn key data options], by simp, rfl, id, hadds⟩

theorem attempt_final (K : Constants) (db : DatabaseImpl)
    (hdb : db.TxnCallsSucceed) (c : TransactionContext) (key data : Option Dbt) (options : Int)
    (bdbCall : BdbCall) (t : Trace)
    (hfin : ∀ txn, (bdbCall db.m_pDb (calls t) txn key data options).reportsDeadlock K = false) :
    ∃ txn u, DatabaseImpl.DeadlockLoop.attempt K db c key data options bdbCall t
        = (((bdbCall db.m_pDb (calls t) txn key data options).outcome data).1.map
              (fun r => (r, false)), ⟨true, txn⟩,
            ((bdbCall db.m_pDb (calls t) txn key data options).outcome data).2, t ++ u) ∧
      Adds u 1 0 ((if c.begun then [] else [.begin]) ++ [.call]) := by
  obtain ⟨txn, u, hbeg, hu⟩ := begin_spec db hdb c t
  have hd := hfin txn
  have hadds := Adds_append hu (Adds_call txn key data options)
  refine ⟨txn, u ++ [.call txn key data options], ?_, hadds⟩
  unfold DatabaseImpl.DeadlockLoop.attempt
  rw [hbeg]
  simp only [calls_append, hu.1, Nat.add_zero]
  cases hres : bdbCall db.m_pDb (calls t) txn key data options with
  | returns ret size keySize =>
    rw [hres] at hd
    simp only [NativeResult.reportsDeadlock] at hd
    simp [NativeResult.outcome, hd, Except.map]
  | throws e =>
    rw [hres] at hd
    cases e <;> simp [NativeResult.reportsDeadlock] at hd <;>
      simp [NativeResult.outcome, Except.map]

/-- One iteration that deadlocks with retries left: the loop goes on with a scope that is not
begun. -/
theorem loop_deadlock_retry (K : Constants) (db : DatabaseImpl)
    (hdb : db.TxnCallsSucceed) (methodName : MethodName) (key : Option Dbt) (options : Int)
    (bdbCall : BdbCall) (fuel : Nat) (retry_count : Int) (c : TransactionContext)
    (data : Option Dbt) (t : Trace)
    (hdead : ∀ txn, (bdbCall db.m_pDb (calls t) txn key data options).reportsDeadlock K = true)
    (hleft : retry_count + 1 < db.m_maxDeadlockRetries) :
    ∃ d1 u, DatabaseImpl.DeadlockLoop.loop K db methodName key options bdbCall (fuel + 1)
        retry_count c data t
        = DatabaseImpl.DeadlockLoop.loop K db methodName key options bdbCall fuel
            (retry_count + 1) ⟨false, none⟩ d1 (t ++ u) ∧ (data.isSome → d1.isSome) ∧
      Adds u 1 1 ((if c.begun then [] else [.begin]) ++ [.call, .rollback]) := by
  obtain ⟨ret, c1, d1, u, hatt, hc1, hd1, hu⟩ :=
    attempt_deadlock K db hdb c key data options bdbCall t hdead
  obtain ⟨v, hrb, hv⟩ := rollback_spec db hdb c1 hc1
    (DatabaseImpl.Log K.LOCK_DEADLOCK .Deadlock (t ++ u))
  refine ⟨d1, u ++ [.err K.LOCK_DEADLOCK .Deadlock] ++ v, ?_, hd1, ?_⟩
  · rw [DatabaseImpl.DeadlockLoop.loop, hatt]
    simp only [if_true, hrb]
    rw [if_neg (by omega)]
    simp [DatabaseImpl.Log]
  · simpa using Adds_append (Adds_append hu (Adds_err K.LOCK_DEADLOCK .Deadlock)) hv

/-- One iteration that deadlocks with no retry left: the loop gives up with the deadlock
error. -/
theorem loop_deadlock_exhausted (K : Constants) (db : DatabaseImpl)
    (hdb : db.TxnCallsSucceed) (methodName : MethodName) (key : Option Dbt) (options : Int)
    (bdbCall : BdbCall) (fuel : Nat) (retry_count : Int) (c : TransactionContext)
    (data : Option Dbt) (t : Trace)
    (hdead : ∀ txn, (bdbCall db.m_pDb (calls t) txn key data options).reportsDeadlock K = true)
    (hleft : db.m_maxDeadlockRetries ≤ retry_count + 1) :
    ∃ d1 u, DatabaseImpl.DeadlockLoop.loop K db methodName key options bdbCall (fuel + 1)
        retry_count c data t
        = (.error (.BdbException K.LOCK_DEADLOCK), ⟨false, none⟩, d1, t ++ u) ∧
      Adds u 1 2 ((if c.begun then [] else [.begin]) ++ [.call, .rollback]) := by
  obtain ⟨ret, c1, d1, u, hatt, hc1, -, hu⟩ :=
    attempt_deadlock K db hdb c key data options bdbCall t hdead
  obtain ⟨v, hrb, hv⟩ := rollback_spec db hdb c1 hc1
    (DatabaseImpl.Log K.LOCK_DEADLOCK .Deadlock (t ++ u))
  refine ⟨d1, u ++ [.err K.LOCK_DEADLOCK .Deadlock] ++ v ++ [.errx (.GivingUp methodName)],
    ?_, ?_⟩
  · rw [DatabaseImpl.DeadlockLoop.loop, hatt]
    simp only [if_true, hrb]
    rw [if_pos (by omega)]
    simp [DatabaseImpl.Log, Create_eq]
  · simpa using Adds_append (Adds_append (Adds_append hu (Adds_err K.LOCK_DEADLOCK .Deadlock)) hv)
      (Adds_errx (.GivingUp methodName))

/-- One iteration whose record call does not report deadlock ends the loop with what the call
returned or threw, the scope begun. -/
theorem loop_final (K : Constants) (db : DatabaseImpl)
    (hdb : db.TxnCallsSucceed) (methodName : MethodName) (key : Option Dbt) (options : Int)
    (bdbCall : BdbCall) (fuel : Nat) (retry_count : Int) (c : TransactionContext)
    (data : Option Dbt) (t : Trace)
    (hfin : ∀ txn, (bdbCall db.m_pDb (calls t) txn key data options).reportsDeadlock K = false) :
    ∃ txn u, DatabaseImpl.DeadlockLoop.loop K db methodName key options bdbCall (fuel + 1)
        retry_count c data t
        = (((bdbCall db.m_pDb (calls t) txn key data options).outcome data).1, ⟨true, txn⟩,
            ((bdbCall db.m_pDb (calls t) txn key data options).outcome data).2, t ++ u) ∧
      Adds u 1 0 ((if c.begun then [] else [.begin]) ++ [.call]) := by
  obtain ⟨txn, u, hatt, hu⟩ := attempt_final K db hdb c key data options bdbCall t hfin
  refine ⟨txn, u, ?_, hu⟩
  rw [DatabaseImpl.DeadlockLoop.loop, hatt]
  cases h : ((bdbCall db.m_pDb (calls t) txn key data options).outcome data).1 <;>
    simp [Except.map]

/-! ## The whole retry loop of `DatabaseImpl` -/

/-- Every attempt deadlocks and `j + 1` attempts are left: the loop makes `j + 1` record calls
and gives up with the deadlock error. -/
theorem loop_all_deadlock (K : Constants) (db : DatabaseImpl)
    (hdb : db.TxnCallsSucceed) (methodName : MethodName) (key : Option Dbt) (options : Int)
    (bdbCall : BdbCall)
    (hdead : ∀ n txn data, (bdbCall db.m_pDb n txn key data options).reportsDeadlock K = true)
    (j : Nat) : ∀ (fuel : Nat) (retry_count : Int) (c : TransactionContext) (data : Option Dbt)
      (t : Trace), j < fuel → retry_count + j + 1 = db.m_maxDeadlockRetries →
      ∃ d1 u, DatabaseImpl.DeadlockLoop.loop K db methodName key options bdbCall fuel
          retry_count c data t
          = (.error (.BdbException K.LOCK_DEADLOCK), ⟨false, none⟩, d1, t ++ u) ∧
        Adds u (j + 1) (j + 2) ((if c.begun then [] else [.begin]) ++
          (List.replicate j [Step.call, .rollback, .begin]).flatten ++ [.call, .rollback]) := by
  induction j with
  | zero =>
    intro fuel retry_count c data t hf hN
    obtain ⟨f, rfl⟩ : ∃ f, fuel = f + 1 := ⟨fuel - 1, by omega⟩
    obtain ⟨d1, u, h, hu⟩ := loop_deadlock_exhausted K db hdb
      methodName key options bdbCall f retry_count c data t (fun txn => hdead _ txn data)
      (by omega)
    exact ⟨d1, u, h, by simpa using hu⟩
  | succ j ih =>
    intro fuel retry_count c data t hf hN
    obtain ⟨f, rfl⟩ : ∃ f, fuel = f + 1 := ⟨fuel - 1, by omega⟩
    obtain ⟨d1, u, h, -, hu⟩ := loop_deadlock_retry K db hdb
      methodName key options bdbCall f retry_count c data t (fun txn => hdead _ txn data)
      (by push_cast at hN; omega)
    obtain ⟨d2, v, h2, hv⟩ := ih f (retry_count + 1) ⟨false, none⟩ d1 (t ++ u) (by omega)
      (by push_cast at hN; omega)
    refine ⟨d2, u ++ v, by rw [h, h2, List.append_assoc], ?_⟩
    have := Adds_append hu hv
    simp only [List.replicate_succ, List.flatten_cons] at this ⊢
    convert this using 1
    · omega
    · omega
    · simp

/-- The first `k` attempts deadlock and the next does not: the loop makes `k + 1` record calls,
rolls the scope back after each of the first `k`, and ends with what the last call returned or
threw, the scope begun. -/
theorem loop_retry_final (K : Constants) (db : DatabaseImpl)
    (hdb : db.TxnCallsSucceed) (methodName : MethodName) (key : Option Dbt) (options : Int)
    (bdbCall : BdbCall)
    (k : Nat) : ∀ (fuel : Nat) (retry_count : Int) (c : TransactionContext) (data : Option Dbt)
      (t : Trace), k < fuel → retry_count + k < db.m_maxDeadlockRetries →
      (∀ n txn d, calls t ≤ n → n < calls t + k →
        (bdbCall db.m_pDb n txn key d options).reportsDeadlock K = true) →
      (∀ txn d, (bdbCall db.m_pDb (calls t + k) txn key d options).reportsDeadlock K = false) →
      ∃ txn d u, DatabaseImpl.DeadlockLoop.loop K db methodName key options bdbCall fuel
          retry_count c data t
          = (((bdbCall db.m_pDb (calls t + k) txn key d options).outcome d).1, ⟨true, txn⟩,
              ((bdbCall db.m_pDb (calls t + k) txn key d options).outcome d).2, t ++ u) ∧
        (data.isSome → d.isSome) ∧
        Adds u (k + 1) k ((if c.begun then [] else [.begin]) ++
          (List.replicate k [Step.call, .rollback, .begin]).flatten ++ [.call]) := by
  induction k with
  | zero =>
    intro fuel retry_count c data t hf _ _ hfin
    obtain ⟨f, rfl⟩ : ∃ f, fuel = f + 1 := ⟨fuel - 1, by omega⟩
    obtain ⟨txn, u, h, hu⟩ := loop_final K db hdb
      methodName key options bdbCall f retry_count c data t (fun txn => hfin txn data)
    exact ⟨txn, data, u, by simpa using h, id, by simpa using hu⟩
  | succ k ih =>
    intro fuel retry_count c data t hf hN hdead hfin
    obtain ⟨f, rfl⟩ : ∃ f, fuel = f + 1 := ⟨fuel - 1, by omega⟩
    obtain ⟨d1, u, h, hd1, hu⟩ := loop_deadlock_retry K db hdb
      methodName key options bdbCall f retry_count c data t
      (fun txn => hdead _ txn data (le_refl _) (by omega)) (by push_cast at hN; omega)
    have hcu : calls (t ++ u) + k = calls t + (k + 1) := by simp [hu.1]; omega
    obtain ⟨txn, d2, v, h2, hd2, hv⟩ := ih f (retry_count + 1) ⟨false, none⟩ d1 (t ++ u)
      (by omega) (by push_cast at hN; omega)
      (fun n txn d hn hn' => hdead n txn d (by simp [hu.1] at hn; omega)
        (by simp [hu.1] at hn'; omega))
      (fun txn d => by rw [hcu]; exact hfin txn d)
    rw [hcu] at h2
    refine ⟨txn, d2, u ++ v, by rw [h, h2, List.append_assoc], fun hs => hd2 (hd1 hs), ?_⟩
    have := Adds_append hu hv
    simp only [List.replicate_succ, List.flatten_cons] at this ⊢
    convert this using 1
    · omega
    · omega
    · simp

/-! ## The retry loop of `CursorImpl` -/

/-- Every attempt on the cursor deadlocks and `j + 1` attempts are left: the loop makes `j + 1`
record calls and gives up with the deadlock error. -/
theorem cursor_loop_all_deadlock (K : Constants) (cur : CursorImpl)
    (db : DatabaseImpl) (dbc : Dbc) (hdb : cur._db = some db) (hdbc : cur._cursorp = some dbc)
    (options : Int) (bdbCall : CursorImpl.BdbCall)
    (hdead : ∀ n key data, (bdbCall dbc n key data options).reportsDeadlock K = true)
    (j : Nat) : ∀ (fuel : Nat) (ret retry_count : Int) (key data : Option Dbt) (t : Trace),
      j < fuel → retry_count + j + 1 = db.m_maxDeadlockRetries →
      ∃ k1 d1 u, CursorImpl.DeadlockLoop.loop K cur options bdbCall fuel ret retry_count key
          data t = (.error (.BdbException K.LOCK_DEADLOCK), k1, d1, t ++ u) ∧
        Adds u (j + 1) (j + 2) (List.replicate (j + 1) Step.call) := by
  induction j with
  | zero =>
    intro fuel ret retry_count key data t hf hN
    obtain ⟨f, rfl⟩ : ∃ f, fuel = f + 1 := ⟨fuel - 1, by omega⟩
    have hd := hdead (calls t) key data
    have hge : retry_count + 1 ≥ db.m_maxDeadlockRetries := by omega
    have hadds := Adds_append (Adds_append (Adds_call none key data options)
      (Adds_err K.LOCK_DEADLOCK .Deadlock)) (Adds_errx (.GivingUp .Get))
    rw [CursorImpl.DeadlockLoop.loop]
    simp only [hdbc, hdb]
    cases hres : bdbCall dbc (calls t) key data options with
    | returns ret1 size keySize =>
      rw [hres] at hd
      simp only [NativeResult.reportsDeadlock] at hd
      exact ⟨afterCall key keySize, afterCall data size,
        [.call none key data options] ++ [.err K.LOCK_DEADLOCK .Deadlock] ++
          [.errx (.GivingUp .Get)],
        by simp [hd, hge, DatabaseImpl.Log, Create_eq], hadds⟩
    | throws e =>
      rw [hres] at hd
      cases e <;> simp [NativeResult.reportsDeadlock] at hd
      exact ⟨key, data,
        [.call none key data options] ++ [.err K.LOCK_DEADLOCK .Deadlock] ++
          [.errx (.GivingUp .Get)],
        by simp [hge, DatabaseImpl.Log, Create_eq], hadds⟩
  | succ j ih =>
    intro fuel ret retry_count key data t hf hN
    obtain ⟨f, rfl⟩ : ∃ f, fuel = f + 1 := ⟨fuel - 1, by omega⟩
    have hd := hdead (calls t) key data
    have hlt : ¬ retry_count + 1 ≥ db.m_maxDeadlockRetries := by push_cast at hN; omega
    have hadds := Adds_append (Adds_call none key data options)
      (Adds_err K.LOCK_DEADLOCK .Deadlock)
    rw [CursorImpl.DeadlockLoop.loop]
    simp only [hdbc, hdb]
    cases hres : bdbCall dbc (calls t) key data options with
    | returns ret1 size keySize =>
      rw [hres] at hd
      simp only [NativeResult.reportsDeadlock] at hd
      obtain ⟨k2, d2, v, h2, hv⟩ := ih f ret1 (retry_count + 1) (afterCall key keySize)
        (afterCall data size)
        (t ++ [.call none key data options, .err K.LOCK_DEADLOCK .Deadlock]) (by omega)
        (by push_cast at hN; omega)
      refine ⟨k2, d2, [.call none key data options] ++ [.err K.LOCK_DEADLOCK .Deadlock] ++ v,
        by simp [hd, hlt, DatabaseImpl.Log, h2], ?_⟩
      have := Adds_append hadds hv
      convert this using 1 <;> omega
    | throws e =>
      rw [hres] at hd
      cases e <;> simp [NativeResult.reportsDeadlock] at hd
      obtain ⟨k2, d2, v, h2, hv⟩ := ih f ret (retry_count + 1) key data
        (t ++ [.call none key data options, .err K.LOCK_DEADLOCK .Deadlock]) (by omega)
        (by push_cast at hN; omega)
      refine ⟨k2, d2, [.call none key data options] ++ [.err K.LOCK_DEADLOCK .Deadlock] ++ v,
        by simp [hlt, DatabaseImpl.Log, h2], ?_⟩
      have := Adds_append hadds hv
      convert this using 1 <;> omega

/-! ## C1 -/

/-- C1. For every retry limit `N ≥ 1` and every record call that reports deadlock on every
attempt (by returning `LOCK_DEADLOCK` or by throwing `DbDeadlockException`), with the
transaction calls of the scope succeeding: `DatabaseImpl::DeadlockLoop` throws the
`BdbException` whose code is `LOCK_DEADLOCK` (it returns no result code and throws nothing
else) after exactly `N` record calls, and so does `CursorImpl::DeadlockLoop` on an open cursor
of a store with that limit. -/
theorem C1_deadlock_retries_exhausted (K : Constants) (N : Nat) (hN : 1 ≤ N) :
    (∀ (db : DatabaseImpl) (methodName : MethodName) (context : TransactionContext)
        (key data : Option Dbt) (options : Int) (bdbCall : BdbCall) (t : Trace),
        db.m_maxDeadlockRetries = N → db.TxnCallsSucceed →
        (∀ n txn d, (bdbCall db.m_pDb n txn key d options).reportsDeadlock K = true) →
        (db.DeadlockLoop K methodName context key data options bdbCall t).1
            = .error (.BdbException K.LOCK_DEADLOCK) ∧
          calls (db.DeadlockLoop K methodName context key data options bdbCall t).2.2.2
            = calls t + N) ∧
    (∀ (cur : CursorImpl) (db : DatabaseImpl) (dbc : Dbc) (key data : Option Dbt)
        (options : Int) (bdbCall : CursorImpl.BdbCall) (t : Trace),
        cur._db = some db → cur._cursorp = some dbc → db.m_maxDeadlockRetries = N →
        (∀ n k d, (bdbCall dbc n k d options).reportsDeadlock K = true) →
        (cur.DeadlockLoop K key data options bdbCall t).1
            = .error (.BdbException K.LOCK_DEADLOCK) ∧
          calls (cur.DeadlockLoop K key data options bdbCall t).2.2.2 = calls t + N) := by
  constructor
  · intro db methodName context key data options bdbCall t hmax hdb hdead
    obtain ⟨d1, u, h, hu⟩ := loop_all_deadlock K db hdb methodName
      key options bdbCall hdead (N - 1) (max 1 db.m_maxDeadlockRetries).toNat 0 context data t
      (by rw [hmax]; omega) (by rw [hmax]; omega)
    rw [DatabaseImpl.DeadlockLoop, h]
    exact ⟨rfl, by simp [hu.1]; omega⟩
  · intro cur db dbc key data options bdbCall t hdb hdbc hmax hdead
    obtain ⟨k1, d1, u, h, hu⟩ := cursor_loop_all_deadlock K cur db dbc hdb
      hdbc options bdbCall hdead (N - 1) (max 1 db.m_maxDeadlockRetries).toNat 0 0 key data t
      (by rw [hmax]; omega) (by rw [hmax]; omega)
    have hc : calls u = N := by rw [hu.1]; omega
    simp [CursorImpl.DeadlockLoop, hdb, h, hc]

/-- C1 at retry limit 3: a store whose `get` returns `LOCK_DEADLOCK` every time, and a cursor
whose `get` throws `DbDeadlockException` every time. -/
theorem C1_deadlock_retries_exhausted_witness :
    ((1 : Nat) ≤ 3 ∧ (scriptedStore 3 fun _ => .returns K0.LOCK_DEADLOCK 0 0).TxnCallsSucceed) ∧
    (((scriptedStore 3 fun _ => .returns K0.LOCK_DEADLOCK 0 0).DeadlockLoop K0 .Get {} none none
          0 get_core []).1 = .error (.BdbException K0.LOCK_DEADLOCK) ∧
      calls ((scriptedStore 3 fun _ => .returns K0.LOCK_DEADLOCK 0 0).DeadlockLoop K0 .Get {}
          none none 0 get_core []).2.2.2 = calls [] + 3) ∧
    ((CursorImpl.DeadlockLoop K0
          ⟨some (scriptedStore 3 fun _ => .throws (.DbDeadlockException 0)),
            some (scriptedDbc fun _ => .throws (.DbDeadlockException 0))⟩
          none none 0 CursorImpl.get_core []).1 = .error (.BdbException K0.LOCK_DEADLOCK) ∧
      calls (CursorImpl.DeadlockLoop K0
          ⟨some (scriptedStore 3 fun _ => .throws (.DbDeadlockException 0)),
            some (scriptedDbc fun _ => .throws (.DbDeadlockException 0))⟩
          none none 0 CursorImpl.get_core []).2.2.2 = calls [] + 3) :=
  have hs : (scriptedStore 3 fun _ => .returns K0.LOCK_DEADLOCK 0 0).TxnCallsSucceed :=
    ⟨by decide, fun _ => rfl, fun _ => rfl⟩
  ⟨⟨by decide, hs⟩,
    (C1_deadlock_retries_exhausted K0 3 (by decide)).1 _ .Get {} none none 0 get_core [] rfl hs
      (fun _ _ _ => rfl),
    (C1_deadlock_retries_exhausted K0 3 (by decide)).2 _ _ _ none none 0 CursorImpl.get_core []
      rfl rfl rfl (fun _ _ _ => rfl)⟩

/-! ## C2 -/

@[simp] theorem commits_nil : commits [] = 0 := rfl

@[simp] theorem commits_append (t u : Trace) : commits (t ++ u) = commits t + commits u := by
  simp [commits]

@[simp] theorem commits_cons (e : Event) (t : Trace) :
    commits (e :: t) = (if e.isCommit then 1 else 0) + commits t := by
  simp [commits, List.countP_cons, Nat.add_comm]

theorem BeginTrans_commits (db : DatabaseImpl) (t : Trace) :
    commits (db.BeginTrans t).2 = commits t := by
  cases hm : db.m_pTrMode <;> simp [DatabaseImpl.BeginTrans, hm]
  cases hx : db.m_isTxn <;> simp
  cases hb : db.txn_begin (begins t) <;> simp [Event.isCommit]

theorem begin_commits (db : DatabaseImpl) (c : TransactionContext) (t : Trace) :
    commits (c.begin db t).2.2 = commits t := by
  have h := BeginTrans_commits db t
  unfold TransactionContext.begin
  split
  · split
    · next heq => rw [heq] at h; simpa [Event.isCommit] using h
    · next heq => rw [heq] at h; simpa using h
  · rfl

theorem rollback_commits (db : DatabaseImpl) (c : TransactionContext) (t : Trace) :
    commits (c.rollback db t).2.2 = commits t := by
  have h : ∀ txn t, commits (db.RollbackTrans txn t).2 = commits t := by
    intro txn t
    cases txn with
    | none => rfl
    | some hd =>
      cases hm : db.m_pTrMode <;> simp [DatabaseImpl.RollbackTrans, hm]
      cases hb : db.txn_abort hd <;> simp [Event.isCommit]
  have h' := h c.txn (t ++ [.scope_rollback])
  unfold TransactionContext.rollback
  split
  · split
    · next heq => rw [heq] at h'; simpa [Event.isCommit] using h'
    · next heq => rw [heq] at h'; simpa [Event.isCommit] using h'
  · rfl

theorem attempt_commits (K : Constants) (db : DatabaseImpl) (c : TransactionContext)
    (key data : Option Dbt) (options : Int) (bdbCall : BdbCall) (t : Trace) :
    commits (DatabaseImpl.DeadlockLoop.attempt K db c key data options bdbCall t).2.2.2
      = commits t := by
  have h := begin_commits db c t
  unfold DatabaseImpl.DeadlockLoop.attempt
  split
  · next heq => rw [heq] at h; simpa using h
  · next heq => rw [heq] at h; simpa using h
  · next heq =>
    rw [heq] at h
    split <;> simpa [Event.isCommit] using h

/-- The retry loop makes no native commit, whatever the engine answers. -/
theorem loop_commits (K : Constants) (db : DatabaseImpl) (methodName : MethodName)
    (key : Option Dbt) (options : Int) (bdbCall : BdbCall) (fuel : Nat) :
    ∀ (retry_count : Int) (c : TransactionContext) (data : Option Dbt) (t : Trace),
      commits (DatabaseImpl.DeadlockLoop.loop K db methodName key options bdbCall fuel
        retry_count c data t).2.2.2 = commits t := by
  induction fuel with
  | zero => intro _ _ _ _; rfl
  | succ f ih =>
    intro retry_count c data t
    have ha := attempt_commits K db c key data options bdbCall t
    rw [DatabaseImpl.DeadlockLoop.loop]
    split
    · next heq => rw [heq] at ha; simpa using ha
    · next ret dl c1 d1 t1 heq =>
      rw [heq] at ha
      simp only at ha
      have hr := rollback_commits db c1 (DatabaseImpl.Log K.LOCK_DEADLOCK .Deadlock t1)
      split
      · split
        · next heq2 =>
          rw [heq2] at hr
          simp only [DatabaseImpl.Log, commits_append, commits_cons, commits_nil] at hr
          simpa [Event.isCommit, ha] using hr
        · next a c2 t2 heq2 =>
          rw [heq2] at hr
          simp only [DatabaseImpl.Log, commits_append, commits_cons, commits_nil] at hr
          have hr' : commits t2 = commits t := by simpa [Event.isCommit, ha] using hr
          split
          · simpa [Event.isCommit] using hr'
          · rw [ih]; exact hr'
      · simpa using ha

theorem count_rollback_retries (k : Nat) :
    (List.replicate k [Step.call, .rollback, .begin]).flatten.count .rollback = k := by
  induction k with
  | zero => rfl
  | succ k ih => simp [List.replicate_succ, List.count_cons, ih]

theorem count_commit_retries (k : Nat) :
    (List.replicate k [Step.call, .rollback, .begin]).flatten.count .commit = 0 := by
  induction k with
  | zero => rfl
  | succ k ih => simp [List.replicate_succ, List.count_cons, ih]

/-- C2. With retry limit `N`, `k < N`, the transaction calls of the scope succeeding, and a
record call that reports deadlock on its first `k` attempts and returns a code `r` other than
`LOCK_DEADLOCK` on attempt `k + 1`: `DatabaseImpl::DeadlockLoop` returns `r` unchanged after
exactly `k + 1` record calls; the scope is rolled back exactly `k` times, once after each
deadlocked call and before the `begin` of the next attempt; the loop commits neither the scope
nor a native transaction, and leaves the scope begun for the caller. -/
theorem C2_retry_then_result (K : Constants) (db : DatabaseImpl) (methodName : MethodName)
    (context : TransactionContext) (key data : Option Dbt) (options : Int) (bdbCall : BdbCall)
    (t : Trace) (k : Nat) (r : Int)
    (hdb : db.TxnCallsSucceed) (hk : (k : Int) < db.m_maxDeadlockRetries)
    (hdead : ∀ n txn d, calls t ≤ n → n < calls t + k →
      (bdbCall db.m_pDb n txn key d options).reportsDeadlock K = true)
    (hret : ∀ txn d, (bdbCall db.m_pDb (calls t + k) txn key d options).ret? = some r)
    (hr : r ≠ K.LOCK_DEADLOCK) :
    (db.DeadlockLoop K methodName context key data options bdbCall t).1 = .ok r ∧
    (db.DeadlockLoop K methodName context key data options bdbCall t).2.1.begun = true ∧
    ∃ u, (db.DeadlockLoop K methodName context key data options bdbCall t).2.2.2 = t ++ u ∧
      calls u = k + 1 ∧
      (steps u).count .rollback = k ∧
      (steps u).count .commit = 0 ∧ commits u = 0 ∧
      steps u = (if context.begun then [] else [.begin]) ++
        (List.replicate k [Step.call, .rollback, .begin]).flatten ++ [.call] := by
  have hfin : ∀ txn d,
      (bdbCall db.m_pDb (calls t + k) txn key d options).reportsDeadlock K = false := by
    intro txn d
    have h := hret txn d
    cases hres : bdbCall db.m_pDb (calls t + k) txn key d options with
    | returns ret size keySize =>
      rw [hres] at h
      simp only [NativeResult.ret?, Option.some.injEq] at h
      simp [NativeResult.reportsDeadlock, h, hr]
    | throws e => rw [hres] at h; simp [NativeResult.ret?] at h
  obtain ⟨txn, d, u, h, -, hu⟩ := loop_retry_final K db hdb methodName key options bdbCall k
    (max 1 db.m_maxDeadlockRetries).toNat 0 context data t (by omega) (by omega) hdead hfin
  have hc := loop_commits K db methodName key options bdbCall
    (max 1 db.m_maxDeadlockRetries).toNat 0 context data t
  have hout : ((bdbCall db.m_pDb (calls t + k) txn key d options).outcome d).1 = .ok r := by
    have h := hret txn d
    cases hres : bdbCall db.m_pDb (calls t + k) txn key d options with
    | returns ret size keySize =>
      rw [hres] at h
      simp only [NativeResult.ret?, Option.some.injEq] at h
      simp [NativeResult.outcome, h]
    | throws e => rw [hres] at h; simp [NativeResult.ret?] at h
  rw [DatabaseImpl.DeadlockLoop, h]
  rw [h] at hc
  refine ⟨hout, rfl, u, rfl, hu.1, ?_, ?_, by simpa using hc, hu.2.2⟩
  · rw [hu.2.2]
    by_cases hb : context.begun <;> simp [hb, List.count_cons, count_rollback_retries]
  · rw [hu.2.2]
    by_cases hb : context.begun <;> simp [hb, List.count_cons, count_commit_retries]

/-- C2 at retry limit 3 and `k = 2`: `get` returns `LOCK_DEADLOCK` twice, then `NOTFOUND`. -/
theorem C2_retry_then_result_witness :
    ((scriptedStore 3 fun n => if n < 2 then .returns K0.LOCK_DEADLOCK 0 0
        else .returns K0.NOTFOUND 0 0).DeadlockLoop K0 .Get {} none none 0 get_core []).1
      = .ok K0.NOTFOUND ∧
    ((scriptedStore 3 fun n => if n < 2 then .returns K0.LOCK_DEADLOCK 0 0
        else .returns K0.NOTFOUND 0 0).DeadlockLoop K0 .Get {} none none 0 get_core []).2.1.begun
      = true ∧
    ∃ u, ((scriptedStore 3 fun n => if n < 2 then .returns K0.LOCK_DEADLOCK 0 0
        else .returns K0.NOTFOUND 0 0).DeadlockLoop K0 .Get {} none none 0 get_core []).2.2.2
        = [] ++ u ∧
      calls u = 2 + 1 ∧ (steps u).count .rollback = 2 ∧ (steps u).count .commit = 0 ∧
      commits u = 0 ∧
      steps u = (if ({} : TransactionContext).begun then [] else [.begin]) ++
        (List.replicate 2 [Step.call, .rollback, .begin]).flatten ++ [.call] :=
  C2_retry_then_result K0 _ .Get {} none none 0 get_core [] 2 K0.NOTFOUND
    ⟨by decide, fun _ => rfl, fun _ => rfl⟩ (by decide)
    (fun n _ _ _ hn => by
      have hn' : n < 2 := by simpa using hn
      simp [get_core, scriptedStore, scriptedDb, hn', NativeResult.reportsDeadlock])
    (fun _ _ => rfl) (by decide)

/-! ## C3: every scope that is begun is ended once -/

theorem scopeRun_append (s s' : List Step) : ∀ b : Bool,
    scopeRun b (s ++ s') = (scopeRun b s).bind fun b' => scopeRun b' s' := by
  induction s with
  | nil => intro b; simp [scopeRun]
  | cons x s ih =>
    intro b
    cases b <;> cases x <;> simp [scopeRun, ih]

theorem Moves_nil (b : Bool) : Moves b [] b := by simp [Moves, scopeRun]

theorem Moves_append {b b' b'' : Bool} {u v : Trace} (hu : Moves b u b') (hv : Moves b' v b'') :
    Moves b (u ++ v) b'' := by
  unfold Moves at *
  rw [steps_append, scopeRun_append, hu]
  simpa using hv

theorem Moves_silent {e : Event} (he : e.step = none) (b : Bool) : Moves b [e] b := by
  simp [Moves, he, scopeRun]

theorem Moves_begin : Moves false [.scope_begin] true := by
  simp [Moves, Event.step, scopeRun]

theorem Moves_call (txn : Option Nat) (key data : Option Dbt) (options : Int) :
    Moves true [.call txn key data options] true := by
  simp [Moves, Event.step, scopeRun]

theorem Moves_commit : Moves true [.scope_commit] false := by
  simp [Moves, Event.step, scopeRun]

theorem Moves_rollback : Moves true [.scope_rollback] false := by
  simp [Moves, Event.step, scopeRun]

theorem BeginTrans_silent (db : DatabaseImpl) (t : Trace) (b : Bool) :
    ∃ u, (db.BeginTrans t).2 = t ++ u ∧ Moves b u b := by
  cases hm : db.m_pTrMode
  · exact ⟨[], by simp [DatabaseImpl.BeginTrans, hm], Moves_nil b⟩
  · cases hx : db.m_isTxn
    · exact ⟨[], by simp [DatabaseImpl.BeginTrans, hm, hx], Moves_nil b⟩
    · refine ⟨[.txn_begin (begins t)], ?_, Moves_silent (e := .txn_begin (begins t)) rfl b⟩
      cases hb : db.txn_begin (begins t) <;> simp [DatabaseImpl.BeginTrans, hm, hx, hb]
  · exact ⟨[], by simp [DatabaseImpl.BeginTrans, hm], Moves_nil b⟩

theorem CommitTrans_silent (db : DatabaseImpl) (txn : Option Nat) (t : Trace) (b : Bool) :
    ∃ u, (db.CommitTrans txn t).2 = t ++ u ∧ Moves b u b := by
  cases txn with
  | none => exact ⟨[], by simp [DatabaseImpl.CommitTrans], Moves_nil b⟩
  | some h =>
    cases hm : db.m_pTrMode
    · exact ⟨[], by simp [DatabaseImpl.CommitTrans, hm], Moves_nil b⟩
    · refine ⟨[.commit h], ?_, Moves_silent (e := .commit h) rfl b⟩
      cases hb : db.txn_commit h <;> simp [DatabaseImpl.CommitTrans, hm, hb]
    · exact ⟨[], by simp [DatabaseImpl.CommitTrans, hm], Moves_nil b⟩

theorem RollbackTrans_silent (db : DatabaseImpl) (txn : Option Nat) (t : Trace) (b : Bool) :
    ∃ u, (db.RollbackTrans txn t).2 = t ++ u ∧ Moves b u b := by
  cases txn with
  | none => exact ⟨[], by simp [DatabaseImpl.RollbackTrans], Moves_nil b⟩
  | some h =>
    cases hm : db.m_pTrMode
    · exact ⟨[], by simp [DatabaseImpl.RollbackTrans, hm], Moves_nil b⟩
    · refine ⟨[.abort h], ?_, Moves_silent (e := .abort h) rfl b⟩
      cases hb : db.txn_abort h <;> simp [DatabaseImpl.RollbackTrans, hm, hb]
    · exact ⟨[], by simp [DatabaseImpl.RollbackTrans, hm], Moves_nil b⟩

/-- Whatever the engine answers, `begin` moves the scope by steps a scope can make, and leaves it
begun when it returns. -/
theorem begin_moves (db : DatabaseImpl) (c : TransactionContext) (t : Trace) :
    ∃ u, (c.begin db t).2.2 = t ++ u ∧ Moves c.begun u (c.begin db t).2.1.begun ∧
      (∀ txn, (c.begin db t).1 = .ok txn → (c.begin db t).2.1.begun = true) := by
  obtain ⟨u, hu, hm⟩ := BeginTrans_silent db t false
  rcases c with ⟨begun, txn⟩
  cases begun
  · unfold TransactionContext.begin
    rcases hres : db.BeginTrans t with ⟨r, t1⟩
    rw [hres] at hu
    simp only at hu
    subst hu
    cases r with
    | error e => exact ⟨u, by simp, by simpa using hm, by simp⟩
    | ok h =>
      exact ⟨u ++ [.scope_begin], by simp, by simpa using Moves_append hm Moves_begin, by simp⟩
  · exact ⟨[], by simp [TransactionContext.begin], by
      simpa [TransactionContext.begin] using Moves_nil true, by simp [TransactionContext.begin]⟩

/-- Whatever the engine answers, `commit` moves the scope by steps a scope can make. -/
theorem commit_moves (db : DatabaseImpl) (c : TransactionContext) (t : Trace) :
    ∃ u, (c.commit db t).2.2 = t ++ u ∧ Moves c.begun u (c.commit db t).2.1.begun ∧
      ((c.commit db t).1 = .ok () → (c.commit db t).2.1.begun = false) := by
  obtain ⟨u, hu, hm⟩ := CommitTrans_silent db c.txn t true
  rcases c with ⟨begun, txn⟩
  cases begun
  · exact ⟨[], by simp [TransactionContext.commit], by
      simpa [TransactionContext.commit] using Moves_nil false, by simp [TransactionContext.commit]⟩
  · unfold TransactionContext.commit
    rcases hres : db.CommitTrans txn t with ⟨r, t1⟩
    simp only at hu
    rw [hres] at hu
    simp only at hu
    subst hu
    cases r with
    | error e => exact ⟨u, by simp, by simpa using hm, by simp⟩
    | ok h =>
      exact ⟨u ++ [.scope_commit], by simp, by simpa using Moves_append hm Moves_commit, by simp⟩

/-- Whatever the engine answers, `rollback` leaves the scope not begun, by steps a scope can
make. -/
theorem rollback_moves (db : DatabaseImpl) (c : TransactionContext) (t : Trace) :
    ∃ u, (c.rollback db t).2.2 = t ++ u ∧ Moves c.begun u false ∧
      (c.rollback db t).2.1.begun = false := by
  obtain ⟨u, hu, hm⟩ := RollbackTrans_silent db c.txn (t ++ [.scope_rollback]) false
  rcases c with ⟨begun, txn⟩
  cases begun
  · exact ⟨[], by simp [TransactionContext.rollback], Moves_nil false,
      by simp [TransactionContext.rollback]⟩
  · unfold TransactionContext.rollback
    rcases hres : db.RollbackTrans txn (t ++ [.scope_rollback]) with ⟨r, t1⟩
    simp only at hu
    rw [hres] at hu
    simp only at hu
    subst hu
    cases r with
    | error e =>
      exact ⟨[.scope_rollback] ++ u, by simp [hres], Moves_append Moves_rollback hm,
        by simp [hres]⟩
    | ok h =>
      exact ⟨[.scope_rollback] ++ u, by simp [hres], Moves_append Moves_rollback hm,
        by simp [hres]⟩

theorem attempt_moves (K : Constants) (db : DatabaseImpl) (c : TransactionContext)
    (key data : Option Dbt) (options : Int) (bdbCall : BdbCall) (t : Trace) :
    ∃ u, (DatabaseImpl.DeadlockLoop.attempt K db c key data options bdbCall t).2.2.2 = t ++ u ∧
      Moves c.begun u
        (DatabaseImpl.DeadlockLoop.attempt K db c key data options bdbCall t).2.1.begun := by
  obtain ⟨u, hu, hm, hok⟩ := begin_moves db c t
  unfold DatabaseImpl.DeadlockLoop.attempt
  rcases hres : c.begin db t with ⟨r, c1, t1⟩
  rw [hres] at hu hm hok
  simp only at hu hm hok
  subst hu
  cases r with
  | error e =>
    refine ⟨u, ?_, ?_⟩
    · split <;> simp_all
    · split <;> simp_all
  | ok txn =>
    have hb : c1.begun = true := hok txn rfl
    have hcall : Moves c1.begun [.call txn key data options] c1.begun := by
      rw [hb]; exact Moves_call txn key data options
    refine ⟨u ++ [.call txn key data options], ?_, ?_⟩
    · simp only []
      split <;> simp
    · have := Moves_append hm hcall
      simp only []
      split <;> simpa using this

/-- Whatever the engine answers, the retry loop moves the scope by steps a scope can make. -/
theorem loop_moves (K : Constants) (db : DatabaseImpl) (methodName : MethodName)
    (key : Option Dbt) (options : Int) (bdbCall : BdbCall) (fuel : Nat) :
    ∀ (retry_count : Int) (c : TransactionContext) (data : Option Dbt) (t : Trace),
      ∃ u, (DatabaseImpl.DeadlockLoop.loop K db methodName key options bdbCall fuel
          retry_count c data t).2.2.2 = t ++ u ∧
        Moves c.begun u (DatabaseImpl.DeadlockLoop.loop K db methodName key options bdbCall fuel
          retry_count c data t).2.1.begun := by
  induction fuel with
  | zero => intro _ c _ t; exact ⟨[], by simp [DatabaseImpl.DeadlockLoop.loop], Moves_nil _⟩
  | succ f ih =>
    intro retry_count c data t
    obtain ⟨u, hu, hm⟩ := attempt_moves K db c key data options bdbCall t
    rw [DatabaseImpl.DeadlockLoop.loop]
    rcases hres : DatabaseImpl.DeadlockLoop.attempt K db c key data options bdbCall t with
      ⟨r, c1, d1, t1⟩
    rw [hres] at hu hm
    simp only at hu hm
    subst hu
    cases r with
    | error e => exact ⟨u, rfl, hm⟩
    | ok p =>
      rcases p with ⟨ret, dl⟩
      cases dl with
      | false => exact ⟨u, by simp, by simpa using hm⟩
      | true =>
        obtain ⟨v, hv, hmv, hb⟩ :=
          rollback_moves db c1 (DatabaseImpl.Log K.LOCK_DEADLOCK .Deadlock (t ++ u))
        simp only [if_true]
        rcases hrb : c1.rollback db (DatabaseImpl.Log K.LOCK_DEADLOCK .Deadlock (t ++ u)) with
          ⟨r2, c2, t2⟩
        rw [hrb] at hv hb
        simp only at hv hb
        subst hv
        have hlog : Moves c1.begun [Event.err K.LOCK_DEADLOCK .Deadlock] c1.begun :=
          Moves_silent (e := .err K.LOCK_DEADLOCK .Deadlock) rfl _
        have hm2 : Moves c.begun (u ++ [Event.err K.LOCK_DEADLOCK .Deadlock] ++ v) c2.begun := by
          rw [hb]; exact Moves_append (Moves_append hm hlog) hmv
        cases r2 with
        | error e =>
          exact ⟨u ++ [Event.err K.LOCK_DEADLOCK .Deadlock] ++ v, by simp [DatabaseImpl.Log],
            hm2⟩
        | ok _ =>
          simp only []
          split
          · exact ⟨u ++ [Event.err K.LOCK_DEADLOCK .Deadlock] ++ v ++
              [.errx (.GivingUp methodName)], by simp [DatabaseImpl.Log],
              Moves_append hm2 (Moves_silent (e := .errx (.GivingUp methodName)) rfl _)⟩
          · obtain ⟨w, hw, hmw⟩ := ih (retry_count + 1) c2 d1
              (DatabaseImpl.Log K.LOCK_DEADLOCK .Deadlock (t ++ u) ++ v)
            exact ⟨u ++ [Event.err K.LOCK_DEADLOCK .Deadlock] ++ v ++ w,
              by rw [hw]; simp [DatabaseImpl.Log], Moves_append hm2 hmw⟩

theorem ScopeSound_refl (c : TransactionContext) (t : Trace) : ScopeSound c t c t :=
  ⟨[], by simp, Moves_nil _⟩

theorem ScopeSound_trans {c c1 c2 : TransactionContext} {t t1 t2 : Trace}
    (h1 : ScopeSound c t c1 t1) (h2 : ScopeSound c1 t1 c2 t2) : ScopeSound c t c2 t2 := by
  obtain ⟨u, rfl, hu⟩ := h1
  obtain ⟨v, rfl, hv⟩ := h2
  exact ⟨u ++ v, by simp, Moves_append hu hv⟩

theorem DeadlockLoop_sound (K : Constants) (db : DatabaseImpl) (methodName : MethodName)
    (c : TransactionContext) (key data : Option Dbt) (options : Int) (bdbCall : BdbCall)
    (t : Trace) :
    ScopeSound c t (db.DeadlockLoop K methodName c key data options bdbCall t).2.1
      (db.DeadlockLoop K methodName c key data options bdbCall t).2.2.2 :=
  loop_moves K db methodName key options bdbCall _ 0 c data t

theorem TryStd_sound (K : Constants) (db : DatabaseImpl) (methodName : MethodName)
    (c : TransactionContext) (key data : Option Dbt) (options : Int) (bdbCall : BdbCall)
    (t : Trace) :
    ScopeSound c t (db.TryStd K methodName c key data options bdbCall t).2.1
      (db.TryStd K methodName c key data options bdbCall t).2.2 := by
  have h := DeadlockLoop_sound K db methodName c key data options bdbCall t
  unfold DatabaseImpl.TryStd
  split <;> simp_all

theorem TryMemStd_sound (K : Constants) (db : DatabaseImpl) (methodName : MethodName)
    (c : TransactionContext) (key : Option Dbt) (data : Dbt) (options : Int) (bdbCall : BdbCall)
    (t : Trace) :
    ScopeSound c t (db.TryMemStd K methodName c key data options bdbCall t).2.1
      (db.TryMemStd K methodName c key data options bdbCall t).2.2.2 := by
  have h := DeadlockLoop_sound K db methodName c key (some data) options bdbCall t
  unfold DatabaseImpl.TryMemStd
  split <;> simp_all

theorem commit_sound (db : DatabaseImpl) (c : TransactionContext) (t : Trace) :
    ScopeSound c t (c.commit db t).2.1 (c.commit db t).2.2 := by
  obtain ⟨u, hu, hm, -⟩ := commit_moves db c t
  exact ⟨u, hu, hm⟩

theorem SwitchStd_sound (K : Constants) (db : DatabaseImpl) (c : TransactionContext)
    (ret : Int) (t : Trace) :
    ScopeSound c t (db.SwitchStd K c ret t).2.1 (db.SwitchStd K c ret t).2.2 := by
  unfold DatabaseImpl.SwitchStd
  split
  · exact commit_sound db c t
  · exact ScopeSound_refl c t

theorem SwitchMemStd_sound (K : Constants) (db : DatabaseImpl) (c : TransactionContext)
    (ret size : Int) (t : Trace) :
    ScopeSound c t (db.SwitchMemStd K c ret size t).2.1 (db.SwitchMemStd K c ret size t).2.2 := by
  have h := commit_sound db c t
  unfold DatabaseImpl.SwitchMemStd
  simp only []
  split
  · exact ScopeSound_refl c t
  · split <;> simp_all

/-- Whatever the result and whatever the engine answers, the destructor leaves the scope not
begun. -/
theorem destroy_sound {α : Type} (db : DatabaseImpl) (r : Except Exn α)
    (c : TransactionContext) (t : Trace) :
    ScopeSound c t (TransactionContext.destroy db r c t).2.1
      (TransactionContext.destroy db r c t).2.2 ∧
    (TransactionContext.destroy db r c t).2.1.begun = false := by
  obtain ⟨u, hu, hm, hb⟩ := rollback_moves db c t
  unfold TransactionContext.destroy
  rcases hres : c.rollback db t with ⟨r2, c2, t2⟩
  rw [hres] at hu hb
  simp only at hu hb
  subst hu
  cases r2 with
  | ok _ => exact ⟨⟨u, rfl, by simpa [hb] using hm⟩, hb⟩
  | error e => cases r <;> exact ⟨⟨u, rfl, by simpa [hb] using hm⟩, hb⟩

theorem Get_body_sound (K : Constants) (db : DatabaseImpl) (key : DataBuffer) (offset : Int)
    (buffer : DataBuffer) (flags : Int) (c : TransactionContext) (t : Trace) :
    ScopeSound c t (DatabaseImpl.Get.body K db key offset buffer flags c t).2.1
      (DatabaseImpl.Get.body K db key offset buffer flags c t).2.2 := by
  unfold DatabaseImpl.Get.body
  split
  · exact ScopeSound_refl c t
  · next dbtKey _ =>
    split
    · exact ScopeSound_refl c t
    · next holder _ =>
      have h1 := TryMemStd_sound K db .Get c (some dbtKey.dbt)
        (DatabaseImpl.Get.dbtBuffer K holder offset) flags get_core t
      split
      · next heq => rw [heq] at h1; exact h1
      · next ret size c1 _ t1 heq =>
        rw [heq] at h1
        exact ScopeSound_trans h1 (SwitchMemStd_sound K db c1 ret size t1)

theorem GetLength_body_sound (K : Constants) (db : DatabaseImpl) (key : DataBuffer)
    (flags : Int) (c : TransactionContext) (t : Trace) :
    ScopeSound c t (DatabaseImpl.GetLength.body K db key flags c t).2.1
      (DatabaseImpl.GetLength.body K db key flags c t).2.2 := by
  unfold DatabaseImpl.GetLength.body
  split
  · exact ScopeSound_refl c t
  · next dbtKey _ =>
    have h1 := TryMemStd_sound K db .GetLength c (some dbtKey.dbt)
      (DatabaseImpl.GetLength.dbtBuffer K) flags get_core t
    split
    · next heq => rw [heq] at h1; exact h1
    · next ret size c1 _ t1 heq =>
      rw [heq] at h1
      exact ScopeSound_trans h1 (SwitchMemStd_sound K db c1 ret size t1)

theorem GetStream_body_sound (K : Constants) (db : DatabaseImpl) (key : DataBuffer)
    (offset length : Int) (flags : Int) (c : TransactionContext) (t : Trace) :
    ScopeSound c t (DatabaseImpl.GetStream.body K db key offset length flags c t).2.1
      (DatabaseImpl.GetStream.body K db key offset length flags c t).2.2 := by
  unfold DatabaseImpl.GetStream.body
  split
  · exact ScopeSound_refl c t
  · next dbtKey _ =>
    have h1 := TryMemStd_sound K db .Get c (some dbtKey.dbt)
      (DatabaseImpl.GetStream.dbtBuffer K offset length) flags get_core t
    split
    · next heq => rw [heq] at h1; exact h1
    · next ret size c1 _ t1 heq =>
      rw [heq] at h1
      have h2 := ScopeSound_trans h1 (SwitchMemStd_sound K db c1 ret size t1)
      split
      · next heq2 => rw [heq2] at h2; exact h2
      · next heq2 => rw [heq2] at h2; exact h2

theorem GetBuffer_body_sound (K : Constants) (db : DatabaseImpl) (key : DataBuffer)
    (offset length : Int) (flags : Int) (c : TransactionContext) (t : Trace) :
    ScopeSound c t (DatabaseImpl.GetBuffer.body K db key offset length flags c t).2.1
      (DatabaseImpl.GetBuffer.body K db key offset length flags c t).2.2 := by
  unfold DatabaseImpl.GetBuffer.body
  split
  · exact ScopeSound_refl c t
  · next dbtKey _ =>
    have h1 := TryMemStd_sound K db .GetBuffer c (some dbtKey.dbt)
      (DatabaseImpl.GetBuffer.dbtBuffer K offset length) flags get_core t
    split
    · next heq => rw [heq] at h1; exact h1
    · next ret size c1 _ t1 heq =>
      rw [heq] at h1
      have h2 := ScopeSound_trans h1 (SwitchMemStd_sound K db c1 ret size t1)
      split
      · next heq2 => rw [heq2] at h2; exact h2
      · next heq2 => rw [heq2] at h2; exact h2

theorem Put_body_sound (K : Constants) (db : DatabaseImpl) (key : DataBuffer)
    (offset count : Int) (buffer : DataBuffer) (flags : Int) (c : TransactionContext)
    (t : Trace) :
    ScopeSound c t (DatabaseImpl.Put.body K db key offset count buffer flags c t).2.1
      (DatabaseImpl.Put.body K db key offset count buffer flags c t).2.2 := by
  unfold DatabaseImpl.Put.body
  split
  · exact ScopeSound_refl c t
  · next dbtKey _ =>
    split
    · exact ScopeSound_refl c t
    · next holder _ =>
      have h1 := TryMemStd_sound K db .Put c (some dbtKey.dbt)
        (DatabaseImpl.Put.dbtBuffer K holder offset count buffer) flags put_core t
      split
      · next heq => rw [heq] at h1; exact h1
      · next ret size c1 _ t1 heq =>
        rw [heq] at h1
        have h2 := ScopeSound_trans h1 (SwitchStd_sound K db c1 ret t1)
        split
        · next heq2 => rw [heq2] at h2; exact h2
        · next heq2 => rw [heq2] at h2; exact h2

theorem Delete_body_sound (K : Constants) (db : DatabaseImpl) (key : DataBuffer)
    (flags : Int) (c : TransactionContext) (t : Trace) :
    ScopeSound c t (DatabaseImpl.Delete.body K db key flags c t).2.1
      (DatabaseImpl.Delete.body K db key flags c t).2.2 := by
  unfold DatabaseImpl.Delete.body
  split
  · exact ScopeSound_refl c t
  · next dbtKey _ =>
    have h1 := TryStd_sound K db .Delete c (some dbtKey.dbt) none flags del_core t
    split
    · next heq => rw [heq] at h1; exact h1
    · next ret c1 t1 heq =>
      rw [heq] at h1
      have h2 := ScopeSound_trans h1 (commit_sound db c1 t1)
      simp only []
      split
      · exact h1
      · split
        · next heq2 => rw [heq2] at h2; exact h2
        · next heq2 => rw [heq2] at h2; exact h2

theorem Exists_body_sound (K : Constants) (db : DatabaseImpl) (key : DataBuffer)
    (flags : Int) (c : TransactionContext) (t : Trace) :
    ScopeSound c t (DatabaseImpl.Exists.body K db key flags c t).2.1
      (DatabaseImpl.Exists.body K db key flags c t).2.2 := by
  unfold DatabaseImpl.Exists.body
  split
  · exact ScopeSound_refl c t
  · next dbtKey _ =>
    have h1 := TryStd_sound K db .Exists c (some dbtKey.dbt) none flags exists_core t
    split
    · next heq => rw [heq] at h1; exact h1
    · next ret c1 t1 heq =>
      rw [heq] at h1
      have h2 := ScopeSound_trans h1 (commit_sound db c1 t1)
      split
      · split
        · next heq2 => rw [heq2] at h2; exact h2
        · next heq2 => rw [heq2] at h2; exact h2
      · exact h1

theorem scopeRun_count (s : List Step) : ∀ b b' : Bool, scopeRun b s = some b' →
    s.count .begin + (if b then 1 else 0)
      = s.count .commit + s.count .rollback + (if b' then 1 else 0) := by
  induction s with
  | nil => intro b b' h; simp [scopeRun] at h; simp [h]
  | cons x s ih =>
    intro b b' h
    cases b <;> cases x <;> simp [scopeRun] at h <;>
      have := ih _ _ h <;> simp [List.count_cons] at this ⊢ <;> omega

theorem ends_of_sound {α : Type} (db : DatabaseImpl)
    (body : Except Exn α × TransactionContext × Trace) (t : Trace) (ht : steps t = [])
    (h : ScopeSound {} t body.2.1 body.2.2) :
    EndsEveryScope (TransactionContext.destroy db body.1 body.2.1 body.2.2).2.1
      (TransactionContext.destroy db body.1 body.2.1 body.2.2).2.2 := by
  obtain ⟨hs, hb⟩ := destroy_sound db body.1 body.2.1 body.2.2
  obtain ⟨u, hu, hm⟩ := ScopeSound_trans h hs
  rw [hb] at hm
  have hrun : scopeRun false (steps (TransactionContext.destroy db body.1 body.2.1
      body.2.2).2.2) = some false := by
    rw [hu, steps_append, ht]; exact hm
  refine ⟨hb, hrun, ?_⟩
  have := scopeRun_count _ _ _ hrun
  simpa using this

/-! ## C3: the calls of a scope, in order -/

theorem scopeCalls_append (db : DatabaseImpl) (u v : Trace) : ∀ s : ScopeState,
    scopeCalls db s (u ++ v) = (scopeCalls db s u).bind fun s1 => scopeCalls db s1 v := by
  induction u with
  | nil => intro s; simp [scopeCalls]
  | cons e u ih =>
    intro s
    simp only [List.cons_append, scopeCalls]
    cases s.step db e with
    | none => simp
    | some s1 => simpa using ih s1

theorem Runs_nil (db : DatabaseImpl) (s : ScopeState) : Runs db s [] s := rfl

theorem Runs_append {db : DatabaseImpl} {s s1 s2 : ScopeState} {u v : Trace}
    (hu : Runs db s u s1) (hv : Runs db s1 v s2) : Runs db s (u ++ v) s2 := by
  unfold Runs at *
  rw [scopeCalls_append, hu]
  simpa using hv

theorem Runs_single {db : DatabaseImpl} {s s1 : ScopeState} {e : Event}
    (h : s.step db e = some s1) : Runs db s [e] s1 := by
  simp [Runs, scopeCalls, h]

theorem Runs_err (db : DatabaseImpl) (s : ScopeState) (errNumber : Int) (msg : Msg) :
    Runs db s [.err errNumber msg] s := by
  cases s <;> simp [Runs, scopeCalls, ScopeState.step]

theorem Runs_errx (db : DatabaseImpl) (s : ScopeState) (msg : Msg) :
    Runs db s [.errx msg] s := by
  cases s <;> simp [Runs, scopeCalls, ScopeState.step]

theorem ScopeTracked_refl (db : DatabaseImpl) (c : TransactionContext) (t : Trace)
    (hc : c.Consistent db) : ScopeTracked db c t c t :=
  ⟨[], by simp, Runs_nil db _, hc⟩

theorem ScopeTracked_consistent {db : DatabaseImpl} {c c1 : TransactionContext} {t t1 : Trace}
    (h : ScopeTracked db c t c1 t1) : c1.Consistent db := by
  obtain ⟨_, -, -, hc⟩ := h
  exact hc

theorem ScopeTracked_trans {db : DatabaseImpl} {c c1 c2 : TransactionContext} {t t1 t2 : Trace}
    (h1 : ScopeTracked db c t c1 t1) (h2 : ScopeTracked db c1 t1 c2 t2) :
    ScopeTracked db c t c2 t2 := by
  obtain ⟨u, rfl, hu, -⟩ := h1
  obtain ⟨v, rfl, hv, hc⟩ := h2
  exact ⟨u ++ v, by simp, Runs_append hu hv, hc⟩

theorem BodyTracked_of_tracked {db : DatabaseImpl} {c c1 : TransactionContext} {t t1 : Trace}
    (h : ScopeTracked db c t c1 t1) : BodyTracked db c t c1 t1 := by
  obtain ⟨u, rfl, hu, hc⟩ := h
  exact ⟨u, _, rfl, hu, Or.inl rfl, hc⟩

theorem BodyTracked_trans {db : DatabaseImpl} {c c1 c2 : TransactionContext} {t t1 t2 : Trace}
    (h1 : ScopeTracked db c t c1 t1) (h2 : BodyTracked db c1 t1 c2 t2) :
    BodyTracked db c t c2 t2 := by
  obtain ⟨u, rfl, hu, -⟩ := h1
  obtain ⟨v, s, rfl, hv, ha, hc⟩ := h2
  exact ⟨u ++ v, s, by simp, Runs_append hu hv, ha, hc⟩

/-- Whatever the engine answers, `begin` makes its calls in order; when it returns, the scope is
begun with the transaction returned. -/
theorem begin_tracked (db : DatabaseImpl) (c : TransactionContext) (t : Trace)
    (hc : c.Consistent db) :
    ScopeTracked db c t (c.begin db t).2.1 (c.begin db t).2.2 ∧
      (∀ txn, (c.begin db t).1 = .ok txn →
        (c.begin db t).2.1.begun = true ∧ (c.begin db t).2.1.txn = txn) := by
  rcases c with ⟨begun, txn⟩
  cases begun
  · cases hm : db.m_pTrMode
    · refine ⟨⟨[.scope_begin], ?_, ?_, ?_⟩, ?_⟩ <;>
        simp [TransactionContext.begin, DatabaseImpl.BeginTrans, hm, Runs, scopeCalls,
          ScopeState.step, TransactionContext.state, TransactionContext.Consistent]
    · cases hx : db.m_isTxn
      · refine ⟨⟨[.scope_begin], ?_, ?_, ?_⟩, ?_⟩ <;>
          simp [TransactionContext.begin, DatabaseImpl.BeginTrans, hm, hx, Runs, scopeCalls,
            ScopeState.step, TransactionContext.state, TransactionContext.Consistent]
      · cases hb : db.txn_begin (begins t)
        · refine ⟨⟨[.txn_begin (begins t), .scope_begin], ?_, ?_, ?_⟩, ?_⟩ <;>
            simp [TransactionContext.begin, DatabaseImpl.BeginTrans, hm, hx, hb, Runs,
              scopeCalls, ScopeState.step, TransactionContext.state,
              TransactionContext.Consistent]
        · refine ⟨⟨[.txn_begin (begins t)], ?_, ?_, ?_⟩, ?_⟩ <;>
            simp [TransactionContext.begin, DatabaseImpl.BeginTrans, hm, hx, hb, Runs,
              scopeCalls, ScopeState.step, TransactionContext.state,
              TransactionContext.Consistent]
    · refine ⟨⟨[], ?_, ?_, ?_⟩, ?_⟩ <;>
        simp [TransactionContext.begin, DatabaseImpl.BeginTrans, hm, Runs, scopeCalls,
          TransactionContext.state, TransactionContext.Consistent]
  · refine ⟨⟨[], ?_, ?_, ?_⟩, ?_⟩
    · simp [TransactionContext.begin]
    · simp [TransactionContext.begin, Runs, scopeCalls]
    · simpa [TransactionContext.begin] using hc
    · simp [TransactionContext.begin]

/-- Whatever the engine answers, `rollback` makes its calls in order and leaves the scope not
begun; so it does after a commit that threw. -/
theorem rollback_tracked (db : DatabaseImpl) (c : TransactionContext) (t : Trace)
    (hc : c.Consistent db) (s : ScopeState) (hs : AfterBody c s) :
    ∃ u, (c.rollback db t).2.2 = t ++ u ∧ Runs db s u .idle ∧
      (c.rollback db t).2.1.begun = false := by
  rcases c with ⟨begun, txn⟩
  cases begun
  · rcases hs with hs | ⟨h, hs, -⟩
    · subst hs
      exact ⟨[], by simp [TransactionContext.rollback],
        by simp [Runs, scopeCalls, TransactionContext.state],
        by simp [TransactionContext.rollback]⟩
    · simp at hs
  · cases txn with
    | none =>
      rcases hs with hs | ⟨h, hs, -⟩
      · subst hs
        refine ⟨[.scope_rollback], ?_, ?_, ?_⟩ <;>
          simp [TransactionContext.rollback, DatabaseImpl.RollbackTrans, Runs, scopeCalls,
            ScopeState.step, TransactionContext.state]
      · simp at hs
    | some h =>
      have hm : db.m_pTrMode = .PerCall := hc h rfl rfl
      have hrun : Runs db s [.scope_rollback, .abort h] .idle := by
        rcases hs with hs | ⟨h1, hs, hs1⟩
        · subst hs
          simp [Runs, scopeCalls, ScopeState.step, TransactionContext.state]
        · simp only [TransactionContext.mk.injEq, Option.some.injEq, true_and] at hs
          subst hs hs1
          simp [Runs, scopeCalls, ScopeState.step]
      cases ha : db.txn_abort h
      · exact ⟨[.scope_rollback, .abort h],
          by simp [TransactionContext.rollback, DatabaseImpl.RollbackTrans, hm, ha], hrun,
          by simp [TransactionContext.rollback, DatabaseImpl.RollbackTrans, hm, ha]⟩
      · exact ⟨[.scope_rollback, .abort h],
          by simp [TransactionContext.rollback, DatabaseImpl.RollbackTrans, hm, ha], hrun,
          by simp [TransactionContext.rollback, DatabaseImpl.RollbackTrans, hm, ha]⟩

theorem rollback_scopeTracked (db : DatabaseImpl) (c : TransactionContext) (t : Trace)
    (hc : c.Consistent db) :
    ScopeTracked db c t (c.rollback db t).2.1 (c.rollback db t).2.2 := by
  obtain ⟨u, hu, hr, hb⟩ := rollback_tracked db c t hc c.state (Or.inl rfl)
  refine ⟨u, hu, ?_, ?_⟩
  · simpa [TransactionContext.state, hb] using hr
  · intro h hbeg
    rw [hb] at hbeg
    exact absurd hbeg (by simp)

/-- Whatever the engine answers, `commit` makes its calls in order: the scope is ended, or the
engine's commit has thrown and the scope is as it was. -/
theorem commit_tracked (db : DatabaseImpl) (c : TransactionContext) (t : Trace)
    (hc : c.Consistent db) :
    BodyTracked db c t (c.commit db t).2.1 (c.commit db t).2.2 := by
  rcases c with ⟨begun, txn⟩
  cases begun
  · exact ⟨[], _, by simp [TransactionContext.commit], Runs_nil db _,
      Or.inl (by simp [TransactionContext.commit]), by simpa [TransactionContext.commit] using hc⟩
  · cases txn with
    | none =>
      refine ⟨[.scope_commit], .idle, ?_, ?_, Or.inl ?_, ?_⟩ <;>
        simp [TransactionContext.commit, DatabaseImpl.CommitTrans, Runs, scopeCalls,
          ScopeState.step, TransactionContext.state, TransactionContext.Consistent]
    | some h =>
      have hm : db.m_pTrMode = .PerCall := hc h rfl rfl
      cases hk : db.txn_commit h
      · refine ⟨[.commit h, .scope_commit], .idle, ?_, ?_, Or.inl ?_, ?_⟩ <;>
          simp [TransactionContext.commit, DatabaseImpl.CommitTrans, hm, hk, Runs, scopeCalls,
            ScopeState.step, TransactionContext.state, TransactionContext.Consistent]
      · refine ⟨[.commit h], .commitThrew h, ?_, ?_, Or.inr ⟨h, ?_, rfl⟩, ?_⟩
        · simp [TransactionContext.commit, DatabaseImpl.CommitTrans, hm, hk]
        · simp [Runs, scopeCalls, ScopeState.step, TransactionContext.state, hk]
        · simp [TransactionContext.commit, DatabaseImpl.CommitTrans, hm, hk]
        · simpa [TransactionContext.commit, DatabaseImpl.CommitTrans, hm, hk] using hc

theorem attempt_tracked (K : Constants) (db : DatabaseImpl) (c : TransactionContext)
    (key data : Option Dbt) (options : Int) (bdbCall : BdbCall) (t : Trace)
    (hc : c.Consistent db) :
    ScopeTracked db c t
      (DatabaseImpl.DeadlockLoop.attempt K db c key data options bdbCall t).2.1
      (DatabaseImpl.DeadlockLoop.attempt K db c key data options bdbCall t).2.2.2 := by
  obtain ⟨⟨u, hu, hr, hc1⟩, hok⟩ := begin_tracked db c t hc
  unfold DatabaseImpl.DeadlockLoop.attempt
  rcases hres : c.begin db t with ⟨r, c1, t1⟩
  rw [hres] at hu hr hc1 hok
  simp only at hu hr hc1 hok
  subst hu
  cases r with
  | error e =>
    refine ⟨u, ?_, ?_, ?_⟩
    · split <;> simp_all
    · split <;> simp_all
    · split <;> simp_all
  | ok txn =>
    obtain ⟨hb, htx⟩ := hok txn rfl
    have hcall : Runs db c1.state [.call txn key data options] c1.state := by
      simp [Runs, scopeCalls, ScopeState.step, TransactionContext.state, hb, htx]
    have := Runs_append hr hcall
    refine ⟨u ++ [.call txn key data options], ?_, ?_, ?_⟩
    · simp only []
      split <;> simp
    · simp only []
      split <;> simpa using this
    · simp only []
      split <;> simpa using hc1

/-- Whatever the engine answers, the retry loop makes the calls of its scopes in order. -/
theorem loop_tracked (K : Constants) (db : DatabaseImpl) (methodName : MethodName)
    (key : Option Dbt) (options : Int) (bdbCall : BdbCall) (fuel : Nat) :
    ∀ (retry_count : Int) (c : TransactionContext) (data : Option Dbt) (t : Trace),
      c.Consistent db →
      ScopeTracked db c t
        (DatabaseImpl.DeadlockLoop.loop K db methodName key options bdbCall fuel
          retry_count c data t).2.1
        (DatabaseImpl.DeadlockLoop.loop K db methodName key options bdbCall fuel
          retry_count c data t).2.2.2 := by
  induction fuel with
  | zero =>
    intro _ c _ t hc
    simpa [DatabaseImpl.DeadlockLoop.loop] using ScopeTracked_refl db c t hc
  | succ f ih =>
    intro retry_count c data t hc
    have h1 := attempt_tracked K db c key data options bdbCall t hc
    rw [DatabaseImpl.DeadlockLoop.loop]
    rcases hres : DatabaseImpl.DeadlockLoop.attempt K db c key data options bdbCall t with
      ⟨r, c1, d1, t1⟩
    rw [hres] at h1
    simp only at h1
    cases r with
    | error e => exact h1
    | ok p =>
      rcases p with ⟨ret, dl⟩
      cases dl with
      | false => simpa using h1
      | true =>
        have hc1 : c1.Consistent db := (ScopeTracked_consistent h1)
        have hlog : ScopeTracked db c1 t1 c1 (DatabaseImpl.Log K.LOCK_DEADLOCK .Deadlock t1) :=
          ⟨[.err K.LOCK_DEADLOCK .Deadlock], rfl, Runs_err db _ _ _, hc1⟩
        have h2 := ScopeTracked_trans (ScopeTracked_trans h1 hlog)
          (rollback_scopeTracked db c1 (DatabaseImpl.Log K.LOCK_DEADLOCK .Deadlock t1) hc1)
        simp only [if_true]
        rcases hrb : c1.rollback db (DatabaseImpl.Log K.LOCK_DEADLOCK .Deadlock t1) with
          ⟨r2, c2, t2⟩
        rw [hrb] at h2
        simp only at h2
        cases r2 with
        | error e => exact h2
        | ok _ =>
          simp only []
          split
          · exact ScopeTracked_trans h2
              ⟨[.errx (.GivingUp methodName)], rfl, Runs_errx db _ _, (ScopeTracked_consistent h2)⟩
          · exact ScopeTracked_trans h2 (ih (retry_count + 1) c2 d1 t2 (ScopeTracked_consistent h2))

theorem DeadlockLoop_tracked (K : Constants) (db : DatabaseImpl) (methodName : MethodName)
    (c : TransactionContext) (key data : Option Dbt) (options : Int) (bdbCall : BdbCall)
    (t : Trace) (hc : c.Consistent db) :
    ScopeTracked db c t (db.DeadlockLoop K methodName c key data options bdbCall t).2.1
      (db.DeadlockLoop K methodName c key data options bdbCall t).2.2.2 :=
  loop_tracked K db methodName key options bdbCall _ 0 c data t hc

theorem TryStd_tracked (K : Constants) (db : DatabaseImpl) (methodName : MethodName)
    (c : TransactionContext) (key data : Option Dbt) (options : Int) (bdbCall : BdbCall)
    (t : Trace) (hc : c.Consistent db) :
    ScopeTracked db c t (db.TryStd K methodName c key data options bdbCall t).2.1
      (db.TryStd K methodName c key data options bdbCall t).2.2 := by
  have h := DeadlockLoop_tracked K db methodName c key data options bdbCall t hc
  unfold DatabaseImpl.TryStd
  split <;> simp_all

theorem TryMemStd_tracked (K : Constants) (db : DatabaseImpl) (methodName : MethodName)
    (c : TransactionContext) (key : Option Dbt) (data : Dbt) (options : Int) (bdbCall : BdbCall)
    (t : Trace) (hc : c.Consistent db) :
    ScopeTracked db c t (db.TryMemStd K methodName c key data options bdbCall t).2.1
      (db.TryMemStd K methodName c key data options bdbCall t).2.2.2 := by
  have h := DeadlockLoop_tracked K db methodName c key (some data) options bdbCall t hc
  unfold DatabaseImpl.TryMemStd
  split <;> simp_all

theorem SwitchStd_tracked (K : Constants) (db : DatabaseImpl) (c : TransactionContext)
    (ret : Int) (t : Trace) (hc : c.Consistent db) :
    BodyTracked db c t (db.SwitchStd K c ret t).2.1 (db.SwitchStd K c ret t).2.2 := by
  unfold DatabaseImpl.SwitchStd
  split
  · exact commit_tracked db c t hc
  · exact BodyTracked_of_tracked (ScopeTracked_refl db c t hc)

theorem SwitchMemStd_tracked (K : Constants) (db : DatabaseImpl) (c : TransactionContext)
    (ret size : Int) (t : Trace) (hc : c.Consistent db) :
    BodyTracked db c t (db.SwitchMemStd K c ret size t).2.1
      (db.SwitchMemStd K c ret size t).2.2 := by
  have h := commit_tracked db c t hc
  unfold DatabaseImpl.SwitchMemStd
  simp only []
  split
  · exact BodyTracked_of_tracked (ScopeTracked_refl db c t hc)
  · split <;> simp_all

/-- Whatever the result and whatever the engine answers, the destructor ends the scope the body
left: the events of the operation lead back to a scope that is not begun. -/
theorem ends_of_tracked {α : Type} (db : DatabaseImpl)
    (body : Except Exn α × TransactionContext × Trace)
    (h : BodyTracked db {} [] body.2.1 body.2.2) :
    EndsEachScopeOnce db (TransactionContext.destroy db body.1 body.2.1 body.2.2).2.2 := by
  obtain ⟨u, s, hu, hr, ha, hc⟩ := h
  obtain ⟨v, hv, hrv, -⟩ := rollback_tracked db body.2.1 body.2.2 hc s ha
  have ht : (TransactionContext.destroy db body.1 body.2.1 body.2.2).2.2
      = (body.2.1.rollback db body.2.2).2.2 := by
    unfold TransactionContext.destroy
    rcases body.2.1.rollback db body.2.2 with ⟨r2, c2, t2⟩
    cases r2 with
    | ok _ => rfl
    | error e => cases body.1 <;> rfl
  rw [EndsEachScopeOnce, ht, hv, hu]
  have := Runs_append hr hrv
  simpa [TransactionContext.state] using this

theorem Consistent_new (db : DatabaseImpl) : TransactionContext.Consistent db {} := by
  intro h hb
  simp at hb

theorem Get_body_tracked (K : Constants) (db : DatabaseImpl) (key : DataBuffer) (offset : Int)
    (buffer : DataBuffer) (flags : Int) (c : TransactionContext) (t : Trace)
    (hc : c.Consistent db) :
    BodyTracked db c t (DatabaseImpl.Get.body K db key offset buffer flags c t).2.1
      (DatabaseImpl.Get.body K db key offset buffer flags c t).2.2 := by
  unfold DatabaseImpl.Get.body
  split
  · exact BodyTracked_of_tracked (ScopeTracked_refl db c t hc)
  · next dbtKey _ =>
    split
    · exact BodyTracked_of_tracked (ScopeTracked_refl db c t hc)
    · next holder _ =>
      have h1 := TryMemStd_tracked K db .Get c (some dbtKey.dbt)
        (DatabaseImpl.Get.dbtBuffer K holder offset) flags get_core t hc
      split
      · next heq => rw [heq] at h1; exact BodyTracked_of_tracked h1
      · next ret size c1 _ t1 heq =>
        rw [heq] at h1
        exact BodyTracked_trans h1 (SwitchMemStd_tracked K db c1 ret size t1 (ScopeTracked_consistent h1))

theorem GetLength_body_tracked (K : Constants) (db : DatabaseImpl) (key : DataBuffer)
    (flags : Int) (c : TransactionContext) (t : Trace) (hc : c.Consistent db) :
    BodyTracked db c t (DatabaseImpl.GetLength.body K db key flags c t).2.1
      (DatabaseImpl.GetLength.body K db key flags c t).2.2 := by
  unfold DatabaseImpl.GetLength.body
  split
  · exact BodyTracked_of_tracked (ScopeTracked_refl db c t hc)
  · next dbtKey _ =>
    have h1 := TryMemStd_tracked K db .GetLength c (some dbtKey.dbt)
      (DatabaseImpl.GetLength.dbtBuffer K) flags get_core t hc
    split
    · next heq => rw [heq] at h1; exact BodyTracked_of_tracked h1
    · next ret size c1 _ t1 heq =>
      rw [heq] at h1
      exact BodyTracked_trans h1 (SwitchMemStd_tracked K db c1 ret size t1 (ScopeTracked_consistent h1))

theorem GetStream_body_tracked (K : Constants) (db : DatabaseImpl) (key : DataBuffer)
    (offset length : Int) (flags : Int) (c : TransactionContext) (t : Trace)
    (hc : c.Consistent db) :
    BodyTracked db c t (DatabaseImpl.GetStream.body K db key offset length flags c t).2.1
      (DatabaseImpl.GetStream.body K db key offset length flags c t).2.2 := by
  unfold DatabaseImpl.GetStream.body
  split
  · exact BodyTracked_of_tracked (ScopeTracked_refl db c t hc)
  · next dbtKey _ =>
    have h1 := TryMemStd_tracked K db .Get c (some dbtKey.dbt)
      (DatabaseImpl.GetStream.dbtBuffer K offset length) flags get_core t hc
    split
    · next heq => rw [heq] at h1; exact BodyTracked_of_tracked h1
    · next ret size c1 _ t1 heq =>
      rw [heq] at h1
      have h2 := BodyTracked_trans h1
        (SwitchMemStd_tracked K db c1 ret size t1 (ScopeTracked_consistent h1))
      split
      · next heq2 => rw [heq2] at h2; exact h2
      · next heq2 => rw [heq2] at h2; exact h2

theorem GetBuffer_body_tracked (K : Constants) (db : DatabaseImpl) (key : DataBuffer)
    (offset length : Int) (flags : Int) (c : TransactionContext) (t : Trace)
    (hc : c.Consistent db) :
    BodyTracked db c t (DatabaseImpl.GetBuffer.body K db key offset length flags c t).2.1
      (DatabaseImpl.GetBuffer.body K db key offset length flags c t).2.2 := by
  unfold DatabaseImpl.GetBuffer.body
  split
  · exact BodyTracked_of_tracked (ScopeTracked_refl db c t hc)
  · next dbtKey _ =>
    have h1 := TryMemStd_tracked K db .GetBuffer c (some dbtKey.dbt)
      (DatabaseImpl.GetBuffer.dbtBuffer K offset length) flags get_core t hc
    split
    · next heq => rw [heq] at h1; exact BodyTracked_of_tracked h1
    · next ret size c1 _ t1 heq =>
      rw [heq] at h1
      have h2 := BodyTracked_trans h1
        (SwitchMemStd_tracked K db c1 ret size t1 (ScopeTracked_consistent h1))
      split
      · next heq2 => rw [heq2] at h2; exact h2
      · next heq2 => rw [heq2] at h2; exact h2

theorem Put_body_tracked (K : Constants) (db : DatabaseImpl) (key : DataBuffer)
    (offset count : Int) (buffer : DataBuffer) (flags : Int) (c : TransactionContext)
    (t : Trace) (hc : c.Consistent db) :
    BodyTracked db c t (DatabaseImpl.Put.body K db key offset count buffer flags c t).2.1
      (DatabaseImpl.Put.body K db key offset count buffer flags c t).2.2 := by
  unfold DatabaseImpl.Put.body
  split
  · exact BodyTracked_of_tracked (ScopeTracked_refl db c t hc)
  · next dbtKey _ =>
    split
    · exact BodyTracked_of_tracked (ScopeTracked_refl db c t hc)
    · next holder _ =>
      have h1 := TryMemStd_tracked K db .Put c (some dbtKey.dbt)
        (DatabaseImpl.Put.dbtBuffer K holder offset count buffer) flags put_core t hc
      split
      · next heq => rw [heq] at h1; exact BodyTracked_of_tracked h1
      · next ret size c1 _ t1 heq =>
        rw [heq] at h1
        have h2 := BodyTracked_trans h1 (SwitchStd_tracked K db c1 ret t1 (ScopeTracked_consistent h1))
        split
        · next heq2 => rw [heq2] at h2; exact h2
        · next heq2 => rw [heq2] at h2; exact h2

theorem Delete_body_tracked (K : Constants) (db : DatabaseImpl) (key : DataBuffer)
    (flags : Int) (c : TransactionContext) (t : Trace) (hc : c.Consistent db) :
    BodyTracked db c t (DatabaseImpl.Delete.body K db key flags c t).2.1
      (DatabaseImpl.Delete.body K db key flags c t).2.2 := by
  unfold DatabaseImpl.Delete.body
  split
  · exact BodyTracked_of_tracked (ScopeTracked_refl db c t hc)
  · next dbtKey _ =>
    have h1 := TryStd_tracked K db .Delete c (some dbtKey.dbt) none flags del_core t hc
    split
    · next heq => rw [heq] at h1; exact BodyTracked_of_tracked h1
    · next ret c1 t1 heq =>
      rw [heq] at h1
      have h2 := BodyTracked_trans h1 (commit_tracked db c1 t1 (ScopeTracked_consistent h1))
      simp only []
      split
      · exact BodyTracked_of_tracked h1
      · split
        · next heq2 => rw [heq2] at h2; exact h2
        · next heq2 => rw [heq2] at h2; exact h2

theorem Exists_body_tracked (K : Constants) (db : DatabaseImpl) (key : DataBuffer)
    (flags : Int) (c : TransactionContext) (t : Trace) (hc : c.Consistent db) :
    BodyTracked db c t (DatabaseImpl.Exists.body K db key flags c t).2.1
      (DatabaseImpl.Exists.body K db key flags c t).2.2 := by
  unfold DatabaseImpl.Exists.body
  split
  · exact BodyTracked_of_tracked (ScopeTracked_refl db c t hc)
  · next dbtKey _ =>
    have h1 := TryStd_tracked K db .Exists c (some dbtKey.dbt) none flags exists_core t hc
    split
    · next heq => rw [heq] at h1; exact BodyTracked_of_tracked h1
    · next ret c1 t1 heq =>
      rw [heq] at h1
      have h2 := BodyTracked_trans h1 (commit_tracked db c1 t1 (ScopeTracked_consistent h1))
      split
      · split
        · next heq2 => rw [heq2] at h2; exact h2
        · next heq2 => rw [heq2] at h2; exact h2
      · exact BodyTracked_of_tracked h1

/-- C3, amended. For every record operation of the facade that owns a transaction scope (`Get`
into a buffer, `Get` into a stream, `GetBuffer`, `Put`, `Delete`, `Exists`, `GetLength`), for
every input and whatever the engine answers.
When the operation ends its scope is not begun, every `begin` of the scope has been followed,
before the next `begin`, by exactly one end of the scope, which is a `commit` that completed or
a `rollback`, and so these ends are together as many as the begins.
The calls of every scope come in this order: the engine's `txn_begin` (on a transactional
store), the record calls, each made in the transaction of the scope, and then exactly one of
three ends: the engine's commit of that transaction, which returns; the `rollback` with the
engine's abort of that transaction; or the engine's commit, which throws, followed by the
`rollback` with the engine's abort of the same transaction.
That third end is what `commit()` and the teardown do: on a per-call store whose commit of `h`
throws `e`, `commit()` on a scope begun with `h` calls the engine's commit, throws `e` and
leaves the scope begun with `h`; the teardown then marks the scope ended and calls the engine's
abort of `h`. -/
theorem C3_every_begun_scope_ended_once (K : Constants) (db : DatabaseImpl)
    (key buffer : DataBuffer) (offset length flags : Int) :
    EndsEveryScope (db.Get K key offset buffer flags []).2.1
      (db.Get K key offset buffer flags []).2.2 ∧
    EndsEveryScope (db.GetStream K key offset length flags []).2.1
      (db.GetStream K key offset length flags []).2.2 ∧
    EndsEveryScope (db.GetBuffer K key offset length flags []).2.1
      (db.GetBuffer K key offset length flags []).2.2 ∧
    EndsEveryScope (db.Put K key offset length buffer flags []).2.1
      (db.Put K key offset length buffer flags []).2.2 ∧
    EndsEveryScope (db.Delete K key flags []).2.1 (db.Delete K key flags []).2.2 ∧
    EndsEveryScope (db.Exists K key flags []).2.1 (db.Exists K key flags []).2.2 ∧
    EndsEveryScope (db.GetLength K key flags []).2.1 (db.GetLength K key flags []).2.2 ∧
    EndsEachScopeOnce db (db.Get K key offset buffer flags []).2.2 ∧
    EndsEachScopeOnce db (db.GetStream K key offset length flags []).2.2 ∧
    EndsEachScopeOnce db (db.GetBuffer K key offset length flags []).2.2 ∧
    EndsEachScopeOnce db (db.Put K key offset length buffer flags []).2.2 ∧
    EndsEachScopeOnce db (db.Delete K key flags []).2.2 ∧
    EndsEachScopeOnce db (db.Exists K key flags []).2.2 ∧
    EndsEachScopeOnce db (db.GetLength K key flags []).2.2 ∧
    (∀ (h : Nat) (e : NativeExn) (t : Trace), db.m_pTrMode = .PerCall →
      db.txn_commit h = some e →
      TransactionContext.commit db ⟨true, some h⟩ t
        = (.error (.native e), ⟨true, some h⟩, t ++ [.commit h]) ∧
      (TransactionContext.destroy db (.error (.native e) : Except Exn Int) ⟨true, some h⟩
          (t ++ [.commit h])).2.1.begun = false ∧
      (TransactionContext.destroy db (.error (.native e) : Except Exn Int) ⟨true, some h⟩
          (t ++ [.commit h])).2.2 = t ++ [.commit h, .scope_rollback, .abort h]) :=
  ⟨ends_of_sound db _ [] rfl (Get_body_sound K db key offset buffer flags {} []),
   ends_of_sound db _ [] rfl (GetStream_body_sound K db key offset length flags {} []),
   ends_of_sound db _ [] rfl (GetBuffer_body_sound K db key offset length flags {} []),
   ends_of_sound db _ [] rfl (Put_body_sound K db key offset length buffer flags {} []),
   ends_of_sound db _ [] rfl (Delete_body_sound K db key flags {} []),
   ends_of_sound db _ [] rfl (Exists_body_sound K db key flags {} []),
   ends_of_sound db _ [] rfl (GetLength_body_sound K db key flags {} []),
   ends_of_tracked db _
     (Get_body_tracked K db key offset buffer flags {} [] (Consistent_new db)),
   ends_of_tracked db _
     (GetStream_body_tracked K db key offset length flags {} [] (Consistent_new db)),
   ends_of_tracked db _
     (GetBuffer_body_tracked K db key offset length flags {} [] (Consistent_new db)),
   ends_of_tracked db _
     (Put_body_tracked K db key offset length buffer flags {} [] (Consistent_new db)),
   ends_of_tracked db _ (Delete_body_tracked K db key flags {} [] (Consistent_new db)),
   ends_of_tracked db _ (Exists_body_tracked K db key flags {} [] (Consistent_new db)),
   ends_of_tracked db _ (GetLength_body_tracked K db key flags {} [] (Consistent_new db)),
   fun h e t hm hk => by
     refine ⟨?_, ?_, ?_⟩
     · simp [TransactionContext.commit, DatabaseImpl.CommitTrans, hm, hk]
     · cases ha : db.txn_abort h <;>
         simp [TransactionContext.destroy, TransactionContext.rollback,
           DatabaseImpl.RollbackTrans, hm, ha]
     · cases ha : db.txn_abort h <;>
         simp [TransactionContext.destroy, TransactionContext.rollback,
           DatabaseImpl.RollbackTrans, hm, ha]⟩

/-- C3 on a store whose engine commit throws a `DbException` with errno 5, and whose record
calls return `SUCCESS` with size 10: the calls of `Get` come in order, `commit()` on the scope
begun with the transaction 0 throws and leaves it begun, and the teardown ends it with the
abort of the transaction 0. -/
theorem C3_every_begun_scope_ended_once_witness :
    EndsEveryScope
      ((commitFailingStore 2 (fun _ => .returns K0.SUCCESS 10 0) (.DbException 5)).Get K0
        keyInt32 (-1) (writableBuffer 16) 0 []).2.1
      ((commitFailingStore 2 (fun _ => .returns K0.SUCCESS 10 0) (.DbException 5)).Get K0
        keyInt32 (-1) (writableBuffer 16) 0 []).2.2 ∧
    EndsEachScopeOnce (commitFailingStore 2 (fun _ => .returns K0.SUCCESS 10 0) (.DbException 5))
      ((commitFailingStore 2 (fun _ => .returns K0.SUCCESS 10 0) (.DbException 5)).Get K0
        keyInt32 (-1) (writableBuffer 16) 0 []).2.2 ∧
    TransactionContext.commit
        (commitFailingStore 2 (fun _ => .returns K0.SUCCESS 10 0) (.DbException 5))
        ⟨true, some 0⟩ []
      = (.error (.native (.DbException 5)), ⟨true, some 0⟩, [.commit 0]) ∧
    (TransactionContext.destroy
        (commitFailingStore 2 (fun _ => .returns K0.SUCCESS 10 0) (.DbException 5))
        (.error (.native (.DbException 5)) : Except Exn Int) ⟨true, some 0⟩ [.commit 0]).2.2
      = [.commit 0, .scope_rollback, .abort 0] :=
  have h := C3_every_begun_scope_ended_once K0
    (commitFailingStore 2 (fun _ => .returns K0.SUCCESS 10 0) (.DbException 5)) keyInt32
    (writableBuffer 16) (-1) 0 0
  ⟨h.1, h.2.2.2.2.2.2.2.1,
    (h.2.2.2.2.2.2.2.2.2.2.2.2.2.2 0 (.DbException 5) [] rfl rfl).1,
    (h.2.2.2.2.2.2.2.2.2.2.2.2.2.2 0 (.DbException 5) [] rfl rfl).2.2⟩

/-- C3 as stated fails, in two ways. Retry limit 2, `get` reports deadlock on the first attempt
and success with size 10 on the second: `Get` returns 10, and its scope has been rolled back
once and committed once; so have the two native transactions (one abort, one commit). And on a
store whose engine commit throws a `DbException` with errno 5, with a `get` that succeeds: the
commit of the one scope of `Get` is called and throws, and the teardown rolls the same scope
back, so that both the commit and the abort of the transaction 0 are called, in this order. -/
theorem C3_counterexample :
    ((scriptedStore 2 fun n => if n = 0 then .returns K0.LOCK_DEADLOCK 0 0
        else .returns K0.SUCCESS 10 0).Get K0 keyInt32 (-1) (writableBuffer 16) 0 []).1
      = .ok 10 ∧
    (steps ((scriptedStore 2 fun n => if n = 0 then .returns K0.LOCK_DEADLOCK 0 0
        else .returns K0.SUCCESS 10 0).Get K0 keyInt32 (-1) (writableBuffer 16) 0 []).2.2)
      = [.begin, .call, .rollback, .begin, .call, .commit] ∧
    (steps ((scriptedStore 2 fun n => if n = 0 then .returns K0.LOCK_DEADLOCK 0 0
        else .returns K0.SUCCESS 10 0).Get K0 keyInt32 (-1) (writableBuffer 16) 0 []).2.2).count
        .commit +
      (steps ((scriptedStore 2 fun n => if n = 0 then .returns K0.LOCK_DEADLOCK 0 0
        else .returns K0.SUCCESS 10 0).Get K0 keyInt32 (-1) (writableBuffer 16) 0 []).2.2).count
        .rollback ≠ 1 ∧
    aborts ((scriptedStore 2 fun n => if n = 0 then .returns K0.LOCK_DEADLOCK 0 0
        else .returns K0.SUCCESS 10 0).Get K0 keyInt32 (-1) (writableBuffer 16) 0 []).2.2 = 1 ∧
    commits ((scriptedStore 2 fun n => if n = 0 then .returns K0.LOCK_DEADLOCK 0 0
        else .returns K0.SUCCESS 10 0).Get K0 keyInt32 (-1) (writableBuffer 16) 0 []).2.2 = 1 ∧
    (commitFailingStore 2 (fun _ => .returns K0.SUCCESS 10 0) (.DbException 5)).Get K0
        keyInt32 (-1) (writableBuffer 16) 0 []
      = (.error (.native (.DbException 5)), ⟨false, none⟩,
          [.txn_begin 0, .scope_begin,
            .call (some 0) (some { size := 4 }) (some { size := 16, ulen := 16, flags := 256 })
              0,
            .commit 0, .scope_rollback, .abort 0]) := by
  decide

/-! ## C4 and C5: the transaction scope -/

/-- C4. `TransactionContext::begin` is idempotent within a scope: when `begin()` has returned a
handle, a second `begin()` with no `commit` or `rollback` in between returns the same handle,
makes no call into the engine and leaves the scope as it is, so that `txn_begin` has been called
at most once; and on a store that is not transacted (transaction mode `None`, or mode `PerCall`
in an environment without transactions) both calls return the null handle and `txn_begin` is
never called. -/
theorem C4_begin_idempotent (db : DatabaseImpl) (c : TransactionContext) (t : Trace) :
    (∀ h, (c.begin db t).1 = .ok h →
      (c.begin db t).2.1.begin db (c.begin db t).2.2
          = (.ok h, (c.begin db t).2.1, (c.begin db t).2.2) ∧
        begins ((c.begin db t).2.1.begin db (c.begin db t).2.2).2.2 ≤ begins t + 1) ∧
    ((db.m_pTrMode = .None ∨ (db.m_pTrMode = .PerCall ∧ db.m_isTxn = false)) →
      c.begun = false →
      (c.begin db t).1 = .ok none ∧
        ((c.begin db t).2.1.begin db (c.begin db t).2.2).1 = .ok none ∧
        begins ((c.begin db t).2.1.begin db (c.begin db t).2.2).2.2 = begins t) := by
  rcases c with ⟨begun, txn⟩
  constructor
  · intro h hok
    cases begun
    · cases hm : db.m_pTrMode
      · simp [TransactionContext.begin, DatabaseImpl.BeginTrans, hm] at hok ⊢
        simp [hok, begins, Event.isBegin]
      · cases hx : db.m_isTxn
        · simp [TransactionContext.begin, DatabaseImpl.BeginTrans, hm, hx] at hok ⊢
          simp [hok, begins, Event.isBegin]
        · cases hb : db.txn_begin (begins t)
          · simp [TransactionContext.begin, DatabaseImpl.BeginTrans, hm, hx, hb] at hok ⊢
            subst hok
            simp [begins, Event.isBegin]
          · simp [TransactionContext.begin, DatabaseImpl.BeginTrans, hm, hx, hb] at hok
      · simp [TransactionContext.begin, DatabaseImpl.BeginTrans, hm] at hok
    · simp [TransactionContext.begin] at hok ⊢
      simp [hok]
  · intro hun hc
    simp only at hc
    subst hc
    rcases hun with hm | ⟨hm, hx⟩
    · simp [TransactionContext.begin, DatabaseImpl.BeginTrans, hm, begins, Event.isBegin]
    · simp [TransactionContext.begin, DatabaseImpl.BeginTrans, hm, hx, begins, Event.isBegin]

/-- C4 on a transactional store: the first `begin()` starts transaction 0, the second returns the
same handle and adds nothing to the trace. -/
theorem C4_begin_idempotent_witness :
    (({} : TransactionContext).begin (scriptedStore 3 fun _ => .returns 0 0 0) []).1
      = .ok (some 0) ∧
    ((({} : TransactionContext).begin (scriptedStore 3 fun _ => .returns 0 0 0) []).2.1.begin
        (scriptedStore 3 fun _ => .returns 0 0 0)
        (({} : TransactionContext).begin (scriptedStore 3 fun _ => .returns 0 0 0) []).2.2
      = (.ok (some 0),
          (({} : TransactionContext).begin (scriptedStore 3 fun _ => .returns 0 0 0) []).2.1,
          (({} : TransactionContext).begin (scriptedStore 3 fun _ => .returns 0 0 0) []).2.2) ∧
      begins ((({} : TransactionContext).begin (scriptedStore 3 fun _ => .returns 0 0 0)
          []).2.1.begin (scriptedStore 3 fun _ => .returns 0 0 0)
        (({} : TransactionContext).begin (scriptedStore 3 fun _ => .returns 0 0 0) []).2.2).2.2
        ≤ begins [] + 1) :=
  ⟨rfl, (C4_begin_idempotent (scriptedStore 3 fun _ => .returns 0 0 0) {} []).1 (some 0) rfl⟩

/-- C5. `TransactionContext::rollback` clears `begun` before it calls the native abort: whatever
the abort does, the scope is left not begun; on a scope that is not begun `rollback()` and the
destructor make no call and change nothing, so after a `rollback()` whose abort threw, no later
`rollback()` and no destructor aborts again; the same holds for a scope never begun and for a
scope after a `commit()` that returned. When the abort of handle `h` throws `e`, the trace shows
the flag cleared first and the one abort after it. -/
theorem C5_rollback_clears_begun_first (db : DatabaseImpl) (c : TransactionContext) (t : Trace) :
    (c.rollback db t).2.1.begun = false ∧
    (∀ (c' : TransactionContext) (t' : Trace), c'.begun = false →
      c'.rollback db t' = (.ok (), c', t') ∧
      ∀ r : Except Exn Unit, TransactionContext.destroy db r c' t' = (r, c', t')) ∧
    (∀ t', (c.rollback db t).2.1.rollback db t' = (.ok (), (c.rollback db t).2.1, t')) ∧
    (∀ t', ({} : TransactionContext).rollback db t' = (.ok (), {}, t')) ∧
    ((c.commit db t).1 = .ok () →
      (c.commit db t).2.1.rollback db (c.commit db t).2.2
        = (.ok (), (c.commit db t).2.1, (c.commit db t).2.2)) ∧
    (∀ h e, c.begun = true → c.txn = some h → db.m_pTrMode = .PerCall →
      db.txn_abort h = some e →
      c.rollback db t = (.error (.native e), ⟨false, some h⟩, t ++ [.scope_rollback, .abort h])) := by
  have hnot : ∀ (c' : TransactionContext) (t' : Trace), c'.begun = false →
      c'.rollback db t' = (.ok (), c', t') := by
    intro c' t' hc'
    simp [TransactionContext.rollback, hc']
  have hclear : (c.rollback db t).2.1.begun = false := by
    obtain ⟨u, -, -, h⟩ := rollback_moves db c t
    exact h
  refine ⟨hclear, ?_, fun t' => hnot _ t' hclear, fun t' => hnot _ t' rfl, ?_, ?_⟩
  · intro c' t' hc'
    refine ⟨hnot c' t' hc', fun r => ?_⟩
    simp [TransactionContext.destroy, hnot c' t' hc']
  · intro hok
    obtain ⟨u, -, -, h⟩ := commit_moves db c t
    exact hnot _ _ (h hok)
  · intro h e hb ht hm ha
    rcases c with ⟨begun, txn⟩
    simp only at hb ht
    subst hb ht
    simp [TransactionContext.rollback, DatabaseImpl.RollbackTrans, hm, ha]

/-- C5 on a store whose abort throws: the `rollback()` of a begun scope throws after one abort
and leaves the scope not begun, and the destructor that runs next adds nothing. -/
theorem C5_rollback_clears_begun_first_witness :
    (TransactionContext.rollback
        { scriptedStore 3 (fun _ => .returns 0 0 0) with
          txn_abort := fun _ => some (.DbException 5) } ⟨true, some 0⟩ [])
      = (.error (.native (.DbException 5)), ⟨false, some 0⟩, [.scope_rollback, .abort 0]) ∧
    TransactionContext.destroy
        { scriptedStore 3 (fun _ => .returns 0 0 0) with
          txn_abort := fun _ => some (.DbException 5) }
        (.error (.native (.DbException 5)) : Except Exn Unit) ⟨false, some 0⟩
        [.scope_rollback, .abort 0]
      = (.error (.native (.DbException 5)), ⟨false, some 0⟩, [.scope_rollback, .abort 0]) :=
  ⟨(C5_rollback_clears_begun_first _ ⟨true, some 0⟩ []).2.2.2.2.2 0 (.DbException 5) rfl rfl rfl
      rfl,
    ((C5_rollback_clears_begun_first
        { scriptedStore 3 (fun _ => .returns 0 0 0) with
          txn_abort := fun _ => some (.DbException 5) } ⟨true, some 0⟩ []).2.1
      ⟨false, some 0⟩ [.scope_rollback, .abort 0] rfl).2 _⟩

/-! ## The facade operations when the record call ends the loop after `k` deadlocks -/

theorem TryMemStd_retry_final (K : Constants) (db : DatabaseImpl) (hdb : db.TxnCallsSucceed)
    (methodName : MethodName) (c : TransactionContext) (key : Option Dbt) (data : Dbt)
    (options : Int) (bdbCall : BdbCall) (t : Trace) (k : Nat) (res : NativeResult)
    (hk : (k : Int) < db.m_maxDeadlockRetries)
    (hdead : ∀ n txn d, calls t ≤ n → n < calls t + k →
      (bdbCall db.m_pDb n txn key d options).reportsDeadlock K = true)
    (hfin : ∀ txn d, bdbCall db.m_pDb (calls t + k) txn key d options = res)
    (hres : res.reportsDeadlock K = false) :
    ∃ txn d1 u, db.TryMemStd K methodName c key data options bdbCall t
        = (res.tryMemStd K, ⟨true, txn⟩, d1, t ++ u) ∧
      Adds u (k + 1) k ((if c.begun then [] else [.begin]) ++
        (List.replicate k [Step.call, .rollback, .begin]).flatten ++ [.call]) := by
  obtain ⟨txn, d, u, h, hd, hu⟩ := loop_retry_final K db hdb methodName key options bdbCall k
    (max 1 db.m_maxDeadlockRetries).toNat 0 c (some data) t (by omega) (by omega) hdead
    (fun txn d => by rw [hfin]; exact hres)
  rw [hfin] at h
  obtain ⟨d', rfl⟩ : ∃ d', d = some d' := Option.isSome_iff_exists.mp (hd rfl)
  unfold DatabaseImpl.TryMemStd DatabaseImpl.DeadlockLoop
  rw [h]
  cases res with
  | returns ret size keySize =>
    exact ⟨txn, d'.set_size size, u, by simp [NativeResult.outcome, NativeResult.tryMemStd,
      afterCall, Dbt.set_size], hu⟩
  | throws e =>
    cases e <;>
      exact ⟨txn, d', u, by simp [NativeResult.outcome, NativeResult.tryMemStd], hu⟩

theorem TryStd_retry_final (K : Constants) (db : DatabaseImpl) (hdb : db.TxnCallsSucceed)
    (methodName : MethodName) (c : TransactionContext) (key data : Option Dbt)
    (options : Int) (bdbCall : BdbCall) (t : Trace) (k : Nat) (res : NativeResult)
    (hk : (k : Int) < db.m_maxDeadlockRetries)
    (hdead : ∀ n txn d, calls t ≤ n → n < calls t + k →
      (bdbCall db.m_pDb n txn key d options).reportsDeadlock K = true)
    (hfin : ∀ txn d, bdbCall db.m_pDb (calls t + k) txn key d options = res)
    (hres : res.reportsDeadlock K = false) :
    ∃ txn u, db.TryStd K methodName c key data options bdbCall t
        = (res.tryStd, ⟨true, txn⟩, t ++ u) ∧
      Adds u (k + 1) k ((if c.begun then [] else [.begin]) ++
        (List.replicate k [Step.call, .rollback, .begin]).flatten ++ [.call]) := by
  obtain ⟨txn, d, u, h, -, hu⟩ := loop_retry_final K db hdb methodName key options bdbCall k
    (max 1 db.m_maxDeadlockRetries).toNat 0 c data t (by omega) (by omega) hdead
    (fun txn d => by rw [hfin]; exact hres)
  rw [hfin] at h
  unfold DatabaseImpl.TryStd DatabaseImpl.DeadlockLoop
  rw [h]
  cases res with
  | returns ret size keySize =>
    exact ⟨txn, u, by simp [NativeResult.outcome, NativeResult.tryStd], hu⟩
  | throws e =>
    cases e <;> exact ⟨txn, u, by simp [NativeResult.outcome, NativeResult.tryStd], hu⟩

/-- A begun scope that is committed, then destroyed: one commit, and the destructor adds
nothing. -/
theorem commit_then_destroy {α : Type} (db : DatabaseImpl) (hdb : db.TxnOk) (a : α)
    (txn : Option Nat) (t : Trace) :
    ∃ w, TransactionContext.commit db ⟨true, txn⟩ t = (.ok (), ⟨false, none⟩, t ++ w) ∧
      TransactionContext.destroy db (.ok a : Except Exn α) ⟨false, none⟩ (t ++ w)
        = (.ok a, ⟨false, none⟩, t ++ w) ∧ Adds w 0 0 [.commit] := by
  obtain ⟨w, hw, hadds⟩ := commit_spec db hdb ⟨true, txn⟩ rfl t
  exact ⟨w, hw, by simp [TransactionContext.destroy, TransactionContext.rollback], hadds⟩

/-- A begun scope that is destroyed while an exception passes: one rollback, and the exception
goes on. -/
theorem destroy_begun {α : Type} (db : DatabaseImpl) (hdb : db.TxnOk) (e : Exn)
    (txn : Option Nat) (t : Trace) :
    ∃ w, TransactionContext.destroy db (.error e : Except Exn α) ⟨true, txn⟩ t
        = (.error e, ⟨false, none⟩, t ++ w) ∧ Adds w 0 0 [.rollback] := by
  obtain ⟨w, hw, hadds⟩ := rollback_spec db hdb.1 ⟨true, txn⟩ rfl t
  exact ⟨w, by simp [TransactionContext.destroy, hw], hadds⟩

theorem initialize_for_read_ok (bf : DataBuffer) (h : bf.type ≠ .unhandled) :
    ∃ d, DbtHolder.initialize_for_read {} bf = .ok ⟨d, true⟩ := by
  rcases bf with ⟨ty, len, w⟩
  cases ty <;> simp [DbtHolder.initialize_for_read, DataBuffer.IsObject] at h ⊢

theorem initialize_for_write_ok (K : Constants) (bf : DataBuffer) (h : bf.type ≠ .unhandled)
    (hw : (bf.IsWritable || bf.IsEmpty) = true) :
    ∃ d, DbtHolder.initialize_for_write K {} bf = .ok ⟨d, true⟩ := by
  obtain ⟨d, hd⟩ := initialize_for_read_ok bf h
  exact ⟨{ d with ulen := d.size, flags := d.flags ||| K.DB_DBT_USERMEM },
    by simp [DbtHolder.initialize_for_write, hw, DbtHolder.initialize_for_read_write, hd]⟩

/-! ## C6: `Get` into a caller buffer -/

/-- What `Get` does when, after `k` deadlocked attempts, the record call ends the loop with
`res`: the result is what `SwitchMemStd` makes of `res.tryMemStd`, and the scope is committed
when that is a value, rolled back when it is an exception. -/
theorem Get_retry_final (K : Constants) (db : DatabaseImpl) (key : DataBuffer) (offset : Int)
    (buffer : DataBuffer) (flags : Int) (k : Nat) (res : NativeResult)
    (hdb : db.TxnOk) (hk : (k : Int) < db.m_maxDeadlockRetries)
    (hkey : key.type ≠ .unhandled) (hbuf : buffer.type ≠ .unhandled)
    (hw : (buffer.IsWritable || buffer.IsEmpty) = true)
    (hdead : ∀ n txn ky d o, n < k → (db.m_pDb.get n txn ky d o).reportsDeadlock K = true)
    (hfin : ∀ txn ky d o, db.m_pDb.get k txn ky d o = res)
    (hres : res.reportsDeadlock K = false) :
    (∀ ret size, res.tryMemStd K = .ok (ret, size) →
      (ret = K.SUCCESS ∨ ret = K.BUFFER_SMALL →
        (db.Get K key offset buffer flags []).1 = .ok size ∧
        steps (db.Get K key offset buffer flags []).2.2 = retrySteps k .commit) ∧
      (ret = K.NOTFOUND ∨ ret = K.KEYEMPTY →
        (db.Get K key offset buffer flags []).1 = .ok (-1) ∧
        steps (db.Get K key offset buffer flags []).2.2 = retrySteps k .commit) ∧
      (ret ≠ K.SUCCESS → ret ≠ K.BUFFER_SMALL → ret ≠ K.NOTFOUND → ret ≠ K.KEYEMPTY →
        (db.Get K key offset buffer flags []).1 = .error (.BdbException ret) ∧
        steps (db.Get K key offset buffer flags []).2.2 = retrySteps k .rollback)) ∧
    (∀ e, res.tryMemStd K = .error e →
      (db.Get K key offset buffer flags []).1 = .error e ∧
      steps (db.Get K key offset buffer flags []).2.2 = retrySteps k .rollback) := by
  obtain ⟨dk, hdk⟩ := initialize_for_read_ok key hkey
  obtain ⟨dv, hdv⟩ := initialize_for_write_ok K buffer hbuf hw
  obtain ⟨txn, d1, u, htry, hu⟩ := TryMemStd_retry_final K db hdb.1 .Get {} (some dk)
    (DatabaseImpl.Get.dbtBuffer K ⟨dv, true⟩ offset) flags get_core [] k res hk
    (fun n txn d _ hn => hdead n txn _ d flags (by simpa using hn))
    (fun txn d => by simpa [get_core] using hfin txn (some dk) d flags) hres
  have hsteps : steps u = [.begin] ++
      (List.replicate k [Step.call, .rollback, .begin]).flatten ++ [.call] := by
    simpa using hu.2.2
  have hN := K.distinct
  simp only [List.nodup_cons, List.mem_cons, List.mem_singleton, not_or] at hN
  unfold DatabaseImpl.Get DatabaseImpl.Get.body
  rw [hdk, hdv]
  simp only [htry, List.nil_append]
  constructor
  · intro ret size hok
    rw [hok]
    refine ⟨?_, ?_, ?_⟩
    · intro hret
      obtain ⟨w, hc, hd, hw'⟩ := commit_then_destroy db hdb size txn u
      simp [DatabaseImpl.SwitchMemStd, hret, hc, hd, hw'.2.2, hsteps, retrySteps]
    · intro hret
      have hne : ¬ (ret = K.SUCCESS ∨ ret = K.BUFFER_SMALL) := by
        rcases hret with h | h <;> rw [h] <;> simp <;> tauto
      obtain ⟨w, hc, hd, hw'⟩ := commit_then_destroy db hdb (-1 : Int) txn u
      simp [DatabaseImpl.SwitchMemStd, hret, hne, hc, hd, hw'.2.2, hsteps, retrySteps]
    · intro h1 h2 h3 h4
      obtain ⟨w, hd, hw'⟩ := destroy_begun (α := Int) db hdb (.BdbException ret) txn u
      simp [DatabaseImpl.SwitchMemStd, h1, h2, h3, h4, Create_eq, hd, hw'.2.2, hsteps,
        retrySteps]
  · intro e herr
    rw [herr]
    obtain ⟨w, hd, hw'⟩ := destroy_begun (α := Int) db hdb e txn u
    simp [hd, hw'.2.2, hsteps, retrySteps]

/-- C6. `Get(key, offset, outputBuffer, flags)` with a usable key and a writable (or empty)
output buffer, on a store whose transaction calls succeed, when the record call ends the retry
loop with `res` (after `k` deadlocked attempts, `k` below the retry limit): it returns the size
the engine reports when `res` is `SUCCESS` or `BUFFER_SMALL` as a return code, or the
memory-too-small exception (so for a value of true size `S` and a smaller capacity it returns
`S`); it returns `-1` when `res` is `NOTFOUND` or `KEYEMPTY`; and for every other return code it
throws the `BdbException` with that code. -/
theorem C6_Get_returns_reported_size (K : Constants) (db : DatabaseImpl) (key : DataBuffer)
    (offset : Int) (buffer : DataBuffer) (flags : Int) (k : Nat) (res : NativeResult)
    (hdb : db.TxnOk) (hk : (k : Int) < db.m_maxDeadlockRetries)
    (hkey : key.type ≠ .unhandled) (hbuf : buffer.type ≠ .unhandled)
    (hw : (buffer.IsWritable || buffer.IsEmpty) = true)
    (hdead : ∀ n txn ky d o, n < k → (db.m_pDb.get n txn ky d o).reportsDeadlock K = true)
    (hfin : ∀ txn ky d o, db.m_pDb.get k txn ky d o = res)
    (hres : res.reportsDeadlock K = false) :
    (∀ S keySize, res = .returns K.SUCCESS S keySize ∨ res = .returns K.BUFFER_SMALL S keySize →
      (db.Get K key offset buffer flags []).1 = .ok S) ∧
    (∀ errno S, res = .throws (.DbMemoryException errno S) →
      (db.Get K key offset buffer flags []).1 = .ok S) ∧
    (∀ S keySize, res = .returns K.NOTFOUND S keySize ∨ res = .returns K.KEYEMPTY S keySize →
      (db.Get K key offset buffer flags []).1 = .ok (-1)) ∧
    (∀ ret S keySize, res = .returns ret S keySize →
      ret ≠ K.SUCCESS → ret ≠ K.BUFFER_SMALL → ret ≠ K.NOTFOUND → ret ≠ K.KEYEMPTY →
      (db.Get K key offset buffer flags []).1 = .error (.BdbException ret)) := by
  obtain ⟨hok, -⟩ := Get_retry_final K db key offset buffer flags k res hdb hk hkey hbuf hw
    hdead hfin hres
  refine ⟨?_, ?_, ?_, ?_⟩
  · rintro S keySize (h | h)
    · exact ((hok K.SUCCESS S (by rw [h]; rfl)).1 (Or.inl rfl)).1
    · exact ((hok K.BUFFER_SMALL S (by rw [h]; rfl)).1 (Or.inr rfl)).1
  · intro errno S h
    exact ((hok K.BUFFER_SMALL S (by rw [h]; rfl)).1 (Or.inr rfl)).1
  · rintro S keySize (h | h)
    · exact ((hok K.NOTFOUND S (by rw [h]; rfl)).2.1 (Or.inl rfl)).1
    · exact ((hok K.KEYEMPTY S (by rw [h]; rfl)).2.1 (Or.inr rfl)).1
  · intro ret S keySize h h1 h2 h3 h4
    exact ((hok ret S (by rw [h]; rfl)).2.2 h1 h2 h3 h4).1

/-- C6 for a value of true size 10 and a buffer of 5 bytes: the engine reports `BUFFER_SMALL`
with size 10, and `Get` returns 10. -/
theorem C6_Get_returns_reported_size_witness :
    ((scriptedStore 3 fun _ => .returns K0.BUFFER_SMALL 10 0).Get K0 keyInt32 0
      (writableBuffer 5) 0 []).1 = .ok 10 :=
  (C6_Get_returns_reported_size K0 (scriptedStore 3 fun _ => .returns K0.BUFFER_SMALL 10 0)
    keyInt32 0 (writableBuffer 5) 0 0 (.returns K0.BUFFER_SMALL 10 0)
    ⟨⟨by decide, fun _ => rfl, fun _ => rfl⟩, fun _ => rfl⟩ (by decide) (by decide) (by decide)
    (by decide) (fun n _ _ _ _ hn => absurd hn (Nat.not_lt_zero n)) (fun _ _ _ _ => rfl)
    (by decide)).1 10 0 (Or.inr rfl)

/-! ## C7: `Delete` and `Exists` -/

/-- C7. `Delete(key, flags)` and `Exists(key, flags)` with a usable key, on a store whose
transaction calls succeed, when the record call ends the retry loop by returning the code `ret`
(after `k` deadlocked attempts, `k` below the retry limit). `Delete` returns `true` when `ret`
is `SUCCESS`, `false` when it is `NOTFOUND` or `KEYEMPTY` (so `true` exactly for `SUCCESS` and
`false` exactly for the other two), and `Exists` returns `ret` itself for these three codes;
in these cases the scope is committed. For every other code both throw the `BdbException` with
that code, and the scope is rolled back. -/
theorem C7_Delete_Exists_outcomes (K : Constants) (db : DatabaseImpl) (key : DataBuffer)
    (flags : Int) (k : Nat) (ret size keySize : Int)
    (hdb : db.TxnOk) (hk : (k : Int) < db.m_maxDeadlockRetries)
    (hkey : key.type ≠ .unhandled) (hret : ret ≠ K.LOCK_DEADLOCK) :
    ((∀ n txn ky o, n < k → (db.m_pDb.del n txn ky o).reportsDeadlock K = true) →
      (∀ txn ky o, db.m_pDb.del k txn ky o = .returns ret size keySize) →
      (ret = K.SUCCESS →
        (db.Delete K key flags []).1 = .ok true ∧
        steps (db.Delete K key flags []).2.2 = retrySteps k .commit) ∧
      (ret = K.NOTFOUND ∨ ret = K.KEYEMPTY →
        (db.Delete K key flags []).1 = .ok false ∧
        steps (db.Delete K key flags []).2.2 = retrySteps k .commit) ∧
      (ret ≠ K.SUCCESS → ret ≠ K.NOTFOUND → ret ≠ K.KEYEMPTY →
        (db.Delete K key flags []).1 = .error (.BdbException ret) ∧
        steps (db.Delete K key flags []).2.2 = retrySteps k .rollback)) ∧
    ((∀ n txn ky o, n < k → (db.m_pDb.exists n txn ky o).reportsDeadlock K = true) →
      (∀ txn ky o, db.m_pDb.exists k txn ky o = .returns ret size keySize) →
      (ret = K.SUCCESS ∨ ret = K.NOTFOUND ∨ ret = K.KEYEMPTY →
        (db.Exists K key flags []).1 = .ok ret ∧
        steps (db.Exists K key flags []).2.2 = retrySteps k .commit) ∧
      (ret ≠ K.SUCCESS → ret ≠ K.NOTFOUND → ret ≠ K.KEYEMPTY →
        (db.Exists K key flags []).1 = .error (.BdbException ret) ∧
        steps (db.Exists K key flags []).2.2 = retrySteps k .rollback)) := by
  obtain ⟨dk, hdk⟩ := initialize_for_read_ok key hkey
  have hN := K.distinct
  simp only [List.nodup_cons, List.mem_cons, List.mem_singleton, not_or] at hN
  have hres : (NativeResult.returns ret size keySize).reportsDeadlock K = false := by
    simp [NativeResult.reportsDeadlock, hret]
  constructor
  · intro hdead hfin
    obtain ⟨txn, u, htry, hu⟩ := TryStd_retry_final K db hdb.1 .Delete {} (some dk) none flags
      del_core [] k (.returns ret size keySize) hk
      (fun n txn d _ hn => hdead n txn _ flags (by simpa using hn))
      (fun txn d => by simpa [del_core] using hfin txn (some dk) flags) hres
    have hsteps : steps u = [.begin] ++
        (List.replicate k [Step.call, .rollback, .begin]).flatten ++ [.call] := by
      simpa using hu.2.2
    unfold DatabaseImpl.Delete DatabaseImpl.Delete.body
    rw [hdk]
    simp only [htry, List.nil_append, NativeResult.tryStd]
    refine ⟨?_, ?_, ?_⟩
    · intro h
      obtain ⟨w, hc, hd, hw'⟩ := commit_then_destroy db hdb true txn u
      simp [h, hc, hd, hw'.2.2, hsteps, retrySteps]
    · intro h
      have hne : ret ≠ K.SUCCESS := by rcases h with h | h <;> rw [h] <;> tauto
      obtain ⟨w, hc, hd, hw'⟩ := commit_then_destroy db hdb false txn u
      simp [h, hne, hc, hd, hw'.2.2, hsteps, retrySteps]
    · intro h1 h2 h3
      obtain ⟨w, hd, hw'⟩ := destroy_begun (α := Bool) db hdb (.BdbException ret) txn u
      simp [h1, h2, h3, Create_eq, hd, hw'.2.2, hsteps, retrySteps]
  · intro hdead hfin
    obtain ⟨txn, u, htry, hu⟩ := TryStd_retry_final K db hdb.1 .Exists {} (some dk) none flags
      exists_core [] k (.returns ret size keySize) hk
      (fun n txn d _ hn => hdead n txn _ flags (by simpa using hn))
      (fun txn d => by simpa [exists_core] using hfin txn (some dk) flags) hres
    have hsteps : steps u = [.begin] ++
        (List.replicate k [Step.call, .rollback, .begin]).flatten ++ [.call] := by
      simpa using hu.2.2
    unfold DatabaseImpl.Exists DatabaseImpl.Exists.body
    rw [hdk]
    simp only [htry, List.nil_append, NativeResult.tryStd]
    refine ⟨?_, ?_⟩
    · intro h
      obtain ⟨w, hc, hd, hw'⟩ := commit_then_destroy db hdb ret txn u
      simp [h, hc, hd, hw'.2.2, hsteps, retrySteps]
    · intro h1 h2 h3
      obtain ⟨w, hd, hw'⟩ := destroy_begun (α := Int) db hdb (.BdbException ret) txn u
      simp [h1, h2, h3, Create_eq, hd, hw'.2.2, hsteps, retrySteps]

/-- C7 for a key that is not there: the engine reports `NOTFOUND`, `Delete` returns `false` and
`Exists` returns `NOTFOUND`, each after one record call and one commit. -/
theorem C7_Delete_Exists_outcomes_witness :
    (((scriptedStore 3 fun _ => .returns K0.NOTFOUND 0 0).Delete K0 keyInt32 0 []).1 = .ok false ∧
      steps ((scriptedStore 3 fun _ => .returns K0.NOTFOUND 0 0).Delete K0 keyInt32 0 []).2.2
        = retrySteps 0 .commit) ∧
    (((scriptedStore 3 fun _ => .returns K0.NOTFOUND 0 0).Exists K0 keyInt32 0 []).1
        = .ok K0.NOTFOUND ∧
      steps ((scriptedStore 3 fun _ => .returns K0.NOTFOUND 0 0).Exists K0 keyInt32 0 []).2.2
        = retrySteps 0 .commit) :=
  have h := C7_Delete_Exists_outcomes K0 (scriptedStore 3 fun _ => .returns K0.NOTFOUND 0 0)
    keyInt32 0 0 K0.NOTFOUND 0 0 ⟨⟨by decide, fun _ => rfl, fun _ => rfl⟩, fun _ => rfl⟩
    (by decide) (by decide) (by decide)
  ⟨(h.1 (fun n _ _ _ hn => absurd hn (Nat.not_lt_zero n)) (fun _ _ _ => rfl)).2.1 (Or.inl rfl),
    (h.2 (fun n _ _ _ hn => absurd hn (Nat.not_lt_zero n)) (fun _ _ _ => rfl)).1
      (Or.inr (Or.inl rfl))⟩

/-! ## C8: `Put` -/

/-- C8 as stated fails: when the engine's `put` reports `KEYEXIST`, or `NOTFOUND`, the facade's
`Put` throws the `BdbException` with that code and rolls its scope back. -/
theorem C8_counterexample :
    ((scriptedStore 3 fun _ => .returns K0.KEYEXIST 5 0).Put K0 keyInt32 (-1) (-1)
        (writableBuffer 5) 0 []).1 = .error (.BdbException K0.KEYEXIST) ∧
    steps ((scriptedStore 3 fun _ => .returns K0.KEYEXIST 5 0).Put K0 keyInt32 (-1) (-1)
        (writableBuffer 5) 0 []).2.2 = [.begin, .call, .rollback] ∧
    ((scriptedStore 3 fun _ => .returns K0.NOTFOUND 5 0).Put K0 keyInt32 (-1) (-1)
        (writableBuffer 5) 0 []).1 = .error (.BdbException K0.NOTFOUND) ∧
    steps ((scriptedStore 3 fun _ => .returns K0.NOTFOUND 5 0).Put K0 keyInt32 (-1) (-1)
        (writableBuffer 5) 0 []).2.2 = [.begin, .call, .rollback] := by
  decide

/-- C8, amended. `Put(key, offset, count, inputBuffer, flags)` with a usable key and buffer, on a
store whose transaction calls succeed, when the record call ends the retry loop by returning the
code `ret` (after `k` deadlocked attempts, `k` below the retry limit): only `SUCCESS` is an
outcome returned to the caller, with the size of the value slot, after a commit; every other
code, `NOTFOUND` and `KEYEXIST` included, is thrown as the `BdbException` with that code, after
a rollback. -/
theorem C8_Put_returns_only_success (K : Constants) (db : DatabaseImpl) (key : DataBuffer)
    (offset count : Int) (buffer : DataBuffer) (flags : Int) (k : Nat) (ret size keySize : Int)
    (hdb : db.TxnOk) (hk : (k : Int) < db.m_maxDeadlockRetries)
    (hkey : key.type ≠ .unhandled) (hbuf : buffer.type ≠ .unhandled)
    (hret : ret ≠ K.LOCK_DEADLOCK)
    (hdead : ∀ n txn ky d o, n < k → (db.m_pDb.put n txn ky d o).reportsDeadlock K = true)
    (hfin : ∀ txn ky d o, db.m_pDb.put k txn ky d o = .returns ret size keySize) :
    (ret = K.SUCCESS →
      (db.Put K key offset count buffer flags []).1 = .ok size ∧
      steps (db.Put K key offset count buffer flags []).2.2 = retrySteps k .commit) ∧
    (ret ≠ K.SUCCESS →
      (db.Put K key offset count buffer flags []).1 = .error (.BdbException ret) ∧
      steps (db.Put K key offset count buffer flags []).2.2 = retrySteps k .rollback) := by
  obtain ⟨dk, hdk⟩ := initialize_for_read_ok key hkey
  obtain ⟨dv, hdv⟩ := initialize_for_read_ok buffer hbuf
  have hres : (NativeResult.returns ret size keySize).reportsDeadlock K = false := by
    simp [NativeResult.reportsDeadlock, hret]
  obtain ⟨txn, d1, u, htry, hu⟩ := TryMemStd_retry_final K db hdb.1 .Put {} (some dk)
    (DatabaseImpl.Put.dbtBuffer K ⟨dv, true⟩ offset count buffer) flags put_core [] k
    (.returns ret size keySize) hk
    (fun n txn d _ hn => hdead n txn _ d flags (by simpa using hn))
    (fun txn d => by simpa [put_core] using hfin txn (some dk) d flags) hres
  have hsteps : steps u = [.begin] ++
      (List.replicate k [Step.call, .rollback, .begin]).flatten ++ [.call] := by
    simpa using hu.2.2
  unfold DatabaseImpl.Put DatabaseImpl.Put.body
  rw [hdk, hdv]
  simp only [htry, List.nil_append, NativeResult.tryMemStd]
  constructor
  · intro h
    obtain ⟨w, hc, hd, hw'⟩ := commit_then_destroy db hdb size txn u
    simp [DatabaseImpl.SwitchStd, h, hc, hd, hw'.2.2, hsteps, retrySteps]
  · intro h
    obtain ⟨w, hd, hw'⟩ := destroy_begun (α := Int) db hdb (.BdbException ret) txn u
    simp [DatabaseImpl.SwitchStd, h, Create_eq, hd, hw'.2.2, hsteps, retrySteps]

/-- C8, amended, when the engine's `put` reports `KEYEXIST` after one deadlocked attempt. -/
theorem C8_Put_returns_only_success_witness :
    ((scriptedStore 3 fun n => if n = 0 then .throws (.DbDeadlockException 0)
        else .returns K0.KEYEXIST 5 0).Put K0 keyInt32 (-1) (-1) (writableBuffer 5) 0 []).1
      = .error (.BdbException K0.KEYEXIST) ∧
    steps ((scriptedStore 3 fun n => if n = 0 then .throws (.DbDeadlockException 0)
        else .returns K0.KEYEXIST 5 0).Put K0 keyInt32 (-1) (-1) (writableBuffer 5) 0 []).2.2
      = retrySteps 1 .rollback :=
  (C8_Put_returns_only_success K0
    (scriptedStore 3 fun n => if n = 0 then .throws (.DbDeadlockException 0)
      else .returns K0.KEYEXIST 5 0)
    keyInt32 (-1) (-1) (writableBuffer 5) 0 1 K0.KEYEXIST 5 0
    ⟨⟨by decide, fun _ => rfl, fun _ => rfl⟩, fun _ => rfl⟩ (by decide) (by decide) (by decide)
    (by decide)
    (fun n _ _ _ _ hn => by
      have h0 : n = 0 := by omega
      subst h0
      rfl)
    (fun _ _ _ _ => rfl)).2 (by decide)

/-! ## C9: a memory-too-small signal is not a deadlock -/

/-- C9. When the record call throws `DbMemoryException` (with size `S` in its transfer record)
on the attempt after `k` deadlocked ones (`k` below the retry limit, the transaction calls of
the scope succeeding), `TryMemStd` reports `(BUFFER_SMALL, S)`; the trace beyond the start holds
`k + 1` record calls, so none follows the signal, `k` log entries and `k` rollbacks, those of
the deadlocked attempts, and it ends with the record call that threw; the scope is still begun.
The retry counter plays no part: for every value of the counter, also one that leaves no retry,
an attempt that throws the signal ends the loop with that exception. -/
theorem C9_memory_signal_ends_loop (K : Constants) (db : DatabaseImpl) (methodName : MethodName)
    (c : TransactionContext) (key : Option Dbt) (data : Dbt) (options : Int)
    (bdbCall : BdbCall) (t : Trace) (k : Nat) (errno S : Int)
    (hdb : db.TxnCallsSucceed) (hk : (k : Int) < db.m_maxDeadlockRetries)
    (hdead : ∀ n txn d, calls t ≤ n → n < calls t + k →
      (bdbCall db.m_pDb n txn key d options).reportsDeadlock K = true)
    (hfin : ∀ txn d, bdbCall db.m_pDb (calls t + k) txn key d options
      = .throws (.DbMemoryException errno S)) :
    (db.TryMemStd K methodName c key data options bdbCall t).1 = .ok (K.BUFFER_SMALL, S) ∧
    (db.TryMemStd K methodName c key data options bdbCall t).2.1.begun = true ∧
    (∃ u, (db.TryMemStd K methodName c key data options bdbCall t).2.2.2 = t ++ u ∧
      calls u = k + 1 ∧ logs u = k ∧ (steps u).count .rollback = k ∧
      steps u = (if c.begun then [] else [.begin]) ++
        (List.replicate k [Step.call, .rollback, .begin]).flatten ++ [.call]) ∧
    (∀ (fuel : Nat) (retry_count : Int) (c' : TransactionContext) (d' : Option Dbt)
      (t' : Trace),
      (∀ txn, bdbCall db.m_pDb (calls t') txn key d' options
        = .throws (.DbMemoryException errno S)) →
      (DatabaseImpl.DeadlockLoop.loop K db methodName key options bdbCall (fuel + 1)
        retry_count c' d' t').1 = .error (.native (.DbMemoryException errno S)) ∧
      calls (DatabaseImpl.DeadlockLoop.loop K db methodName key options bdbCall (fuel + 1)
        retry_count c' d' t').2.2.2 = calls t' + 1) := by
  have hres : (NativeResult.throws (.DbMemoryException errno S)).reportsDeadlock K = false := rfl
  obtain ⟨txn, d1, u, htry, hu⟩ := TryMemStd_retry_final K db hdb methodName c key data options
    bdbCall t k _ hk hdead hfin hres
  rw [htry]
  refine ⟨rfl, rfl, ⟨u, rfl, hu.1, hu.2.1, ?_, hu.2.2⟩, ?_⟩
  · rw [hu.2.2]
    by_cases hb : c.begun <;> simp [hb, List.count_cons, count_rollback_retries]
  · intro fuel retry_count c' d' t' h
    obtain ⟨txn', u', hl, hu'⟩ := loop_final K db hdb methodName key options bdbCall fuel
      retry_count c' d' t' (fun txn => by rw [h]; rfl)
    rw [hl, h]
    exact ⟨rfl, by simp [hu'.1]⟩

/-- C9 with retry limit 1: the single attempt throws the memory-too-small signal with size 10,
and `TryMemStd` reports `(BUFFER_SMALL, 10)` after one record call, no log entry and no
rollback. -/
theorem C9_memory_signal_ends_loop_witness :
    ((scriptedStore 1 fun _ => .throws (.DbMemoryException 12 10)).TryMemStd K0 .Get {} none {} 0
      get_core []).1 = .ok (K0.BUFFER_SMALL, 10) ∧
    ((scriptedStore 1 fun _ => .throws (.DbMemoryException 12 10)).TryMemStd K0 .Get {} none {} 0
      get_core []).2.2.2 = [.txn_begin 0, .scope_begin, .call (some 0) none (some {}) 0] :=
  ⟨(C9_memory_signal_ends_loop K0 (scriptedStore 1 fun _ => .throws (.DbMemoryException 12 10))
      .Get {} none {} 0 get_core [] 0 12 10 ⟨by decide, fun _ => rfl, fun _ => rfl⟩ (by decide)
      (fun n _ _ _ hn => absurd hn (by simp)) (fun _ _ => rfl)).1, by decide⟩

/-! ## C10: the partial window of the value slot -/

theorem or_and_self_right (a b : Nat) : (a ||| b) &&& b = b := by
  apply Nat.eq_of_testBit_eq
  intro i
  simp only [Nat.testBit_and, Nat.testBit_or]
  cases a.testBit i <;> cases b.testBit i <;> rfl

/-- After `set_for_partial` the slot declares the window it was given, with `INT32_MAX` for a
negative length and 0 for a negative offset. -/
theorem window_set_for_partial (K : Constants) (d : Dbt) (offset length : Int) :
    Dbt.window K ( DbtExtended.set_for_partial K d offset length)
      = some (if offset < 0 then 0 else offset, if length < 0 then INT32_MAX else length) := by
  simp [Dbt.window, Dbt.isPartial, DbtExtended.set_for_partial, or_and_self_right,
    K.PARTIAL_ne_zero]

theorem window_of_flags (K : Constants) (d : Dbt) (h : d.flags &&& K.DB_DBT_PARTIAL = 0) :
    d.window K = none := by
  simp [Dbt.window, Dbt.isPartial, h]

theorem initialize_for_read_flags (bf : DataBuffer) (holder : DbtHolder)
    (h : DbtHolder.initialize_for_read {} bf = .ok holder) : holder.dbt.flags = 0 := by
  rcases bf with ⟨ty, len, w⟩
  cases ty <;> simp [DbtHolder.initialize_for_read, DataBuffer.IsObject, Dbt.set_size] at h <;>
    (subst h; rfl)

/-- C10 as stated fails at offset 0. With length `-1` none of the five value slots declares a
partial window (the claim asks for the window from 0 to the end); with length 0 the two facade
slots declare none either (the claim asks for the empty window at 0). -/
theorem C10_counterexample :
    (DatabaseImpl.GetStream.dbtBuffer K0 0 (-1)).window K0 = none ∧
    (DatabaseImpl.GetBuffer.dbtBuffer K0 0 (-1)).window K0 = none ∧
    (CursorImpl.GetStreams.dbtBuffer K0 0 (-1)).window K0 = none ∧
    (CursorImpl.GetBuffers.dbtBuffer K0 0 (-1)).window K0 = none ∧
    DbtHolder.initialize_for_read {} (writableBuffer 8) = .ok ⟨{ size := 8 }, true⟩ ∧
    (CursorImpl.Put.dbtBuffer K0 ⟨{ size := 8 }, true⟩ 0 (-1)).window K0 = none ∧
    (DatabaseImpl.GetStream.dbtBuffer K0 0 0).window K0 = none ∧
    (DatabaseImpl.GetBuffer.dbtBuffer K0 0 0).window K0 = none := by
  decide

/-- C10, amended. For every offset `≥ 0` and every length, the value slot of the facade's `Get`
into a stream and `GetBuffer` and of the cursor's `Get` into streams, `GetBuffers` and `Put`:
when `offset > 0`, or `offset = 0` and `length > 0`, it declares the partial window
`(offset, length)` for `length ≥ 0` and `(offset, INT32_MAX)`, that is to the end, for
`length < 0`; when `offset = 0` and `length < 0` it declares no partial window, so the whole
value is transferred; when `offset = 0` and `length = 0` the three cursor slots declare the
window `(0, 0)`. -/
theorem C10_partial_window (K : Constants) (offset length : Int) (value : DataBuffer)
    (holder : DbtHolder) (hoff : 0 ≤ offset)
    (hval : DbtHolder.initialize_for_read {} value = .ok holder) :
    (0 < offset ∨ 0 < length →
      (DatabaseImpl.GetStream.dbtBuffer K offset length).window K
        = some (offset, if 0 ≤ length then length else INT32_MAX) ∧
      (DatabaseImpl.GetBuffer.dbtBuffer K offset length).window K
        = some (offset, if 0 ≤ length then length else INT32_MAX) ∧
      (CursorImpl.GetStreams.dbtBuffer K offset length).window K
        = some (offset, if 0 ≤ length then length else INT32_MAX) ∧
      (CursorImpl.GetBuffers.dbtBuffer K offset length).window K
        = some (offset, if 0 ≤ length then length else INT32_MAX) ∧
      (CursorImpl.Put.dbtBuffer K holder offset length).window K
        = some (offset, if 0 ≤ length then length else INT32_MAX)) ∧
    (offset = 0 → length < 0 →
      (DatabaseImpl.GetStream.dbtBuffer K offset length).window K = none ∧
      (DatabaseImpl.GetBuffer.dbtBuffer K offset length).window K = none ∧
      (CursorImpl.GetStreams.dbtBuffer K offset length).window K = none ∧
      (CursorImpl.GetBuffers.dbtBuffer K offset length).window K = none ∧
      (CursorImpl.Put.dbtBuffer K holder offset length).window K = none) ∧
    (offset = 0 → length = 0 →
      (CursorImpl.GetStreams.dbtBuffer K offset length).window K = some (0, 0) ∧
      (CursorImpl.GetBuffers.dbtBuffer K offset length).window K = some (0, 0) ∧
      (CursorImpl.Put.dbtBuffer K holder offset length).window K = some (0, 0)) := by
  have hflags := initialize_for_read_flags value holder hval
  have hno : ¬ offset < 0 := by omega
  refine ⟨?_, ?_, ?_⟩
  · intro h
    have hc : 0 < offset ∨ 0 ≤ length := by omega
    have hlen : (if length < 0 then INT32_MAX else length)
        = if 0 ≤ length then length else INT32_MAX := by
      by_cases hl : length < 0
      · rw [if_pos hl, if_neg (by omega)]
      · rw [if_neg hl, if_pos (by omega)]
    simp only [DatabaseImpl.GetStream.dbtBuffer, DatabaseImpl.GetBuffer.dbtBuffer,
      CursorImpl.GetStreams.dbtBuffer, CursorImpl.GetBuffers.dbtBuffer,
      CursorImpl.Put.dbtBuffer, gt_iff_lt, ge_iff_le, if_pos h, if_pos hc,
      window_set_for_partial, if_neg hno, hlen, and_self]
  · intro h0 hl
    have h1 : ¬ (0 < offset ∨ 0 < length) := by omega
    have h2 : ¬ (0 < offset ∨ 0 ≤ length) := by omega
    simp only [DatabaseImpl.GetStream.dbtBuffer, DatabaseImpl.GetBuffer.dbtBuffer,
      CursorImpl.GetStreams.dbtBuffer, CursorImpl.GetBuffers.dbtBuffer,
      CursorImpl.Put.dbtBuffer, gt_iff_lt, ge_iff_le, if_neg h1, if_neg h2]
    exact ⟨window_of_flags K _ K.MALLOC_and_PARTIAL, window_of_flags K _ K.USERCOPY_and_PARTIAL,
      window_of_flags K _ K.MALLOC_and_PARTIAL, window_of_flags K _ K.USERCOPY_and_PARTIAL,
      window_of_flags K _ (by rw [hflags]; simp)⟩
  · intro h0 hl
    have h2 : 0 < offset ∨ 0 ≤ length := by omega
    subst h0 hl
    simp only [CursorImpl.GetStreams.dbtBuffer, CursorImpl.GetBuffers.dbtBuffer,
      CursorImpl.Put.dbtBuffer, gt_iff_lt, ge_iff_le, if_pos h2, window_set_for_partial]
    simp

/-- C10, amended, at offset 3 with a negative length: the window runs from 3 to the end. -/
theorem C10_partial_window_witness :
    (DatabaseImpl.GetStream.dbtBuffer K0 3 (-1)).window K0 = some (3, INT32_MAX) ∧
    (DatabaseImpl.GetBuffer.dbtBuffer K0 3 (-1)).window K0 = some (3, INT32_MAX) ∧
    (CursorImpl.GetStreams.dbtBuffer K0 3 (-1)).window K0 = some (3, INT32_MAX) ∧
    (CursorImpl.GetBuffers.dbtBuffer K0 3 (-1)).window K0 = some (3, INT32_MAX) ∧
    (CursorImpl.Put.dbtBuffer K0 ⟨{ size := 8 }, true⟩ 3 (-1)).window K0
      = some (3, INT32_MAX) := by
  simpa using (C10_partial_window K0 3 (-1) (writableBuffer 8) ⟨{ size := 8 }, true⟩
    (by decide) (by decide)).1 (Or.inl (by decide))

/-! ## The fuel of the loops is enough -/

theorem begin_ne_outOfFuel (db : DatabaseImpl) (c : TransactionContext) (t : Trace) :
    (c.begin db t).1 ≠ .error .outOfFuel := by
  rcases c with ⟨begun, txn⟩
  cases begun
  · cases hm : db.m_pTrMode <;> simp [TransactionContext.begin, DatabaseImpl.BeginTrans, hm]
    cases hx : db.m_isTxn <;> simp
    cases hb : db.txn_begin (begins t) <;> simp
  · simp [TransactionContext.begin]

theorem rollback_ne_outOfFuel (db : DatabaseImpl) (c : TransactionContext) (t : Trace) :
    (c.rollback db t).1 ≠ .error .outOfFuel := by
  rcases c with ⟨begun, txn⟩
  cases begun
  · simp [TransactionContext.rollback]
  · cases txn with
    | none => simp [TransactionContext.rollback, DatabaseImpl.RollbackTrans]
    | some h =>
      cases hm : db.m_pTrMode <;>
        simp [TransactionContext.rollback, DatabaseImpl.RollbackTrans, hm]
      cases hb : db.txn_abort h <;> simp

theorem attempt_ne_outOfFuel (K : Constants) (db : DatabaseImpl) (c : TransactionContext)
    (key data : Option Dbt) (options : Int) (bdbCall : BdbCall) (t : Trace) :
    (DatabaseImpl.DeadlockLoop.attempt K db c key data options bdbCall t).1
      ≠ .error .outOfFuel := by
  have h := begin_ne_outOfFuel db c t
  unfold DatabaseImpl.DeadlockLoop.attempt
  split
  · simp
  · next heq => rw [heq] at h; simpa using h
  · split <;> simp

theorem loop_ne_outOfFuel (K : Constants) (db : DatabaseImpl) (methodName : MethodName)
    (key : Option Dbt) (options : Int) (bdbCall : BdbCall) (fuel : Nat) :
    ∀ (retry_count : Int) (c : TransactionContext) (data : Option Dbt) (t : Trace),
      0 < fuel → db.m_maxDeadlockRetries ≤ retry_count + fuel →
      (DatabaseImpl.DeadlockLoop.loop K db methodName key options bdbCall fuel retry_count c
        data t).1 ≠ .error .outOfFuel := by
  induction fuel with
  | zero => intro _ _ _ _ h; omega
  | succ f ih =>
    intro retry_count c data t _ hN
    have ha := attempt_ne_outOfFuel K db c key data options bdbCall t
    rw [DatabaseImpl.DeadlockLoop.loop]
    rcases hres : DatabaseImpl.DeadlockLoop.attempt K db c key data options bdbCall t with
      ⟨r, c1, d1, t1⟩
    rw [hres] at ha
    cases r with
    | error e => simpa using ha
    | ok p =>
      rcases p with ⟨ret, dl⟩
      cases dl with
      | false => simp
      | true =>
        have hr := rollback_ne_outOfFuel db c1 (DatabaseImpl.Log K.LOCK_DEADLOCK .Deadlock t1)
        simp only [if_true]
        rcases hrb : c1.rollback db (DatabaseImpl.Log K.LOCK_DEADLOCK .Deadlock t1) with
          ⟨r2, c2, t2⟩
        rw [hrb] at hr
        cases r2 with
        | error e => simpa using hr
        | ok _ =>
          simp only []
          split
          · simp [Create_eq]
          · next hlt =>
            exact ih (retry_count + 1) c2 d1 t2 (by push_cast at hN; omega)
              (by push_cast at hN; omega)

/-- The fuel of `DatabaseImpl.DeadlockLoop` is never used up: the loop ends by itself, whatever
the engine answers. -/
theorem DeadlockLoop_terminates (K : Constants) (db : DatabaseImpl) (methodName : MethodName)
    (context : TransactionContext) (key data : Option Dbt) (options : Int) (bdbCall : BdbCall)
    (t : Trace) :
    (db.DeadlockLoop K methodName context key data options bdbCall t).1 ≠ .error .outOfFuel :=
  loop_ne_outOfFuel K db methodName key options bdbCall _ 0 context data t (by omega) (by omega)

theorem cursor_loop_ne_outOfFuel (K : Constants) (cur : CursorImpl) (options : Int)
    (bdbCall : CursorImpl.BdbCall) (fuel : Nat) :
    ∀ (ret retry_count : Int) (key data : Option Dbt) (t : Trace),
      0 < fuel → (∀ db, cur._db = some db → db.m_maxDeadlockRetries ≤ retry_count + fuel) →
      (CursorImpl.DeadlockLoop.loop K cur options bdbCall fuel ret retry_count key data t).1
        ≠ .error .outOfFuel := by
  induction fuel with
  | zero => intro _ _ _ _ _ h; omega
  | succ f ih =>
    intro ret retry_count key data t _ hN
    rw [CursorImpl.DeadlockLoop.loop]
    cases hc : cur._cursorp with
    | none => simp
    | some cursorp =>
      simp only []
      cases hres : bdbCall cursorp (calls t) key data options with
      | returns ret1 size keySize =>
        simp only []
        by_cases hd : ret1 = K.LOCK_DEADLOCK
        · cases hdb : cur._db with
          | none => simp [hd]
          | some db =>
            have hN' := hN db hdb
            simp only [hd, beq_self_eq_true, if_true]
            split
            · simp [Create_eq]
            · exact ih _ _ _ _ _ (by push_cast at hN'; omega)
                (fun db' h' => by
                  rw [hdb] at h'
                  cases h'
                  push_cast at hN' ⊢; omega)
        · simp [hd]
      | throws e =>
        cases e with
        | DbDeadlockException errno =>
          cases hdb : cur._db with
          | none => simp
          | some db =>
            have hN' := hN db hdb
            simp only [if_true]
            split
            · simp [Create_eq]
            · exact ih _ _ _ _ _ (by push_cast at hN'; omega)
                (fun db' h' => by
                  rw [hdb] at h'
                  cases h'
                  push_cast at hN' ⊢; omega)
        | _ => simp

/-- The fuel of `CursorImpl.DeadlockLoop` is never used up. -/
theorem cursor_DeadlockLoop_terminates (K : Constants) (cur : CursorImpl)
    (key data : Option Dbt) (options : Int) (bdbCall : CursorImpl.BdbCall) (t : Trace) :
    (cur.DeadlockLoop K key data options bdbCall t).1 ≠ .error .outOfFuel := by
  have h := cursor_loop_ne_outOfFuel K cur options bdbCall
    (match cur._db with
      | some db => (max 1 db.m_maxDeadlockRetries).toNat
      | none => 1) 0 0 key data t
    (by cases cur._db <;> simp)
    (fun db hdb => by rw [hdb]; simp)
  unfold CursorImpl.DeadlockLoop
  simp only []
  split
  · simp
  · simp [BdbExceptionFactory.CreateEx]
  · next r h1 h2 =>
    intro habs
    exact h habs

/-! ## C12: `set_for_partial` -/

/-- C12. For every 32-bit `offset ≥ 0` and every 32-bit `length`, `set_for_partial` sets the
window offset to `offset`, sets the window length to `length` when `length ≥ 0` and to
`INT32_MAX = 2^31 - 1` when `length < 0` (both fit the unsigned 32-bit fields they are stored
in), sets the partial-transfer flag, and leaves every other bit of the flag word, the size and
the buffer length unchanged. -/
theorem C12_partial_window_fields (K : Constants) (d : DbtExtended) (offset length : Int)
    (hoff : 0 ≤ offset) (hoff32 : offset < 2 ^ 31)
    (hlen32 : -2 ^ 31 ≤ length ∧ length < 2 ^ 31) :
    ( DbtExtended.set_for_partial K d offset length).doff = offset ∧
    ( DbtExtended.set_for_partial K d offset length).dlen
      = (if 0 ≤ length then length else INT32_MAX) ∧
    INT32_MAX = 2 ^ 31 - 1 ∧
    (0 ≤ ( DbtExtended.set_for_partial K d offset length).doff ∧
      ( DbtExtended.set_for_partial K d offset length).doff < 2 ^ 32) ∧
    (0 ≤ ( DbtExtended.set_for_partial K d offset length).dlen ∧
      ( DbtExtended.set_for_partial K d offset length).dlen < 2 ^ 32) ∧
    ( DbtExtended.set_for_partial K d offset length).flags &&& K.DB_DBT_PARTIAL
      = K.DB_DBT_PARTIAL ∧
    ( DbtExtended.set_for_partial K d offset length).isPartial K = true ∧
    (∀ i, K.DB_DBT_PARTIAL.testBit i = false →
      ( DbtExtended.set_for_partial K d offset length).flags.testBit i = d.flags.testBit i) ∧
    ( DbtExtended.set_for_partial K d offset length).size = d.size ∧
    ( DbtExtended.set_for_partial K d offset length).ulen = d.ulen := by
  have h1 : ¬ offset < 0 := by omega
  have hmax : INT32_MAX = 2 ^ 31 - 1 := by decide
  have hdlen : (if length < 0 then INT32_MAX else length)
      = if 0 ≤ length then length else INT32_MAX := by
    by_cases hl : length < 0
    · rw [if_pos hl, if_neg (by omega)]
    · rw [if_neg hl, if_pos (by omega)]
  refine ⟨by simp [DbtExtended.set_for_partial, h1], by simp [DbtExtended.set_for_partial, hdlen],
    hmax, by simp only [DbtExtended.set_for_partial, if_neg h1]; omega, ?_,
    by simp [DbtExtended.set_for_partial, or_and_self_right],
    by simp [Dbt.isPartial, DbtExtended.set_for_partial, or_and_self_right, K.PARTIAL_ne_zero],
    ?_, rfl, rfl⟩
  · simp only [DbtExtended.set_for_partial]
    by_cases hl : length < 0
    · rw [if_pos hl, hmax]; omega
    · rw [if_neg hl]; omega
  · intro i hi
    simp [DbtExtended.set_for_partial, Nat.testBit_or, hi]

/-- C12 at offset 3 with length `-1` on a slot that carries the user-memory flag: the window is
`(3, 2^31 - 1)`, the flag word is `256 ||| 64`. -/
theorem C12_partial_window_fields_witness :
    ( DbtExtended.set_for_partial K0 { size := 8, flags := 256 } 3 (-1)).doff = 3 ∧
    ( DbtExtended.set_for_partial K0 { size := 8, flags := 256 } 3 (-1)).dlen = 2147483647 ∧
    ( DbtExtended.set_for_partial K0 { size := 8, flags := 256 } 3 (-1)).flags = 320 :=
  ⟨(C12_partial_window_fields K0 { size := 8, flags := 256 } 3 (-1) (by decide) (by decide)
      (by decide)).1,
    by decide, by decide⟩

/-! ## C11: a negative offset -/

theorem initialize_for_write_flags (K : Constants) (bf : DataBuffer) (holder : DbtHolder)
    (h : DbtHolder.initialize_for_write K {} bf = .ok holder) :
    holder.dbt.flags = K.DB_DBT_USERMEM := by
  rcases bf with ⟨ty, len, w⟩
  cases ty <;> cases w <;>
    simp [DbtHolder.initialize_for_write, DbtHolder.initialize_for_read_write,
      DbtHolder.initialize_for_read, DataBuffer.IsObject, DataBuffer.IsEmpty, Dbt.set_size] at h <;>
    (subst h; simp)

/-- C11 as stated fails where the guard reads the length too. At offset `-1` with length 5 the
value slot of the facade's `Get` into a stream and `GetBuffer` and of the cursor's `Get` into
streams, `GetBuffers` and `Put` carries the partial-transfer flag and declares the window
`(0, 5)`; with length 0 the three cursor slots declare the window `(0, 0)`. -/
theorem C11_counterexample :
    ((DatabaseImpl.GetStream.dbtBuffer K0 (-1) 5).isPartial K0 = true ∧
      (DatabaseImpl.GetStream.dbtBuffer K0 (-1) 5).window K0 = some (0, 5)) ∧
    ((DatabaseImpl.GetBuffer.dbtBuffer K0 (-1) 5).isPartial K0 = true ∧
      (DatabaseImpl.GetBuffer.dbtBuffer K0 (-1) 5).window K0 = some (0, 5)) ∧
    ((CursorImpl.GetStreams.dbtBuffer K0 (-1) 5).isPartial K0 = true ∧
      (CursorImpl.GetStreams.dbtBuffer K0 (-1) 5).window K0 = some (0, 5)) ∧
    ((CursorImpl.GetBuffers.dbtBuffer K0 (-1) 5).isPartial K0 = true ∧
      (CursorImpl.GetBuffers.dbtBuffer K0 (-1) 5).window K0 = some (0, 5)) ∧
    (DbtHolder.initialize_for_read {} (writableBuffer 8) = .ok ⟨{ size := 8 }, true⟩ ∧
      (CursorImpl.Put.dbtBuffer K0 ⟨{ size := 8 }, true⟩ (-1) 5).isPartial K0 = true ∧
      (CursorImpl.Put.dbtBuffer K0 ⟨{ size := 8 }, true⟩ (-1) 5).window K0 = some (0, 5)) ∧
    (CursorImpl.GetStreams.dbtBuffer K0 (-1) 0).window K0 = some (0, 0) ∧
    (CursorImpl.GetBuffers.dbtBuffer K0 (-1) 0).window K0 = some (0, 0) ∧
    (CursorImpl.Put.dbtBuffer K0 ⟨{ size := 8 }, true⟩ (-1) 0).window K0 = some (0, 0) := by
  decide

/-- C11, amended. For every offset `< 0`: the value slot of the operations that take an offset
and no length to guard on (the facade's `Get` into a caller buffer and `Put`, the cursor's two
`Get` into caller buffers) is the initialized slot unchanged and declares no partial window,
whatever the other arguments; the value slot of the facade's `Get` into a stream and `GetBuffer`
declares no partial window when `length ≤ 0` and the window `(0, length)` when `length > 0`; the
value slot of the cursor's `Get` into streams, `GetBuffers` and `Put` declares no partial window
when `length < 0` and the window `(0, length)` when `length ≥ 0`. -/
theorem C11_negative_offset (K : Constants) (offset length count : Int)
    (buffer value : DataBuffer) (wholder rholder : DbtHolder) (hoff : offset < 0)
    (hw : DbtHolder.initialize_for_write K {} buffer = .ok wholder)
    (hr : DbtHolder.initialize_for_read {} value = .ok rholder) :
    (DatabaseImpl.Get.dbtBuffer K wholder offset = wholder.dbt ∧
      (DatabaseImpl.Get.dbtBuffer K wholder offset).window K = none) ∧
    (DatabaseImpl.Put.dbtBuffer K rholder offset count value = rholder.dbt ∧
      (DatabaseImpl.Put.dbtBuffer K rholder offset count value).window K = none) ∧
    (CursorImpl.Get.dbtBuffer K wholder offset = wholder.dbt ∧
      (CursorImpl.Get.dbtBuffer K wholder offset).window K = none) ∧
    (length ≤ 0 →
      (DatabaseImpl.GetStream.dbtBuffer K offset length).window K = none ∧
      (DatabaseImpl.GetBuffer.dbtBuffer K offset length).window K = none) ∧
    (0 < length →
      (DatabaseImpl.GetStream.dbtBuffer K offset length).window K = some (0, length) ∧
      (DatabaseImpl.GetBuffer.dbtBuffer K offset length).window K = some (0, length)) ∧
    (length < 0 →
      (CursorImpl.GetStreams.dbtBuffer K offset length).window K = none ∧
      (CursorImpl.GetBuffers.dbtBuffer K offset length).window K = none ∧
      (CursorImpl.Put.dbtBuffer K rholder offset length).window K = none) ∧
    (0 ≤ length →
      (CursorImpl.GetStreams.dbtBuffer K offset length).window K = some (0, length) ∧
      (CursorImpl.GetBuffers.dbtBuffer K offset length).window K = some (0, length) ∧
      (CursorImpl.Put.dbtBuffer K rholder offset length).window K = some (0, length)) := by
  have hwf := initialize_for_write_flags K buffer wholder hw
  have hrf := initialize_for_read_flags value rholder hr
  have hno : ¬ offset ≥ 0 := by omega
  have hww : wholder.dbt.window K = none :=
    window_of_flags K _ (by rw [hwf]; exact K.USERMEM_and_PARTIAL)
  have hrw : rholder.dbt.window K = none := window_of_flags K _ (by rw [hrf]; simp)
  refine ⟨?_, ?_, ?_, ?_, ?_, ?_, ?_⟩
  · simp only [DatabaseImpl.Get.dbtBuffer, if_neg hno, hww, and_self]
  · simp only [DatabaseImpl.Put.dbtBuffer, if_neg hno, hrw, and_self]
  · simp only [CursorImpl.Get.dbtBuffer, if_neg hno, hww, and_self]
  · intro hl
    have h1 : ¬ (offset > 0 ∨ length > 0) := by omega
    simp only [DatabaseImpl.GetStream.dbtBuffer, DatabaseImpl.GetBuffer.dbtBuffer, if_neg h1]
    exact ⟨window_of_flags K _ K.MALLOC_and_PARTIAL, window_of_flags K _ K.USERCOPY_and_PARTIAL⟩
  · intro hl
    have h1 : offset > 0 ∨ length > 0 := by omega
    have h2 : ¬ length < 0 := by omega
    simp only [DatabaseImpl.GetStream.dbtBuffer, DatabaseImpl.GetBuffer.dbtBuffer, if_pos h1,
      window_set_for_partial, if_pos hoff, if_neg h2, and_self]
  · intro hl
    have h1 : ¬ (offset > 0 ∨ length ≥ 0) := by omega
    simp only [CursorImpl.GetStreams.dbtBuffer, CursorImpl.GetBuffers.dbtBuffer,
      CursorImpl.Put.dbtBuffer, if_neg h1]
    exact ⟨window_of_flags K _ K.MALLOC_and_PARTIAL, window_of_flags K _ K.USERCOPY_and_PARTIAL,
      hrw⟩
  · intro hl
    have h1 : offset > 0 ∨ length ≥ 0 := by omega
    have h2 : ¬ length < 0 := by omega
    simp only [CursorImpl.GetStreams.dbtBuffer, CursorImpl.GetBuffers.dbtBuffer,
      CursorImpl.Put.dbtBuffer, if_pos h1, window_set_for_partial, if_pos hoff, if_neg h2,
      and_self]

/-- C11, amended, at offset `-1`: the slot of the facade's `Get` into a writable buffer of 8
bytes is the initialized slot and declares no window. -/
theorem C11_negative_offset_witness :
    DatabaseImpl.Get.dbtBuffer K0 ⟨{ size := 8, ulen := 8, flags := 256 }, true⟩ (-1)
      = { size := 8, ulen := 8, flags := 256 } ∧
    (DatabaseImpl.Get.dbtBuffer K0 ⟨{ size := 8, ulen := 8, flags := 256 }, true⟩ (-1)).window K0
      = none :=
  (C11_negative_offset K0 (-1) 5 (-1) (writableBuffer 8) (writableBuffer 8)
    ⟨{ size := 8, ulen := 8, flags := 256 }, true⟩ ⟨{ size := 8 }, true⟩ (by decide) (by decide)
    (by decide)).1

/-! ## C20: the key buffer of the cursor's `Get` into caller buffers -/

/-- The first record call on the cursor returns a code that is not the deadlock code: the loop
returns it, with the sizes the engine left in the two slots. -/
theorem cursor_DeadlockLoop_returns (K : Constants) (cur : CursorImpl) (dbc : Dbc)
    (hdbc : cur._cursorp = some dbc) (key data : Option Dbt) (options : Int)
    (bdbCall : CursorImpl.BdbCall) (t : Trace) (ret size keySize : Int)
    (hres : bdbCall dbc (calls t) key data options = .returns ret size keySize)
    (hret : ret ≠ K.LOCK_DEADLOCK) :
    cur.DeadlockLoop K key data options bdbCall t
      = (.ok ret, afterCall key keySize, afterCall data size,
          t ++ [.call none key data options]) := by
  have hfuel : ∀ N : Int, ∃ f, (max 1 N).toNat = f + 1 := fun N =>
    ⟨(max 1 N).toNat - 1, by have : 1 ≤ max 1 N := le_max_left _ _; omega⟩
  have hloop : ∀ f, CursorImpl.DeadlockLoop.loop K cur options bdbCall (f + 1) 0 0 key data t
      = (.ok ret, afterCall key keySize, afterCall data size,
          t ++ [.call none key data options]) := by
    intro f
    rw [CursorImpl.DeadlockLoop.loop]
    simp [hdbc, hres, hret]
  unfold CursorImpl.DeadlockLoop
  cases hdb : cur._db with
  | none => simp only [hloop 0]
  | some db =>
    obtain ⟨f, hf⟩ := hfuel db.m_maxDeadlockRetries
    simp only [hf, hloop f]

theorem initialize_for_read_size (bf : DataBuffer) (holder : DbtHolder)
    (h : DbtHolder.initialize_for_read {} bf = .ok holder) :
    holder.dbt.size = bf.ByteLength ∧ holder.dbt.ulen = 0 := by
  rcases bf with ⟨ty, len, w⟩
  cases ty <;>
    simp [DbtHolder.initialize_for_read, DataBuffer.IsObject, Dbt.set_size] at h <;>
    (subst h; simp [DataBuffer.ByteLength])

theorem initialize_for_write_spec (K : Constants) (bf : DataBuffer) (holder : DbtHolder)
    (h : DbtHolder.initialize_for_write K {} bf = .ok holder) :
    (bf.IsWritable = true ∨ bf.IsEmpty = true) ∧ holder.dbt.size = bf.ByteLength ∧
      holder.dbt.ulen = bf.ByteLength := by
  rcases bf with ⟨ty, len, w⟩
  cases ty <;> cases w <;>
    simp [DbtHolder.initialize_for_write, DbtHolder.initialize_for_read_write,
      DbtHolder.initialize_for_read, DataBuffer.IsObject, DataBuffer.IsEmpty, Dbt.set_size] at h <;>
    (subst h; simp [DataBuffer.ByteLength, DataBuffer.IsEmpty])

/-- C20. `CursorImpl::Get` into caller buffers. For position `Set` the key slot is the one
`initialize_for_read` builds, which does not look at the writable flag and sets neither a
capacity nor the user-memory flag, and the key length returned with `SUCCESS` or `BUFFER_SMALL`
is 0. For every other position the key slot is the one `initialize_for_write` builds: a key
buffer that is neither writable nor empty is refused before any engine call, and otherwise the
slot carries the user-memory flag with capacity and size equal to the byte length of the buffer;
the key length returned with `SUCCESS` or `BUFFER_SMALL` is the key size the engine reported.
In both cases the value length returned is the value size the engine reported. -/
theorem C20_cursor_Get_key_buffer (K : Constants) (cur : CursorImpl) (dbc : Dbc)
    (hdbc : cur._cursorp = some dbc) (key value : DataBuffer) (offset : Int)
    (position flags : Nat) (t : Trace) :
    (position = K.Set →
      CursorImpl.Get.dbtKey K key position = DbtHolder.initialize_for_read {} key ∧
      CursorImpl.Get.dbtKey K key position
        = CursorImpl.Get.dbtKey K ⟨key.type, key.length, !key.IsWritable⟩ position ∧
      ∀ dbtKey, CursorImpl.Get.dbtKey K key position = .ok dbtKey →
        dbtKey.dbt.flags = 0 ∧ dbtKey.dbt.ulen = 0 ∧ dbtKey.dbt.size = key.ByteLength) ∧
    (position ≠ K.Set →
      CursorImpl.Get.dbtKey K key position = DbtHolder.initialize_for_write K {} key ∧
      (key.IsWritable = false → key.IsEmpty = false →
        CursorImpl.Get K cur key value offset position flags t
          = (.error .ApplicationException, t)) ∧
      ∀ dbtKey, CursorImpl.Get.dbtKey K key position = .ok dbtKey →
        (key.IsWritable = true ∨ key.IsEmpty = true) ∧
        dbtKey.dbt.flags = K.DB_DBT_USERMEM ∧ dbtKey.dbt.ulen = key.ByteLength ∧
        dbtKey.dbt.size = key.ByteLength) ∧
    (∀ dbtKey holder ret size keySize,
      CursorImpl.Get.dbtKey K key position = .ok dbtKey →
      DbtHolder.initialize_for_write K {} value = .ok holder →
      dbc.get (calls t) (some dbtKey.dbt) (some (CursorImpl.Get.dbtBuffer K holder offset))
        (position ||| flags : Nat) = .returns ret size keySize →
      ret = K.SUCCESS ∨ ret = K.BUFFER_SMALL →
      CursorImpl.Get K cur key value offset position flags t
        = (.ok ⟨if position = K.Set then 0 else keySize, size⟩,
            t ++ [.call none (some dbtKey.dbt) (some (CursorImpl.Get.dbtBuffer K holder offset))
              (position ||| flags : Nat)])) := by
  have hd := K.distinct
  simp only [List.nodup_cons, List.mem_cons, List.mem_singleton, not_or, List.not_mem_nil,
    not_false_eq_true, List.nodup_nil, and_true] at hd
  refine ⟨?_, ?_, ?_⟩
  · intro hp
    refine ⟨by simp [CursorImpl.Get.dbtKey, hp], ?_, ?_⟩
    · simp [CursorImpl.Get.dbtKey, hp, DbtHolder.initialize_for_read, DataBuffer.IsObject]
    · intro dbtKey h
      simp only [CursorImpl.Get.dbtKey, if_pos hp] at h
      exact ⟨initialize_for_read_flags key dbtKey h, (initialize_for_read_size key dbtKey h).2,
        (initialize_for_read_size key dbtKey h).1⟩
  · intro hp
    refine ⟨by simp [CursorImpl.Get.dbtKey, hp], ?_, ?_⟩
    · intro hw he
      simp [CursorImpl.Get, CursorImpl.Get.dbtKey, hp, DbtHolder.initialize_for_write, hw, he]
    · intro dbtKey h
      simp only [CursorImpl.Get.dbtKey, if_neg hp] at h
      obtain ⟨h1, h2, h3⟩ := initialize_for_write_spec K key dbtKey h
      exact ⟨h1, initialize_for_write_flags K key dbtKey h, h3, h2⟩
  · intro dbtKey holder ret size keySize hk hv hres hret
    have hne : ret ≠ K.LOCK_DEADLOCK := by
      rcases hret with h | h <;> rw [h]
      · exact hd.1.2.2.2.2
      · exact hd.2.2.2.2
    have hNF : ret ≠ K.NOTFOUND := by
      rcases hret with h | h <;> rw [h]
      · exact hd.1.1
      · exact fun h => hd.2.1.2.2.1 h.symm
    have hKE : ret ≠ K.KEYEMPTY := by
      rcases hret with h | h <;> rw [h]
      · exact hd.1.2.1
      · exact fun h => hd.2.2.1.2.1 h.symm
    have := cursor_DeadlockLoop_returns K cur dbc hdbc (some dbtKey.dbt)
      (some (CursorImpl.Get.dbtBuffer K holder offset)) (position ||| flags : Nat)
      CursorImpl.get_core t ret size keySize (by simpa [CursorImpl.get_core] using hres) hne
    simp [CursorImpl.Get, hk, hv, this, CursorImpl.Get.lengths, hNF, hKE, hret, afterCall,
      Dbt.set_size]

/-- C20 on a cursor whose engine reports a matched key of 3 bytes and a value of 5 bytes, with a
writable key buffer of 4 bytes: at a position other than `Set` the key length returned is 3, at
`Set` it is 0. -/
theorem C20_cursor_Get_key_buffer_witness :
    CursorImpl.Get K0 ⟨none, some (scriptedDbc fun _ => .returns 0 5 3)⟩ (writableBuffer 4)
        (writableBuffer 8) (-1) 1 0 []
      = (.ok ⟨3, 5⟩, [.call none (some { size := 4, ulen := 4, flags := 256 })
          (some { size := 8, ulen := 8, flags := 256 }) 1]) ∧
    CursorImpl.Get K0 ⟨none, some (scriptedDbc fun _ => .returns 0 5 3)⟩ (writableBuffer 4)
        (writableBuffer 8) (-1) 26 0 []
      = (.ok ⟨0, 5⟩, [.call none (some { size := 4 })
          (some { size := 8, ulen := 8, flags := 256 }) 26]) :=
  ⟨(C20_cursor_Get_key_buffer K0 ⟨none, some (scriptedDbc fun _ => .returns 0 5 3)⟩
      (scriptedDbc fun _ => .returns 0 5 3) rfl (writableBuffer 4) (writableBuffer 8) (-1) 1 0
      []).2.2 ⟨{ size := 4, ulen := 4, flags := 256 }, true⟩
      ⟨{ size := 8, ulen := 8, flags := 256 }, true⟩ 0 5 3 (by decide) (by decide) (by decide)
      (Or.inl (by decide)),
    (C20_cursor_Get_key_buffer K0 ⟨none, some (scriptedDbc fun _ => .returns 0 5 3)⟩
      (scriptedDbc fun _ => .returns 0 5 3) rfl (writableBuffer 4) (writableBuffer 8) (-1) 26 0
      []).2.2 ⟨{ size := 4 }, true⟩
      ⟨{ size := 8, ulen := 8, flags := 256 }, true⟩ 0 5 3 (by decide) (by decide) (by decide)
      (Or.inl (by decide))⟩

/-! ## C14: the code and the message of the error raised -/

/-- C14. (1) For every result code `r` outside the domain outcomes of the operation, the error
raised by `SwitchStd`, `SwitchMemStd` and the `switch` of `Delete` and `Exists` is a
`BdbException` with code `r`, whatever the message. (2) The code the factory sets is the explicit
return code when that is not 0; otherwise the errno of the native exception when that is an
engine exception (`DbException` or one of its subclasses); otherwise 0. (3) The message is
`message: native text` when a native exception and a non-empty message are both given, the
native text alone when the message is null or empty, and the message alone without a native
exception. -/
theorem C14_error_code_and_message (K : Constants) (db : DatabaseImpl)
    (c : TransactionContext) (t : Trace) (r size : Int) (key : DataBuffer) (flags : Int)
    (dbtKey : DbtHolder) (hkey : DbtHolder.initialize_for_read {} key = .ok dbtKey)
    (returnCode errno : Int) (hrc : returnCode ≠ 0) (cex : Option NativeError)
    (dbex : Option (Int × String)) (ex : NativeError) (hex : ex.ex.get_errno = some errno)
    (message : Option String) (m what : String) (hm : m ≠ "") :
    -- (1)
    (r ≠ K.SUCCESS → db.SwitchStd K c r t = (.error (.BdbException r), c, t)) ∧
    (r ≠ K.SUCCESS → r ≠ K.BUFFER_SMALL → r ≠ K.NOTFOUND → r ≠ K.KEYEMPTY →
      db.SwitchMemStd K c r size t = (.error (.BdbException r), c, t)) ∧
    (r ≠ K.SUCCESS → r ≠ K.NOTFOUND → r ≠ K.KEYEMPTY → ∀ c1 t1,
      (db.TryStd K .Delete c (some dbtKey.dbt) none flags del_core t = (.ok r, c1, t1) →
        DatabaseImpl.Delete.body K db key flags c t = (.error (.BdbException r), c1, t1)) ∧
      (db.TryStd K .Exists c (some dbtKey.dbt) none flags exists_core t = (.ok r, c1, t1) →
        DatabaseImpl.Exists.body K db key flags c t = (.error (.BdbException r), c1, t1))) ∧
    BdbExceptionFactory.Create r = .BdbException (BdbExceptionFactory.Create.int r message).Code ∧
    -- (2)
    ((BdbExceptionFactory.Create.int_exception returnCode cex message).Code = returnCode ∧
      (BdbExceptionFactory.Create.int_DbException returnCode dbex message).Code = returnCode ∧
      (BdbExceptionFactory.Create.int returnCode message).Code = returnCode) ∧
    ((BdbExceptionFactory.Create.int_exception 0 (some ex) message).Code = errno ∧
      (BdbExceptionFactory.Create.exception (some ex) message).Code = errno ∧
      (BdbExceptionFactory.Create.int_DbException 0 (some (errno, what)) message).Code = errno ∧
      (BdbExceptionFactory.Create.DbException (some (errno, what)) message).Code = errno) ∧
    ((BdbExceptionFactory.Create.int_exception 0 (some ⟨.exception, what⟩) message).Code = 0 ∧
      (BdbExceptionFactory.Create.exception (some ⟨.exception, what⟩) message).Code = 0 ∧
      (BdbExceptionFactory.Create.int_exception 0 none message).Code = 0 ∧
      (BdbExceptionFactory.Create.int_DbException 0 none message).Code = 0 ∧
      (BdbExceptionFactory.Create.int 0 message).Code = 0 ∧
      (BdbExceptionFactory.Create.exception none message).Code = 0 ∧
      (BdbExceptionFactory.Create.DbException none message).Code = 0) ∧
    -- (3)
    (BdbExceptionFactory.CombineMessages (some what) (some m) = some (m ++ ": " ++ what) ∧
      (BdbExceptionFactory.Create.int_exception r (some ⟨ex.ex, what⟩) (some m)).Message
        = some (m ++ ": " ++ what) ∧
      (BdbExceptionFactory.Create.int_DbException r (some (errno, what)) (some m)).Message
        = some (m ++ ": " ++ what) ∧
      (BdbExceptionFactory.Create.exception (some ⟨ex.ex, what⟩) (some m)).Message
        = some (m ++ ": " ++ what) ∧
      (BdbExceptionFactory.Create.DbException (some (errno, what)) (some m)).Message
        = some (m ++ ": " ++ what)) ∧
    (BdbExceptionFactory.CombineMessages (some what) none = some what ∧
      BdbExceptionFactory.CombineMessages (some what) (some "") = some what ∧
      BdbExceptionFactory.CombineMessages none message = message ∧
      (BdbExceptionFactory.Create.int r message).Message = message) := by
  refine ⟨?_, ?_, ?_, ?_, ?_, ?_, ?_, ?_, ?_⟩
  · intro h
    simp [DatabaseImpl.SwitchStd, h, Create_eq]
  · intro h1 h2 h3 h4
    simp [DatabaseImpl.SwitchMemStd, h1, h2, h3, h4, Create_eq]
  · intro h1 h2 h3 c1 t1
    constructor
    · intro h
      simp [DatabaseImpl.Delete.body, hkey, h, h1, h2, h3, Create_eq]
    · intro h
      simp [DatabaseImpl.Exists.body, hkey, h, h1, h2, h3, Create_eq]
  · rw [Create_eq]
    simp only [BdbExceptionFactory.Create.int, BdbExceptionFactory.SetCode]
    by_cases h : r = 0 <;> simp [h]
  · simp [BdbExceptionFactory.Create.int_exception, BdbExceptionFactory.Create.int_DbException,
      BdbExceptionFactory.Create.int, BdbExceptionFactory.SetCode, hrc]
  · simp [BdbExceptionFactory.Create.int_exception, BdbExceptionFactory.Create.int_DbException,
      BdbExceptionFactory.Create.exception, BdbExceptionFactory.Create.DbException,
      BdbExceptionFactory.SetCode, hex]
  · simp [BdbExceptionFactory.Create.int_exception, BdbExceptionFactory.Create.int_DbException,
      BdbExceptionFactory.Create.exception, BdbExceptionFactory.Create.DbException,
      BdbExceptionFactory.Create.int, BdbExceptionFactory.SetCode, NativeExn.get_errno]
  · simp [BdbExceptionFactory.Create.int_exception, BdbExceptionFactory.Create.int_DbException,
      BdbExceptionFactory.Create.exception, BdbExceptionFactory.Create.DbException,
      BdbExceptionFactory.CombineMessages, hm]
  · simp [BdbExceptionFactory.CombineMessages, BdbExceptionFactory.Create.int]

/-- C14 at the result code 22 on a store whose record calls return 22, and at the native text
`Cannot allocate memory` with the message `Put`. -/
theorem C14_error_code_and_message_witness :
    (scriptedStore 3 fun _ => .returns 22 0 0).SwitchStd K0 {} 22 []
      = (.error (.BdbException 22), {}, []) ∧
    BdbExceptionFactory.CombineMessages (some "Cannot allocate memory") (some "Put")
      = some ("Put" ++ ": " ++ "Cannot allocate memory") ∧
    (BdbExceptionFactory.Create.exception (some ⟨.DbException 12, "Cannot allocate memory"⟩)
      (some "Put")).Code = 12 :=
  ⟨(C14_error_code_and_message K0 (scriptedStore 3 fun _ => .returns 22 0 0) {} [] 22 0 keyInt32
      0 ⟨{ size := 4 }, true⟩ (by decide) 22 12 (by decide) none none
      ⟨.DbException 12, "Cannot allocate memory"⟩ rfl (some "Put") "Put"
      "Cannot allocate memory" (by decide)).1 (by decide),
    (C14_error_code_and_message K0 (scriptedStore 3 fun _ => .returns 22 0 0) {} [] 22 0 keyInt32
      0 ⟨{ size := 4 }, true⟩ (by decide) 22 12 (by decide) none none
      ⟨.DbException 12, "Cannot allocate memory"⟩ rfl (some "Put") "Put"
      "Cannot allocate memory" (by decide)).2.2.2.2.2.2.2.1.1,
    (C14_error_code_and_message K0 (scriptedStore 3 fun _ => .returns 22 0 0) {} [] 22 0 keyInt32
      0 ⟨{ size := 4 }, true⟩ (by decide) 22 12 (by decide) none none
      ⟨.DbException 12, "Cannot allocate memory"⟩ rfl (some "Put") "Put"
      "Cannot allocate memory" (by decide)).2.2.2.2.2.1.2.1⟩

/-! ## C16: the teardown of a transaction scope -/

/-- C16, the code as it is. On a per-call transactional store, the teardown of a scope that is
still begun with the transaction `h` runs the rollback: the native abort of `h` is called. When
the abort succeeds, the result `r` of the operation is left as it was. When the abort throws
`e`, the teardown has no handler for it: `e` leaves the operation in place of a normal result,
and on top of the exception already passing through otherwise. A scope that is not begun is torn
down without any call. -/
theorem C16_teardown_rollback_failure_propagates (db : DatabaseImpl)
    (hmode : db.m_pTrMode = .PerCall) (h : Nat) (txn : Option Nat) (t : Trace) (v : Int)
    (e1 : Exn) (r : Except Exn Int) :
    (db.txn_abort h = none →
      TransactionContext.destroy db r ⟨true, some h⟩ t
        = (r, ⟨false, none⟩, t ++ [.scope_rollback, .abort h])) ∧
    (∀ e, db.txn_abort h = some e →
      TransactionContext.destroy db (.ok v : Except Exn Int) ⟨true, some h⟩ t
        = (.error (.native e), ⟨false, some h⟩, t ++ [.scope_rollback, .abort h]) ∧
      TransactionContext.destroy db (.error e1 : Except Exn Int) ⟨true, some h⟩ t
        = (.error (.duringUnwind e1 (.native e)), ⟨false, some h⟩,
            t ++ [.scope_rollback, .abort h])) ∧
    TransactionContext.destroy db r ⟨false, txn⟩ t = (r, ⟨false, txn⟩, t) := by
  refine ⟨?_, ?_, ?_⟩
  · intro ha
    simp [TransactionContext.destroy, TransactionContext.rollback, DatabaseImpl.RollbackTrans,
      hmode, ha]
  · intro e ha
    simp [TransactionContext.destroy, TransactionContext.rollback, DatabaseImpl.RollbackTrans,
      hmode, ha]
  · simp [TransactionContext.destroy, TransactionContext.rollback]

/-- C16 on `Get`: the record call returns the error code 22, so `SwitchMemStd` throws with the
scope begun, and the abort the teardown calls throws a `DbException` with errno 5. The abort's
exception leaves `Get` together with the error of the operation. -/
theorem C16_teardown_rollback_failure_propagates_witness :
    TransactionContext.destroy
        (abortFailingStore 3 (fun _ => .returns 22 0 0) (.DbException 5))
        (.error (.BdbException 22) : Except Exn Int) ⟨true, some 0⟩ []
      = (.error (.duringUnwind (.BdbException 22) (.native (.DbException 5))), ⟨false, some 0⟩,
          [.scope_rollback, .abort 0]) ∧
    (DatabaseImpl.Get K0 (abortFailingStore 3 (fun _ => .returns 22 0 0) (.DbException 5))
        keyInt32 (-1) (writableBuffer 8) 0 []).1
      = .error (.duringUnwind (.BdbException 22) (.native (.DbException 5))) :=
  ⟨((C16_teardown_rollback_failure_propagates
      (abortFailingStore 3 (fun _ => .returns 22 0 0) (.DbException 5)) rfl 0 none [] 0
      (.BdbException 22) (.ok 0)).2.1 (.DbException 5) rfl).2, by decide⟩

/-! ## C17: the key checks -/

/-- C17 as stated fails. The facade's `Get` with an empty key descriptor makes the record call,
with a key slot of size 0, and returns the size 5 the engine reports; the read-modify-write
`Put` with a null key array makes its engine calls, with a key slot of 4 bytes, and returns. -/
theorem C17_counterexample :
    DatabaseImpl.Get K0 (scriptedStore 3 fun _ => .returns 0 5 0) { type := .Empty } (-1)
        (writableBuffer 8) 0 []
      = (.ok 5, ⟨false, none⟩,
          [.txn_begin 0, .scope_begin,
            .call (some 0) (some { size := 0 }) (some { size := 8, ulen := 8, flags := 256 }) 0,
            .commit 0, .scope_commit]) ∧
    DatabaseImpl.PutRMW K0 (scriptedStore 3 fun _ => .returns 0 0 0)
        (scriptedRmw (fun _ => .returns 0) fun _ => .returns 0) none
        { Buffer := some 8, Length := 8 } id 1 []
      = (.ok (), { Buffer := some 8, Length := 8 },
          [.txn_begin 0, .op (.cursor (some 0) false),
            .op (.cursor_get_SET_RMW { size := 4 }
              { size := 8, ulen := 8, dlen := 8, flags := 320 }),
            .op .cursor_put_CURRENT, .op .cursor_close, .commit 0]) := by
  decide

/-- C17, amended. The record operations that take their key as a managed string, byte array or
`DatabaseEntry` (`Put`, `Get` and `Delete` in these overloads) reject a null key with the code
`KEYNULL` and a key of length 0 with the code `KEYZEROLENGTH`, whatever the store and the
engine: the error is raised with the trace as it was, so before any engine call and without a
transaction begun or retried. A `DatabaseEntry` key is null when the entry or its buffer is. The
read-modify-write `Put` rejects a key array of length 0 in the same way, and takes a null key
array as the 4-byte key made of its `objectId`. The key setup of the `DataBuffer` facade has no
such check: an empty key descriptor gives a key slot of size 0. -/
theorem C17_key_checks (K : Constants) (db : DatabaseImpl) (eng : RmwEngine) (t : Trace)
    (value : Int) (bytes : Option Int) (entry : DatabaseEntry)
    (rmwDelegate : DatabaseEntry → DatabaseEntry) (fuel : Nat) (start length : Int) :
    (db.PutString K none value t = (.error (.BdbException K.KEYNULL), t) ∧
      db.PutBytes K none bytes t = (.error (.BdbException K.KEYNULL), t) ∧
      db.PutBytesEntry K none entry t = (.error (.BdbException K.KEYNULL), t) ∧
      db.PutEntry K none entry t = (.error (.BdbException K.KEYNULL), t) ∧
      db.PutEntry K (some ⟨none, start, length⟩) entry t = (.error (.BdbException K.KEYNULL), t) ∧
      db.GetString K none t = (.error (.BdbException K.KEYNULL), t) ∧
      db.GetEntry K none entry t = (.error (.BdbException K.KEYNULL), t) ∧
      db.GetEntry K (some ⟨none, start, length⟩) entry t = (.error (.BdbException K.KEYNULL), t) ∧
      db.GetBytesEntry K none entry t = (.error (.BdbException K.KEYNULL), t) ∧
      db.DeleteBytes K none t = (.error (.BdbException K.KEYNULL), t) ∧
      db.DeleteString K none t = (.error (.BdbException K.KEYNULL), t) ∧
      db.DeleteEntry K none t = (.error (.BdbException K.KEYNULL), t) ∧
      db.DeleteEntry K (some ⟨none, start, length⟩) t = (.error (.BdbException K.KEYNULL), t)) ∧
    (db.PutString K (some 0) value t = (.error (.BdbException K.KEYZEROLENGTH), t) ∧
      db.PutBytes K (some 0) bytes t = (.error (.BdbException K.KEYZEROLENGTH), t) ∧
      db.PutBytesEntry K (some 0) entry t = (.error (.BdbException K.KEYZEROLENGTH), t) ∧
      db.PutEntry K (some ⟨some 0, start, length⟩) entry t
        = (.error (.BdbException K.KEYZEROLENGTH), t) ∧
      db.GetString K (some 0) t = (.error (.BdbException K.KEYZEROLENGTH), t) ∧
      db.GetEntry K (some ⟨some 0, start, length⟩) entry t
        = (.error (.BdbException K.KEYZEROLENGTH), t) ∧
      db.GetBytesEntry K (some 0) entry t = (.error (.BdbException K.KEYZEROLENGTH), t) ∧
      db.DeleteBytes K (some 0) t = (.error (.BdbException K.KEYZEROLENGTH), t) ∧
      db.DeleteString K (some 0) t = (.error (.BdbException K.KEYZEROLENGTH), t) ∧
      db.DeleteEntry K (some ⟨some 0, start, length⟩) t
        = (.error (.BdbException K.KEYZEROLENGTH), t)) ∧
    (db.PutRMW K eng (some 0) entry rmwDelegate fuel t
        = (.error (.BdbException K.KEYZEROLENGTH), entry, t) ∧
      DatabaseImpl.PutRMW.dbtKey none = { size := 4 } ∧
      db.PutRMW K eng none entry rmwDelegate fuel t
        = db.PutRMW K eng (some 4) entry rmwDelegate fuel t) ∧
    DbtHolder.initialize_for_read {} { type := .Empty, length := length }
      = .ok ⟨{ size := 0 }, true⟩ := by
  refine ⟨?_, ?_, ?_, ?_⟩
  · simp [DatabaseImpl.PutString, DatabaseImpl.PutBytes, DatabaseImpl.PutBytesEntry,
      DatabaseImpl.PutEntry, DatabaseImpl.GetString, DatabaseImpl.GetEntry,
      DatabaseImpl.GetBytesEntry, DatabaseImpl.DeleteBytes, DatabaseImpl.DeleteString,
      DatabaseImpl.DeleteEntry, CheckForNullOrEmptyKey, CheckForNullKey, Create_eq]
  · simp [DatabaseImpl.PutString, DatabaseImpl.PutBytes, DatabaseImpl.PutBytesEntry,
      DatabaseImpl.PutEntry, DatabaseImpl.GetString, DatabaseImpl.GetEntry,
      DatabaseImpl.GetBytesEntry, DatabaseImpl.DeleteBytes, DatabaseImpl.DeleteString,
      DatabaseImpl.DeleteEntry, CheckForNullOrEmptyKey, CheckForNullKey, CheckForEmptyKey,
      Create_eq]
  · simp [DatabaseImpl.PutRMW, CheckForEmptyKey, Create_eq, DatabaseImpl.PutRMW.dbtKey]
  · simp [DbtHolder.initialize_for_read, DataBuffer.IsObject, Dbt.set_size]

/-! ## The native transaction calls when they succeed -/

@[simp] theorem visible_nil : visible [] = [] := rfl

@[simp] theorem visible_append (t u : Trace) : visible (t ++ u) = visible t ++ visible u := by
  simp [visible]

@[simp] theorem visible_cons (e : Event) (t : Trace) :
    visible (e :: t) = (if e.isTxnCall then [] else [e]) ++ visible t := by
  cases h : e.isTxnCall <;> simp [visible, List.filter_cons, h]

@[simp] theorem aborts_nil : aborts [] = 0 := rfl

@[simp] theorem aborts_append (t u : Trace) : aborts (t ++ u) = aborts t + aborts u := by
  simp [aborts]

@[simp] theorem aborts_cons (e : Event) (t : Trace) :
    aborts (e :: t) = (if e.isAbort then 1 else 0) + aborts t := by
  simp [aborts, List.countP_cons, Nat.add_comm]

/-- When the transaction calls succeed, `BeginTrans` returns a handle (or `NULL` on a store
without transactions) and adds native transaction calls only, none of them a commit or an
abort. -/
theorem BeginTrans_ok (db : DatabaseImpl) (hdb : db.TxnCallsSucceed) (t : Trace) :
    ∃ txn u, db.BeginTrans t = (.ok txn, t ++ u) ∧ visible u = [] ∧ commits u = 0 ∧
      aborts u = 0 ∧
      (db.m_pTrMode = .PerCall → db.m_isTxn = true →
        txn = some (begins t) ∧ u = [.txn_begin (begins t)]) := by
  obtain ⟨hm, hb, -⟩ := hdb
  cases hmode : db.m_pTrMode
  · exact ⟨none, [], by simp [DatabaseImpl.BeginTrans, hmode], rfl, rfl, rfl, by simp⟩
  · cases htx : db.m_isTxn
    · exact ⟨none, [], by simp [DatabaseImpl.BeginTrans, hmode, htx], rfl, rfl, rfl, by simp⟩
    · exact ⟨some (begins t), [.txn_begin (begins t)],
        by simp [DatabaseImpl.BeginTrans, hmode, htx, hb], rfl, rfl, rfl, by simp⟩
  · exact absurd hmode hm

/-- When the transaction calls succeed, `CommitTrans` returns and adds native transaction calls
only, none of them an abort: one commit for a handle on a per-call store. -/
theorem CommitTrans_ok (db : DatabaseImpl) (hdb : db.TxnOk) (txn : Option Nat) (t : Trace) :
    ∃ u, db.CommitTrans txn t = (.ok (), t ++ u) ∧ visible u = [] ∧ aborts u = 0 ∧
      (db.m_pTrMode = .PerCall → ∀ h, txn = some h → u = [.commit h]) := by
  obtain ⟨⟨hm, -, -⟩, hc⟩ := hdb
  cases txn with
  | none => exact ⟨[], by simp [DatabaseImpl.CommitTrans], rfl, rfl, by simp⟩
  | some h =>
    cases hmode : db.m_pTrMode
    · exact ⟨[], by simp [DatabaseImpl.CommitTrans, hmode], rfl, rfl, by simp⟩
    · exact ⟨[.commit h], by simp [DatabaseImpl.CommitTrans, hmode, hc], rfl, rfl, by simp⟩
    · exact absurd hmode hm

/-- When the transaction calls succeed, `RollbackTrans` returns and adds native transaction
calls only, none of them a commit: one abort for a handle on a per-call store. -/
theorem RollbackTrans_ok (db : DatabaseImpl) (hdb : db.TxnCallsSucceed) (txn : Option Nat)
    (t : Trace) :
    ∃ u, db.RollbackTrans txn t = (.ok (), t ++ u) ∧ visible u = [] ∧ commits u = 0 ∧
      (db.m_pTrMode = .PerCall → ∀ h, txn = some h → u = [.abort h]) := by
  obtain ⟨hm, -, ha⟩ := hdb
  cases txn with
  | none => exact ⟨[], by simp [DatabaseImpl.RollbackTrans], rfl, rfl, by simp⟩
  | some h =>
    cases hmode : db.m_pTrMode
    · exact ⟨[], by simp [DatabaseImpl.RollbackTrans, hmode], rfl, rfl, by simp⟩
    · exact ⟨[.abort h], by simp [DatabaseImpl.RollbackTrans, hmode, ha], rfl, rfl, by simp⟩
    · exact absurd hmode hm

/-! ## C18 and C19: the read-modify-write `Put` -/

/-- One pass of the loop in which the cursor opens, the cursor read returns `g` (`SUCCESS`,
`NOTFOUND` or `KEYEMPTY`) and the write leaves `SUCCESS` with the cursor open: the cursor is
closed, the transaction committed, and the operation returns. -/
theorem PutRMW_pass_returns (K : Constants) (db : DatabaseImpl) (eng : RmwEngine)
    (rmwDelegate : DatabaseEntry → DatabaseEntry) (dbtKey dbtGetValue : Dbt) (fuel n : Nat)
    (s : RmwState) (hdb : db.TxnOk) (hN : s.retry_count < db.m_maxDeadlockRetries)
    (g : Int) (hg : g = K.NOTFOUND ∨ g = K.KEYEMPTY ∨ g = K.SUCCESS)
    (hcur : eng.cursor n = .returns K.SUCCESS) (hget : eng.get n = .returns g)
    (hclose : eng.close n = .returns K.SUCCESS) (entry : DatabaseEntry)
    (hentry : entry
      = rmwDelegate (if g = K.SUCCESS then s.dbEntry else s.dbEntry.setLength 0))
    (w : Option Nat → Trace)
    (hw : ∀ txn t1, DatabaseImpl.PutRMW.write K db eng dbtKey n
        ⟨g, txn, s.retry_count, true, entry, t1⟩
      = (.ok (), ⟨K.SUCCESS, txn, s.retry_count, true, entry, t1 ++ w txn⟩)) :
    ∃ txn u s1, DatabaseImpl.PutRMW.loop K db eng rmwDelegate dbtKey dbtGetValue (fuel + 1) n s
        = (.ok (), s1) ∧
      s1.dbEntry = entry ∧ s1.t = s.t ++ u ∧
      visible u = [.op (.cursor txn db.m_isCDB), .op (.cursor_get_SET_RMW dbtKey dbtGetValue)]
        ++ visible (w txn) ++ [.op .cursor_close] ∧
      aborts u = aborts (w txn) := by
  obtain ⟨txn, ub, hb, hvb, -, hab, -⟩ := BeginTrans_ok db hdb.1 s.t
  obtain ⟨uc, hc, hvc, hac, -⟩ := CommitTrans_ok db hdb txn
    (s.t ++ ub ++ [.op (.cursor txn db.m_isCDB)] ++
      [.op (.cursor_get_SET_RMW dbtKey dbtGetValue)] ++ w txn ++ [.op .cursor_close])
  refine ⟨txn, ub ++ [.op (.cursor txn db.m_isCDB)] ++
      [.op (.cursor_get_SET_RMW dbtKey dbtGetValue)] ++ w txn ++ [.op .cursor_close] ++ uc,
    ⟨K.SUCCESS, txn, s.retry_count, false, entry,
      s.t ++ (ub ++ [.op (.cursor txn db.m_isCDB)] ++
        [.op (.cursor_get_SET_RMW dbtKey dbtGetValue)] ++ w txn ++ [.op .cursor_close] ++ uc)⟩,
    ?_, ?_, ?_, ?_, ?_⟩
  · rw [DatabaseImpl.PutRMW.loop]
    simp only [hN, if_true, DatabaseImpl.PutRMW.attempt, hb, hcur, hget, hg, ne_eq,
      not_true_eq_false, if_false, ← hentry, hw, DatabaseImpl.PutRMW.closeAndCommit, hclose,
      List.append_assoc] at hc ⊢
    simp only [hc, DatabaseImpl.PutRMW.catchClauses, DatabaseImpl.PutRMW.finallyClose]
    simp
  · rfl
  · simp
  · simp [hvb, hvc, Event.isTxnCall, Event.isBegin, Event.isCommit, Event.isAbort]
  · simp [hab, hac, Event.isAbort]

theorem codes_distinct (K : Constants) :
    K.SUCCESS ≠ K.NOTFOUND ∧ K.SUCCESS ≠ K.KEYEMPTY ∧ K.SUCCESS ≠ K.KEYEXIST ∧
      K.SUCCESS ≠ K.BUFFER_SMALL ∧ K.SUCCESS ≠ K.LOCK_DEADLOCK ∧ K.NOTFOUND ≠ K.KEYEMPTY := by
  have hd := K.distinct
  simp only [List.nodup_cons, List.mem_cons, List.mem_singleton, not_or, List.not_mem_nil,
    not_false_eq_true, List.nodup_nil, and_true] at hd
  exact ⟨hd.1.1, hd.1.2.1, hd.1.2.2.1, hd.1.2.2.2.1, hd.1.2.2.2.2, hd.2.1.1⟩

/-- C18. The read-modify-write `Put` on a store whose transaction calls succeed, with a retry
limit of at least 1 and a key that is not of length 0, when the cursor opens and closes with
`SUCCESS`. The caller's entry has a buffer that is a non-empty array, and so has the entry the
transform leaves when its length is `> 0`: the addresses `&valueBuffer[0]` and `&value[0]` can
be taken. `L` is the length of the entry after the transform, which is given the caller's
entry when the cursor read found a record, and that entry with length 0 when it did not
(`NOTFOUND` or `KEYEMPTY`).
Found and `L > 0`: the current cursor record is overwritten (`DB_CURRENT`).
Found and `L = 0`: the current cursor record is deleted.
Not found and `L > 0`: a new record is inserted, with the exclusive-insert flag
`DB_NOOVERWRITE` through the store when it is not CDB, with `DB_KEYFIRST` through the cursor
when it is.
Not found and `L = 0`: no write call is made.
In each case, when the write returns `SUCCESS`, the operation returns with the entry the
transform left, and the engine calls are the cursor open, the cursor read, that write, and the
cursor close, with no abort.
When the caller's entry has no buffer, or an empty one, the operation throws before any engine
call. -/
theorem C18_RMW_write_by_length (K : Constants) (db : DatabaseImpl) (eng : RmwEngine)
    (key : Option Int) (dbEntry : DatabaseEntry) (rmwDelegate : DatabaseEntry → DatabaseEntry)
    (fuel : Nat) (t : Trace) (hdb : db.TxnOk) (hN : 0 < db.m_maxDeadlockRetries)
    (hkey : key ≠ some 0) (hcur : eng.cursor 0 = .returns K.SUCCESS)
    (hclose : eng.close 0 = .returns K.SUCCESS) :
    (addressOfFirst dbEntry.Buffer = .ok () → eng.get 0 = .returns K.SUCCESS →
      (0 < (rmwDelegate dbEntry).Length →
        addressOfFirst (rmwDelegate dbEntry).Buffer = .ok () →
        eng.put_CURRENT 0 = .returns K.SUCCESS →
        ∃ txn u, db.PutRMW K eng key dbEntry rmwDelegate (fuel + 1) t
            = (.ok (), rmwDelegate dbEntry, t ++ u) ∧
          visible u = [.op (.cursor txn db.m_isCDB),
            .op (.cursor_get_SET_RMW (DatabaseImpl.PutRMW.dbtKey key)
              (DatabaseImpl.PutRMW.dbtGetValue K dbEntry)),
            .op .cursor_put_CURRENT, .op .cursor_close] ∧
          aborts u = 0) ∧
      ((rmwDelegate dbEntry).Length = 0 → eng.del 0 = .returns K.SUCCESS →
        ∃ txn u, db.PutRMW K eng key dbEntry rmwDelegate (fuel + 1) t
            = (.ok (), rmwDelegate dbEntry, t ++ u) ∧
          visible u = [.op (.cursor txn db.m_isCDB),
            .op (.cursor_get_SET_RMW (DatabaseImpl.PutRMW.dbtKey key)
              (DatabaseImpl.PutRMW.dbtGetValue K dbEntry)),
            .op .cursor_del, .op .cursor_close] ∧
          aborts u = 0)) ∧
    (∀ g, addressOfFirst dbEntry.Buffer = .ok () → g = K.NOTFOUND ∨ g = K.KEYEMPTY →
      eng.get 0 = .returns g →
      (0 < (rmwDelegate (dbEntry.setLength 0)).Length →
        addressOfFirst (rmwDelegate (dbEntry.setLength 0)).Buffer = .ok () →
        db.m_isCDB = false → eng.put_NOOVERWRITE 0 = .returns K.SUCCESS →
        ∃ txn u, db.PutRMW K eng key dbEntry rmwDelegate (fuel + 1) t
            = (.ok (), rmwDelegate (dbEntry.setLength 0), t ++ u) ∧
          visible u = [.op (.cursor txn false),
            .op (.cursor_get_SET_RMW (DatabaseImpl.PutRMW.dbtKey key)
              (DatabaseImpl.PutRMW.dbtGetValue K dbEntry)),
            .op (.put_NOOVERWRITE txn (DatabaseImpl.PutRMW.dbtKey key)), .op .cursor_close] ∧
          aborts u = 0) ∧
      (0 < (rmwDelegate (dbEntry.setLength 0)).Length →
        addressOfFirst (rmwDelegate (dbEntry.setLength 0)).Buffer = .ok () →
        db.m_isCDB = true → eng.put_KEYFIRST 0 = .returns K.SUCCESS →
        ∃ txn u, db.PutRMW K eng key dbEntry rmwDelegate (fuel + 1) t
            = (.ok (), rmwDelegate (dbEntry.setLength 0), t ++ u) ∧
          visible u = [.op (.cursor txn true),
            .op (.cursor_get_SET_RMW (DatabaseImpl.PutRMW.dbtKey key)
              (DatabaseImpl.PutRMW.dbtGetValue K dbEntry)),
            .op (.cursor_put_KEYFIRST (DatabaseImpl.PutRMW.dbtKey key)), .op .cursor_close] ∧
          aborts u = 0) ∧
      ((rmwDelegate (dbEntry.setLength 0)).Length = 0 →
        ∃ txn u, db.PutRMW K eng key dbEntry rmwDelegate (fuel + 1) t
            = (.ok (), rmwDelegate (dbEntry.setLength 0), t ++ u) ∧
          visible u = [.op (.cursor txn db.m_isCDB),
            .op (.cursor_get_SET_RMW (DatabaseImpl.PutRMW.dbtKey key)
              (DatabaseImpl.PutRMW.dbtGetValue K dbEntry)),
            .op .cursor_close] ∧
          aborts u = 0)) ∧
    (dbEntry.Buffer = none →
      db.PutRMW K eng key dbEntry rmwDelegate fuel t
        = (.error .NullReferenceException, dbEntry, t)) ∧
    (dbEntry.Buffer = some 0 →
      db.PutRMW K eng key dbEntry rmwDelegate fuel t
        = (.error .IndexOutOfRangeException, dbEntry, t)) := by
  obtain ⟨h1, h2, h3, -, -, -⟩ := codes_distinct K
  have hcheck : (match key with
      | some length => CheckForEmptyKey K length
      | none => .ok ()) = .ok () := by
    cases key with
    | none => rfl
    | some l =>
      have : l ≠ 0 := fun h => hkey (by rw [h])
      simp [CheckForEmptyKey, this]
  -- the whole operation, from one pass of the loop
  have hop : ∀ (g : Int) (entry : DatabaseEntry) (w : Option Nat → Trace),
      addressOfFirst dbEntry.Buffer = .ok () →
      (g = K.NOTFOUND ∨ g = K.KEYEMPTY ∨ g = K.SUCCESS) → eng.get 0 = .returns g →
      entry = rmwDelegate (if g = K.SUCCESS then dbEntry else dbEntry.setLength 0) →
      (∀ txn t1, DatabaseImpl.PutRMW.write K db eng (DatabaseImpl.PutRMW.dbtKey key) 0
          ⟨g, txn, 0, true, entry, t1⟩
        = (.ok (), ⟨K.SUCCESS, txn, 0, true, entry, t1 ++ w txn⟩)) →
      ∃ txn u, db.PutRMW K eng key dbEntry rmwDelegate (fuel + 1) t = (.ok (), entry, t ++ u) ∧
        visible u = [.op (.cursor txn db.m_isCDB),
          .op (.cursor_get_SET_RMW (DatabaseImpl.PutRMW.dbtKey key)
            (DatabaseImpl.PutRMW.dbtGetValue K dbEntry))] ++ visible (w txn) ++
            [.op .cursor_close] ∧
        aborts u = aborts (w txn) := by
    intro g entry w hbuf hg hget hentry hw
    obtain ⟨txn, u, s1, hl, he, ht, hv, ha⟩ := PutRMW_pass_returns K db eng rmwDelegate
      (DatabaseImpl.PutRMW.dbtKey key) (DatabaseImpl.PutRMW.dbtGetValue K dbEntry) fuel 0
      ⟨0, none, 0, false, dbEntry, t⟩ hdb hN g hg hcur hget hclose entry hentry w hw
    refine ⟨txn, u, ?_, hv, ha⟩
    simp only [DatabaseImpl.PutRMW, hcheck, hbuf, hl]
    rw [he, ht]
  refine ⟨fun hbuf hget => ⟨fun hL hb hput => ?_, fun hL hdel => ?_⟩,
    fun g hbuf hg hget => ⟨fun hL hb hcdb hput => ?_, fun hL hb hcdb hput => ?_, fun hL => ?_⟩,
    fun hnone => by simp [DatabaseImpl.PutRMW, hcheck, hnone, addressOfFirst],
    fun hzero => by simp [DatabaseImpl.PutRMW, hcheck, hzero, addressOfFirst]⟩
  · obtain ⟨txn, u, h, hv, ha⟩ := hop K.SUCCESS (rmwDelegate dbEntry)
      (fun _ => [.op .cursor_put_CURRENT]) hbuf
      (Or.inr (Or.inr rfl)) hget (by simp)
      (fun txn t1 => by simp [DatabaseImpl.PutRMW.write, hL, hb, hput])
    exact ⟨txn, u, h, by simpa [Event.isTxnCall, Event.isBegin, Event.isCommit, Event.isAbort]
      using hv, by simpa [Event.isAbort] using ha⟩
  · obtain ⟨txn, u, h, hv, ha⟩ := hop K.SUCCESS (rmwDelegate dbEntry)
      (fun _ => [.op .cursor_del]) hbuf
      (Or.inr (Or.inr rfl)) hget (by simp)
      (fun txn t1 => by simp [DatabaseImpl.PutRMW.write, hL, hdel])
    exact ⟨txn, u, h, by simpa [Event.isTxnCall, Event.isBegin, Event.isCommit, Event.isAbort]
      using hv, by simpa [Event.isAbort] using ha⟩
  all_goals
    have hgS : g ≠ K.SUCCESS := by
      rcases hg with h | h <;> rw [h]
      · exact fun h => h1 h.symm
      · exact fun h => h2 h.symm
    have hg3 : g = K.NOTFOUND ∨ g = K.KEYEMPTY ∨ g = K.SUCCESS := by
      rcases hg with h | h
      · exact Or.inl h
      · exact Or.inr (Or.inl h)
  · obtain ⟨txn, u, h, hv, ha⟩ := hop g (rmwDelegate (dbEntry.setLength 0))
      (fun txn => [.op (.put_NOOVERWRITE txn (DatabaseImpl.PutRMW.dbtKey key))]) hbuf hg3 hget
      (by simp [hgS])
      (fun txn t1 => by simp [DatabaseImpl.PutRMW.write, hL, hb, hgS, hg, hcdb, hput, h3])
    exact ⟨txn, u, h, by simpa [hcdb, Event.isTxnCall, Event.isBegin, Event.isCommit,
      Event.isAbort] using hv, by simpa [Event.isAbort] using ha⟩
  · obtain ⟨txn, u, h, hv, ha⟩ := hop g (rmwDelegate (dbEntry.setLength 0))
      (fun _ => [.op (.cursor_put_KEYFIRST (DatabaseImpl.PutRMW.dbtKey key))]) hbuf hg3 hget
      (by simp [hgS])
      (fun txn t1 => by simp [DatabaseImpl.PutRMW.write, hL, hb, hgS, hg, hcdb, hput])
    exact ⟨txn, u, h, by simpa [hcdb, Event.isTxnCall, Event.isBegin, Event.isCommit,
      Event.isAbort] using hv, by simpa [Event.isAbort] using ha⟩
  · obtain ⟨txn, u, h, hv, ha⟩ := hop g (rmwDelegate (dbEntry.setLength 0))
      (fun _ => []) hbuf hg3 hget (by simp [hgS])
      (fun txn t1 => by simp [DatabaseImpl.PutRMW.write, hL, hgS, hg])
    exact ⟨txn, u, h, by simpa using hv, by simpa using ha⟩

/-- C18 on a transactional store that is not CDB: the cursor read reports `NOTFOUND`, the
transform sets the length to 5, and the record is inserted with `DB_NOOVERWRITE`. -/
theorem C18_RMW_write_by_length_witness :
    (∃ txn u, (scriptedStore 3 fun _ => .returns 0 0 0).PutRMW K0
          (scriptedRmw (fun _ => .returns K0.NOTFOUND) fun _ => .returns 0) (some 4)
          ⟨some 8, 0, 8⟩ (fun e => e.setLength 5) 1 []
        = (.ok (), ⟨some 8, 0, 5⟩, [] ++ u) ∧
      visible u = [.op (.cursor txn false),
        .op (.cursor_get_SET_RMW { size := 4 }
          { size := 8, ulen := 8, dlen := 8, flags := 320 }),
        .op (.put_NOOVERWRITE txn { size := 4 }), .op .cursor_close] ∧
      aborts u = 0) ∧
    (scriptedStore 3 fun _ => .returns 0 0 0).PutRMW K0
        (scriptedRmw (fun _ => .returns K0.NOTFOUND) fun _ => .returns 0) (some 4)
        ⟨some 8, 0, 8⟩ (fun e => e.setLength 5) 1 []
      = (.ok (), ⟨some 8, 0, 5⟩,
          [.txn_begin 0, .op (.cursor (some 0) false),
            .op (.cursor_get_SET_RMW { size := 4 }
              { size := 8, ulen := 8, dlen := 8, flags := 320 }),
            .op (.put_NOOVERWRITE (some 0) { size := 4 }), .op .cursor_close, .commit 0]) :=
  ⟨(((C18_RMW_write_by_length K0 (scriptedStore 3 fun _ => .returns 0 0 0)
      (scriptedRmw (fun _ => .returns K0.NOTFOUND) fun _ => .returns 0) (some 4) ⟨some 8, 0, 8⟩
      (fun e => e.setLength 5) 0 [] ⟨⟨by decide, fun _ => rfl, fun _ => rfl⟩, fun _ => rfl⟩
      (by decide) (by decide) rfl rfl).2.1 K0.NOTFOUND rfl (Or.inl rfl) rfl).1 (by decide) rfl
      rfl rfl),
    by decide⟩

/-- One pass of the loop on a store that is not CDB in which the cursor read finds no record,
the transform leaves an entry of positive length, and the exclusive insert reports that the key
exists: the pass is handled as a deadlock. The transaction is rolled back, "Retrying" is
logged, the cursor is closed, and the loop goes on to its next pass with the retry counter at
the value it had before this pass. -/
theorem PutRMW_pass_lost_race (K : Constants) (db : DatabaseImpl) (eng : RmwEngine)
    (rmwDelegate : DatabaseEntry → DatabaseEntry) (dbtKey dbtGetValue : Dbt) (fuel n : Nat)
    (s : RmwState) (hdb : db.TxnOk) (hN : s.retry_count < db.m_maxDeadlockRetries)
    (hcdb : db.m_isCDB = false)
    (g : Int) (hg : g = K.NOTFOUND ∨ g = K.KEYEMPTY)
    (hcur : eng.cursor n = .returns K.SUCCESS) (hget : eng.get n = .returns g)
    (hL : 0 < (rmwDelegate (s.dbEntry.setLength 0)).Length)
    (hB : addressOfFirst (rmwDelegate (s.dbEntry.setLength 0)).Buffer = .ok ())
    (hput : eng.put_NOOVERWRITE n = .returns K.KEYEXIST)
    (hclose : eng.close n = .returns K.SUCCESS) :
    ∃ txn u, DatabaseImpl.PutRMW.loop K db eng rmwDelegate dbtKey dbtGetValue (fuel + 1) n s
        = DatabaseImpl.PutRMW.loop K db eng rmwDelegate dbtKey dbtGetValue fuel (n + 1)
            ⟨K.SUCCESS, txn, s.retry_count, false, rmwDelegate (s.dbEntry.setLength 0),
              s.t ++ u⟩ ∧
      visible u = [.op (.cursor txn false), .op (.cursor_get_SET_RMW dbtKey dbtGetValue),
        .op (.put_NOOVERWRITE txn dbtKey), .err K.LOCK_DEADLOCK .Retrying, .op .cursor_close] ∧
      commits u = 0 ∧
      (db.m_pTrMode = .PerCall → db.m_isTxn = true → aborts u = 1) := by
  obtain ⟨h1, h2, -, -, -, -⟩ := codes_distinct K
  have hgS : g ≠ K.SUCCESS := by
    rcases hg with h | h <;> rw [h]
    · exact fun h => h1 h.symm
    · exact fun h => h2 h.symm
  have hg3 : g = K.NOTFOUND ∨ g = K.KEYEMPTY ∨ g = K.SUCCESS := by
    rcases hg with h | h
    · exact Or.inl h
    · exact Or.inr (Or.inl h)
  obtain ⟨txn, ub, hb, hvb, hcb, hab, htxn⟩ := BeginTrans_ok db hdb.1 s.t
  obtain ⟨ur, hr, hvr, hcr, har⟩ := RollbackTrans_ok db hdb.1 txn
    (s.t ++ ub ++ [.op (.cursor txn db.m_isCDB)] ++
      [.op (.cursor_get_SET_RMW dbtKey dbtGetValue)] ++ [.op (.put_NOOVERWRITE txn dbtKey)])
  have hrc : ¬ s.retry_count - 1 + 1 ≥ db.m_maxDeadlockRetries := by omega
  have hrc' : s.retry_count - 1 + 1 = s.retry_count := by omega
  refine ⟨txn, ub ++ [.op (.cursor txn db.m_isCDB)] ++
      [.op (.cursor_get_SET_RMW dbtKey dbtGetValue)] ++ [.op (.put_NOOVERWRITE txn dbtKey)] ++
      ur ++ [.err K.LOCK_DEADLOCK .Retrying] ++ [.op .cursor_close], ?_, ?_, ?_, ?_⟩
  · rw [DatabaseImpl.PutRMW.loop]
    simp only [hcdb, List.append_assoc, List.singleton_append, List.cons_append,
      List.nil_append] at hr
    simp [hN, DatabaseImpl.PutRMW.attempt, hb, hcur, hget, hg3, hgS, DatabaseImpl.PutRMW.write,
      hL, hB, hg, hcdb, hput, DatabaseImpl.PutRMW.catchClauses, DatabaseImpl.catchDeadlock, hr, hrc,
      not_le.mpr hN, DatabaseImpl.PutRMW.finallyClose, hclose, DatabaseImpl.Log]
  · simp [hvb, hvr, hcdb, Event.isTxnCall, Event.isBegin, Event.isCommit, Event.isAbort]
  · simp [hcb, hcr, Event.isCommit]
  · intro hm hx
    obtain ⟨ht, hu⟩ := htxn hm hx
    have := har hm _ ht
    subst hu this
    simp [Event.isAbort]

/-- C19. The read-modify-write `Put` on a store that is not CDB and whose transaction calls
succeed, with a retry limit of at least 1 (so also with a limit of exactly 1). The caller's
entry and the entries the transform leaves have a buffer that is a non-empty array, so that
`&valueBuffer[0]` and `&value[0]` can be taken. The cursor read
finds no record, the transform leaves an entry of positive length, and the exclusive insert
reports `KEYEXIST`. Then no error is raised: the transaction is rolled back (one native abort on
a transactional store), "Retrying" is logged with the deadlock code, the cursor is closed, and
the loop makes its next pass with the retry counter at 0, the value it had before. When that
next pass finds the record and overwrites it, the operation returns: the engine calls are those
of the lost pass, then cursor open, cursor read, write of the current record and cursor close;
the insert is not made a second time. -/
theorem C19_lost_insert_race_is_retried (K : Constants) (db : DatabaseImpl) (eng : RmwEngine)
    (key : Option Int) (dbEntry : DatabaseEntry) (rmwDelegate : DatabaseEntry → DatabaseEntry)
    (fuel : Nat) (t : Trace) (hdb : db.TxnOk) (hN : 0 < db.m_maxDeadlockRetries)
    (hkey : key ≠ some 0) (hcdb : db.m_isCDB = false)
    (hbuf : addressOfFirst dbEntry.Buffer = .ok ())
    (g : Int) (hg : g = K.NOTFOUND ∨ g = K.KEYEMPTY)
    (hcur : eng.cursor 0 = .returns K.SUCCESS) (hget : eng.get 0 = .returns g)
    (hL : 0 < (rmwDelegate (dbEntry.setLength 0)).Length)
    (hB : addressOfFirst (rmwDelegate (dbEntry.setLength 0)).Buffer = .ok ())
    (hput : eng.put_NOOVERWRITE 0 = .returns K.KEYEXIST)
    (hclose : eng.close 0 = .returns K.SUCCESS) :
    (∃ txn u,
      DatabaseImpl.PutRMW.loop K db eng rmwDelegate (DatabaseImpl.PutRMW.dbtKey key)
          (DatabaseImpl.PutRMW.dbtGetValue K dbEntry) (fuel + 1) 0
          ⟨0, none, 0, false, dbEntry, t⟩
        = DatabaseImpl.PutRMW.loop K db eng rmwDelegate (DatabaseImpl.PutRMW.dbtKey key)
            (DatabaseImpl.PutRMW.dbtGetValue K dbEntry) fuel 1
            ⟨K.SUCCESS, txn, 0, false, rmwDelegate (dbEntry.setLength 0), t ++ u⟩ ∧
      visible u = [.op (.cursor txn false),
        .op (.cursor_get_SET_RMW (DatabaseImpl.PutRMW.dbtKey key)
          (DatabaseImpl.PutRMW.dbtGetValue K dbEntry)),
        .op (.put_NOOVERWRITE txn (DatabaseImpl.PutRMW.dbtKey key)),
        .err K.LOCK_DEADLOCK .Retrying, .op .cursor_close] ∧
      commits u = 0 ∧
      (db.m_pTrMode = .PerCall → db.m_isTxn = true → aborts u = 1)) ∧
    (eng.cursor 1 = .returns K.SUCCESS → eng.get 1 = .returns K.SUCCESS →
      0 < (rmwDelegate (rmwDelegate (dbEntry.setLength 0))).Length →
      addressOfFirst (rmwDelegate (rmwDelegate (dbEntry.setLength 0))).Buffer = .ok () →
      eng.put_CURRENT 1 = .returns K.SUCCESS → eng.close 1 = .returns K.SUCCESS →
      ∃ txn txn1 u, db.PutRMW K eng key dbEntry rmwDelegate (fuel + 2) t
          = (.ok (), rmwDelegate (rmwDelegate (dbEntry.setLength 0)), t ++ u) ∧
        visible u = [.op (.cursor txn false),
          .op (.cursor_get_SET_RMW (DatabaseImpl.PutRMW.dbtKey key)
            (DatabaseImpl.PutRMW.dbtGetValue K dbEntry)),
          .op (.put_NOOVERWRITE txn (DatabaseImpl.PutRMW.dbtKey key)),
          .err K.LOCK_DEADLOCK .Retrying, .op .cursor_close,
          .op (.cursor txn1 false),
          .op (.cursor_get_SET_RMW (DatabaseImpl.PutRMW.dbtKey key)
            (DatabaseImpl.PutRMW.dbtGetValue K dbEntry)),
          .op .cursor_put_CURRENT, .op .cursor_close]) := by
  have hcheck : (match key with
      | some length => CheckForEmptyKey K length
      | none => .ok ()) = .ok () := by
    cases key with
    | none => rfl
    | some l =>
      have : l ≠ 0 := fun h => hkey (by rw [h])
      simp [CheckForEmptyKey, this]
  have hrace := fun fuel => PutRMW_pass_lost_race K db eng rmwDelegate
    (DatabaseImpl.PutRMW.dbtKey key) (DatabaseImpl.PutRMW.dbtGetValue K dbEntry) fuel 0
    ⟨0, none, 0, false, dbEntry, t⟩ hdb hN hcdb g hg hcur hget hL hB hput hclose
  refine ⟨hrace fuel, fun hcur1 hget1 hL1 hB1 hput1 hclose1 => ?_⟩
  obtain ⟨txn, u, hl, hv, -, -⟩ := hrace (fuel + 1)
  obtain ⟨txn1, u1, s1, hl1, he1, ht1, hv1, -⟩ := PutRMW_pass_returns K db eng rmwDelegate
    (DatabaseImpl.PutRMW.dbtKey key) (DatabaseImpl.PutRMW.dbtGetValue K dbEntry) fuel 1
    ⟨K.SUCCESS, txn, 0, false, rmwDelegate (dbEntry.setLength 0), t ++ u⟩ hdb hN K.SUCCESS
    (Or.inr (Or.inr rfl)) hcur1 hget1 hclose1 (rmwDelegate (rmwDelegate (dbEntry.setLength 0)))
    (by simp) (fun _ => [.op .cursor_put_CURRENT])
    (fun txn t1 => by simp [DatabaseImpl.PutRMW.write, hL1, hB1, hput1])
  refine ⟨txn, txn1, u ++ u1, ?_, ?_⟩
  · simp only [DatabaseImpl.PutRMW, hcheck, hbuf, hl, hl1]
    rw [he1, ht1, List.append_assoc]
  · rw [visible_append, hv, hv1]
    simp [hcdb, Event.isTxnCall, Event.isBegin, Event.isCommit, Event.isAbort]

/-- C19 with a retry limit of 1: the first pass loses the insert race, the second finds the
record and overwrites it, and the operation returns after one abort and one commit. -/
theorem C19_lost_insert_race_is_retried_witness :
    (scriptedStore 1 fun _ => .returns 0 0 0).PutRMW K0
        (scriptedRmw (fun n => if n = 0 then .returns K0.NOTFOUND else .returns 0)
          fun _ => .returns K0.KEYEXIST) (some 4) ⟨some 8, 0, 8⟩ (fun e => e.setLength 5) 2 []
      = (.ok (), ⟨some 8, 0, 5⟩,
          [.txn_begin 0, .op (.cursor (some 0) false),
            .op (.cursor_get_SET_RMW { size := 4 }
              { size := 8, ulen := 8, dlen := 8, flags := 320 }),
            .op (.put_NOOVERWRITE (some 0) { size := 4 }), .abort 0,
            .err K0.LOCK_DEADLOCK .Retrying, .op .cursor_close,
            .txn_begin 1, .op (.cursor (some 1) false),
            .op (.cursor_get_SET_RMW { size := 4 }
              { size := 8, ulen := 8, dlen := 8, flags := 320 }),
            .op .cursor_put_CURRENT, .op .cursor_close, .commit 1]) ∧
    ∃ txn txn1 u, (scriptedStore 1 fun _ => .returns 0 0 0).PutRMW K0
          (scriptedRmw (fun n => if n = 0 then .returns K0.NOTFOUND else .returns 0)
            fun _ => .returns K0.KEYEXIST) (some 4) ⟨some 8, 0, 8⟩ (fun e => e.setLength 5) 2 []
        = (.ok (), ⟨some 8, 0, 5⟩, [] ++ u) ∧
      visible u = [.op (.cursor txn false),
        .op (.cursor_get_SET_RMW { size := 4 }
          { size := 8, ulen := 8, dlen := 8, flags := 320 }),
        .op (.put_NOOVERWRITE txn { size := 4 }),
        .err K0.LOCK_DEADLOCK .Retrying, .op .cursor_close,
        .op (.cursor txn1 false),
        .op (.cursor_get_SET_RMW { size := 4 }
          { size := 8, ulen := 8, dlen := 8, flags := 320 }),
        .op .cursor_put_CURRENT, .op .cursor_close] :=
  ⟨by decide,
    (C19_lost_insert_race_is_retried K0 (scriptedStore 1 fun _ => .returns 0 0 0)
      (scriptedRmw (fun n => if n = 0 then .returns K0.NOTFOUND else .returns 0)
        fun _ => .returns K0.KEYEXIST) (some 4) ⟨some 8, 0, 8⟩ (fun e => e.setLength 5) 0 []
      ⟨⟨by decide, fun _ => rfl, fun _ => rfl⟩, fun _ => rfl⟩ (by decide) (by decide) rfl rfl
      K0.NOTFOUND (Or.inl rfl) rfl rfl (by decide) rfl rfl rfl).2 rfl rfl (by decide) rfl rfl
      rfl⟩

/-! ## The retry loop of the operations on native transfer records -/

@[simp] theorem logEntries_nil : logEntries [] = [] := rfl

@[simp] theorem logEntries_append (t u : Trace) :
    logEntries (t ++ u) = logEntries t ++ logEntries u := by
  simp [logEntries]

@[simp] theorem logEntries_cons (e : Event) (t : Trace) :
    logEntries (e :: t) = (if e.isLog then [e] else []) ++ logEntries t := by
  cases h : e.isLog <;> simp [logEntries, List.filter_cons, h]

theorem logs_eq_length (t : Trace) : logs t = (logEntries t).length := by
  simp [logs, logEntries, List.countP_eq_length_filter]

/-- A part of a trace made of native transaction calls only holds no log entry and no record
call. -/
theorem logEntries_of_visible_nil (u : Trace) (h : visible u = []) :
    logEntries u = [] ∧ calls u = 0 := by
  induction u with
  | nil => exact ⟨rfl, rfl⟩
  | cons e u ih =>
    rw [visible_cons] at h
    cases he : e.isTxnCall
    · simp [he] at h
    · simp only [he, if_true, List.nil_append] at h
      obtain ⟨h1, h2⟩ := ih h
      have hl : e.isLog = false := by
        cases e <;> simp_all [Event.isTxnCall, Event.isLog, Event.isBegin, Event.isCommit,
          Event.isAbort]
      have hc : e.isCall = false := by
        cases e <;> simp_all [Event.isTxnCall, Event.isCall, Event.isBegin, Event.isCommit,
          Event.isAbort]
      exact ⟨by simp [hl, h1], by simp [hc, h2]⟩

theorem CreateDb_zero (errno : Int) : BdbExceptionFactory.CreateDb 0 errno = .BdbException errno := by
  simp [BdbExceptionFactory.CreateDb, BdbExceptionFactory.SetCode]

/-- In a loop whose `switch` is inside the `try` block, every record call throws
`DbDeadlockException` and `j + 1` attempts are left: the loop makes
`j + 1` record calls, logs "Retrying" after each of the first `j` where the copy has that line,
and gives up with one more entry and the `BdbException`. -/
theorem retryLoop_all_deadlock (K : Constants) (db : DatabaseImpl) (hdb : db.TxnCallsSucceed)
    (shape : RetryShape) (hsw : shape.switchInTry = true) (bdbCall : BdbCall)
    (key data : Option Dbt) (errno : Int)
    (hdead : ∀ n txn, bdbCall db.m_pDb n txn key data 0 = .throws (.DbDeadlockException errno))
    (j : Nat) : ∀ (fuel : Nat) (ret : Int) (txn : Option Nat) (retry_count : Int) (t : Trace),
      j < fuel → retry_count + j + 1 = db.m_maxDeadlockRetries →
      ∃ u, db.retryLoop K shape bdbCall key fuel ret txn retry_count data t
          = (.error (BdbExceptionFactory.CreateDb ret errno), data, t ++ u) ∧
        calls u = j + 1 ∧
        logEntries u = (if shape.logsRetrying then List.replicate j (.err errno .Retrying)
          else []) ++ [.errx (.GivingUp shape.methodName)] := by
  induction j with
  | zero =>
    intro fuel ret txn retry_count t hf hN
    obtain ⟨f, rfl⟩ : ∃ f, fuel = f + 1 := ⟨fuel - 1, by omega⟩
    obtain ⟨txn1, ub, hb, hvb, -, -, -⟩ := BeginTrans_ok db hdb t
    obtain ⟨ur, hr, hvr, -, -⟩ := RollbackTrans_ok db hdb txn1
      (t ++ ub ++ [.call txn1 key data 0])
    have hlt : retry_count < db.m_maxDeadlockRetries := by omega
    have hge : retry_count + 1 ≥ db.m_maxDeadlockRetries := by omega
    refine ⟨ub ++ [.call txn1 key data 0] ++ ur ++ [.errx (.GivingUp shape.methodName)], ?_, ?_,
      ?_⟩
    · rw [DatabaseImpl.retryLoop]
      simp only [List.append_assoc] at hr
      simp [hlt, DatabaseImpl.retryLoop.attempt, hb, hdead, DatabaseImpl.catchDeadlock, hr, hge]
    · simp [(logEntries_of_visible_nil ub hvb).2, (logEntries_of_visible_nil ur hvr).2,
        Event.isCall]
    · simp [(logEntries_of_visible_nil ub hvb).1, (logEntries_of_visible_nil ur hvr).1,
        Event.isLog]
  | succ j ih =>
    intro fuel ret txn retry_count t hf hN
    obtain ⟨f, rfl⟩ : ∃ f, fuel = f + 1 := ⟨fuel - 1, by omega⟩
    obtain ⟨txn1, ub, hb, hvb, -, -, -⟩ := BeginTrans_ok db hdb t
    obtain ⟨ur, hr, hvr, -, -⟩ := RollbackTrans_ok db hdb txn1
      (t ++ ub ++ [.call txn1 key data 0])
    have hlt : retry_count < db.m_maxDeadlockRetries := by push_cast at hN; omega
    have hge : ¬ retry_count + 1 ≥ db.m_maxDeadlockRetries := by push_cast at hN; omega
    obtain ⟨v, hv, hcv, hlv⟩ := ih f ret txn1 (retry_count + 1)
      (if shape.logsRetrying then
        DatabaseImpl.Log errno .Retrying (t ++ ub ++ [.call txn1 key data 0] ++ ur)
        else t ++ ub ++ [.call txn1 key data 0] ++ ur) (by omega) (by push_cast at hN; omega)
    refine ⟨ub ++ [.call txn1 key data 0] ++ ur ++
      (if shape.logsRetrying then [.err errno .Retrying] else []) ++ v, ?_, ?_, ?_⟩
    · rw [DatabaseImpl.retryLoop]
      simp only [hlt, if_true, DatabaseImpl.retryLoop.attempt, hb, hdead,
        DatabaseImpl.catchDeadlock, hr, hge, if_false, hsw, hv]
      cases shape.logsRetrying <;> simp [DatabaseImpl.Log]
    · cases shape.logsRetrying <;>
        simp [(logEntries_of_visible_nil ub hvb).2, (logEntries_of_visible_nil ur hvr).2,
          Event.isCall, hcv] <;> omega
    · simp only [logEntries_append, hlv, (logEntries_of_visible_nil ub hvb).1,
        (logEntries_of_visible_nil ur hvr).1]
      cases hlr : shape.logsRetrying <;> simp [Event.isLog, List.replicate_succ]

/-! ## C15: the log entries of a retried operation -/

/-- C15 as stated fails for `DeadlockLoop`. With a retry limit of 3 and a record call that
reports deadlock on every attempt, the loop of `DatabaseImpl` and the loop of `CursorImpl` each
write four log entries: "Deadlock" after each of the three attempts, the last included, and the
giving-up entry. -/
theorem C15_counterexample :
    logEntries ((scriptedStore 3 fun _ => .returns K0.LOCK_DEADLOCK 0 0).DeadlockLoop K0 .Get {}
        none none 0 get_core []).2.2.2
      = [.err K0.LOCK_DEADLOCK .Deadlock, .err K0.LOCK_DEADLOCK .Deadlock,
          .err K0.LOCK_DEADLOCK .Deadlock, .errx (.GivingUp .Get)] ∧
    logs ((scriptedStore 3 fun _ => .returns K0.LOCK_DEADLOCK 0 0).DeadlockLoop K0 .Get {}
        none none 0 get_core []).2.2.2 = 4 ∧
    logEntries (CursorImpl.DeadlockLoop K0
        ⟨some (scriptedStore 3 fun _ => .returns 0 0 0),
          some (scriptedDbc fun _ => .returns K0.LOCK_DEADLOCK 0 0)⟩
        none none 0 CursorImpl.get_core []).2.2.2
      = [.err K0.LOCK_DEADLOCK .Deadlock, .err K0.LOCK_DEADLOCK .Deadlock,
          .err K0.LOCK_DEADLOCK .Deadlock, .errx (.GivingUp .Get)] := by
  decide

/-- C15, amended. For every retry limit `N ≥ 1`, with the transaction calls succeeding and a
record call that reports deadlock on every attempt: `DatabaseImpl::DeadlockLoop` and
`CursorImpl::DeadlockLoop` write `N + 1` log entries ("Deadlock" on each of the `N` attempts and
one entry at exhaustion), and `Put(Dbt*, Dbt*)`, whose record call throws
`DbDeadlockException` on every attempt, writes `N` log entries: "Retrying" after each of the
first `N - 1` attempts and "Put exceeded retry limit. Giving up." at exhaustion, before it
throws the `BdbException` with the errno of the deadlock. -/
theorem C15_log_entries_of_retries (K : Constants) (N : Nat) (hN : 1 ≤ N) (db : DatabaseImpl)
    (hmax : db.m_maxDeadlockRetries = N) (hdb : db.TxnCallsSucceed) :
    (∀ (methodName : MethodName) (context : TransactionContext) (key data : Option Dbt)
        (options : Int) (bdbCall : BdbCall) (t : Trace),
        (∀ n txn d, (bdbCall db.m_pDb n txn key d options).reportsDeadlock K = true) →
        logs (db.DeadlockLoop K methodName context key data options bdbCall t).2.2.2
          = logs t + (N + 1)) ∧
    (∀ (cur : CursorImpl) (dbc : Dbc) (key data : Option Dbt) (options : Int)
        (bdbCall : CursorImpl.BdbCall) (t : Trace),
        cur._db = some db → cur._cursorp = some dbc →
        (∀ n k d, (bdbCall dbc n k d options).reportsDeadlock K = true) →
        logs (cur.DeadlockLoop K key data options bdbCall t).2.2.2 = logs t + (N + 1)) ∧
    (∀ (dbtKey dbtValue : Dbt) (errno : Int) (t : Trace),
        (∀ n txn, db.m_pDb.put n txn (some dbtKey) (some dbtValue) 0
          = .throws (.DbDeadlockException errno)) →
        ∃ u, db.PutDbt K dbtKey dbtValue t = (.error (.BdbException errno), t ++ u) ∧
          logEntries u
            = List.replicate (N - 1) (.err errno .Retrying) ++ [.errx (.GivingUp .Put)] ∧
          logs u = N ∧ calls u = N) := by
  refine ⟨?_, ?_, ?_⟩
  · intro methodName context key data options bdbCall t hdead
    obtain ⟨d1, u, h, hu⟩ := loop_all_deadlock K db hdb methodName
      key options bdbCall hdead (N - 1) (max 1 db.m_maxDeadlockRetries).toNat 0 context data t
      (by rw [hmax]; omega) (by rw [hmax]; omega)
    rw [DatabaseImpl.DeadlockLoop, h]
    simp [hu.2.1]
    omega
  · intro cur dbc key data options bdbCall t hcdb hdbc hdead
    obtain ⟨k1, d1, u, h, hu⟩ := cursor_loop_all_deadlock K cur db dbc hcdb
      hdbc options bdbCall hdead (N - 1) (max 1 db.m_maxDeadlockRetries).toNat 0 0 key data t
      (by rw [hmax]; omega) (by rw [hmax]; omega)
    have hl : logs u = N + 1 := by rw [hu.2.1]; omega
    simp [CursorImpl.DeadlockLoop, hcdb, h, hl]
  · intro dbtKey dbtValue errno t hdead
    obtain ⟨u, h, hc, hl⟩ := retryLoop_all_deadlock K db hdb DatabaseImpl.PutDbt.shape rfl put_core
      (some dbtKey) (some dbtValue) errno (fun n txn => by simpa [put_core] using hdead n txn)
      (N - 1) (max 1 db.m_maxDeadlockRetries).toNat 0 none 0 t
      (by rw [hmax]; omega) (by rw [hmax]; omega)
    have hl' : logEntries u
        = List.replicate (N - 1) (.err errno .Retrying) ++ [.errx (.GivingUp .Put)] := by
      simpa [DatabaseImpl.PutDbt.shape] using hl
    refine ⟨u, ?_, hl', ?_, by omega⟩
    · simp [DatabaseImpl.PutDbt, h, CreateDb_zero]
    · rw [logs_eq_length, hl']
      simp
      omega

/-- C15, amended, at retry limit 3: `Put(Dbt*, Dbt*)` on a store whose `put` throws
`DbDeadlockException` every time writes "Retrying" twice and the giving-up entry once. -/
theorem C15_log_entries_of_retries_witness :
    ∃ u, (scriptedStore 3 fun _ => .throws (.DbDeadlockException K0.LOCK_DEADLOCK)).PutDbt K0
          { size := 4 } { size := 8 } []
        = (.error (.BdbException K0.LOCK_DEADLOCK), [] ++ u) ∧
      logEntries u = List.replicate (3 - 1) (.err K0.LOCK_DEADLOCK .Retrying) ++
        [.errx (.GivingUp .Put)] ∧
      logs u = 3 ∧ calls u = 3 :=
  (C15_log_entries_of_retries K0 3 (by decide)
    (scriptedStore 3 fun _ => .throws (.DbDeadlockException K0.LOCK_DEADLOCK)) rfl
    ⟨by decide, fun _ => rfl, fun _ => rfl⟩).2.2 { size := 4 } { size := 8 } K0.LOCK_DEADLOCK []
    (fun _ _ => rfl)

/-! ## The fuel of the retry loop of the operations on native transfer records is enough -/

theorem BeginTrans_ne_outOfFuel (db : DatabaseImpl) (t : Trace) :
    (db.BeginTrans t).1 ≠ .error .outOfFuel := by
  cases hm : db.m_pTrMode <;> simp [DatabaseImpl.BeginTrans, hm]
  cases hx : db.m_isTxn <;> simp
  cases hb : db.txn_begin (begins t) <;> simp

theorem CommitTrans_ne_outOfFuel (db : DatabaseImpl) (txn : Option Nat) (t : Trace) :
    (db.CommitTrans txn t).1 ≠ .error .outOfFuel := by
  cases txn with
  | none => simp [DatabaseImpl.CommitTrans]
  | some h =>
    cases hm : db.m_pTrMode <;> simp [DatabaseImpl.CommitTrans, hm]
    cases hb : db.txn_commit h <;> simp

theorem RollbackTrans_ne_outOfFuel (db : DatabaseImpl) (txn : Option Nat) (t : Trace) :
    (db.RollbackTrans txn t).1 ≠ .error .outOfFuel := by
  cases txn with
  | none => simp [DatabaseImpl.RollbackTrans]
  | some h =>
    cases hm : db.m_pTrMode <;> simp [DatabaseImpl.RollbackTrans, hm]
    cases hb : db.txn_abort h <;> simp

theorem abortFailed_ne_outOfFuel (methodName : MethodName) (ret : Int) (e : Exn) (t : Trace)
    (he : e ≠ .outOfFuel) : (DatabaseImpl.abortFailed methodName ret e t).1 ≠ .outOfFuel := by
  unfold DatabaseImpl.abortFailed
  split
  · split <;> simp [BdbExceptionFactory.CreateDb]
  · simpa using he

theorem catchDeadlock_ne_outOfFuel (db : DatabaseImpl) (methodName : MethodName)
    (logsRetrying : Bool) (ret errno : Int) (txn : Option Nat) (retry_count : Int) (t : Trace) :
    (db.catchDeadlock methodName logsRetrying ret errno txn retry_count t).1
      ≠ .error .outOfFuel := by
  have h := RollbackTrans_ne_outOfFuel db txn t
  unfold DatabaseImpl.catchDeadlock
  split
  · next e t1 heq =>
    rw [heq] at h
    have := abortFailed_ne_outOfFuel methodName ret e t1 (by simpa using h)
    simpa using this
  · split <;> simp [BdbExceptionFactory.CreateDb]

theorem catchDbException_ne_outOfFuel (K : Constants) (db : DatabaseImpl)
    (methodName : MethodName) (bufferSmall : Bool) (ret errno : Int) (txn : Option Nat)
    (data : Option Dbt) (t : Trace) :
    (db.catchDbException K methodName bufferSmall ret errno txn data t).1 ≠ .outOfFuel := by
  have h := RollbackTrans_ne_outOfFuel db txn (DatabaseImpl.Log errno .ErrorGettingData t)
  unfold DatabaseImpl.catchDbException
  split
  · next e t1 heq =>
    rw [heq] at h
    exact abortFailed_ne_outOfFuel methodName ret e t1 (by simpa using h)
  · split <;> simp [BdbExceptionFactory.CreateDb]

theorem catchException_ne_outOfFuel (db : DatabaseImpl) (methodName : MethodName) (ret : Int)
    (ex : NativeExn) (txn : Option Nat) (t : Trace) :
    (db.catchException methodName ret ex txn t).1 ≠ .outOfFuel := by
  have h := RollbackTrans_ne_outOfFuel db txn t
  unfold DatabaseImpl.catchException
  split
  · simp [BdbExceptionFactory.CreateRet]
  · split
    · next e t1 heq =>
      rw [heq] at h
      exact abortFailed_ne_outOfFuel methodName ret e t1 (by simpa using h)
    · simp [BdbExceptionFactory.CreateRet]

theorem retryLoop_attempt_ne_outOfFuel (db : DatabaseImpl) (bdbCall : BdbCall)
    (key : Option Dbt) (ret : Int) (txn : Option Nat) (data : Option Dbt) (t : Trace) :
    (DatabaseImpl.retryLoop.attempt db bdbCall key ret txn data t).1 ≠ .error .outOfFuel := by
  have hb := BeginTrans_ne_outOfFuel db t
  unfold DatabaseImpl.retryLoop.attempt
  split
  · next heq => rw [heq] at hb; simpa using hb
  · next txn1 t1 heq =>
    split
    · simp
    · next ret1 size ks hres =>
      have hc := CommitTrans_ne_outOfFuel db txn1 (t1 ++ [.call txn1 key data 0])
      split
      · next heq2 => rw [heq2] at hc; simpa using hc
      · simp

theorem retryLoop_switch_ne_outOfFuel (K : Constants) (shape : RetryShape) (ret : Int)
    (data : Option Dbt) (t : Trace) :
    (DatabaseImpl.retryLoop.switch K shape ret data t).1 ≠ .error .outOfFuel := by
  unfold DatabaseImpl.retryLoop.switch
  split
  · simp
  · split <;> simp [Create_eq]

theorem retryLoop_ne_outOfFuel (K : Constants) (db : DatabaseImpl) (shape : RetryShape)
    (bdbCall : BdbCall) (key : Option Dbt) (fuel : Nat) :
    ∀ (ret : Int) (txn : Option Nat) (retry_count : Int) (data : Option Dbt) (t : Trace),
      0 < fuel → db.m_maxDeadlockRetries ≤ retry_count + fuel →
      (db.retryLoop K shape bdbCall key fuel ret txn retry_count data t).1
        ≠ .error .outOfFuel := by
  induction fuel with
  | zero => intro _ _ _ _ _ h; omega
  | succ f ih =>
    intro ret txn retry_count data t _ hN
    have ha := retryLoop_attempt_ne_outOfFuel db bdbCall key ret txn data t
    rw [DatabaseImpl.retryLoop]
    split
    · next hlt =>
      split
      · exact retryLoop_switch_ne_outOfFuel K shape _ _ _
      · next errno ret1 txn1 d1 t1 heq =>
        have hc := catchDeadlock_ne_outOfFuel db shape.methodName shape.logsRetrying ret1 errno
          txn1 retry_count t1
        split
        · next rc1 t2 heq2 =>
          have hrc : rc1 = retry_count + 1 ∧ retry_count + 1 < db.m_maxDeadlockRetries := by
            unfold DatabaseImpl.catchDeadlock at heq2
            split at heq2
            · simp at heq2
            · split at heq2
              · simp at heq2
              · next hge =>
                simp only [Prod.mk.injEq, Except.ok.injEq] at heq2
                exact ⟨heq2.1.symm, by omega⟩
          split
          · rw [hrc.1]
            exact ih _ _ _ _ _ (by push_cast at hN; omega) (by push_cast at hN; omega)
          · exact retryLoop_switch_ne_outOfFuel K shape _ _ _
        · next e t2 heq2 => rw [heq2] at hc; simpa using hc
      · next ex ret1 txn1 d1 t1 _ heq =>
        split
        · have := catchDbException_ne_outOfFuel K db shape.methodName shape.bufferSmall ret1
            ‹Int› txn1 d1 t1
          simpa using this
        · have := catchException_ne_outOfFuel db shape.methodName ret1 ex txn1 t1
          simpa using this
      · next e _ _ d1 t1 h1 h2 heq =>
        rw [heq] at ha
        simpa using ha
    · simp

/-- The fuel of `Put(Dbt*, Dbt*)`, `Get(Dbt*, Dbt*)` and `Delete(Dbt*)` is never used up: their
loop ends by itself, whatever the engine answers. -/
theorem retryLoop_terminates (K : Constants) (db : DatabaseImpl) (dbtKey dbtValue : Dbt)
    (t : Trace) :
    (db.PutDbt K dbtKey dbtValue t).1 ≠ .error .outOfFuel ∧
    (db.GetDbt K dbtKey dbtValue t).1 ≠ .error .outOfFuel ∧
    (db.DeleteDbt K dbtKey t).1 ≠ .error .outOfFuel := by
  have h := fun shape bdbCall data => retryLoop_ne_outOfFuel K db shape bdbCall (some dbtKey)
    (max 1 db.m_maxDeadlockRetries).toNat 0 none 0 data t (by omega) (by omega)
  refine ⟨?_, ?_, ?_⟩
  · have := h DatabaseImpl.PutDbt.shape put_core (some dbtValue)
    unfold DatabaseImpl.PutDbt
    split
    · simp
    · next heq => rw [heq] at this; simpa using this
  · have := h DatabaseImpl.GetDbt.shape get_core (some dbtValue)
    unfold DatabaseImpl.GetDbt
    split
    · simp
    · next heq => rw [heq] at this; simpa using this
  · have := h DatabaseImpl.DeleteDbt.shape del_core none
    unfold DatabaseImpl.DeleteDbt
    split
    · simp
    · next heq => rw [heq] at this; simpa using this

/-! ## C13: what happens to the transaction when an operation fails -/

@[simp] theorem scopeCommits_nil : scopeCommits [] = 0 := rfl

@[simp] theorem scopeCommits_append (t u : Trace) :
    scopeCommits (t ++ u) = scopeCommits t + scopeCommits u := by
  simp [scopeCommits]

@[simp] theorem scopeCommits_cons (e : Event) (t : Trace) :
    scopeCommits (e :: t) = (if e = .scope_commit then 1 else 0) + scopeCommits t := by
  cases e <;> simp [scopeCommits, Event.step, List.count_cons, Nat.add_comm]

theorem BeginTrans_scopeCommits (db : DatabaseImpl) (t : Trace) :
    scopeCommits (db.BeginTrans t).2 = scopeCommits t := by
  cases hm : db.m_pTrMode <;> simp [DatabaseImpl.BeginTrans, hm]
  cases hx : db.m_isTxn <;> simp
  cases hb : db.txn_begin (begins t) <;> simp

theorem RollbackTrans_scopeCommits (db : DatabaseImpl) (txn : Option Nat) (t : Trace) :
    scopeCommits (db.RollbackTrans txn t).2 = scopeCommits t := by
  cases txn with
  | none => rfl
  | some hd =>
    cases hm : db.m_pTrMode <;> simp [DatabaseImpl.RollbackTrans, hm]
    cases hb : db.txn_abort hd <;> simp

theorem CommitTrans_scopeCommits (db : DatabaseImpl) (txn : Option Nat) (t : Trace) :
    scopeCommits (db.CommitTrans txn t).2 = scopeCommits t := by
  cases txn with
  | none => rfl
  | some hd =>
    cases hm : db.m_pTrMode <;> simp [DatabaseImpl.CommitTrans, hm]
    cases hb : db.txn_commit hd <;> simp

theorem begin_scopeCommits (db : DatabaseImpl) (c : TransactionContext) (t : Trace) :
    scopeCommits (c.begin db t).2.2 = scopeCommits t := by
  have h := BeginTrans_scopeCommits db t
  unfold TransactionContext.begin
  split
  · split
    · next heq => rw [heq] at h; simpa using h
    · next heq => rw [heq] at h; simpa using h
  · rfl

theorem rollback_scopeCommits (db : DatabaseImpl) (c : TransactionContext) (t : Trace) :
    scopeCommits (c.rollback db t).2.2 = scopeCommits t := by
  have h' := RollbackTrans_scopeCommits db c.txn (t ++ [.scope_rollback])
  unfold TransactionContext.rollback
  split
  · split
    · next heq => rw [heq] at h'; simpa using h'
    · next heq => rw [heq] at h'; simpa using h'
  · rfl

theorem attempt_scopeCommits (K : Constants) (db : DatabaseImpl) (c : TransactionContext)
    (key data : Option Dbt) (options : Int) (bdbCall : BdbCall) (t : Trace) :
    scopeCommits (DatabaseImpl.DeadlockLoop.attempt K db c key data options bdbCall t).2.2.2
      = scopeCommits t := by
  have h := begin_scopeCommits db c t
  unfold DatabaseImpl.DeadlockLoop.attempt
  split
  · next heq => rw [heq] at h; simpa using h
  · next heq => rw [heq] at h; simpa using h
  · next heq =>
    rw [heq] at h
    split <;> simpa using h

/-- The retry loop commits no scope, whatever the engine answers. -/
theorem loop_scopeCommits (K : Constants) (db : DatabaseImpl) (methodName : MethodName)
    (key : Option Dbt) (options : Int) (bdbCall : BdbCall) (fuel : Nat) :
    ∀ (retry_count : Int) (c : TransactionContext) (data : Option Dbt) (t : Trace),
      scopeCommits (DatabaseImpl.DeadlockLoop.loop K db methodName key options bdbCall fuel
        retry_count c data t).2.2.2 = scopeCommits t := by
  induction fuel with
  | zero => intro _ _ _ _; rfl
  | succ f ih =>
    intro retry_count c data t
    have ha := attempt_scopeCommits K db c key data options bdbCall t
    rw [DatabaseImpl.DeadlockLoop.loop]
    split
    · next heq => rw [heq] at ha; simpa using ha
    · next ret dl c1 d1 t1 heq =>
      rw [heq] at ha
      simp only at ha
      have hr := rollback_scopeCommits db c1 (DatabaseImpl.Log K.LOCK_DEADLOCK .Deadlock t1)
      split
      · split
        · next heq2 =>
          rw [heq2] at hr
          simp only [DatabaseImpl.Log, scopeCommits_append, scopeCommits_cons,
            scopeCommits_nil] at hr
          simpa [ha] using hr
        · next a c2 t2 heq2 =>
          rw [heq2] at hr
          simp only [DatabaseImpl.Log, scopeCommits_append, scopeCommits_cons,
            scopeCommits_nil] at hr
          have hr' : scopeCommits t2 = scopeCommits t := by simpa [ha] using hr
          split
          · simpa using hr'
          · rw [ih]; exact hr'
      · simpa using ha

theorem TryStd_scopeCommits (K : Constants) (db : DatabaseImpl) (methodName : MethodName)
    (c : TransactionContext) (key data : Option Dbt) (options : Int) (bdbCall : BdbCall)
    (t : Trace) :
    scopeCommits (db.TryStd K methodName c key data options bdbCall t).2.2 = scopeCommits t := by
  have h := loop_scopeCommits K db methodName key options bdbCall
    (max 1 db.m_maxDeadlockRetries).toNat 0 c data t
  unfold DatabaseImpl.TryStd DatabaseImpl.DeadlockLoop
  split <;> simp_all

theorem TryMemStd_scopeCommits (K : Constants) (db : DatabaseImpl) (methodName : MethodName)
    (c : TransactionContext) (key : Option Dbt) (data : Dbt) (options : Int) (bdbCall : BdbCall)
    (t : Trace) :
    scopeCommits (db.TryMemStd K methodName c key data options bdbCall t).2.2.2
      = scopeCommits t := by
  have h := loop_scopeCommits K db methodName key options bdbCall
    (max 1 db.m_maxDeadlockRetries).toNat 0 c (some data) t
  unfold DatabaseImpl.TryMemStd DatabaseImpl.DeadlockLoop
  split <;> simp_all

/-- A scope `commit` that throws has not committed, and one that returns leaves the scope not
begun. -/
theorem commit_noCommitOnError (db : DatabaseImpl) (c : TransactionContext) (t : Trace) :
    NoCommitOnError t (c.commit db t) := by
  have h := CommitTrans_scopeCommits db c.txn t
  unfold TransactionContext.commit
  rcases c with ⟨begun, txn⟩
  cases begun
  · exact ⟨fun e he => by simp at he, fun v _ => rfl⟩
  · simp only [if_true]
    split
    · exact ⟨fun e he => by simp at he, fun v _ => rfl⟩
    · next heq =>
      rw [heq] at h
      exact ⟨fun e _ => h, fun v hv => by simp at hv⟩

theorem SwitchStd_noCommitOnError (K : Constants) (db : DatabaseImpl) (c : TransactionContext)
    (ret : Int) (t : Trace) : NoCommitOnError t (db.SwitchStd K c ret t) := by
  unfold DatabaseImpl.SwitchStd
  split
  · exact commit_noCommitOnError db c t
  · exact ⟨fun e _ => rfl, fun v hv => by simp at hv⟩

theorem SwitchMemStd_noCommitOnError (K : Constants) (db : DatabaseImpl)
    (c : TransactionContext) (ret size : Int) (t : Trace) :
    NoCommitOnError t (db.SwitchMemStd K c ret size t) := by
  obtain ⟨h1, h2⟩ := commit_noCommitOnError db c t
  unfold DatabaseImpl.SwitchMemStd
  simp only []
  split
  · exact ⟨fun e _ => rfl, fun v hv => by simp at hv⟩
  · split
    · next heq =>
      rw [heq] at h1 h2
      exact ⟨fun e he => by simp at he, fun v _ => h2 () rfl⟩
    · next e c1 t1 heq =>
      rw [heq] at h1
      exact ⟨fun e' _ => h1 e rfl, fun v hv => by simp at hv⟩

theorem NoCommitOnError_of_eq {α : Type} {t t1 : Trace}
    {p : Except Exn α × TransactionContext × Trace} (h : NoCommitOnError t1 p)
    (ht : scopeCommits t1 = scopeCommits t) : NoCommitOnError t p :=
  ⟨fun e he => (h.1 e he).trans ht, h.2⟩

theorem NoCommitOnError_error {α : Type} {t t1 : Trace} (e : Exn) (c : TransactionContext)
    (ht : scopeCommits t1 = scopeCommits t) :
    NoCommitOnError t ((.error e : Except Exn α), c, t1) :=
  ⟨fun _ _ => ht, fun v hv => by simp at hv⟩

theorem Get_body_noCommitOnError (K : Constants) (db : DatabaseImpl) (key : DataBuffer)
    (offset : Int) (buffer : DataBuffer) (flags : Int) (c : TransactionContext) (t : Trace) :
    NoCommitOnError t (DatabaseImpl.Get.body K db key offset buffer flags c t) := by
  unfold DatabaseImpl.Get.body
  split
  · exact NoCommitOnError_error _ _ rfl
  · next dbtKey _ =>
    split
    · exact NoCommitOnError_error _ _ rfl
    · next holder _ =>
      have h1 := TryMemStd_scopeCommits K db .Get c (some dbtKey.dbt)
        (DatabaseImpl.Get.dbtBuffer K holder offset) flags get_core t
      split
      · next heq => rw [heq] at h1; exact NoCommitOnError_error _ _ h1
      · next ret size c1 _ t1 heq =>
        rw [heq] at h1
        exact NoCommitOnError_of_eq (SwitchMemStd_noCommitOnError K db c1 ret size t1) h1

theorem GetLength_body_noCommitOnError (K : Constants) (db : DatabaseImpl) (key : DataBuffer)
    (flags : Int) (c : TransactionContext) (t : Trace) :
    NoCommitOnError t (DatabaseImpl.GetLength.body K db key flags c t) := by
  unfold DatabaseImpl.GetLength.body
  split
  · exact NoCommitOnError_error _ _ rfl
  · next dbtKey _ =>
    have h1 := TryMemStd_scopeCommits K db .GetLength c (some dbtKey.dbt)
      (DatabaseImpl.GetLength.dbtBuffer K) flags get_core t
    split
    · next heq => rw [heq] at h1; exact NoCommitOnError_error _ _ h1
    · next ret size c1 _ t1 heq =>
      rw [heq] at h1
      exact NoCommitOnError_of_eq (SwitchMemStd_noCommitOnError K db c1 ret size t1) h1

theorem GetStream_body_noCommitOnError (K : Constants) (db : DatabaseImpl) (key : DataBuffer)
    (offset length : Int) (flags : Int) (c : TransactionContext) (t : Trace) :
    NoCommitOnError t (DatabaseImpl.GetStream.body K db key offset length flags c t) := by
  unfold DatabaseImpl.GetStream.body
  split
  · exact NoCommitOnError_error _ _ rfl
  · next dbtKey _ =>
    have h1 := TryMemStd_scopeCommits K db .Get c (some dbtKey.dbt)
      (DatabaseImpl.GetStream.dbtBuffer K offset length) flags get_core t
    split
    · next heq => rw [heq] at h1; exact NoCommitOnError_error _ _ h1
    · next ret size c1 d1 t1 heq =>
      rw [heq] at h1
      obtain ⟨h2, h3⟩ := SwitchMemStd_noCommitOnError K db c1 ret size t1
      split
      · next e c2 t2 heq2 =>
        rw [heq2] at h2
        exact NoCommitOnError_error _ _ ((h2 e rfl).trans h1)
      · next size1 c2 t2 heq2 =>
        rw [heq2] at h3
        exact ⟨fun e he => by simp at he, fun v _ => h3 size1 rfl⟩

theorem GetBuffer_body_noCommitOnError (K : Constants) (db : DatabaseImpl) (key : DataBuffer)
    (offset length : Int) (flags : Int) (c : TransactionContext) (t : Trace) :
    NoCommitOnError t (DatabaseImpl.GetBuffer.body K db key offset length flags c t) := by
  unfold DatabaseImpl.GetBuffer.body
  split
  · exact NoCommitOnError_error _ _ rfl
  · next dbtKey _ =>
    have h1 := TryMemStd_scopeCommits K db .GetBuffer c (some dbtKey.dbt)
      (DatabaseImpl.GetBuffer.dbtBuffer K offset length) flags get_core t
    split
    · next heq => rw [heq] at h1; exact NoCommitOnError_error _ _ h1
    · next ret size c1 d1 t1 heq =>
      rw [heq] at h1
      obtain ⟨h2, h3⟩ := SwitchMemStd_noCommitOnError K db c1 ret size t1
      split
      · next e c2 t2 heq2 =>
        rw [heq2] at h2
        exact NoCommitOnError_error _ _ ((h2 e rfl).trans h1)
      · next size1 c2 t2 heq2 =>
        rw [heq2] at h3
        exact ⟨fun e he => by simp at he, fun v _ => h3 size1 rfl⟩

theorem Put_body_noCommitOnError (K : Constants) (db : DatabaseImpl) (key : DataBuffer)
    (offset count : Int) (buffer : DataBuffer) (flags : Int) (c : TransactionContext)
    (t : Trace) :
    NoCommitOnError t (DatabaseImpl.Put.body K db key offset count buffer flags c t) := by
  unfold DatabaseImpl.Put.body
  split
  · exact NoCommitOnError_error _ _ rfl
  · next dbtKey _ =>
    split
    · exact NoCommitOnError_error _ _ rfl
    · next holder _ =>
      have h1 := TryMemStd_scopeCommits K db .Put c (some dbtKey.dbt)
        (DatabaseImpl.Put.dbtBuffer K holder offset count buffer) flags put_core t
      split
      · next heq => rw [heq] at h1; exact NoCommitOnError_error _ _ h1
      · next ret size c1 d1 t1 heq =>
        rw [heq] at h1
        obtain ⟨h2, h3⟩ := SwitchStd_noCommitOnError K db c1 ret t1
        split
        · next e c2 t2 heq2 =>
          rw [heq2] at h2
          exact NoCommitOnError_error _ _ ((h2 e rfl).trans h1)
        · next u c2 t2 heq2 =>
          rw [heq2] at h3
          exact ⟨fun e he => by simp at he, fun v _ => h3 u rfl⟩

theorem Delete_body_noCommitOnError (K : Constants) (db : DatabaseImpl) (key : DataBuffer)
    (flags : Int) (c : TransactionContext) (t : Trace) :
    NoCommitOnError t (DatabaseImpl.Delete.body K db key flags c t) := by
  unfold DatabaseImpl.Delete.body
  split
  · exact NoCommitOnError_error _ _ rfl
  · next dbtKey _ =>
    have h1 := TryStd_scopeCommits K db .Delete c (some dbtKey.dbt) none flags del_core t
    split
    · next heq => rw [heq] at h1; exact NoCommitOnError_error _ _ h1
    · next ret c1 t1 heq =>
      rw [heq] at h1
      obtain ⟨h2, h3⟩ := commit_noCommitOnError db c1 t1
      simp only []
      split
      · exact NoCommitOnError_error _ _ h1
      · split
        · next e c2 t2 heq2 =>
          rw [heq2] at h2
          exact NoCommitOnError_error _ _ ((h2 e rfl).trans h1)
        · next u c2 t2 heq2 =>
          rw [heq2] at h3
          exact ⟨fun e he => by simp at he, fun v _ => h3 u rfl⟩

theorem Exists_body_noCommitOnError (K : Constants) (db : DatabaseImpl) (key : DataBuffer)
    (flags : Int) (c : TransactionContext) (t : Trace) :
    NoCommitOnError t (DatabaseImpl.Exists.body K db key flags c t) := by
  unfold DatabaseImpl.Exists.body
  split
  · exact NoCommitOnError_error _ _ rfl
  · next dbtKey _ =>
    have h1 := TryStd_scopeCommits K db .Exists c (some dbtKey.dbt) none flags exists_core t
    split
    · next heq => rw [heq] at h1; exact NoCommitOnError_error _ _ h1
    · next ret c1 t1 heq =>
      rw [heq] at h1
      obtain ⟨h2, h3⟩ := commit_noCommitOnError db c1 t1
      split
      · split
        · next e c2 t2 heq2 =>
          rw [heq2] at h2
          exact NoCommitOnError_error _ _ ((h2 e rfl).trans h1)
        · next u c2 t2 heq2 =>
          rw [heq2] at h3
          exact ⟨fun e he => by simp at he, fun v _ => h3 u rfl⟩
      · exact NoCommitOnError_error _ _ h1

/-- An operation of the facade that ends in an exception has committed no scope, and has rolled
back every scope it began. -/
theorem rolled_back_of_noCommitOnError {α : Type} (db : DatabaseImpl)
    (body : Except Exn α × TransactionContext × Trace)
    (hs : ScopeSound {} [] body.2.1 body.2.2) (hn : NoCommitOnError [] body) (e : Exn)
    (he : (TransactionContext.destroy db body.1 body.2.1 body.2.2).1 = .error e) :
    (steps (TransactionContext.destroy db body.1 body.2.1 body.2.2).2.2).count .commit = 0 ∧
    (steps (TransactionContext.destroy db body.1 body.2.1 body.2.2).2.2).count .begin
      = (steps (TransactionContext.destroy db body.1 body.2.1 body.2.2).2.2).count .rollback := by
  obtain ⟨-, -, hcount⟩ := ends_of_sound db body [] rfl hs
  have hr := rollback_scopeCommits db body.2.1 body.2.2
  have hc : scopeCommits (TransactionContext.destroy db body.1 body.2.1 body.2.2).2.2 = 0 := by
    rcases body with ⟨r, c, t1⟩
    cases r with
    | ok v =>
      have hb : c.begun = false := hn.2 v rfl
      simp [TransactionContext.destroy, TransactionContext.rollback, hb] at he
    | error e1 =>
      have h1 : scopeCommits t1 = 0 := by simpa using hn.1 e1 rfl
      simp only at hr
      unfold TransactionContext.destroy
      split
      · next heq => rw [heq] at hr; simpa [h1] using hr
      · next heq => rw [heq] at hr; simpa [h1] using hr
  have hc' : (steps (TransactionContext.destroy db body.1 body.2.1 body.2.2).2.2).count
      .commit = 0 := hc
  exact ⟨hc', by rw [hcount, hc']; simp⟩

/-- On a transactional per-call store whose transaction calls succeed, a pass of the retry loop
whose record call returns: the transaction is committed, and then the `switch` looks at the
code. -/
theorem retryLoop_first_returns (K : Constants) (db : DatabaseImpl) (hdb : db.TxnOk)
    (hm : db.m_pTrMode = .PerCall) (hx : db.m_isTxn = true) (shape : RetryShape)
    (bdbCall : BdbCall) (key data : Option Dbt) (fuel : Nat) (ret : Int) (txn : Option Nat)
    (retry_count : Int) (t : Trace) (hlt : retry_count < db.m_maxDeadlockRetries)
    (r size keySize : Int)
    (hres : bdbCall db.m_pDb (calls t) (some (begins t)) key data 0 = .returns r size keySize) :
    db.retryLoop K shape bdbCall key (fuel + 1) ret txn retry_count data t
      = (if shape.returns K r = true then .ok (some r)
          else if shape.bufferSmall = true ∧ r = K.BUFFER_SMALL then
            .error (.BufferSmallException ((afterCall data size).getD {}).ulen
              ((afterCall data size).getD {}).size)
          else .error (.BdbException r),
        afterCall data size,
        t ++ [.txn_begin (begins t), .call (some (begins t)) key data 0,
          .commit (begins t)]) := by
  obtain ⟨⟨-, hb, -⟩, hc⟩ := hdb
  rw [DatabaseImpl.retryLoop]
  simp [hlt, DatabaseImpl.retryLoop.attempt, DatabaseImpl.BeginTrans, hm, hx, hb,
    Event.isCall, hres, DatabaseImpl.CommitTrans, hc, Create_eq, DatabaseImpl.retryLoop.switch]
  split
  · simp
  · split <;> simp

/-- On a transactional per-call store whose transaction calls succeed, a pass of the retry loop
whose record call throws a `DbException` that is not a deadlock: the error is logged, the
transaction is rolled back, and the exception is thrown on as a managed one. -/
theorem retryLoop_first_throws (K : Constants) (db : DatabaseImpl) (hdb : db.TxnOk)
    (hm : db.m_pTrMode = .PerCall) (hx : db.m_isTxn = true) (shape : RetryShape)
    (bdbCall : BdbCall) (key data : Option Dbt) (fuel : Nat) (ret : Int) (txn : Option Nat)
    (retry_count : Int) (t : Trace) (hlt : retry_count < db.m_maxDeadlockRetries)
    (errno : Int)
    (hres : bdbCall db.m_pDb (calls t) (some (begins t)) key data 0
      = .throws (.DbException errno)) :
    db.retryLoop K shape bdbCall key (fuel + 1) ret txn retry_count data t
      = (.error (if shape.bufferSmall = true ∧ errno = K.BUFFER_SMALL then
            .BufferSmallException (data.getD {}).ulen (data.getD {}).size
          else BdbExceptionFactory.CreateDb ret errno),
        data,
        t ++ [.txn_begin (begins t), .call (some (begins t)) key data 0,
          .err errno .ErrorGettingData, .abort (begins t)]) := by
  obtain ⟨⟨-, hb, ha⟩, -⟩ := hdb
  rw [DatabaseImpl.retryLoop]
  simp [hlt, DatabaseImpl.retryLoop.attempt, DatabaseImpl.BeginTrans, hm, hx, hb,
    Event.isCall, hres, NativeExn.get_errno, DatabaseImpl.catchDbException, DatabaseImpl.Log,
    DatabaseImpl.RollbackTrans, ha]
  split <;> simp

/-- The runs in which no rollback is attempted, on a transactional store whose engine reports
the error code 22. `Get(Dbt*, Dbt*)`, `Put(Dbt*, Dbt*)` and `Delete(Dbt*)` throw the
`BdbException` with code 22 after the transaction has been committed, with no abort. The
read-modify-write `Put`, whose cursor read reports 22, throws it with the transaction neither
committed nor aborted. -/
theorem engine_error_code_without_rollback :
    (scriptedStore 3 fun _ => .returns 22 0 0).GetDbt K0 { size := 4 } { size := 8 } []
      = (.error (.BdbException 22), { size := 0 },
          [.txn_begin 0, .call (some 0) (some { size := 4 }) (some { size := 8 }) 0,
            .commit 0]) ∧
    (scriptedStore 3 fun _ => .returns 22 0 0).PutDbt K0 { size := 4 } { size := 8 } []
      = (.error (.BdbException 22),
          [.txn_begin 0, .call (some 0) (some { size := 4 }) (some { size := 8 }) 0,
            .commit 0]) ∧
    (scriptedStore 3 fun _ => .returns 22 0 0).DeleteDbt K0 { size := 4 } []
      = (.error (.BdbException 22),
          [.txn_begin 0, .call (some 0) (some { size := 4 }) none 0, .commit 0]) ∧
    (scriptedStore 3 fun _ => .returns 0 0 0).PutRMW K0
        (scriptedRmw (fun _ => .returns 22) fun _ => .returns 0) (some 4) ⟨some 8, 0, 8⟩ id 3 []
      = (.error (.BdbException 22), ⟨some 8, 0, 8⟩,
          [.txn_begin 0, .op (.cursor (some 0) false),
            .op (.cursor_get_SET_RMW { size := 4 }
              { size := 8, ulen := 8, dlen := 8, flags := 320 }),
            .op .cursor_close]) := by
  decide

/-- C13, the code as it is. (1) Every record operation of the `DataBuffer` facade (`Get` into
a buffer, `Get` into a stream, `GetBuffer`, `Put`, `Delete`, `Exists`, `GetLength`), for every
input and whatever the engine answers: when the operation ends in an exception, it has
committed no transaction scope and has rolled back every scope it began, so an error code of
the engine reaches the caller after the rollback. (2) `Get(Dbt*, Dbt*)`, `Put(Dbt*, Dbt*)` and
`Delete(Dbt*)` on a transactional per-call store whose transaction calls succeed, with a retry
limit of at least 1: when the record call returns a code `r` outside the outcomes of the
operation, the transaction has been committed before the `BdbException` with code `r` is
thrown, and there is no abort; when the record call throws a `DbException` that is not a
deadlock, the error is logged and the transaction aborted before the `BdbException` with the
errno is thrown. (3) The read-modify-write `Put` on such a store, with a key that passes the
key check, an entry whose buffer is a non-empty array, and a cursor open and close that return
`SUCCESS`: when the cursor read returns a code `r` that is none of `SUCCESS`, `NOTFOUND` and
`KEYEMPTY`, the `BdbException` with code `r` is thrown after the cursor is closed, and the
transaction is neither committed nor aborted; when the cursor read throws a `DbException` that
is not a deadlock, the error is logged and the transaction aborted, the cursor is closed, and
the `BdbException` built from the code at hand and the errno is thrown. -/
theorem C13_rollback_on_engine_error (K : Constants) (db : DatabaseImpl) :
    (∀ (key buffer : DataBuffer) (offset length flags : Int) (e : Exn),
      ((db.Get K key offset buffer flags []).1 = .error e →
        (steps (db.Get K key offset buffer flags []).2.2).count .commit = 0 ∧
        (steps (db.Get K key offset buffer flags []).2.2).count .begin
          = (steps (db.Get K key offset buffer flags []).2.2).count .rollback) ∧
      ((db.GetStream K key offset length flags []).1 = .error e →
        (steps (db.GetStream K key offset length flags []).2.2).count .commit = 0 ∧
        (steps (db.GetStream K key offset length flags []).2.2).count .begin
          = (steps (db.GetStream K key offset length flags []).2.2).count .rollback) ∧
      ((db.GetBuffer K key offset length flags []).1 = .error e →
        (steps (db.GetBuffer K key offset length flags []).2.2).count .commit = 0 ∧
        (steps (db.GetBuffer K key offset length flags []).2.2).count .begin
          = (steps (db.GetBuffer K key offset length flags []).2.2).count .rollback) ∧
      ((db.Put K key offset length buffer flags []).1 = .error e →
        (steps (db.Put K key offset length buffer flags []).2.2).count .commit = 0 ∧
        (steps (db.Put K key offset length buffer flags []).2.2).count .begin
          = (steps (db.Put K key offset length buffer flags []).2.2).count .rollback) ∧
      ((db.Delete K key flags []).1 = .error e →
        (steps (db.Delete K key flags []).2.2).count .commit = 0 ∧
        (steps (db.Delete K key flags []).2.2).count .begin
          = (steps (db.Delete K key flags []).2.2).count .rollback) ∧
      ((db.Exists K key flags []).1 = .error e →
        (steps (db.Exists K key flags []).2.2).count .commit = 0 ∧
        (steps (db.Exists K key flags []).2.2).count .begin
          = (steps (db.Exists K key flags []).2.2).count .rollback) ∧
      ((db.GetLength K key flags []).1 = .error e →
        (steps (db.GetLength K key flags []).2.2).count .commit = 0 ∧
        (steps (db.GetLength K key flags []).2.2).count .begin
          = (steps (db.GetLength K key flags []).2.2).count .rollback)) ∧
    (db.TxnOk → db.m_pTrMode = .PerCall → db.m_isTxn = true → 0 < db.m_maxDeadlockRetries →
      ∀ (dbtKey dbtValue : Dbt) (t : Trace) (r size keySize errno : Int),
      (db.m_pDb.get (calls t) (some (begins t)) (some dbtKey) (some dbtValue) 0
          = .returns r size keySize →
        r ≠ K.SUCCESS → r ≠ K.NOTFOUND → r ≠ K.KEYEMPTY → r ≠ K.BUFFER_SMALL →
        db.GetDbt K dbtKey dbtValue t
          = (.error (.BdbException r), dbtValue.set_size size,
              t ++ [.txn_begin (begins t),
                .call (some (begins t)) (some dbtKey) (some dbtValue) 0,
                .commit (begins t)])) ∧
      (db.m_pDb.put (calls t) (some (begins t)) (some dbtKey) (some dbtValue) 0
          = .returns r size keySize →
        r ≠ K.SUCCESS →
        db.PutDbt K dbtKey dbtValue t
          = (.error (.BdbException r),
              t ++ [.txn_begin (begins t),
                .call (some (begins t)) (some dbtKey) (some dbtValue) 0,
                .commit (begins t)])) ∧
      (db.m_pDb.del (calls t) (some (begins t)) (some dbtKey) 0 = .returns r size keySize →
        r ≠ K.SUCCESS → r ≠ K.NOTFOUND → r ≠ K.KEYEMPTY →
        db.DeleteDbt K dbtKey t
          = (.error (.BdbException r),
              t ++ [.txn_begin (begins t), .call (some (begins t)) (some dbtKey) none 0,
                .commit (begins t)])) ∧
      (db.m_pDb.get (calls t) (some (begins t)) (some dbtKey) (some dbtValue) 0
          = .throws (.DbException errno) →
        errno ≠ K.BUFFER_SMALL →
        db.GetDbt K dbtKey dbtValue t
          = (.error (.BdbException errno), dbtValue,
              t ++ [.txn_begin (begins t),
                .call (some (begins t)) (some dbtKey) (some dbtValue) 0,
                .err errno .ErrorGettingData, .abort (begins t)])) ∧
      (db.m_pDb.put (calls t) (some (begins t)) (some dbtKey) (some dbtValue) 0
          = .throws (.DbException errno) →
        db.PutDbt K dbtKey dbtValue t
          = (.error (.BdbException errno),
              t ++ [.txn_begin (begins t),
                .call (some (begins t)) (some dbtKey) (some dbtValue) 0,
                .err errno .ErrorGettingData, .abort (begins t)])) ∧
      (db.m_pDb.del (calls t) (some (begins t)) (some dbtKey) 0
          = .throws (.DbException errno) →
        db.DeleteDbt K dbtKey t
          = (.error (.BdbException errno),
              t ++ [.txn_begin (begins t), .call (some (begins t)) (some dbtKey) none 0,
                .err errno .ErrorGettingData, .abort (begins t)]))) ∧
    (db.TxnOk → db.m_pTrMode = .PerCall → db.m_isTxn = true → 0 < db.m_maxDeadlockRetries →
      ∀ (eng : RmwEngine) (key : Option Int) (dbEntry : DatabaseEntry)
        (rmwDelegate : DatabaseEntry → DatabaseEntry) (fuel : Nat) (t : Trace) (r errno : Int),
      key ≠ some 0 → addressOfFirst dbEntry.Buffer = .ok () →
      eng.cursor 0 = .returns K.SUCCESS → eng.close 0 = .returns K.SUCCESS →
      (eng.get 0 = .returns r → r ≠ K.SUCCESS → r ≠ K.NOTFOUND → r ≠ K.KEYEMPTY →
        db.PutRMW K eng key dbEntry rmwDelegate (fuel + 1) t
          = (.error (.BdbException r), dbEntry,
              t ++ [.txn_begin (begins t), .op (.cursor (some (begins t)) db.m_isCDB),
                .op (.cursor_get_SET_RMW (DatabaseImpl.PutRMW.dbtKey key)
                  (DatabaseImpl.PutRMW.dbtGetValue K dbEntry)),
                .op .cursor_close])) ∧
      (eng.get 0 = .throws (.DbException errno) →
        db.PutRMW K eng key dbEntry rmwDelegate (fuel + 1) t
          = (.error (BdbExceptionFactory.CreateDb K.SUCCESS errno), dbEntry,
              t ++ [.txn_begin (begins t), .op (.cursor (some (begins t)) db.m_isCDB),
                .op (.cursor_get_SET_RMW (DatabaseImpl.PutRMW.dbtKey key)
                  (DatabaseImpl.PutRMW.dbtGetValue K dbEntry)),
                .err errno .ErrorGettingData, .abort (begins t), .op .cursor_close]))) := by
  refine ⟨fun key buffer offset length flags e => ⟨?_, ?_, ?_, ?_, ?_, ?_, ?_⟩, ?_, ?_⟩
  · exact rolled_back_of_noCommitOnError db _ (Get_body_sound K db key offset buffer flags {} [])
      (Get_body_noCommitOnError K db key offset buffer flags {} []) e
  · exact rolled_back_of_noCommitOnError db _
      (GetStream_body_sound K db key offset length flags {} [])
      (GetStream_body_noCommitOnError K db key offset length flags {} []) e
  · exact rolled_back_of_noCommitOnError db _
      (GetBuffer_body_sound K db key offset length flags {} [])
      (GetBuffer_body_noCommitOnError K db key offset length flags {} []) e
  · exact rolled_back_of_noCommitOnError db _
      (Put_body_sound K db key offset length buffer flags {} [])
      (Put_body_noCommitOnError K db key offset length buffer flags {} []) e
  · exact rolled_back_of_noCommitOnError db _ (Delete_body_sound K db key flags {} [])
      (Delete_body_noCommitOnError K db key flags {} []) e
  · exact rolled_back_of_noCommitOnError db _ (Exists_body_sound K db key flags {} [])
      (Exists_body_noCommitOnError K db key flags {} []) e
  · exact rolled_back_of_noCommitOnError db _ (GetLength_body_sound K db key flags {} [])
      (GetLength_body_noCommitOnError K db key flags {} []) e
  · intro hdb hm hx hN dbtKey dbtValue t r size keySize errno
    obtain ⟨f, hf⟩ : ∃ f, (max 1 db.m_maxDeadlockRetries).toNat = f + 1 :=
      ⟨(max 1 db.m_maxDeadlockRetries).toNat - 1, by
        have : 1 ≤ max 1 db.m_maxDeadlockRetries := le_max_left _ _
        omega⟩
    have hret := fun shape bdbCall data => retryLoop_first_returns K db hdb hm hx shape bdbCall
      (some dbtKey) data f 0 none 0 t hN r size keySize
    have hthr := fun shape bdbCall data => retryLoop_first_throws K db hdb hm hx shape bdbCall
      (some dbtKey) data f 0 none 0 t hN errno
    refine ⟨?_, ?_, ?_, ?_, ?_, ?_⟩
    · intro hres h1 h2 h3 h4
      rw [DatabaseImpl.GetDbt, hf, hret DatabaseImpl.GetDbt.shape get_core (some dbtValue)
        (by simpa [get_core] using hres)]
      simp [DatabaseImpl.GetDbt.shape, h1, h2, h3, h4, afterCall]
    · intro hres h1
      rw [DatabaseImpl.PutDbt, hf, hret DatabaseImpl.PutDbt.shape put_core (some dbtValue)
        (by simpa [put_core] using hres)]
      simp [DatabaseImpl.PutDbt.shape, h1]
    · intro hres h1 h2 h3
      rw [DatabaseImpl.DeleteDbt, hf, hret DatabaseImpl.DeleteDbt.shape del_core none
        (by simpa [del_core] using hres)]
      simp [DatabaseImpl.DeleteDbt.shape, h1, h2, h3]
    · intro hres h1
      rw [DatabaseImpl.GetDbt, hf, hthr DatabaseImpl.GetDbt.shape get_core (some dbtValue)
        (by simpa [get_core] using hres)]
      simp [DatabaseImpl.GetDbt.shape, h1, CreateDb_zero]
    · intro hres
      rw [DatabaseImpl.PutDbt, hf, hthr DatabaseImpl.PutDbt.shape put_core (some dbtValue)
        (by simpa [put_core] using hres)]
      simp [DatabaseImpl.PutDbt.shape, CreateDb_zero]
    · intro hres
      rw [DatabaseImpl.DeleteDbt, hf, hthr DatabaseImpl.DeleteDbt.shape del_core none
        (by simpa [del_core] using hres)]
      simp [DatabaseImpl.DeleteDbt.shape, CreateDb_zero]
  · intro hdb hm hx hN eng key dbEntry rmwDelegate fuel t r errno hkey hbuf hcur hclose
    obtain ⟨⟨-, hb, ha⟩, -⟩ := hdb
    have hcheck : (match key with
        | some length => CheckForEmptyKey K length
        | none => .ok ()) = .ok () := by
      cases key with
      | none => rfl
      | some l =>
        have : l ≠ 0 := fun h => hkey (by rw [h])
        simp [CheckForEmptyKey, this]
    refine ⟨?_, ?_⟩
    · intro hget h1 h2 h3
      simp only [DatabaseImpl.PutRMW, hcheck, hbuf]
      rw [DatabaseImpl.PutRMW.loop]
      simp [hN, DatabaseImpl.PutRMW.attempt, DatabaseImpl.BeginTrans, hm, hx, hb, hcur, hget,
        h1, h2, h3, Create_eq, DatabaseImpl.PutRMW.catchClauses,
        DatabaseImpl.PutRMW.finallyClose, hclose]
    · intro hget
      have hex0 : (NativeExn.DbException errno).get_errno = some errno := rfl
      simp only [DatabaseImpl.PutRMW, hcheck, hbuf]
      rw [DatabaseImpl.PutRMW.loop]
      simp [hN, DatabaseImpl.PutRMW.attempt, DatabaseImpl.BeginTrans, hm, hx, hb, hcur, hget,
        DatabaseImpl.PutRMW.catchClauses, hex0, DatabaseImpl.catchDbException,
        DatabaseImpl.RollbackTrans, ha, DatabaseImpl.Log, DatabaseImpl.PutRMW.finallyClose,
        hclose]

/-- C13, the code as it is, on a store whose record calls return the error code 22: the
facade's `Get` throws the `BdbException` with code 22 after the rollback of its scope, with no
commit; `Get(Dbt*, Dbt*)` throws it after the commit of its transaction, with no abort; and the
read-modify-write `Put`, whose cursor read returns 22, throws it with its transaction neither
committed nor aborted. -/
theorem C13_rollback_on_engine_error_witness :
    ((scriptedStore 3 fun _ => .returns 22 0 0).Get K0 keyInt32 (-1) (writableBuffer 8) 0 []).1
      = .error (.BdbException 22) ∧
    steps ((scriptedStore 3 fun _ => .returns 22 0 0).Get K0 keyInt32 (-1) (writableBuffer 8) 0
      []).2.2 = [.begin, .call, .rollback] ∧
    ((steps ((scriptedStore 3 fun _ => .returns 22 0 0).Get K0 keyInt32 (-1) (writableBuffer 8)
        0 []).2.2).count .commit = 0 ∧
      (steps ((scriptedStore 3 fun _ => .returns 22 0 0).Get K0 keyInt32 (-1) (writableBuffer 8)
        0 []).2.2).count .begin
      = (steps ((scriptedStore 3 fun _ => .returns 22 0 0).Get K0 keyInt32 (-1)
        (writableBuffer 8) 0 []).2.2).count .rollback) ∧
    (scriptedStore 3 fun _ => .returns 22 0 0).GetDbt K0 { size := 4 } { size := 8 } []
      = (.error (.BdbException 22), { size := 0 },
          [.txn_begin 0, .call (some 0) (some { size := 4 }) (some { size := 8 }) 0,
            .commit 0]) ∧
    (scriptedStore 3 fun _ => .returns 22 0 0).PutRMW K0
        (scriptedRmw (fun _ => .returns 22) fun _ => .returns 0) (some 4) ⟨some 8, 0, 8⟩ id
        (2 + 1) []
      = (.error (.BdbException 22), ⟨some 8, 0, 8⟩,
          [.txn_begin 0, .op (.cursor (some 0) false),
            .op (.cursor_get_SET_RMW { size := 4 }
              { size := 8, ulen := 8, dlen := 8, flags := 320 }),
            .op .cursor_close]) :=
  ⟨by decide, by decide,
    ((C13_rollback_on_engine_error K0 (scriptedStore 3 fun _ => .returns 22 0 0)).1 keyInt32
      (writableBuffer 8) (-1) 0 0 (.BdbException 22)).1 (by decide),
    ((C13_rollback_on_engine_error K0 (scriptedStore 3 fun _ => .returns 22 0 0)).2.1
      ⟨⟨by decide, fun _ => rfl, fun _ => rfl⟩, fun _ => rfl⟩ rfl rfl (by decide)
      { size := 4 } { size := 8 } [] 22 0 0 0).1 rfl (by decide) (by decide) (by decide)
      (by decide),
    ((C13_rollback_on_engine_error K0 (scriptedStore 3 fun _ => .returns 22 0 0)).2.2
      ⟨⟨by decide, fun _ => rfl, fun _ => rfl⟩, fun _ => rfl⟩ rfl rfl (by decide)
      (scriptedRmw (fun _ => .returns 22) fun _ => .returns 0) (some 4) ⟨some 8, 0, 8⟩ id 2 []
      22 0 (by decide) rfl rfl rfl).1 rfl (by decide) (by decide) (by decide)⟩

/-! ## C22: `GetBuffers` at `SetRange` -/

/-- C22: `CursorImpl::GetBuffers` with position `SetRange` throws `NotSupportedException` for
every cursor, key, offset, length and flags, and the trace is the one it started with: no
engine call is made. -/
theorem C22_GetBuffers_SetRange_unsupported (K : Constants) (cur : CursorImpl)
    (key : DataBuffer) (offset length : Int) (flags : Nat) (t : Trace) :
    CursorImpl.GetBuffers K cur key offset length K.SetRange flags t
      = (.error .NotSupportedException, t) := by
  simp [CursorImpl.GetBuffers, CursorImpl.GetBuffers.dbtKey, K.Set_ne_SetRange.symm]

/-! ## C25 and C26: the transfer slot is resolved once -/

/-- Whatever `initialize_for_read` does, it leaves the guard `_initialized` set. -/
theorem HolderState.initialize_for_read_initialized (s : HolderState) (bf : DataBuffer) :
    (s.initialize_for_read bf).2.holder._initialized = true := by
  unfold HolderState.initialize_for_read
  by_cases hi : s.holder._initialized = true
  · simp [hi]
  · simp only [hi]
    by_cases ho : bf.IsObject = true
    · by_cases ha : s._handle_IsAllocated = true <;> simp [ho, ha]
    · cases hbt : bf.type <;> simp [ho]

/-- On a holder whose `_handle` is not allocated, `HolderState.initialize_for_read` throws what
`DbtHolder.initialize_for_read` throws and leaves the transfer record it returns. -/
theorem HolderState.initialize_for_read_refines (s : HolderState) (bf : DataBuffer)
    (hh : s._handle_IsAllocated = false) :
    DbtHolder.initialize_for_read s.holder bf
      = match s.initialize_for_read bf with
        | (some e, _) => .error e.toExn
        | (none, s1) => .ok s1.holder := by
  unfold HolderState.initialize_for_read DbtHolder.initialize_for_read
  by_cases hi : s.holder._initialized = true
  · simp [hi, HolderError.toExn]
  · simp only [hi]
    by_cases ho : bf.IsObject = true
    · simp [ho, hh]
    · cases hbt : bf.type <;> simp [ho, HolderError.toExn]

/-- On a holder whose `_handle` is not allocated, `HolderState.initialize_for_write` throws what
`DbtHolder.initialize_for_write` throws and leaves the transfer record it returns. -/
theorem HolderState.initialize_for_write_refines (K : Constants) (s : HolderState)
    (bf : DataBuffer) (hh : s._handle_IsAllocated = false) :
    DbtHolder.initialize_for_write K s.holder bf
      = match s.initialize_for_write K bf with
        | (some e, _) => .error e.toExn
        | (none, s1) => .ok s1.holder := by
  unfold HolderState.initialize_for_write DbtHolder.initialize_for_write
    HolderState.initialize_for_read_write DbtHolder.initialize_for_read_write
  rw [HolderState.initialize_for_read_refines s bf hh]
  by_cases hw : (bf.IsWritable || bf.IsEmpty) = true
  · simp only [hw]
    rcases hr : s.initialize_for_read bf with ⟨_ | e, s1⟩ <;> simp
  · simp [hw, HolderError.toExn]

/-- C25: whatever state a holder is in and whatever the two descriptors are, a second
`initialize_for_read` after a first one throws "Buffer already initialized" and leaves the whole
state of the holder (data pointer, size, flags and the rest of the transfer record) as the first
call left it. -/
theorem C25_second_initialize_fails (s : HolderState) (bf1 bf2 : DataBuffer) :
    (s.initialize_for_read bf1).2.initialize_for_read bf2
      = (some .BufferAlreadyInitialized, (s.initialize_for_read bf1).2) := by
  have h := HolderState.initialize_for_read_initialized s bf1
  generalize (s.initialize_for_read bf1).2 = s1 at h ⊢
  simp [HolderState.initialize_for_read, h]

/-- C26: `initialize_for_write(d)` throws "Buffer isn't writable" exactly when `d` is neither
writable nor empty, in whatever state the holder is. On a holder not yet initialized, a `d` that
is writable or empty and of one of the four kinds is accepted: the slot's size and its declared
capacity `ulen` both become the byte length of `d` (0 for Empty, 4 for a 32-bit integer, 8 for a
64-bit integer, the region length for an object region), and the user-memory flag
`DB_DBT_USERMEM` is added to its flags. -/
theorem C26_initialize_for_write_outcomes (K : Constants) (s : HolderState) (d : DataBuffer) :
    ((s.initialize_for_write K d).1 = some .BufferIsntWritable
        ↔ ¬ (d.IsWritable = true ∨ d.IsEmpty = true))
    ∧ (s.holder._initialized = false → s._handle_IsAllocated = false →
        (d.IsWritable = true ∨ d.IsEmpty = true) → d.type ≠ .unhandled →
        (s.initialize_for_write K d).1 = none
        ∧ (s.initialize_for_write K d).2.holder.dbt.size = d.ByteLength
        ∧ (s.initialize_for_write K d).2.holder.dbt.ulen = d.ByteLength
        ∧ (s.initialize_for_write K d).2.holder.dbt.flags
            = s.holder.dbt.flags ||| K.DB_DBT_USERMEM
        ∧ d.ByteLength = (match d.type with
            | .Empty => 0 | .Int32 => 4 | .Int64 => 8 | .Object => d.length | .unhandled => 0)
        ∧ DbtHolder.initialize_for_write K s.holder d
            = .ok (s.initialize_for_write K d).2.holder) := by
  constructor
  · unfold HolderState.initialize_for_write HolderState.initialize_for_read_write
      HolderState.initialize_for_read
    by_cases hw : (d.IsWritable || d.IsEmpty) = true
    · have hw2 : d.IsWritable = true ∨ d.IsEmpty = true := by simpa using hw
      simp only [hw, Bool.not_true, Bool.false_eq_true, if_false]
      by_cases hi : s.holder._initialized = true
      · simp [hi, hw2]
      · simp only [hi]
        by_cases ho : d.IsObject = true
        · by_cases ha : s._handle_IsAllocated = true <;> simp [ho, ha, hw2]
        · cases hbt : d.type <;> simp [ho, hw2]
    · have hw2 : ¬ (d.IsWritable = true ∨ d.IsEmpty = true) := by simpa using hw
      simp [hw, hw2]
  · intro hi hh hw ht
    have hw1 : (d.IsWritable || d.IsEmpty) = true := by simpa using hw
    have href := HolderState.initialize_for_write_refines K s d hh
    rw [href]
    unfold HolderState.initialize_for_write HolderState.initialize_for_read_write
      HolderState.initialize_for_read DataBuffer.ByteLength
    simp only [hw1, hi, hh, Bool.not_true, Bool.false_eq_true, if_false]
    by_cases ho : d.IsObject = true
    · have hto : d.type = .Object := by simpa [DataBuffer.IsObject] using ho
      simp [ho, hto, Dbt.set_size]
    · cases hbt : d.type <;> simp_all [Dbt.set_size, DataBuffer.IsObject]

/-- C26 at a fresh holder and a writable object region of 10 bytes, and at a read-only 32-bit
integer. -/
theorem C26_initialize_for_write_outcomes_witness :
    (({} : HolderState).initialize_for_write K0 (writableBuffer 10)).1 = none
    ∧ (({} : HolderState).initialize_for_write K0 (writableBuffer 10)).2.holder.dbt.size = 10
    ∧ (({} : HolderState).initialize_for_write K0 (writableBuffer 10)).2.holder.dbt.ulen = 10
    ∧ (({} : HolderState).initialize_for_write K0 (writableBuffer 10)).2.holder.dbt.flags = 256
    ∧ (({} : HolderState).initialize_for_write K0 keyInt32).1 = some .BufferIsntWritable :=
  have h := (C26_initialize_for_write_outcomes K0 {} (writableBuffer 10)).2 rfl rfl
    (Or.inl rfl) (by decide)
  ⟨h.1, h.2.1.trans (by decide), h.2.2.1.trans (by decide), h.2.2.2.1.trans (by decide),
    (C26_initialize_for_write_outcomes K0 {} keyInt32).1.mpr (by decide)⟩

/-! ## C30: a retry limit that is not positive -/

/-- C30: on a store whose retry limit `m_maxDeadlockRetries` is `≤ 0`, `Put(Dbt*, Dbt*)` returns
normally with the trace it started with: no transaction call, no record call, no log entry and
no error. `DatabaseImpl::DeadlockLoop` on the same store, when the transaction calls succeed,
still makes exactly one record call, whatever that call answers. -/
theorem C30_nonpositive_limit (K : Constants) (db : DatabaseImpl)
    (hN : db.m_maxDeadlockRetries ≤ 0) (dbtKey dbtValue : Dbt) (methodName : MethodName)
    (context : TransactionContext) (key data : Option Dbt) (options : Int) (bdbCall : BdbCall)
    (t : Trace) :
    db.PutDbt K dbtKey dbtValue t = (.ok (), t)
    ∧ (db.TxnCallsSucceed →
        ∃ r c d u, db.DeadlockLoop K methodName context key data options bdbCall t
            = (r, c, d, t ++ u) ∧ calls u = 1 ∧ r ≠ .error .outOfFuel) := by
  have hfuel : (max 1 db.m_maxDeadlockRetries).toNat = 0 + 1 := by
    rw [max_eq_left (by omega)]; rfl
  constructor
  · unfold DatabaseImpl.PutDbt
    rw [hfuel]
    simp [DatabaseImpl.retryLoop, not_lt.mpr hN]
  · intro hdb
    obtain ⟨txn, u, hbeg, hu⟩ := begin_spec db hdb context t
    obtain ⟨v, hrb, hv⟩ := rollback_spec db hdb ⟨true, txn⟩ rfl
      (DatabaseImpl.Log K.LOCK_DEADLOCK .Deadlock (t ++ (u ++ [.call txn key data options])))
    simp only [DatabaseImpl.Log, List.append_assoc, List.cons_append, List.nil_append,
      List.singleton_append] at hrb
    have hge : db.m_maxDeadlockRetries ≤ 1 := by omega
    have hcu : calls u = 0 := hu.1
    have hcv : calls v = 0 := hv.1
    unfold DatabaseImpl.DeadlockLoop
    rw [hfuel]
    unfold DatabaseImpl.DeadlockLoop.loop DatabaseImpl.DeadlockLoop.attempt
    rw [hbeg]
    simp only [calls_append, hcu, Nat.add_zero]
    cases hres : bdbCall db.m_pDb (calls t) txn key data options with
    | returns ret size keySize =>
      by_cases hd : ret = K.LOCK_DEADLOCK
      · refine ⟨.error (BdbExceptionFactory.Create K.LOCK_DEADLOCK), ⟨false, none⟩,
          afterCall data size,
          u ++ [.call txn key data options] ++ [.err K.LOCK_DEADLOCK .Deadlock] ++ v
            ++ [.errx (.GivingUp methodName)], ?_, ?_, ?_⟩
        · simp [hd, hrb, hge, DatabaseImpl.Log]
        · simp [hcu, hcv, Event.isCall]
        · simp [Create_eq]
      · refine ⟨.ok ret, ⟨true, txn⟩, afterCall data size, u ++ [.call txn key data options],
          ?_, ?_, ?_⟩
        · simp [hd]
        · simp [hcu, Event.isCall]
        · simp
    | throws e =>
      cases e with
      | DbDeadlockException errno =>
        refine ⟨.error (BdbExceptionFactory.Create K.LOCK_DEADLOCK), ⟨false, none⟩, data,
          u ++ [.call txn key data options] ++ [.err K.LOCK_DEADLOCK .Deadlock] ++ v
            ++ [.errx (.GivingUp methodName)], ?_, ?_, ?_⟩
        · simp [hrb, hge, DatabaseImpl.Log]
        · simp [hcu, hcv, Event.isCall]
        · simp [Create_eq]
      | DbMemoryException errno size =>
        exact ⟨.error (.native (.DbMemoryException errno size)), ⟨true, txn⟩, data,
          u ++ [.call txn key data options], by simp, by simp [hcu, Event.isCall], by simp⟩
      | DbException errno =>
        exact ⟨.error (.native (.DbException errno)), ⟨true, txn⟩, data,
          u ++ [.call txn key data options], by simp, by simp [hcu, Event.isCall], by simp⟩
      | exception =>
        exact ⟨.error (.native .exception), ⟨true, txn⟩, data,
          u ++ [.call txn key data options], by simp, by simp [hcu, Event.isCall], by simp⟩

/-- C30 at a transactional store with retry limit 0 whose record calls all succeed: the
`Put` on transfer records leaves the empty trace, the loop of the facade makes one call. -/
theorem C30_nonpositive_limit_witness :
    (scriptedStore 0 (fun _ => .returns 0 0 0)).PutDbt K0 {} {} [] = (.ok (), [])
    ∧ ∃ r c d u, (scriptedStore 0 (fun _ => .returns 0 0 0)).DeadlockLoop K0 .Put {}
          none none 0 put_core [] = (r, c, d, [] ++ u) ∧ calls u = 1 ∧ r ≠ .error .outOfFuel :=
  have h := C30_nonpositive_limit K0 (scriptedStore 0 (fun _ => .returns 0 0 0))
    (by decide) {} {} .Put {} none none 0 put_core []
  ⟨h.1, h.2 ⟨by decide, fun _ => rfl, fun _ => rfl⟩⟩

/-! ## C29: the read-modify-write `Put` when every insert loses the race -/

theorem inserts_visible (t : Trace) : inserts (visible t) = inserts t := by
  induction t with
  | nil => rfl
  | cons e t ih =>
    unfold inserts visible at ih ⊢
    cases e <;>
      simp_all [List.filter_cons, List.countP_cons, Event.isTxnCall, Event.isBegin,
        Event.isCommit, Event.isAbort, Event.isInsert]

theorem logEntries_visible (t : Trace) : logEntries (visible t) = logEntries t := by
  induction t with
  | nil => rfl
  | cons e t ih =>
    unfold logEntries visible at ih ⊢
    cases e <;>
      simp_all [List.filter_cons, Event.isTxnCall, Event.isBegin, Event.isCommit,
        Event.isAbort, Event.isLog]

/-- When every pass loses the insert race, `fuel` passes of the loop of the read-modify-write
`Put` are all made and leave the loop running, with the retry counter where it was. -/
theorem PutRMW_loop_lost_race (K : Constants) (db : DatabaseImpl) (eng : RmwEngine)
    (rmwDelegate : DatabaseEntry → DatabaseEntry) (dbtKey dbtGetValue : Dbt)
    (hdb : db.TxnOk) (hcdb : db.m_isCDB = false)
    (hcur : ∀ n, eng.cursor n = .returns K.SUCCESS)
    (hget : ∀ n, eng.get n = .returns K.NOTFOUND ∨ eng.get n = .returns K.KEYEMPTY)
    (hL : ∀ e, 0 < (rmwDelegate e).Length)
    (hB : ∀ e, addressOfFirst e.Buffer = .ok () → addressOfFirst (rmwDelegate e).Buffer = .ok ())
    (hput : ∀ n, eng.put_NOOVERWRITE n = .returns K.KEYEXIST)
    (hclose : ∀ n, eng.close n = .returns K.SUCCESS) :
    ∀ (fuel n : Nat) (s : RmwState), s.retry_count < db.m_maxDeadlockRetries →
      addressOfFirst s.dbEntry.Buffer = .ok () →
      ∃ s1 u, DatabaseImpl.PutRMW.loop K db eng rmwDelegate dbtKey dbtGetValue fuel n s
          = (.error .outOfFuel, s1) ∧ s1.t = s.t ++ u ∧ s1.retry_count = s.retry_count ∧
        inserts u = fuel ∧
        logEntries u = List.replicate fuel (.err K.LOCK_DEADLOCK .Retrying) := by
  intro fuel
  induction fuel with
  | zero =>
    intro n s _ _
    exact ⟨s, [], by simp [DatabaseImpl.PutRMW.loop], by simp, rfl, rfl, rfl⟩
  | succ fuel ih =>
    intro n s hN hs
    have hs1 : addressOfFirst (rmwDelegate (s.dbEntry.setLength 0)).Buffer = .ok () :=
      hB (s.dbEntry.setLength 0) hs
    have hg : ∃ g, (g = K.NOTFOUND ∨ g = K.KEYEMPTY) ∧ eng.get n = .returns g := by
      rcases hget n with h | h
      · exact ⟨_, Or.inl rfl, h⟩
      · exact ⟨_, Or.inr rfl, h⟩
    obtain ⟨g, hg1, hg2⟩ := hg
    obtain ⟨txn, u, hl, hv, -, -⟩ := PutRMW_pass_lost_race K db eng rmwDelegate dbtKey
      dbtGetValue fuel n s hdb hN hcdb g hg1 (hcur n) hg2 (hL _) hs1 (hput n) (hclose n)
    obtain ⟨s1, u1, hl1, ht1, hr1, hi1, hlog1⟩ := ih (n + 1)
      ⟨K.SUCCESS, txn, s.retry_count, false, rmwDelegate (s.dbEntry.setLength 0), s.t ++ u⟩ hN
      hs1
    refine ⟨s1, u ++ u1, by rw [hl, hl1], by rw [ht1, List.append_assoc], hr1, ?_, ?_⟩
    · have hiu : inserts u = 1 := by
        rw [← inserts_visible, hv]
        simp [inserts, Event.isInsert]
      have : inserts (u ++ u1) = inserts u + inserts u1 := by simp [inserts]
      rw [this, hiu, hi1, Nat.add_comm]
    · have hlu : logEntries u = [.err K.LOCK_DEADLOCK .Retrying] := by
        rw [← logEntries_visible, hv]
        simp [logEntries, Event.isLog]
      rw [logEntries_append, hlu, hlog1]
      rfl

/-- C29: the read-modify-write `Put` on a store that is not CDB, with a retry limit of at least
1, a key that passes the key check, transaction calls, cursor open and cursor close that
succeed, a caller's entry whose buffer is a non-empty array, and a transform that always leaves
an entry of positive length and leaves a buffer that is a non-empty array when it is given one
(so that `&valueBuffer[0]` and `&value[0]` can be taken and the insert is reached). If in every pass the
positioned read reports no record (`NOTFOUND` or `KEYEMPTY`) and the exclusive insert reports
`KEYEXIST`, then for every `k` the first `k` passes of the loop are all made, each with its
insert, and leave the loop still running: the operation has not returned and has not thrown,
the log holds `k` "Retrying" entries and no "Giving up" entry. The retry limit does not bound
the number of passes. -/
theorem C29_lost_race_never_gives_up (K : Constants) (db : DatabaseImpl) (eng : RmwEngine)
    (key : Option Int) (dbEntry : DatabaseEntry) (rmwDelegate : DatabaseEntry → DatabaseEntry)
    (t : Trace) (hdb : db.TxnOk) (hN : 0 < db.m_maxDeadlockRetries) (hkey : key ≠ some 0)
    (hcdb : db.m_isCDB = false) (hbuf : addressOfFirst dbEntry.Buffer = .ok ())
    (hcur : ∀ n, eng.cursor n = .returns K.SUCCESS)
    (hget : ∀ n, eng.get n = .returns K.NOTFOUND ∨ eng.get n = .returns K.KEYEMPTY)
    (hL : ∀ e, 0 < (rmwDelegate e).Length)
    (hB : ∀ e, addressOfFirst e.Buffer = .ok () → addressOfFirst (rmwDelegate e).Buffer = .ok ())
    (hput : ∀ n, eng.put_NOOVERWRITE n = .returns K.KEYEXIST)
    (hclose : ∀ n, eng.close n = .returns K.SUCCESS) (k : Nat) :
    ∃ e u, db.PutRMW K eng key dbEntry rmwDelegate k t = (.error .outOfFuel, e, t ++ u) ∧
      inserts u = k ∧
      logEntries u = List.replicate k (.err K.LOCK_DEADLOCK .Retrying) := by
  have hcheck : (match key with
      | some length => CheckForEmptyKey K length
      | none => .ok ()) = .ok () := by
    cases key with
    | none => rfl
    | some l =>
      have : l ≠ 0 := fun h => hkey (by rw [h])
      simp [CheckForEmptyKey, this]
  obtain ⟨s1, u, hl, ht, -, hi, hlog⟩ := PutRMW_loop_lost_race K db eng rmwDelegate
    (DatabaseImpl.PutRMW.dbtKey key) (DatabaseImpl.PutRMW.dbtGetValue K dbEntry) hdb hcdb hcur
    hget hL hB hput hclose k 0 ⟨0, none, 0, false, dbEntry, t⟩ hN hbuf
  refine ⟨s1.dbEntry, u, ?_, hi, hlog⟩
  simp only [DatabaseImpl.PutRMW, hcheck, hbuf, hl]
  rw [ht]

/-- C29 with a retry limit of 1: three passes are made, three inserts, and the loop is still
running. -/
theorem C29_lost_race_never_gives_up_witness :
    ∃ e u, (scriptedStore 1 fun _ => .returns 0 0 0).PutRMW K0
        (scriptedRmw (fun _ => .returns K0.NOTFOUND) fun _ => .returns K0.KEYEXIST) (some 4)
        ⟨some 8, 0, 8⟩ (fun e => e.setLength 5) 3 [] = (.error .outOfFuel, e, [] ++ u) ∧
      inserts u = 3 ∧
      logEntries u = List.replicate 3 (.err K0.LOCK_DEADLOCK .Retrying) :=
  C29_lost_race_never_gives_up K0 (scriptedStore 1 fun _ => .returns 0 0 0)
    (scriptedRmw (fun _ => .returns K0.NOTFOUND) fun _ => .returns K0.KEYEXIST) (some 4)
    ⟨some 8, 0, 8⟩ (fun e => e.setLength 5) []
    ⟨⟨by decide, fun _ => rfl, fun _ => rfl⟩, fun _ => rfl⟩ (by decide) (by decide) rfl rfl
    (fun _ => rfl) (fun _ => Or.inl rfl) (fun _ => (by decide : (0 : Int) < 5))
    (fun _ h => h) (fun _ => rfl) (fun _ => rfl) 3

/-! ## C21: the result codes of the cursor's `Get` variants -/

theorem buffer_small_distinct (K : Constants) :
    K.BUFFER_SMALL ≠ K.SUCCESS ∧ K.BUFFER_SMALL ≠ K.NOTFOUND ∧ K.BUFFER_SMALL ≠ K.KEYEMPTY := by
  have hd := K.distinct
  simp only [List.nodup_cons, List.mem_cons, List.mem_singleton, not_or, List.not_mem_nil,
    not_false_eq_true, List.nodup_nil, and_true] at hd
  exact ⟨fun h => hd.1.2.2.2.1 h.symm, fun h => hd.2.1.2.2.1 h.symm,
    fun h => hd.2.2.1.2.1 h.symm⟩

/-- C21 as stated fails. With the values -1 and -2 of `Lengths::NotFound` and `Lengths::Deleted`:
the cursor's `Get` into caller buffers answers `KEYEMPTY` with the lengths (-2, -2) and
`NOTFOUND` with (-1, -1), where the facade's `Get` answers both with -1; and the cursor's `Get`
into streams and `GetBuffers` throw for `BUFFER_SMALL`, where the facade's `Get` into a stream
returns the stream. -/
theorem C21_counterexample :
    (CursorImpl.Get K0
        ⟨some (scriptedStore 1 fun _ => .returns 0 0 0),
          some (scriptedDbc fun _ => .returns K0.KEYEMPTY 0 0)⟩
        keyInt32 (writableBuffer 8) (-1) K0.Set 0 []).1 = .ok ⟨-2, -2⟩ ∧
    (CursorImpl.Get K0
        ⟨some (scriptedStore 1 fun _ => .returns 0 0 0),
          some (scriptedDbc fun _ => .returns K0.NOTFOUND 0 0)⟩
        keyInt32 (writableBuffer 8) (-1) K0.Set 0 []).1 = .ok ⟨-1, -1⟩ ∧
    (DatabaseImpl.Get K0 (scriptedStore 1 fun _ => .returns K0.KEYEMPTY 0 0)
        keyInt32 (-1) (writableBuffer 8) 0 []).1 = .ok (-1) ∧
    (DatabaseImpl.Get K0 (scriptedStore 1 fun _ => .returns K0.NOTFOUND 0 0)
        keyInt32 (-1) (writableBuffer 8) 0 []).1 = .ok (-1) ∧
    (CursorImpl.GetStreams K0
        ⟨some (scriptedStore 1 fun _ => .returns 0 0 0),
          some (scriptedDbc fun _ => .returns K0.BUFFER_SMALL 9 4)⟩
        keyInt32 0 (-1) K0.Set 0 []).1 = .error (.BdbException K0.BUFFER_SMALL) ∧
    (CursorImpl.GetBuffers K0
        ⟨some (scriptedStore 1 fun _ => .returns 0 0 0),
          some (scriptedDbc fun _ => .returns K0.BUFFER_SMALL 9 4)⟩
        keyInt32 0 (-1) K0.Set 0 []).1 = .error (.BdbException K0.BUFFER_SMALL) ∧
    (DatabaseImpl.GetStream K0 (scriptedStore 1 fun _ => .returns K0.BUFFER_SMALL 9 4)
        keyInt32 0 (-1) 0 []).1 = .ok (some 9) := by
  decide

/-- C21, amended. When the retry loop of the cursor returns the code `ret`:
the two `Get` into caller buffers answer `NOTFOUND` with the lengths
(`Lengths::NotFound`, `Lengths::NotFound`), `KEYEMPTY` with
(`Lengths::Deleted`, `Lengths::Deleted`), and `SUCCESS` and `BUFFER_SMALL` alike with the sizes
the engine left in the two slots (key length 0 at position `Set`), without throwing;
the `Get` into streams and `GetBuffers` answer `NOTFOUND` with no streams and the code
`Lengths::NotFound`, `KEYEMPTY` with no streams and the code `Lengths::Deleted`, `SUCCESS` with
the streams and code 0, and throw an error with the code `BUFFER_SMALL` for `BUFFER_SMALL`.
The facade's `SwitchMemStd`, when the commit succeeds, returns -1 for `NOTFOUND` and `KEYEMPTY`
alike and the size for `SUCCESS` and `BUFFER_SMALL` alike. -/
theorem C21_cursor_Get_result_codes (K : Constants) (cur : CursorImpl) (key value : DataBuffer)
    (offset keyOffset length : Int) (position flags : Nat) (t : Trace) (ret : Int)
    (k1 d1 : Option Dbt) (t1 : Trace) :
    (∀ dbtKey holder, CursorImpl.Get.dbtKey K key position = .ok dbtKey →
      DbtHolder.initialize_for_write K {} value = .ok holder →
      cur.DeadlockLoop K (some dbtKey.dbt) (some (CursorImpl.Get.dbtBuffer K holder offset))
        (position ||| flags : Nat) CursorImpl.get_core t = (.ok ret, k1, d1, t1) →
      (ret = K.NOTFOUND → CursorImpl.Get K cur key value offset position flags t
        = (.ok ⟨K.NotFound, K.NotFound⟩, t1)) ∧
      (ret = K.KEYEMPTY → CursorImpl.Get K cur key value offset position flags t
        = (.ok ⟨K.Deleted, K.Deleted⟩, t1)) ∧
      (ret = K.SUCCESS ∨ ret = K.BUFFER_SMALL →
        CursorImpl.Get K cur key value offset position flags t
        = (.ok ⟨if position = K.Set then 0 else (k1.getD dbtKey.dbt).size,
            (d1.getD holder.dbt).size⟩, t1))) ∧
    (∀ dbtKey holder, CursorImpl.GetOffsets.dbtKey K key keyOffset position = .ok dbtKey →
      DbtHolder.initialize_for_write K {} value = .ok holder →
      cur.DeadlockLoop K (some dbtKey.dbt) (some (CursorImpl.Get.dbtBuffer K holder offset))
        (position ||| flags : Nat) CursorImpl.get_core t = (.ok ret, k1, d1, t1) →
      (ret = K.NOTFOUND → CursorImpl.GetOffsets K cur key keyOffset value offset position flags t
        = (.ok ⟨K.NotFound, K.NotFound⟩, t1)) ∧
      (ret = K.KEYEMPTY → CursorImpl.GetOffsets K cur key keyOffset value offset position flags t
        = (.ok ⟨K.Deleted, K.Deleted⟩, t1)) ∧
      (ret = K.SUCCESS ∨ ret = K.BUFFER_SMALL →
        CursorImpl.GetOffsets K cur key keyOffset value offset position flags t
        = (.ok ⟨if position = K.Set then 0 else (k1.getD dbtKey.dbt).size,
            (d1.getD holder.dbt).size⟩, t1))) ∧
    (∀ dbtKey, CursorImpl.GetStreams.dbtKey K key position = .ok dbtKey →
      cur.DeadlockLoop K (some dbtKey.dbt) (some (CursorImpl.GetStreams.dbtBuffer K offset length))
        (position ||| flags : Nat) CursorImpl.get_core t = (.ok ret, k1, d1, t1) →
      (ret = K.NOTFOUND → CursorImpl.GetStreams K cur key offset length position flags t
        = (.ok ⟨none, none, K.NotFound⟩, t1)) ∧
      (ret = K.KEYEMPTY → CursorImpl.GetStreams K cur key offset length position flags t
        = (.ok ⟨none, none, K.Deleted⟩, t1)) ∧
      (ret = K.SUCCESS → CursorImpl.GetStreams K cur key offset length position flags t
        = (.ok ⟨if position = K.Set then none else k1.map Dbt.size, d1.map Dbt.size, 0⟩, t1)) ∧
      (ret = K.BUFFER_SMALL → CursorImpl.GetStreams K cur key offset length position flags t
        = (.error (.BdbException K.BUFFER_SMALL), t1))) ∧
    (∀ dbtKey, CursorImpl.GetBuffers.dbtKey K key position = .ok dbtKey →
      cur.DeadlockLoop K (some dbtKey.dbt) (some (CursorImpl.GetBuffers.dbtBuffer K offset length))
        (position ||| flags : Nat) CursorImpl.get_core t = (.ok ret, k1, d1, t1) →
      (ret = K.NOTFOUND → CursorImpl.GetBuffers K cur key offset length position flags t
        = (.ok ⟨none, none, K.NotFound⟩, t1)) ∧
      (ret = K.KEYEMPTY → CursorImpl.GetBuffers K cur key offset length position flags t
        = (.ok ⟨none, none, K.Deleted⟩, t1)) ∧
      (ret = K.SUCCESS → CursorImpl.GetBuffers K cur key offset length position flags t
        = (.ok ⟨if position = K.Set then none else k1.map Dbt.size, d1.map Dbt.size, 0⟩, t1)) ∧
      (ret = K.BUFFER_SMALL → CursorImpl.GetBuffers K cur key offset length position flags t
        = (.error (.BdbException K.BUFFER_SMALL), t1))) ∧
    (∀ (db : DatabaseImpl) (c c1 : TransactionContext) (size : Int) (u u1 : Trace),
      c.commit db u = (.ok (), c1, u1) →
      (ret = K.NOTFOUND ∨ ret = K.KEYEMPTY → db.SwitchMemStd K c ret size u = (.ok (-1), c1, u1)) ∧
      (ret = K.SUCCESS ∨ ret = K.BUFFER_SMALL →
        db.SwitchMemStd K c ret size u = (.ok size, c1, u1))) := by
  obtain ⟨hSN, hSK, -, hSB, -, hNK⟩ := codes_distinct K
  obtain ⟨hBS, hBN, hBK⟩ := buffer_small_distinct K
  refine ⟨?_, ?_, ?_, ?_, ?_⟩
  · intro dbtKey holder hk hv hl
    refine ⟨fun h => ?_, fun h => ?_, fun h => ?_⟩
    · simp [CursorImpl.Get, hk, hv, hl, CursorImpl.Get.lengths, h]
    · simp [CursorImpl.Get, hk, hv, hl, CursorImpl.Get.lengths, h, hNK.symm]
    · rcases h with h | h
      · simp [CursorImpl.Get, hk, hv, hl, CursorImpl.Get.lengths, h, hSN, hSK]
      · simp [CursorImpl.Get, hk, hv, hl, CursorImpl.Get.lengths, h, hBN, hBK]
  · intro dbtKey holder hk hv hl
    refine ⟨fun h => ?_, fun h => ?_, fun h => ?_⟩
    · simp [CursorImpl.GetOffsets, hk, hv, hl, CursorImpl.Get.lengths, h]
    · simp [CursorImpl.GetOffsets, hk, hv, hl, CursorImpl.Get.lengths, h, hNK.symm]
    · rcases h with h | h
      · simp [CursorImpl.GetOffsets, hk, hv, hl, CursorImpl.Get.lengths, h, hSN, hSK]
      · simp [CursorImpl.GetOffsets, hk, hv, hl, CursorImpl.Get.lengths, h, hBN, hBK]
  · intro dbtKey hk hl
    refine ⟨fun h => ?_, fun h => ?_, fun h => ?_, fun h => ?_⟩
    · simp [CursorImpl.GetStreams, hk, hl, h]
    · simp [CursorImpl.GetStreams, hk, hl, h, hNK.symm]
    · simp [CursorImpl.GetStreams, hk, hl, h, hSN, hSK]
    · simp [CursorImpl.GetStreams, hk, hl, h, hBN, hBK, hBS, Create_eq]
  · intro dbtKey hk hl
    refine ⟨fun h => ?_, fun h => ?_, fun h => ?_, fun h => ?_⟩
    · simp [CursorImpl.GetBuffers, hk, hl, h]
    · simp [CursorImpl.GetBuffers, hk, hl, h, hNK.symm]
    · simp [CursorImpl.GetBuffers, hk, hl, h, hSN, hSK]
    · simp [CursorImpl.GetBuffers, hk, hl, h, hBN, hBK, hBS, Create_eq]
  · intro db c c1 size u u1 hc
    refine ⟨fun h => ?_, fun h => ?_⟩
    · rcases h with h | h
      · simp [DatabaseImpl.SwitchMemStd, h, hSN.symm, hBN.symm, hc]
      · simp [DatabaseImpl.SwitchMemStd, h, hSK.symm, hBK.symm, hc]
    · rcases h with h | h
      · simp [DatabaseImpl.SwitchMemStd, h, hc]
      · simp [DatabaseImpl.SwitchMemStd, h, hc]

/-- C21 at a cursor whose record call reports `BUFFER_SMALL` with sizes 9 and 4, and at one
whose record call reports `KEYEMPTY`. -/
theorem C21_cursor_Get_result_codes_witness :
    (CursorImpl.GetStreams K0
        ⟨some (scriptedStore 1 fun _ => .returns 0 0 0),
          some (scriptedDbc fun _ => .returns K0.BUFFER_SMALL 9 4)⟩
        keyInt32 0 (-1) K0.Set 0 []).1 = .error (.BdbException K0.BUFFER_SMALL) ∧
    (CursorImpl.Get K0
        ⟨some (scriptedStore 1 fun _ => .returns 0 0 0),
          some (scriptedDbc fun _ => .returns K0.KEYEMPTY 0 0)⟩
        keyInt32 (writableBuffer 8) (-1) K0.Set 0 []).1 = .ok ⟨K0.Deleted, K0.Deleted⟩ :=
  ⟨congrArg Prod.fst
      (((C21_cursor_Get_result_codes K0
        ⟨some (scriptedStore 1 fun _ => .returns 0 0 0),
          some (scriptedDbc fun _ => .returns K0.BUFFER_SMALL 9 4)⟩
        keyInt32 (writableBuffer 8) 0 0 (-1) K0.Set 0 [] K0.BUFFER_SMALL _ _ _).2.2.1
        _ rfl rfl).2.2.2 rfl),
    congrArg Prod.fst
      (((C21_cursor_Get_result_codes K0
        ⟨some (scriptedStore 1 fun _ => .returns 0 0 0),
          some (scriptedDbc fun _ => .returns K0.KEYEMPTY 0 0)⟩
        keyInt32 (writableBuffer 8) (-1) 0 (-1) K0.Set 0 [] K0.KEYEMPTY _ _ _).1
        _ _ rfl rfl rfl).2.1 rfl)⟩

/-! ## C23: the teardown of the cursor -/

@[simp] theorem closes_nil : closes [] = 0 := rfl

@[simp] theorem closes_append (t u : Trace) : closes (t ++ u) = closes t + closes u := by
  simp [closes]

/-- The finalizer never throws, leaves the native cursor `nullptr`, and closes it when there is
one and the store is there and not disposed. -/
theorem finalizer_spec (cur : CursorImpl) (t : Trace) :
    ∃ u, cur.finalizer t = (.ok (), ⟨cur._db, none⟩, t ++ u) ∧
      closes u = (match cur._cursorp, cur._db with
        | some _, some db => if db.disposed then 0 else 1
        | _, _ => 0) := by
  rcases cur with ⟨db, cursorp⟩
  cases cursorp with
  | none => exact ⟨[], by simp [CursorImpl.finalizer], by simp⟩
  | some dbc =>
    cases db with
    | none => exact ⟨[], by simp [CursorImpl.finalizer], by simp⟩
    | some db =>
      cases hd : db.disposed with
      | true => exact ⟨[], by simp [CursorImpl.finalizer, hd], by simp [hd]⟩
      | false =>
        cases hc : dbc.close with
        | none =>
          exact ⟨[.op .cursor_close], by simp [CursorImpl.finalizer, hd, hc],
            by simp [hd, closes]⟩
        | some e =>
          cases e with
          | DbDeadlockException errno =>
            exact ⟨[.op .cursor_close, .err errno .what],
              by simp [CursorImpl.finalizer, hd, hc, NativeExn.get_errno, DatabaseImpl.Log],
              by simp [hd, closes]⟩
          | DbMemoryException errno size =>
            exact ⟨[.op .cursor_close, .err errno .what],
              by simp [CursorImpl.finalizer, hd, hc, NativeExn.get_errno, DatabaseImpl.Log],
              by simp [hd, closes]⟩
          | DbException errno =>
            exact ⟨[.op .cursor_close, .err errno .what],
              by simp [CursorImpl.finalizer, hd, hc, NativeExn.get_errno, DatabaseImpl.Log],
              by simp [hd, closes]⟩
          | exception =>
            exact ⟨[.op .cursor_close, .err 0 .what],
              by simp [CursorImpl.finalizer, hd, hc, NativeExn.get_errno, DatabaseImpl.Log],
              by simp [hd, closes]⟩

/-- One teardown never throws and leaves the native cursor `nullptr`; it closes the native
cursor when there is one and the store is there and not disposed at that time. -/
theorem teardown_spec (cur : CursorImpl) (how : Teardown) (disposed : Bool) (t : Trace) :
    ∃ cur1 u, cur.teardown how disposed t = (.ok (), cur1, t ++ u) ∧ cur1._cursorp = none ∧
      closes u = (match cur._cursorp, cur._db with
        | some _, some _ => if disposed then 0 else 1
        | _, _ => 0) := by
  obtain ⟨u, hf, hu⟩ := finalizer_spec
    ⟨cur._db.map fun db => db.setDisposed disposed, cur._cursorp⟩ t
  have hcl : closes u = (match cur._cursorp, cur._db with
        | some _, some _ => if disposed then 0 else 1
        | _, _ => 0) := by
    rw [hu]
    rcases cur with ⟨db, cursorp⟩
    cases cursorp <;> cases db <;> simp [DatabaseImpl.setDisposed]
  cases how with
  | destructor =>
    exact ⟨⟨none, none⟩, u, by simp [CursorImpl.teardown, CursorImpl.destructor, hf], rfl, hcl⟩
  | finalizer =>
    exact ⟨⟨cur._db.map fun db => db.setDisposed disposed, none⟩, u,
      by simp only [CursorImpl.teardown, hf], rfl, hcl⟩

/-- A sequence of teardowns of a cursor whose native cursor is `nullptr` never throws and
closes nothing. -/
theorem teardowns_closed (seq : List (Teardown × Bool)) :
    ∀ (cur : CursorImpl) (t : Trace), cur._cursorp = none →
      ∃ cur1 u, cur.teardowns seq t = (.ok (), cur1, t ++ u) ∧ cur1._cursorp = none ∧
        closes u = 0 := by
  induction seq with
  | nil => intro cur t h; exact ⟨cur, [], by simp [CursorImpl.teardowns], h, rfl⟩
  | cons a rest ih =>
    intro cur t h
    obtain ⟨how, disposed⟩ := a
    obtain ⟨cur1, u, h1, hc1, hu⟩ := teardown_spec cur how disposed t
    obtain ⟨cur2, u2, h2, hc2, hu2⟩ := ih cur1 (t ++ u) hc1
    refine ⟨cur2, u ++ u2, by simp [CursorImpl.teardowns, h1, h2], hc2, ?_⟩
    rw [closes_append, hu, hu2, h]

/-- Any sequence of teardowns of any cursor never throws and closes the native cursor at most
once. -/
theorem teardowns_spec (cur : CursorImpl) (seq : List (Teardown × Bool)) (t : Trace) :
    ∃ cur1 u, cur.teardowns seq t = (.ok (), cur1, t ++ u) ∧ closes u ≤ 1 := by
  cases seq with
  | nil => exact ⟨cur, [], by simp [CursorImpl.teardowns], by simp⟩
  | cons a rest =>
    obtain ⟨how, disposed⟩ := a
    obtain ⟨cur1, u, h1, hc1, hu⟩ := teardown_spec cur how disposed t
    obtain ⟨cur2, u2, h2, -, hu2⟩ := teardowns_closed rest cur1 (t ++ u) hc1
    refine ⟨cur2, u ++ u2, by simp [CursorImpl.teardowns, h1, h2], ?_⟩
    rw [closes_append, hu, hu2]
    rcases cur with ⟨db, cursorp⟩
    cases cursorp <;> cases db <;> cases disposed <;> simp

/-- C23: a cursor with its native cursor and its store goes through any sequence of teardowns
(destructor or finalizer), the first one at a time when the store's `Disposed` is `disposed`.
No teardown throws, whatever the native `close` throws; across the whole sequence the native
cursor is closed exactly once when the store was not disposed at the first teardown and not at
all when it was; and the native cursor is `nullptr` afterwards. For any cursor and any sequence
of teardowns, nothing is thrown and there is at most one native close. -/
theorem C23_cursor_closed_at_most_once (cur : CursorImpl) (dbc : Dbc) (db : DatabaseImpl)
    (hc : cur._cursorp = some dbc) (hd : cur._db = some db) (how : Teardown) (disposed : Bool)
    (rest : List (Teardown × Bool)) (t : Trace) :
    (∃ cur1 u, cur.teardowns ((how, disposed) :: rest) t = (.ok (), cur1, t ++ u) ∧
      cur1._cursorp = none ∧ closes u = if disposed then 0 else 1) ∧
    (∀ (cur0 : CursorImpl) (seq : List (Teardown × Bool)) (t0 : Trace),
      ∃ cur1 u, cur0.teardowns seq t0 = (.ok (), cur1, t0 ++ u) ∧ closes u ≤ 1) := by
  refine ⟨?_, teardowns_spec⟩
  obtain ⟨cur1, u, h1, hc1, hu⟩ := teardown_spec cur how disposed t
  obtain ⟨cur2, u2, h2, hc2, hu2⟩ := teardowns_closed rest cur1 (t ++ u) hc1
  refine ⟨cur2, u ++ u2, by simp [CursorImpl.teardowns, h1, h2], hc2, ?_⟩
  rw [closes_append, hu, hu2, hc, hd]
  simp

/-- C23 at a cursor whose native `close` throws: finalizer, then destructor twice, the store
disposed in between. One close, one log entry, no error. -/
theorem C23_cursor_closed_at_most_once_witness :
    CursorImpl.teardowns
        ⟨some (scriptedStore 1 fun _ => .returns 0 0 0), some (failingCloseDbc (.DbException 5))⟩
        [(.finalizer, false), (.destructor, true), (.destructor, false)] []
      = (.ok (), ⟨none, none⟩, [.op .cursor_close, .err 5 .what]) ∧
    ∃ cur1 u, CursorImpl.teardowns
        ⟨some (scriptedStore 1 fun _ => .returns 0 0 0), some (failingCloseDbc (.DbException 5))⟩
        [(.finalizer, false), (.destructor, true), (.destructor, false)] []
      = (.ok (), cur1, [] ++ u) ∧ cur1._cursorp = none ∧ closes u = if false then 0 else 1 :=
  ⟨rfl, (C23_cursor_closed_at_most_once _ (failingCloseDbc (.DbException 5))
    (scriptedStore 1 fun _ => .returns 0 0 0) rfl rfl .finalizer false
    [(.destructor, true), (.destructor, false)] []).1⟩

/-! ## C24: operations on a closed cursor -/

/-- On a cursor whose native cursor is `nullptr` the retry loop makes its record call all the
same, through the null pointer. -/
theorem cursor_DeadlockLoop_closed (K : Constants) (cur : CursorImpl)
    (h : cur._cursorp = none) (key data : Option Dbt) (options : Int)
    (bdbCall : CursorImpl.BdbCall) (t : Trace) :
    cur.DeadlockLoop K key data options bdbCall t
      = (.error .undefinedBehaviour, key, data, t ++ [.call none key data options]) := by
  have hfuel : ∀ N : Int, ∃ f, (max 1 N).toNat = f + 1 := fun N =>
    ⟨(max 1 N).toNat - 1, by have : 1 ≤ max 1 N := le_max_left _ _; omega⟩
  have hloop : ∀ f, CursorImpl.DeadlockLoop.loop K cur options bdbCall (f + 1) 0 0 key data t
      = (.error .undefinedBehaviour, key, data, t ++ [.call none key data options]) := by
    intro f
    rw [CursorImpl.DeadlockLoop.loop]
    simp [h]
  unfold CursorImpl.DeadlockLoop
  cases hdb : cur._db with
  | none => simp only [hloop 0]
  | some db =>
    obtain ⟨f, hf⟩ := hfuel db.m_maxDeadlockRetries
    simp only [hf, hloop f]

/-- Every operation on a cursor whose native cursor is `nullptr`, once its slots are set up,
makes its record call through the null pointer. -/
theorem closed_cursor_operations (K : Constants) (cur : CursorImpl) (h : cur._cursorp = none)
    (key value : DataBuffer) (offset keyOffset length : Int) (position flags : Nat)
    (t : Trace) :
    CursorImpl.Delete K cur flags t
      = (.error .undefinedBehaviour, t ++ [.call none none none (flags : Nat)]) ∧
    (∀ dbtKey holder, CursorImpl.Get.dbtKey K key position = .ok dbtKey →
      DbtHolder.initialize_for_write K {} value = .ok holder →
      CursorImpl.Get K cur key value offset position flags t
        = (.error .undefinedBehaviour,
            t ++ [.call none (some dbtKey.dbt) (some (CursorImpl.Get.dbtBuffer K holder offset))
              (position ||| flags : Nat)])) ∧
    (∀ dbtKey holder, CursorImpl.GetOffsets.dbtKey K key keyOffset position = .ok dbtKey →
      DbtHolder.initialize_for_write K {} value = .ok holder →
      CursorImpl.GetOffsets K cur key keyOffset value offset position flags t
        = (.error .undefinedBehaviour,
            t ++ [.call none (some dbtKey.dbt) (some (CursorImpl.Get.dbtBuffer K holder offset))
              (position ||| flags : Nat)])) ∧
    (∀ dbtKey, CursorImpl.GetStreams.dbtKey K key position = .ok dbtKey →
      CursorImpl.GetStreams K cur key offset length position flags t
        = (.error .undefinedBehaviour,
            t ++ [.call none (some dbtKey.dbt)
              (some (CursorImpl.GetStreams.dbtBuffer K offset length))
              (position ||| flags : Nat)])) ∧
    (∀ dbtKey, CursorImpl.GetBuffers.dbtKey K key position = .ok dbtKey →
      CursorImpl.GetBuffers K cur key offset length position flags t
        = (.error .undefinedBehaviour,
            t ++ [.call none (some dbtKey.dbt)
              (some (CursorImpl.GetBuffers.dbtBuffer K offset length))
              (position ||| flags : Nat)])) ∧
    (∀ dbtKey holder, DbtHolder.initialize_for_read {} key = .ok dbtKey →
      DbtHolder.initialize_for_read {} value = .ok holder →
      CursorImpl.Put K cur key value offset length position flags t
        = (.error .undefinedBehaviour,
            t ++ [.call none (some dbtKey.dbt)
              (some (CursorImpl.Put.dbtBuffer K holder offset length))
              (position ||| flags : Nat)])) := by
  refine ⟨?_, ?_, ?_, ?_, ?_, ?_⟩
  · simp [CursorImpl.Delete, cursor_DeadlockLoop_closed K cur h]
  · intro dbtKey holder hk hv
    simp [CursorImpl.Get, hk, hv, cursor_DeadlockLoop_closed K cur h]
  · intro dbtKey holder hk hv
    simp [CursorImpl.GetOffsets, hk, hv, cursor_DeadlockLoop_closed K cur h]
  · intro dbtKey hk
    simp [CursorImpl.GetStreams, hk, cursor_DeadlockLoop_closed K cur h]
  · intro dbtKey hk
    simp [CursorImpl.GetBuffers, hk, cursor_DeadlockLoop_closed K cur h]
  · intro dbtKey holder hk hv
    simp [CursorImpl.Put, hk, hv, cursor_DeadlockLoop_closed K cur h]

/-- C24, the code as it is. After a teardown of the cursor (destructor or finalizer, whatever
state the cursor and its store were in) the native cursor is `nullptr`, and no operation tests
for that. `Delete` makes its record call through the null pointer at once; `Get` in its four
variants, `GetBuffers` and `Put` make theirs as soon as their slots are set up. What such a call
does is undefined, so the operations do not fail fast with an error of their own. Only an
operation whose slots cannot be set up, and `GetBuffers` at `SetRange`, throw before the
call. -/
theorem C24_closed_cursor_calls_through_null (K : Constants) (cur : CursorImpl)
    (how : Teardown) (disposed : Bool) (t0 : Trace) (key value : DataBuffer)
    (offset keyOffset length : Int) (position flags : Nat) (t : Trace) :
    (cur.teardown how disposed t0).2.1._cursorp = none ∧
    CursorImpl.Delete K (cur.teardown how disposed t0).2.1 flags t
      = (.error .undefinedBehaviour, t ++ [.call none none none (flags : Nat)]) ∧
    (∀ dbtKey holder, CursorImpl.Get.dbtKey K key position = .ok dbtKey →
      DbtHolder.initialize_for_write K {} value = .ok holder →
      CursorImpl.Get K (cur.teardown how disposed t0).2.1 key value offset position flags t
        = (.error .undefinedBehaviour,
            t ++ [.call none (some dbtKey.dbt) (some (CursorImpl.Get.dbtBuffer K holder offset))
              (position ||| flags : Nat)])) ∧
    (∀ dbtKey holder, CursorImpl.GetOffsets.dbtKey K key keyOffset position = .ok dbtKey →
      DbtHolder.initialize_for_write K {} value = .ok holder →
      CursorImpl.GetOffsets K (cur.teardown how disposed t0).2.1 key keyOffset value offset
          position flags t
        = (.error .undefinedBehaviour,
            t ++ [.call none (some dbtKey.dbt) (some (CursorImpl.Get.dbtBuffer K holder offset))
              (position ||| flags : Nat)])) ∧
    (∀ dbtKey, CursorImpl.GetStreams.dbtKey K key position = .ok dbtKey →
      CursorImpl.GetStreams K (cur.teardown how disposed t0).2.1 key offset length position
          flags t
        = (.error .undefinedBehaviour,
            t ++ [.call none (some dbtKey.dbt)
              (some (CursorImpl.GetStreams.dbtBuffer K offset length))
              (position ||| flags : Nat)])) ∧
    (∀ dbtKey, CursorImpl.GetBuffers.dbtKey K key position = .ok dbtKey →
      CursorImpl.GetBuffers K (cur.teardown how disposed t0).2.1 key offset length position
          flags t
        = (.error .undefinedBehaviour,
            t ++ [.call none (some dbtKey.dbt)
              (some (CursorImpl.GetBuffers.dbtBuffer K offset length))
              (position ||| flags : Nat)])) ∧
    (∀ dbtKey holder, DbtHolder.initialize_for_read {} key = .ok dbtKey →
      DbtHolder.initialize_for_read {} value = .ok holder →
      CursorImpl.Put K (cur.teardown how disposed t0).2.1 key value offset length position
          flags t
        = (.error .undefinedBehaviour,
            t ++ [.call none (some dbtKey.dbt)
              (some (CursorImpl.Put.dbtBuffer K holder offset length))
              (position ||| flags : Nat)])) := by
  obtain ⟨cur1, u, h1, hc1, -⟩ := teardown_spec cur how disposed t0
  rw [h1]
  exact ⟨hc1, closed_cursor_operations K cur1 hc1 key value offset keyOffset length position
    flags t⟩

/-- C24 on a cursor that was disposed: `Delete` and the `Get` into caller buffers at position
`Set` each make one record call, through the null pointer. -/
theorem C24_closed_cursor_calls_through_null_witness :
    CursorImpl.Delete K0
        (CursorImpl.teardown
          ⟨some (scriptedStore 1 fun _ => .returns 0 0 0),
            some (scriptedDbc fun _ => .returns 0 0 0)⟩ .destructor false []).2.1 0 []
      = (.error .undefinedBehaviour, [.call none none none 0]) ∧
    CursorImpl.Get K0
        (CursorImpl.teardown
          ⟨some (scriptedStore 1 fun _ => .returns 0 0 0),
            some (scriptedDbc fun _ => .returns 0 0 0)⟩ .destructor false []).2.1
        keyInt32 (writableBuffer 8) (-1) K0.Set 0 []
      = (.error .undefinedBehaviour,
          [.call none (some { size := 4 }) (some { size := 8, ulen := 8, flags := 256 })
            26]) :=
  have h := C24_closed_cursor_calls_through_null K0
    ⟨some (scriptedStore 1 fun _ => .returns 0 0 0), some (scriptedDbc fun _ => .returns 0 0 0)⟩
    .destructor false [] keyInt32 (writableBuffer 8) (-1) 0 0 K0.Set 0 []
  ⟨h.2.1, h.2.2.1 ⟨{ size := 4 }, true⟩ ⟨{ size := 8, ulen := 8, flags := 256 }, true⟩
    rfl rfl⟩

/-! ## C27: the copy-on-demand callback -/

theorem memcpy_length (arr : List Nat) (offset : Nat) (buffer : List Nat)
    (h : offset + buffer.length ≤ arr.length) : (memcpy arr offset buffer).length = arr.length := by
  simp [memcpy]
  omega

theorem memcpy_getElem? (arr : List Nat) (offset : Nat) (buffer : List Nat)
    (h : offset + buffer.length ≤ arr.length) (i : Nat) :
    (memcpy arr offset buffer)[i]?
      = if offset ≤ i ∧ i < offset + buffer.length then buffer[i - offset]? else arr[i]? := by
  unfold memcpy
  by_cases h1 : i < offset
  · have : ¬ (offset ≤ i ∧ i < offset + buffer.length) := by omega
    rw [if_neg this, List.append_assoc, List.getElem?_append_left (by simp; omega)]
    simp [List.getElem?_take, h1]
  · by_cases h2 : i < offset + buffer.length
    · have : offset ≤ i ∧ i < offset + buffer.length := by omega
      rw [if_pos this, List.append_assoc, List.getElem?_append_right (by simp; omega)]
      have hl : (List.take offset arr).length = offset := by simp; omega
      rw [hl, List.getElem?_append_left (by omega)]
    · have : ¬ (offset ≤ i ∧ i < offset + buffer.length) := by omega
      rw [if_neg this, List.getElem?_append_right (by simp; omega)]
      have hl : (List.take offset arr ++ buffer).length = offset + buffer.length := by
        simp; omega
      rw [hl, List.getElem?_drop]
      congr 1
      omega

theorem set_append_singleton {α : Type} (h : List α) (a b : α) :
    (h ++ [a]).set h.length b = h ++ [b] := by
  induction h with
  | nil => rfl
  | cons x h ih => simp [ih]

theorem getElem?_append_singleton {α : Type} (h : List α) (a : α) :
    (h ++ [a])[h.length]? = some a := by
  simp

/-- The first invocation on a record: one array of the record's size is allocated, its handle
is stored on the record, and the bytes are copied in. -/
theorem usercopy_first (K : Constants) (data : DBT) (offset : Nat) (buffer : List Nat)
    (handles : Handles) (ha : data.app_data = none) (hs : 0 < data.size)
    (ho : offset < data.size) (hb : offset + buffer.length ≤ data.size) :
    usercopy K data offset buffer K.DB_USERCOPY_SETDATA handles
      = (.ok 0, ⟨none, data.size, some handles.length⟩,
          handles ++ [memcpy (List.replicate data.size 0) offset buffer]) := by
  simp [usercopy, ha, hs, ho, hb, set_append_singleton]

/-- A later invocation on a record: the array of the handle on the record is written; the
record and the number of handles stay as they are. -/
theorem usercopy_later (K : Constants) (data : DBT) (offset : Nat) (buffer : List Nat)
    (handles : Handles) (tok : Nat) (arr : List Nat) (ha : data.app_data = some tok)
    (ht : handles[tok]? = some arr) (hs : 0 < data.size) (ho : offset < arr.length)
    (hb : offset + buffer.length ≤ arr.length) :
    usercopy K data offset buffer K.DB_USERCOPY_SETDATA handles
      = (.ok 0, data, handles.set tok (memcpy arr offset buffer)) := by
  simp [usercopy, ha, hs, ht, ho, hb]

theorem piece_length (v : List Nat) (o l : Nat) (h : o + l ≤ v.length) :
    ((v.drop o).take l).length = l := by
  simp
  omega

theorem piece_getElem? (v : List Nat) (o l i : Nat) (h1 : o ≤ i) (h2 : i < o + l) :
    ((v.drop o).take l)[i - o]? = v[i]? := by
  rw [List.getElem?_take_of_lt (by omega), List.getElem?_drop]
  congr 1
  omega

/-- Once the array is allocated, delivering pieces that lie inside the value never faults,
keeps the record and the other handles, and leaves the value's bytes wherever a piece went
and wherever they already were. -/
theorem deliver_allocated (K : Constants) (v : List Nat) (h : Handles) (hv : 0 < v.length) :
    ∀ (pieces : List (Nat × Nat)) (arr : List Nat), arr.length = v.length →
      (∀ p ∈ pieces, p.1 < v.length ∧ p.1 + p.2 ≤ v.length) →
      ∃ arr1, deliver K v pieces ⟨none, v.length, some h.length⟩ (h ++ [arr])
          = (.ok (), ⟨none, v.length, some h.length⟩, h ++ [arr1]) ∧
        arr1.length = v.length ∧
        ∀ i, (arr[i]? = v[i]? ∨ ∃ p ∈ pieces, p.1 ≤ i ∧ i < p.1 + p.2) → arr1[i]? = v[i]? := by
  intro pieces
  induction pieces with
  | nil =>
    intro arr harr _
    refine ⟨arr, by simp [deliver], harr, ?_⟩
    intro i hi
    rcases hi with hi | ⟨p, hp, -⟩
    · exact hi
    · simp at hp
  | cons p rest ih =>
    intro arr harr hin
    obtain ⟨o, l⟩ := p
    have hp := hin (o, l) (by simp)
    simp only at hp
    have hlen := piece_length v o l hp.2
    have hstep := usercopy_later K ⟨none, v.length, some h.length⟩ o ((v.drop o).take l)
      (h ++ [arr]) h.length arr rfl (getElem?_append_singleton h arr) hv
      (by rw [harr]; exact hp.1) (by rw [hlen, harr]; exact hp.2)
    rw [set_append_singleton] at hstep
    have harr2 : (memcpy arr o ((v.drop o).take l)).length = v.length := by
      rw [memcpy_length _ _ _ (by rw [hlen, harr]; exact hp.2), harr]
    obtain ⟨arr1, hd, hl1, hg⟩ := ih (memcpy arr o ((v.drop o).take l)) harr2
      (fun q hq => hin q (by simp [hq]))
    refine ⟨arr1, by simp only [deliver, hstep, hd], hl1, ?_⟩
    intro i hi
    apply hg
    have hm := memcpy_getElem? arr o ((v.drop o).take l) (by rw [hlen, harr]; exact hp.2) i
    rw [hlen] at hm
    by_cases hc : o ≤ i ∧ i < o + l
    · left
      rw [hm, if_pos hc]
      exact piece_getElem? v o l i hc.1 hc.2
    · rcases hi with hi | ⟨q, hq, hqi⟩
      · left
        rw [hm, if_neg hc]
        exact hi
      · rcases List.mem_cons.mp hq with rfl | hq
        · exact absurd hqi hc
        · exact Or.inr ⟨q, hq, hqi⟩

/-- C27: the callback `usercopy` with the flag `DB_USERCOPY_SETDATA`, the bytes handed over
lying inside the record (`offset < size` and `offset + length ≤ size`).
First invocation on a record of size `> 0` with no handle on it: one array of exactly the
record's size is allocated (one more handle in the table), its handle is stored in `app_data`,
and the bytes are copied into the fresh array at the offset.
A later invocation, with the handle of an array on the record: the bytes are copied into that
same array at the offset; the record and the number of handles stay as they are.
The copy replaces the bytes from `offset` on and leaves the others.
Whole range: when the engine hands over pieces of a value `v` as long as the record, each inside
it, that together cover every index, no invocation faults, exactly one array was allocated, and
that array is `v`; `CreateBuffer` then returns `v` when the size fits a signed 32-bit integer.
For a record of size 0 nothing is allocated and `app_data` is cleared; any flag other than
`DB_USERCOPY_SETDATA` is rejected with the record and the table as they were. -/
theorem C27_usercopy_allocates_once (K : Constants) (data : DBT) (offset : Nat)
    (buffer : List Nat) (flags : Nat) (handles : Handles) (v : List Nat)
    (pieces : List (Nat × Nat)) :
    (data.app_data = none → 0 < data.size → offset < data.size →
      offset + buffer.length ≤ data.size →
      usercopy K data offset buffer K.DB_USERCOPY_SETDATA handles
        = (.ok 0, ⟨none, data.size, some handles.length⟩,
            handles ++ [memcpy (List.replicate data.size 0) offset buffer])) ∧
    (∀ tok arr, data.app_data = some tok → handles[tok]? = some arr → 0 < data.size →
      offset < arr.length → offset + buffer.length ≤ arr.length →
      usercopy K data offset buffer K.DB_USERCOPY_SETDATA handles
        = (.ok 0, data, handles.set tok (memcpy arr offset buffer)) ∧
      (handles.set tok (memcpy arr offset buffer)).length = handles.length ∧
      (memcpy arr offset buffer).length = arr.length ∧
      ∀ i, (memcpy arr offset buffer)[i]?
        = if offset ≤ i ∧ i < offset + buffer.length then buffer[i - offset]? else arr[i]?) ∧
    (data.app_data = none → data.size = v.length → 0 < v.length →
      (∀ p ∈ pieces, p.1 < v.length ∧ p.1 + p.2 ≤ v.length) →
      (∀ i, i < v.length → ∃ p ∈ pieces, p.1 ≤ i ∧ i < p.1 + p.2) →
      deliver K v pieces data handles
        = (.ok (), ⟨none, data.size, some handles.length⟩, handles ++ [v]) ∧
      (v.length < 2 ^ 31 →
        DBT.CreateBuffer ⟨none, data.size, some handles.length⟩ (handles ++ [v]) = some v)) ∧
    (data.size = 0 →
      usercopy K data offset buffer K.DB_USERCOPY_SETDATA handles
        = (.ok 0, ⟨data.data, data.size, none⟩, handles)) ∧
    (flags ≠ K.DB_USERCOPY_SETDATA →
      usercopy K data offset buffer flags handles = (.error .exceptionPtr, data, handles)) := by
  refine ⟨usercopy_first K data offset buffer handles, ?_, ?_, ?_, ?_⟩
  · intro tok arr ha ht hs ho hb
    exact ⟨usercopy_later K data offset buffer handles tok arr ha ht hs ho hb, by simp,
      memcpy_length arr offset buffer hb, memcpy_getElem? arr offset buffer hb⟩
  · intro ha hsz hv hin hcov
    -- the first piece allocates the array; from then on the array is there
    obtain ⟨p, hp, -⟩ := hcov 0 hv
    have hne : pieces ≠ [] := fun h => by simp [h] at hp
    obtain ⟨q, rest, rfl⟩ := List.exists_cons_of_ne_nil hne
    obtain ⟨o, l⟩ := q
    have hq := hin (o, l) (by simp)
    simp only at hq
    have hlen := piece_length v o l hq.2
    have hfirst := usercopy_first K data o ((v.drop o).take l) handles ha (by omega)
      (by omega) (by rw [hlen]; omega)
    have hz : (List.replicate data.size 0).length = v.length := by simp [hsz]
    have hstep := usercopy_later K ⟨none, v.length, some handles.length⟩ o ((v.drop o).take l)
      (handles ++ [List.replicate data.size 0]) handles.length (List.replicate data.size 0) rfl
      (getElem?_append_singleton handles _) hv (by rw [hz]; exact hq.1)
      (by rw [hlen, hz]; exact hq.2)
    rw [set_append_singleton] at hstep
    obtain ⟨arr1, hd, hl1, hg⟩ := deliver_allocated K v handles hv ((o, l) :: rest)
      (List.replicate data.size 0) hz hin
    have harr : arr1 = v := by
      apply List.ext_getElem? 
      intro i
      by_cases hi : i < v.length
      · exact hg i (Or.inr (hcov i hi))
      · rw [List.getElem?_eq_none (by omega), List.getElem?_eq_none (by omega)]
    subst harr
    refine ⟨?_, fun h31 => ?_⟩
    · simp only [deliver, hstep] at hd
      simp only [deliver, hfirst]
      rw [hsz] at hd ⊢
      exact hd
    · have h32 : arr1.length % 2 ^ 32 = arr1.length := Nat.mod_eq_of_lt (by omega)
      have hpos : ¬ toInt32 arr1.length < 0 := by
        unfold toInt32
        rw [h32, if_pos h31]
        omega
      have hnz : ¬ toInt32 arr1.length = 0 := by
        unfold toInt32
        rw [h32, if_pos h31]
        omega
      simp [DBT.CreateBuffer, hsz, hpos, hnz]
  · intro hs
    simp [usercopy, hs]
  · intro hf
    simp [usercopy, hf]

/-- C27 at a record of size 4 with no handle and an empty handle table: the value
`[10, 20, 30, 40]` handed over in two pieces of two bytes, and a single invocation with the
second piece. -/
theorem C27_usercopy_allocates_once_witness :
    deliver K0 [10, 20, 30, 40] [(0, 2), (2, 2)] ⟨some 7, 4, none⟩ []
      = (.ok (), ⟨none, 4, some 0⟩, [[10, 20, 30, 40]]) ∧
    DBT.CreateBuffer ⟨none, 4, some 0⟩ [[10, 20, 30, 40]] = some [10, 20, 30, 40] ∧
    usercopy K0 ⟨some 7, 4, none⟩ 2 [30, 40] K0.DB_USERCOPY_SETDATA []
      = (.ok 0, ⟨none, 4, some 0⟩, [[0, 0, 30, 40]]) :=
  have h := (C27_usercopy_allocates_once K0 ⟨some 7, 4, none⟩ 2 [30, 40] 0 []
    [10, 20, 30, 40] [(0, 2), (2, 2)]).2.2.1 rfl rfl (by decide) (by decide) (by decide)
  ⟨h.1, h.2 (by decide),
    (C27_usercopy_allocates_once K0 ⟨some 7, 4, none⟩ 2 [30, 40] 0 []
      [10, 20, 30, 40] [(0, 2), (2, 2)]).1 rfl (by decide) (by decide) (by decide)⟩

/-! ## C28: the message when the rollback fails too -/

theorem append_newline_ne_empty (a b : String) : a ++ "\n" ++ b ≠ "" := by
  intro h
  have := congrArg String.length h
  simp only [String.length_append] at this
  have h1 : "\n".length = 1 := rfl
  have h0 : "".length = 0 := rfl
  omega

theorem isInfix_data_append (a pre post : String) :
    a.data <:+: (pre ++ a ++ post).data := by
  simp only [String.data_append]
  exact ⟨pre.data, post.data, rfl⟩

/-- The message of the error of the `DbException` clause when the abort fails too. -/
theorem catchDbException_abortFailed_message (ret : Int) (exWhat : String) (ae : Int × String) :
    (DatabaseImpl.catchDbException.abortFailed ret exWhat ae).Message
      = some (exWhat ++ "\n" ++ ae.2 ++ ": " ++ ae.2) := by
  simp [DatabaseImpl.catchDbException.abortFailed, BdbExceptionFactory.Create.int_DbException,
    BdbExceptionFactory.CombineMessages, append_newline_ne_empty]

/-- The message of the error of the `exception` clause when the abort fails too. -/
theorem catchException_abortFailed_message (ret : Int) (exWhat : String) (ae : Int × String) :
    (DatabaseImpl.catchException.abortFailed ret exWhat ae).Message
      = some (ae.2 ++ "\n" ++ exWhat ++ ": " ++ ae.2) := by
  simp [DatabaseImpl.catchException.abortFailed, BdbExceptionFactory.Create.int_DbException,
    BdbExceptionFactory.CombineMessages, append_newline_ne_empty]

/-- C28 as stated fails for the record facade. The record call of the facade's `Get` throws a
`DbException` with errno 5 and the abort that the teardown of the transaction scope calls throws
a `DbException` with errno 7. What leaves `Get` is the abort's own native exception on top of the
`BdbException` that `TryMemStd` built from the record call's exception: no exception is built
from both. With the texts "disk full" and "abort failed", the message of that `BdbException` is
"BerkeleyDbWrapper:Database:Get: disk full", which does not contain the abort's text, and the
abort's text does not contain "disk full". -/
theorem C28_counterexample :
    (DatabaseImpl.Get K0
        (abortFailingStore 3 (fun _ => .throws (.DbException 5)) (.DbException 7))
        keyInt32 (-1) (writableBuffer 8) 0 []).1
      = .error (.duringUnwind (.BdbException 5) (.native (.DbException 7))) ∧
    (BdbExceptionFactory.Create.exception (some ⟨.DbException 5, "disk full"⟩)
        (some "BerkeleyDbWrapper:Database:Get")).Message
      = some "BerkeleyDbWrapper:Database:Get: disk full" ∧
    ¬ "abort failed".data <:+: "BerkeleyDbWrapper:Database:Get: disk full".data ∧
    ¬ "disk full".data <:+: "abort failed".data := by
  decide

/-- The `DbException` clause when the abort of the handle `h` throws `ae`, an exception of the
`DbException` family: the failure is logged and the exception built from both is thrown. -/
theorem catchDbException_abort_throws (what : NativeExn → String) (K : Constants)
    (db : DatabaseImpl) (methodName : MethodName) (bufferSmall : Bool) (ret errno : Int)
    (ex : NativeExn) (h : Nat) (data : Option Dbt) (t : Trace) (hm : db.m_pTrMode = .PerCall)
    (ae : NativeExn) (aeErrno : Int) (hae : ae.get_errno = some aeErrno)
    (habort : db.txn_abort h = some ae) :
    DatabaseImpl.catchDbException.thrown what K db bufferSmall ret ex errno (some h) t
      = some (DatabaseImpl.catchDbException.abortFailed ret (what ex) (aeErrno, what ae)) ∧
    db.catchDbException K methodName bufferSmall ret errno (some h) data t
      = (.BdbException
            (DatabaseImpl.catchDbException.abortFailed ret (what ex) (aeErrno, what ae)).Code,
          t ++ [.err errno .ErrorGettingData, .abort h,
            .err aeErrno (.TxnAbortFailed methodName)]) := by
  constructor
  · simp [DatabaseImpl.catchDbException.thrown, DatabaseImpl.RollbackTrans, hm, habort, hae]
  · simp [DatabaseImpl.catchDbException, DatabaseImpl.RollbackTrans, hm, habort,
      DatabaseImpl.abortFailed, hae, BdbExceptionFactory.CreateDb,
      DatabaseImpl.catchDbException.abortFailed, BdbExceptionFactory.Create.int_DbException,
      DatabaseImpl.Log]

/-- The `exception` clause when the abort of the handle `h` throws `ae`, an exception of the
`DbException` family: the failure is logged and the exception built from both is thrown. -/
theorem catchException_abort_throws (what : NativeExn → String) (db : DatabaseImpl)
    (methodName : MethodName) (ret : Int) (ex : NativeExn) (h : Nat) (t : Trace)
    (hm : db.m_pTrMode = .PerCall) (ae : NativeExn) (aeErrno : Int)
    (hae : ae.get_errno = some aeErrno) (habort : db.txn_abort h = some ae) :
    DatabaseImpl.catchException.thrown what db ret ex (some h) t
      = some (DatabaseImpl.catchException.abortFailed ret (what ex) (aeErrno, what ae)) ∧
    db.catchException methodName ret ex (some h) t
      = (.BdbException
            (DatabaseImpl.catchException.abortFailed ret (what ex) (aeErrno, what ae)).Code,
          t ++ [.abort h, .err aeErrno (.TxnAbortFailed methodName)]) := by
  constructor
  · simp [DatabaseImpl.catchException.thrown, DatabaseImpl.RollbackTrans, hm, habort, hae]
  · simp [DatabaseImpl.catchException, DatabaseImpl.RollbackTrans, hm, habort,
      DatabaseImpl.abortFailed, hae, BdbExceptionFactory.CreateDb,
      DatabaseImpl.catchException.abortFailed, BdbExceptionFactory.Create.int_DbException,
      DatabaseImpl.Log]

/-- What the `BdbException` thrown by a `catch` clause carries, whenever the clause throws one
it built: the code-level clause throws the exception with that code. -/
theorem catchDbException_thrown_code (what : NativeExn → String) (K : Constants)
    (db : DatabaseImpl) (methodName : MethodName) (bufferSmall : Bool) (ret errno : Int)
    (ex : NativeExn) (txn : Option Nat) (data : Option Dbt) (t : Trace) (b : BdbException)
    (hb : DatabaseImpl.catchDbException.thrown what K db bufferSmall ret ex errno txn t
      = some b) :
    (db.catchDbException K methodName bufferSmall ret errno txn data t).1
      = .BdbException b.Code := by
  unfold DatabaseImpl.catchDbException.thrown at hb
  unfold DatabaseImpl.catchDbException
  rcases hr : db.RollbackTrans txn (DatabaseImpl.Log errno .ErrorGettingData t) with ⟨r, t1⟩
  rw [hr] at hb
  cases r with
  | ok u =>
    by_cases hbs : bufferSmall = true ∧ errno = K.BUFFER_SMALL
    · simp [hbs] at hb
    · simp only [hbs, if_false, Option.some.injEq] at hb
      subst hb
      simp [hbs, BdbExceptionFactory.CreateDb, BdbExceptionFactory.Create.int_DbException]
  | error e =>
    cases e <;> simp only [reduceCtorEq] at hb
    next ae =>
      cases hg : ae.get_errno with
      | none => simp [hg] at hb
      | some aeErrno =>
        simp only [hg, Option.some.injEq] at hb
        subst hb
        simp [DatabaseImpl.abortFailed, hg, BdbExceptionFactory.CreateDb,
          DatabaseImpl.catchDbException.abortFailed, BdbExceptionFactory.Create.int_DbException]

/-- The messages of the two exceptions built when the abort fails too contain both texts. -/
theorem abortFailed_messages (ret : Int) (exWhat aeWhat : String) (aeErrno : Int) :
    (DatabaseImpl.catchDbException.abortFailed ret exWhat (aeErrno, aeWhat)).Message
      = some (exWhat ++ "\n" ++ aeWhat ++ ": " ++ aeWhat) ∧
    (DatabaseImpl.catchException.abortFailed ret exWhat (aeErrno, aeWhat)).Message
      = some (aeWhat ++ "\n" ++ exWhat ++ ": " ++ aeWhat) ∧
    exWhat.data <:+: (exWhat ++ "\n" ++ aeWhat ++ ": " ++ aeWhat).data ∧
    aeWhat.data <:+: (exWhat ++ "\n" ++ aeWhat ++ ": " ++ aeWhat).data ∧
    exWhat.data <:+: (aeWhat ++ "\n" ++ exWhat ++ ": " ++ aeWhat).data ∧
    aeWhat.data <:+: (aeWhat ++ "\n" ++ exWhat ++ ": " ++ aeWhat).data := by
  refine ⟨catchDbException_abortFailed_message ret exWhat (aeErrno, aeWhat),
    catchException_abortFailed_message ret exWhat (aeErrno, aeWhat), ?_, ?_, ?_, ?_⟩
  · have := isInfix_data_append exWhat "" ("\n" ++ aeWhat ++ ": " ++ aeWhat)
    simpa [String.append_assoc] using this
  · have := isInfix_data_append aeWhat (exWhat ++ "\n" ++ aeWhat ++ ": ") ""
    simpa [String.append_assoc] using this
  · have := isInfix_data_append exWhat (aeWhat ++ "\n") (": " ++ aeWhat)
    simpa [String.append_assoc] using this
  · have := isInfix_data_append aeWhat "" ("\n" ++ exWhat ++ ": " ++ aeWhat)
    simpa [String.append_assoc] using this

/-- The read-modify-write `Put` on a transactional per-call store that is not CDB: the cursor
read finds no record (code `g`), the transform leaves an entry of positive length, the exclusive
insert throws `ex` of the `DbException` family, not a deadlock, and the abort throws `ae` of
that family. The operation throws the exception built from both, whose code comes from `g`, the
code of the read; the cursor is closed after the failed abort is logged. -/
theorem PutRMW_insert_and_abort_throw (what : NativeExn → String) (K : Constants)
    (db : DatabaseImpl) (eng : RmwEngine) (key : Option Int) (dbEntry : DatabaseEntry)
    (rmwDelegate : DatabaseEntry → DatabaseEntry) (fuel : Nat) (t : Trace)
    (hm : db.m_pTrMode = .PerCall) (hx : db.m_isTxn = true) (hb : ∀ n, db.txn_begin n = none)
    (hcdb : db.m_isCDB = false) (hN : 0 < db.m_maxDeadlockRetries) (hkey : key ≠ some 0)
    (hbuf : addressOfFirst dbEntry.Buffer = .ok ())
    (g : Int) (hg : g = K.NOTFOUND ∨ g = K.KEYEMPTY)
    (hcur : eng.cursor 0 = .returns K.SUCCESS) (hget : eng.get 0 = .returns g)
    (hL : 0 < (rmwDelegate (dbEntry.setLength 0)).Length)
    (hB : addressOfFirst (rmwDelegate (dbEntry.setLength 0)).Buffer = .ok ())
    (ex : NativeExn) (errno : Int) (hnd : ∀ e, ex ≠ .DbDeadlockException e)
    (hex : ex.get_errno = some errno) (hput : eng.put_NOOVERWRITE 0 = .throws ex)
    (ae : NativeExn) (aeErrno : Int) (hae : ae.get_errno = some aeErrno)
    (habort : db.txn_abort (begins t) = some ae)
    (hclose : eng.close 0 = .returns K.SUCCESS) :
    db.PutRMW K eng key dbEntry rmwDelegate (fuel + 1) t
      = (.error (.BdbException
            (DatabaseImpl.catchDbException.abortFailed g (what ex) (aeErrno, what ae)).Code),
          rmwDelegate (dbEntry.setLength 0),
          t ++ [.txn_begin (begins t), .op (.cursor (some (begins t)) false),
            .op (.cursor_get_SET_RMW (DatabaseImpl.PutRMW.dbtKey key)
              (DatabaseImpl.PutRMW.dbtGetValue K dbEntry)),
            .op (.put_NOOVERWRITE (some (begins t)) (DatabaseImpl.PutRMW.dbtKey key)),
            .err errno .ErrorGettingData, .abort (begins t),
            .err aeErrno (.TxnAbortFailed .Put), .op .cursor_close]) := by
  obtain ⟨h1, h2, -, -, -, -⟩ := codes_distinct K
  have hgS : g ≠ K.SUCCESS := by
    rcases hg with h | h <;> rw [h]
    · exact fun h => h1 h.symm
    · exact fun h => h2 h.symm
  have hg3 : g = K.NOTFOUND ∨ g = K.KEYEMPTY ∨ g = K.SUCCESS := by
    rcases hg with h | h
    · exact Or.inl h
    · exact Or.inr (Or.inl h)
  have hcheck : (match key with
      | some length => CheckForEmptyKey K length
      | none => .ok ()) = .ok () := by
    cases key with
    | none => rfl
    | some l =>
      have : l ≠ 0 := fun h => hkey (by rw [h])
      simp [CheckForEmptyKey, this]
  obtain ⟨-, h2⟩ := catchDbException_abort_throws what K db .Put false g errno ex (begins t)
    none (t ++ [.txn_begin (begins t), .op (.cursor (some (begins t)) false),
      .op (.cursor_get_SET_RMW (DatabaseImpl.PutRMW.dbtKey key)
        (DatabaseImpl.PutRMW.dbtGetValue K dbEntry)),
      .op (.put_NOOVERWRITE (some (begins t)) (DatabaseImpl.PutRMW.dbtKey key))])
    hm ae aeErrno hae habort
  simp only [DatabaseImpl.PutRMW, hcheck, hbuf]
  rw [DatabaseImpl.PutRMW.loop]
  cases ex with
  | DbDeadlockException e => exact absurd rfl (hnd e)
  | DbMemoryException e size =>
    have hex0 : (NativeExn.DbMemoryException e size).get_errno = some errno := hex
    simp [hN, DatabaseImpl.PutRMW.attempt, DatabaseImpl.BeginTrans, hm, hx, hb, hcur, hget,
      hg3, hgS, DatabaseImpl.PutRMW.write, hL, hB, hg, hcdb, hput,
      DatabaseImpl.PutRMW.catchClauses, hex0, h2, DatabaseImpl.PutRMW.finallyClose, hclose]
  | DbException e =>
    have hex0 : (NativeExn.DbException e).get_errno = some errno := hex
    simp [hN, DatabaseImpl.PutRMW.attempt, DatabaseImpl.BeginTrans, hm, hx, hb, hcur, hget,
      hg3, hgS, DatabaseImpl.PutRMW.write, hL, hB, hg, hcdb, hput,
      DatabaseImpl.PutRMW.catchClauses, hex0, h2, DatabaseImpl.PutRMW.finallyClose, hclose]
  | exception => simp [NativeExn.get_errno] at hex

/-- A pass of the retry loop that starts with `ret = 0`, whose record call throws a native
exception that is not a deadlock and whose abort throws `ae` of the `DbException` family: the
loop throws the `BdbException` with the errno of `ae`. -/
theorem retryLoop_abort_throws (K : Constants) (db : DatabaseImpl) (shape : RetryShape)
    (bdbCall : BdbCall) (key data : Option Dbt) (fuel : Nat) (txn : Option Nat)
    (retry_count : Int) (t : Trace) (hm : db.m_pTrMode = .PerCall) (hx : db.m_isTxn = true)
    (hb : ∀ n, db.txn_begin n = none) (hlt : retry_count < db.m_maxDeadlockRetries)
    (ae : NativeExn) (aeErrno : Int) (hae : ae.get_errno = some aeErrno)
    (habort : db.txn_abort (begins t) = some ae) (ex : NativeExn)
    (hnd : ∀ e, ex ≠ .DbDeadlockException e)
    (hres : bdbCall db.m_pDb (calls t) (some (begins t)) key data 0 = .throws ex) :
    (db.retryLoop K shape bdbCall key (fuel + 1) 0 txn retry_count data t).1
      = .error (.BdbException aeErrno) := by
  have hcode : ∀ w : String × String,
      (DatabaseImpl.catchDbException.abortFailed 0 w.1 (aeErrno, w.2)).Code = aeErrno := by
    intro w
    simp [DatabaseImpl.catchDbException.abortFailed,
      BdbExceptionFactory.Create.int_DbException, BdbExceptionFactory.SetCode]
  have hcode2 : ∀ w : String × String,
      (DatabaseImpl.catchException.abortFailed 0 w.1 (aeErrno, w.2)).Code = aeErrno := by
    intro w
    simp [DatabaseImpl.catchException.abortFailed,
      BdbExceptionFactory.Create.int_DbException, BdbExceptionFactory.SetCode]
  rw [DatabaseImpl.retryLoop]
  cases ex with
  | DbDeadlockException e => exact absurd rfl (hnd e)
  | DbMemoryException e size =>
    obtain ⟨-, h2⟩ := catchDbException_abort_throws (fun _ => "") K db shape.methodName
      shape.bufferSmall 0 e (.DbMemoryException e size) (begins t) data
      (t ++ [.txn_begin (begins t), .call (some (begins t)) key data 0]) hm ae aeErrno hae
      habort
    have hex0 : (NativeExn.DbMemoryException e size).get_errno = some e := rfl
    simp [hlt, DatabaseImpl.retryLoop.attempt, DatabaseImpl.BeginTrans, hm, hx, hb,
      Event.isCall, hres, hex0, h2, hcode ("", "")]
  | DbException e =>
    obtain ⟨-, h2⟩ := catchDbException_abort_throws (fun _ => "") K db shape.methodName
      shape.bufferSmall 0 e (.DbException e) (begins t) data
      (t ++ [.txn_begin (begins t), .call (some (begins t)) key data 0]) hm ae aeErrno hae
      habort
    have hex0 : (NativeExn.DbException e).get_errno = some e := rfl
    simp [hlt, DatabaseImpl.retryLoop.attempt, DatabaseImpl.BeginTrans, hm, hx, hb,
      Event.isCall, hres, hex0, h2, hcode ("", "")]
  | exception =>
    obtain ⟨-, h2⟩ := catchException_abort_throws (fun _ => "") db shape.methodName 0
      .exception (begins t) (t ++ [.txn_begin (begins t), .call (some (begins t)) key data 0])
      hm ae aeErrno hae habort
    have hex0 : NativeExn.exception.get_errno = none := rfl
    simp [hlt, DatabaseImpl.retryLoop.attempt, DatabaseImpl.BeginTrans, hm, hx, hb,
      Event.isCall, hres, hex0, h2, hcode2 ("", "")]

/-- C28, amended. `what` gives the text `what()` of each native exception. The store is
transactional and per-call, and the abort of the transaction at hand throws `ae`, an exception
of the `DbException` family with errno `aeErrno`.
In a pass of the retry loop of `Put(Dbt*, Dbt*)`, `Get(Dbt*, Dbt*)`, `Get(String^)` and
`Delete(Dbt*)` whose `txn_begin` succeeds and whose record call throws `ex`:
when `ex` is of the `DbException` family and not a deadlock, the error is logged, the abort is
called and its failure logged as "txn abort failed in ...", and the operation throws the
`BdbException` that the clause builds from both exceptions; when `ex` is not a `DbException`,
the abort is called and its failure logged, and the operation throws the `BdbException` that
this clause builds from both.
In the `catch` clauses of the read-modify-write `Put`, reached with the exception `ex` of an
engine call and the transaction `h`, the same exceptions are built and thrown, and they leave
the operation when the cursor close of its `finally` block returns `SUCCESS` or the cursor is
not open. So when, on a store that is not CDB, the cursor read of that `Put` finds no record
(code `g`), the transform leaves an entry of positive length and the exclusive insert throws
`ex` of the `DbException` family, the operation throws the exception built from both with
`ret = g`, and the cursor is closed after the failed abort was logged. In `Get(Dbt*, Dbt*)`,
`Put(Dbt*, Dbt*)` and `Delete(Dbt*)` `ret` is 0 when the record call of the first pass throws,
so these operations throw the `BdbException` with the errno of `ae`.
The message of the exception built is the text of `ex`, a line break, the text of `ae`, ": " and
the text of `ae` in the first case, and the text of `ae`, a line break, the text of `ex`, ": "
and the text of `ae` in the second: it contains both texts. Its code is `ret`, the result code
the operation holds at that point, when that is not 0, and the errno of `ae` when it is. -/
theorem C28_rollback_failure_message (what : NativeExn → String) (K : Constants)
    (db : DatabaseImpl) (hm : db.m_pTrMode = .PerCall) (ae : NativeExn) (aeErrno : Int)
    (hae : ae.get_errno = some aeErrno) :
    (∀ (shape : RetryShape) (bdbCall : BdbCall) (key data : Option Dbt) (fuel : Nat)
        (ret : Int) (txn : Option Nat) (retry_count : Int) (t : Trace) (ex : NativeExn)
        (errno : Int),
      db.m_isTxn = true → (∀ n, db.txn_begin n = none) →
      retry_count < db.m_maxDeadlockRetries → db.txn_abort (begins t) = some ae →
      (∀ e, ex ≠ .DbDeadlockException e) → ex.get_errno = some errno →
      bdbCall db.m_pDb (calls t) (some (begins t)) key data 0 = .throws ex →
      DatabaseImpl.catchDbException.thrown what K db shape.bufferSmall ret ex errno
          (some (begins t)) (t ++ [.txn_begin (begins t), .call (some (begins t)) key data 0])
        = some (DatabaseImpl.catchDbException.abortFailed ret (what ex) (aeErrno, what ae)) ∧
      db.retryLoop K shape bdbCall key (fuel + 1) ret txn retry_count data t
        = (.error (.BdbException
              (DatabaseImpl.catchDbException.abortFailed ret (what ex) (aeErrno, what ae)).Code),
            data,
            t ++ [.txn_begin (begins t), .call (some (begins t)) key data 0,
              .err errno .ErrorGettingData, .abort (begins t),
              .err aeErrno (.TxnAbortFailed shape.methodName)])) ∧
    (∀ (shape : RetryShape) (bdbCall : BdbCall) (key data : Option Dbt) (fuel : Nat)
        (ret : Int) (txn : Option Nat) (retry_count : Int) (t : Trace),
      db.m_isTxn = true → (∀ n, db.txn_begin n = none) →
      retry_count < db.m_maxDeadlockRetries → db.txn_abort (begins t) = some ae →
      bdbCall db.m_pDb (calls t) (some (begins t)) key data 0 = .throws .exception →
      DatabaseImpl.catchException.thrown what db ret .exception (some (begins t))
          (t ++ [.txn_begin (begins t), .call (some (begins t)) key data 0])
        = some (DatabaseImpl.catchException.abortFailed ret (what .exception)
            (aeErrno, what ae)) ∧
      db.retryLoop K shape bdbCall key (fuel + 1) ret txn retry_count data t
        = (.error (.BdbException
              (DatabaseImpl.catchException.abortFailed ret (what .exception)
                (aeErrno, what ae)).Code),
            data,
            t ++ [.txn_begin (begins t), .call (some (begins t)) key data 0,
              .abort (begins t), .err aeErrno (.TxnAbortFailed shape.methodName)])) ∧
    (∀ (eng : RmwEngine) (n : Nat) (s : RmwState) (h : Nat) (ex : NativeExn) (errno : Int),
      s.txn = some h → db.txn_abort h = some ae →
      (∀ e, ex ≠ .DbDeadlockException e) → ex.get_errno = some errno →
      (s.cur = true → eng.close n = .returns K.SUCCESS) →
      DatabaseImpl.catchDbException.thrown what K db false s.ret ex errno s.txn s.t
        = some (DatabaseImpl.catchDbException.abortFailed s.ret (what ex)
            (aeErrno, what ae)) ∧
      (DatabaseImpl.PutRMW.finallyClose K eng n
          (DatabaseImpl.PutRMW.catchClauses K db (.error (.native ex)) s).1
          (DatabaseImpl.PutRMW.catchClauses K db (.error (.native ex)) s).2).1
        = .error (.BdbException
            (DatabaseImpl.catchDbException.abortFailed s.ret (what ex)
              (aeErrno, what ae)).Code) ∧
      (DatabaseImpl.PutRMW.catchClauses K db (.error (.native ex)) s).2.t
        = s.t ++ [.err errno .ErrorGettingData, .abort h,
            .err aeErrno (.TxnAbortFailed .Put)]) ∧
    (∀ (eng : RmwEngine) (n : Nat) (s : RmwState) (h : Nat),
      s.txn = some h → db.txn_abort h = some ae →
      (s.cur = true → eng.close n = .returns K.SUCCESS) →
      DatabaseImpl.catchException.thrown what db s.ret .exception s.txn s.t
        = some (DatabaseImpl.catchException.abortFailed s.ret (what .exception)
            (aeErrno, what ae)) ∧
      (DatabaseImpl.PutRMW.finallyClose K eng n
          (DatabaseImpl.PutRMW.catchClauses K db (.error (.native .exception)) s).1
          (DatabaseImpl.PutRMW.catchClauses K db (.error (.native .exception)) s).2).1
        = .error (.BdbException
            (DatabaseImpl.catchException.abortFailed s.ret (what .exception)
              (aeErrno, what ae)).Code) ∧
      (DatabaseImpl.PutRMW.catchClauses K db (.error (.native .exception)) s).2.t
        = s.t ++ [.abort h, .err aeErrno (.TxnAbortFailed .Put)]) ∧
    (∀ (eng : RmwEngine) (key : Option Int) (dbEntry : DatabaseEntry)
        (rmwDelegate : DatabaseEntry → DatabaseEntry) (fuel : Nat) (t : Trace) (g : Int)
        (ex : NativeExn) (errno : Int),
      db.m_isTxn = true → (∀ n, db.txn_begin n = none) → db.m_isCDB = false →
      0 < db.m_maxDeadlockRetries → key ≠ some 0 → addressOfFirst dbEntry.Buffer = .ok () →
      (g = K.NOTFOUND ∨ g = K.KEYEMPTY) →
      eng.cursor 0 = .returns K.SUCCESS → eng.get 0 = .returns g →
      0 < (rmwDelegate (dbEntry.setLength 0)).Length →
      addressOfFirst (rmwDelegate (dbEntry.setLength 0)).Buffer = .ok () →
      (∀ e, ex ≠ .DbDeadlockException e) → ex.get_errno = some errno →
      eng.put_NOOVERWRITE 0 = .throws ex → db.txn_abort (begins t) = some ae →
      eng.close 0 = .returns K.SUCCESS →
      db.PutRMW K eng key dbEntry rmwDelegate (fuel + 1) t
        = (.error (.BdbException
              (DatabaseImpl.catchDbException.abortFailed g (what ex) (aeErrno, what ae)).Code),
            rmwDelegate (dbEntry.setLength 0),
            t ++ [.txn_begin (begins t), .op (.cursor (some (begins t)) false),
              .op (.cursor_get_SET_RMW (DatabaseImpl.PutRMW.dbtKey key)
                (DatabaseImpl.PutRMW.dbtGetValue K dbEntry)),
              .op (.put_NOOVERWRITE (some (begins t)) (DatabaseImpl.PutRMW.dbtKey key)),
              .err errno .ErrorGettingData, .abort (begins t),
              .err aeErrno (.TxnAbortFailed .Put), .op .cursor_close])) ∧
    (∀ (dbtKey dbtValue : Dbt) (t : Trace) (ex : NativeExn),
      db.m_isTxn = true → (∀ n, db.txn_begin n = none) → 0 < db.m_maxDeadlockRetries →
      db.txn_abort (begins t) = some ae → (∀ e, ex ≠ .DbDeadlockException e) →
      (db.m_pDb.get (calls t) (some (begins t)) (some dbtKey) (some dbtValue) 0 = .throws ex →
        (db.GetDbt K dbtKey dbtValue t).1 = .error (.BdbException aeErrno)) ∧
      (db.m_pDb.put (calls t) (some (begins t)) (some dbtKey) (some dbtValue) 0 = .throws ex →
        (db.PutDbt K dbtKey dbtValue t).1 = .error (.BdbException aeErrno)) ∧
      (db.m_pDb.del (calls t) (some (begins t)) (some dbtKey) 0 = .throws ex →
        (db.DeleteDbt K dbtKey t).1 = .error (.BdbException aeErrno))) ∧
    (∀ (ret : Int) (ex : NativeExn),
      (DatabaseImpl.catchDbException.abortFailed ret (what ex) (aeErrno, what ae)).Message
        = some (what ex ++ "\n" ++ what ae ++ ": " ++ what ae) ∧
      (DatabaseImpl.catchException.abortFailed ret (what ex) (aeErrno, what ae)).Message
        = some (what ae ++ "\n" ++ what ex ++ ": " ++ what ae) ∧
      (what ex).data <:+: (what ex ++ "\n" ++ what ae ++ ": " ++ what ae).data ∧
      (what ae).data <:+: (what ex ++ "\n" ++ what ae ++ ": " ++ what ae).data ∧
      (what ex).data <:+: (what ae ++ "\n" ++ what ex ++ ": " ++ what ae).data ∧
      (what ae).data <:+: (what ae ++ "\n" ++ what ex ++ ": " ++ what ae).data ∧
      (DatabaseImpl.catchDbException.abortFailed ret (what ex) (aeErrno, what ae)).Code
        = (if ret ≠ 0 then ret else aeErrno) ∧
      (DatabaseImpl.catchException.abortFailed ret (what ex) (aeErrno, what ae)).Code
        = (if ret ≠ 0 then ret else aeErrno)) := by
  refine ⟨?_, ?_, ?_, ?_, ?_, ?_, ?_⟩
  · intro shape bdbCall key data fuel ret txn retry_count t ex errno hx hb hlt habort hnd hex
      hres
    obtain ⟨h1, h2⟩ := catchDbException_abort_throws what K db shape.methodName
      shape.bufferSmall ret errno ex (begins t) data
      (t ++ [.txn_begin (begins t), .call (some (begins t)) key data 0]) hm ae aeErrno hae
      habort
    refine ⟨h1, ?_⟩
    have hne : ∀ e, ex = NativeExn.DbDeadlockException e → False := fun e he => hnd e he
    rw [DatabaseImpl.retryLoop]
    cases ex with
    | DbDeadlockException e => exact absurd rfl (hnd e)
    | DbMemoryException e size =>
      have hex0 : (NativeExn.DbMemoryException e size).get_errno = some errno := hex
      simp [hlt, DatabaseImpl.retryLoop.attempt, DatabaseImpl.BeginTrans, hm, hx, hb,
        Event.isCall, hres, hex0, h2]
    | DbException e =>
      have hex0 : (NativeExn.DbException e).get_errno = some errno := hex
      simp [hlt, DatabaseImpl.retryLoop.attempt, DatabaseImpl.BeginTrans, hm, hx, hb,
        Event.isCall, hres, hex0, h2]
    | exception => simp [NativeExn.get_errno] at hex
  · intro shape bdbCall key data fuel ret txn retry_count t hx hb hlt habort hres
    obtain ⟨h1, h2⟩ := catchException_abort_throws what db shape.methodName ret .exception
      (begins t) (t ++ [.txn_begin (begins t), .call (some (begins t)) key data 0]) hm ae
      aeErrno hae habort
    refine ⟨h1, ?_⟩
    have hex0 : NativeExn.exception.get_errno = none := rfl
    rw [DatabaseImpl.retryLoop]
    simp [hlt, DatabaseImpl.retryLoop.attempt, DatabaseImpl.BeginTrans, hm, hx, hb,
      Event.isCall, hres, hex0, h2]
  · intro eng n s h ex errno hs habort hnd hex hclose
    obtain ⟨h1, h2⟩ := catchDbException_abort_throws what K db .Put false s.ret errno ex h
      none s.t hm ae aeErrno hae habort
    rw [hs]
    refine ⟨h1, ?_, ?_⟩
    · cases ex with
      | DbDeadlockException e => exact absurd rfl (hnd e)
      | DbMemoryException e size =>
        have hex0 : (NativeExn.DbMemoryException e size).get_errno = some errno := hex
        cases hc : s.cur with
        | false =>
          simp [DatabaseImpl.PutRMW.catchClauses, hex0, hs, h2,
            DatabaseImpl.PutRMW.finallyClose, hc]
        | true =>
          simp [DatabaseImpl.PutRMW.catchClauses, hex0, hs, h2,
            DatabaseImpl.PutRMW.finallyClose, hc, hclose hc]
      | DbException e =>
        have hex0 : (NativeExn.DbException e).get_errno = some errno := hex
        cases hc : s.cur with
        | false =>
          simp [DatabaseImpl.PutRMW.catchClauses, hex0, hs, h2,
            DatabaseImpl.PutRMW.finallyClose, hc]
        | true =>
          simp [DatabaseImpl.PutRMW.catchClauses, hex0, hs, h2,
            DatabaseImpl.PutRMW.finallyClose, hc, hclose hc]
      | exception => simp [NativeExn.get_errno] at hex
    · cases ex with
      | DbDeadlockException e => exact absurd rfl (hnd e)
      | DbMemoryException e size =>
        have hex0 : (NativeExn.DbMemoryException e size).get_errno = some errno := hex
        simp [DatabaseImpl.PutRMW.catchClauses, hex0, hs, h2]
      | DbException e =>
        have hex0 : (NativeExn.DbException e).get_errno = some errno := hex
        simp [DatabaseImpl.PutRMW.catchClauses, hex0, hs, h2]
      | exception => simp [NativeExn.get_errno] at hex
  · intro eng n s h hs habort hclose
    obtain ⟨h1, h2⟩ := catchException_abort_throws what db .Put s.ret .exception h s.t hm ae
      aeErrno hae habort
    have hex0 : NativeExn.exception.get_errno = none := rfl
    rw [hs]
    refine ⟨h1, ?_, ?_⟩
    · cases hc : s.cur with
      | false =>
        simp [DatabaseImpl.PutRMW.catchClauses, hex0, hs, h2,
          DatabaseImpl.PutRMW.finallyClose, hc]
      | true =>
        simp [DatabaseImpl.PutRMW.catchClauses, hex0, hs, h2,
          DatabaseImpl.PutRMW.finallyClose, hc, hclose hc]
    · simp [DatabaseImpl.PutRMW.catchClauses, hex0, hs, h2]
  · intro eng key dbEntry rmwDelegate fuel t g ex errno hx hb hcdb hN hkey hbuf hg hcur hget hL
      hB hnd hex hput habort hclose
    exact PutRMW_insert_and_abort_throw what K db eng key dbEntry rmwDelegate fuel t hm hx hb
      hcdb hN hkey hbuf g hg hcur hget hL hB ex errno hnd hex hput ae aeErrno hae habort hclose
  · intro dbtKey dbtValue t ex hx hb hN habort hnd
    obtain ⟨f, hf⟩ : ∃ f, (max 1 db.m_maxDeadlockRetries).toNat = f + 1 :=
      ⟨(max 1 db.m_maxDeadlockRetries).toNat - 1, by
        have : 1 ≤ max 1 db.m_maxDeadlockRetries := le_max_left _ _
        omega⟩
    have hloop := fun shape bdbCall data => retryLoop_abort_throws K db shape bdbCall
      (some dbtKey) data f none 0 t hm hx hb hN ae aeErrno hae habort ex hnd
    refine ⟨?_, ?_, ?_⟩
    · intro hres
      have h := hloop DatabaseImpl.GetDbt.shape get_core (some dbtValue)
        (by simpa [get_core] using hres)
      rw [DatabaseImpl.GetDbt, hf]
      rcases hr : db.retryLoop K DatabaseImpl.GetDbt.shape get_core (some dbtKey) (f + 1) 0
        none 0 (some dbtValue) t with ⟨r, d1, t1⟩
      rw [hr] at h
      simp only at h
      subst h
      rfl
    · intro hres
      have h := hloop DatabaseImpl.PutDbt.shape put_core (some dbtValue)
        (by simpa [put_core] using hres)
      rw [DatabaseImpl.PutDbt, hf]
      rcases hr : db.retryLoop K DatabaseImpl.PutDbt.shape put_core (some dbtKey) (f + 1) 0
        none 0 (some dbtValue) t with ⟨r, d1, t1⟩
      rw [hr] at h
      simp only at h
      subst h
      rfl
    · intro hres
      have h := hloop DatabaseImpl.DeleteDbt.shape del_core none
        (by simpa [del_core] using hres)
      rw [DatabaseImpl.DeleteDbt, hf]
      rcases hr : db.retryLoop K DatabaseImpl.DeleteDbt.shape del_core (some dbtKey) (f + 1) 0
        none 0 none t with ⟨r, d1, t1⟩
      rw [hr] at h
      simp only at h
      subst h
      rfl
  · intro ret ex
    obtain ⟨m1, m2, i1, i2, i3, i4⟩ := abortFailed_messages ret (what ex) (what ae) aeErrno
    refine ⟨m1, m2, i1, i2, i3, i4, ?_, ?_⟩
    · simp [DatabaseImpl.catchDbException.abortFailed,
        BdbExceptionFactory.Create.int_DbException, BdbExceptionFactory.SetCode]
    · simp [DatabaseImpl.catchException.abortFailed,
        BdbExceptionFactory.Create.int_DbException, BdbExceptionFactory.SetCode]

/-- C28 on `Get(Dbt*, Dbt*)` and on the read-modify-write `Put`. The record call of `Get`
throws a `DbException` with errno 5 and text "disk full", the abort a `DbException` with errno 7
and text "abort failed": the code is 7, the abort's errno, as `ret` is 0. In the `Put` the
cursor read returns `NOTFOUND` and the insert throws the `DbException` with errno 5: the code is
`NOTFOUND`, the value of `ret` at that point. -/
theorem C28_rollback_failure_message_witness :
    (abortFailingStore 3 (fun _ => .throws (.DbException 5)) (.DbException 7)).GetDbt K0
        { size := 4 } { size := 8 } []
      = (.error (.BdbException 7), { size := 8 },
          [.txn_begin 0, .call (some 0) (some { size := 4 }) (some { size := 8 }) 0,
            .err 5 .ErrorGettingData, .abort 0, .err 7 (.TxnAbortFailed .Get)]) ∧
    (abortFailingStore 3 (fun _ => .throws (.DbException 5)) (.DbException 7)).retryLoop K0
        DatabaseImpl.GetDbt.shape get_core (some { size := 4 }) (2 + 1) 0 none 0
        (some { size := 8 }) []
      = (.error (.BdbException 7), some { size := 8 },
          [.txn_begin 0, .call (some 0) (some { size := 4 }) (some { size := 8 }) 0,
            .err 5 .ErrorGettingData, .abort 0, .err 7 (.TxnAbortFailed .Get)]) ∧
    (abortFailingStore 3 (fun _ => .returns 0 0 0) (.DbException 7)).PutRMW K0
        (scriptedRmw (fun _ => .returns K0.NOTFOUND) fun _ => .throws (.DbException 5))
        (some 4) ⟨some 8, 0, 8⟩ (fun e => e.setLength 5) (0 + 1) []
      = (.error (.BdbException (-30988)), ⟨some 8, 0, 5⟩,
          [.txn_begin 0, .op (.cursor (some 0) false),
            .op (.cursor_get_SET_RMW { size := 4 }
              { size := 8, ulen := 8, dlen := 8, flags := 320 }),
            .op (.put_NOOVERWRITE (some 0) { size := 4 }),
            .err 5 .ErrorGettingData, .abort 0, .err 7 (.TxnAbortFailed .Put),
            .op .cursor_close]) ∧
    (DatabaseImpl.catchDbException.abortFailed K0.NOTFOUND (exceptionText (.DbException 5))
        (7, exceptionText (.DbException 7))).Message
      = some "disk full\nabort failed: abort failed" ∧
    (DatabaseImpl.catchDbException.abortFailed K0.NOTFOUND (exceptionText (.DbException 5))
        (7, exceptionText (.DbException 7))).Code = -30988 :=
  have h := C28_rollback_failure_message exceptionText K0
    (abortFailingStore 3 (fun _ => .throws (.DbException 5)) (.DbException 7)) rfl
    (.DbException 7) 7 rfl
  have k := C28_rollback_failure_message exceptionText K0
    (abortFailingStore 3 (fun _ => .returns 0 0 0) (.DbException 7)) rfl (.DbException 7) 7 rfl
  ⟨by decide,
    (h.1 DatabaseImpl.GetDbt.shape get_core (some { size := 4 }) (some { size := 8 }) 2 0 none
      0 [] (.DbException 5) 5 rfl (fun _ => rfl) (by decide) rfl
      (fun _ h => NativeExn.noConfusion h) rfl rfl).2,
    k.2.2.2.2.1 (scriptedRmw (fun _ => .returns K0.NOTFOUND) fun _ => .throws (.DbException 5))
      (some 4) ⟨some 8, 0, 8⟩ (fun e => e.setLength 5) 0 [] K0.NOTFOUND (.DbException 5) 5 rfl
      (fun _ => rfl) rfl (by decide) (by decide) rfl (Or.inl rfl) rfl rfl (by decide) rfl
      (fun _ h => NativeExn.noConfusion h) rfl rfl rfl rfl,
    (k.2.2.2.2.2.2 K0.NOTFOUND (.DbException 5)).1.trans (by decide),
    (k.2.2.2.2.2.2 K0.NOTFOUND (.DbException 5)).2.2.2.2.2.2.1.trans (by decide)⟩

end BerkeleyDbWrapper
